import Mathlib

/-!
# Walker constellation builder and polar link maintenance

A shallow embedding of `contrib/satellite` (helper/constellation-helper.{h,cc},
model/optical-channel.{h,cc}, model/optical-device.{h,cc},
model/satellite-mobility-model.{h,cc}).

Conventions of the embedding

* C++ `int` members are `Int`; `/` and `%` on them are the truncating
  `Int.tdiv` / `Int.tmod`.  Loop counters and container indices are `Nat`.
* `double` values that are only stored and compared (latitudes, limits) are
  rationals; the libm sine used by `OpticalChannel::SetLatitudeLimit` is a
  parameter `sinDeg` (`sinDeg x` stands for `sin (x * pi / 180)`).
* The code that computes with `double` beyond that (the orbit propagation of
  `SatelliteMobilityModel`, the receive power of `OpticalChannel::Receive`, the two
  `GetLatitude` functions) is embedded over an ordered field, with the functions of
  `<cmath>` as a parameter `Libm`; its results are stated over the real numbers.
* Heap objects are arena entries: a device is `(node index, port)`, a channel
  is its creation index.  The nodes of the helper are the first nodes of the
  simulation, so `Node::GetId` is the index in the helper's `NodeContainer`.
* Operations with undefined behaviour in C++ (null dereference, `back()` of an
  empty vector, division by zero) and ns-3 aborts return `none`.
* Positions are inputs: at every call the environment supplies, for each node,
  the two latitude read-outs the code takes from the position
  (`GetLatitude` of constellation-helper.cc, in degrees, and `GetLatitude` of
  optical-channel.cc, a sine).
* The three user callbacks of the helper are set (as in constellation-test.cc);
  their invocations are appended to a log.
-/

namespace Osak

/-! ## Generic helpers -/

/-- Loop `for (k = 0; k < n; k++) s = body k s`, stopping at the first `none`. -/
def forLoop {σ : Type} (n : Nat) (body : Nat → σ → Option σ) (s : σ) : Option σ :=
  match n with
  | 0 => some s
  | k + 1 => (forLoop k body s).bind (body k)

/-- Pointwise update of a finite map represented as a function. -/
def setAt {α β : Type} [DecidableEq α] (f : α → β) (a : α) (v : β) : α → β :=
  fun x => if x = a then v else f x

/-! ## Walker parameters (constellation-helper.h) -/

/-- Enum `ConstellationType`. -/
inductive ConstellationType where
  | DELTA
  | STAR
  deriving DecidableEq, Repr

/-- Struct `WalkerParams`. -/
structure WalkerParams where
  type : ConstellationType
  T : Int
  P : Int
  F : Int
  deriving DecidableEq, Repr

/-- Struct `OrbitalElement` (satellite-mobility-model.h), angles in degrees. -/
structure OrbitalElement where
  a : ℚ
  e : ℚ
  f : ℚ
  i : ℚ
  w : ℚ
  RAAN : ℚ
  deriving DecidableEq

/-- How a call can fail. -/
inductive Fault where
  /-- A `std::runtime_error` was thrown. -/
  | runtime_error
  /-- Undefined behaviour of the C++ program (here: integer division by zero). -/
  | undefined
  deriving DecidableEq, Repr

/-! ## Devices and channels -/

/-- Enum `OpticalDevice::Direction`. -/
inductive Direction where
  | RIGHT
  | LEFT
  | FORWARD
  | BACKWARD
  | UP
  | DOWN
  deriving DecidableEq, Repr

/-- Identity of an `OpticalDevice`: the node that owns it and the direction given
to it by `InstallDev` (device `k` of a node has direction `k`, `k < 4`). -/
structure DevId where
  node : Nat
  dir : Direction
  deriving DecidableEq, Repr

/-- The members of `OpticalDevice` that link management reads and writes. -/
structure OpticalDevice where
  m_channel : Option Nat := none
  m_linkUp : Bool := false
  deriving DecidableEq

/-- `OpticalDevice::Attach`: store the channel, then `NotifyLinkUp`. -/
def OpticalDevice.Attach (d : OpticalDevice) (channel : Nat) : OpticalDevice :=
  { d with m_channel := some channel, m_linkUp := true }

/-- `OpticalDevice::Detach`. -/
def OpticalDevice.Detach (d : OpticalDevice) : OpticalDevice :=
  { d with m_channel := none, m_linkUp := false }

/-- Enum `OpticalChannel::ChannelType`. -/
inductive ChannelType where
  | FOREVER
  | TEMPORARY
  deriving DecidableEq, Repr

/-- The members of `OpticalChannel`.  `last_lat` is declared
`std::array<double,2> last_lat{-1}`: the first entry is `-1`, the second is
value-initialised.  `lat_limit` has no initialiser and is written by
`SetLatitudeLimit` before it is read. -/
structure OpticalChannel where
  lat_limit : ℚ := 0
  disconnectCbSet : Bool := false
  readyBreakCbSet : Bool := false
  dev_list0 : Option DevId := none
  dev_list1 : Option DevId := none
  last_lat0 : ℚ := -1
  last_lat1 : ℚ := 0
  isTemporary : Bool := false
  threshold : ℚ := 3
  deriving DecidableEq

/-- `OpticalChannel::SetType`. -/
def OpticalChannel.SetType (c : OpticalChannel) (t : ChannelType) : OpticalChannel :=
  { c with isTemporary := decide (t = ChannelType.TEMPORARY) }

/-- `OpticalChannel::SetLatitudeLimit`; `sinDeg x` is `sin (x * pi / 180)`. -/
def OpticalChannel.SetLatitudeLimit (sinDeg : ℚ → ℚ) (c : OpticalChannel) (limit : ℚ) :
    OpticalChannel :=
  { c with lat_limit := sinDeg limit, threshold := sinDeg (limit - 3) }

/-- `OpticalChannel::SetDisconnetCallback` with a non-null callback. -/
def OpticalChannel.SetDisconnetCallback (c : OpticalChannel) : OpticalChannel :=
  { c with disconnectCbSet := true }

/-- `OpticalChannel::SetReadyBreakCallback` with a non-null callback. -/
def OpticalChannel.SetReadyBreakCallback (c : OpticalChannel) : OpticalChannel :=
  { c with readyBreakCbSet := true }

/-- `OpticalChannel::Attach`; `latSin` is the channel's `GetLatitude` of the
device's position. -/
def OpticalChannel.Attach (c : OpticalChannel) (dev : DevId) (latSin : ℚ) : OpticalChannel :=
  if c.dev_list0.isSome then
    { c with dev_list1 := some dev, last_lat1 := latSin }
  else
    { c with dev_list0 := some dev, last_lat0 := latSin }

/-- `OpticalChannel::Detach`. -/
def OpticalChannel.Detach (c : OpticalChannel) : OpticalChannel :=
  { c with dev_list0 := none, dev_list1 := none, last_lat0 := 0, last_lat1 := 0 }

/-- `OpticalChannel::GetAnother`. -/
def OpticalChannel.GetAnother (c : OpticalChannel) (self : DevId) : Option DevId :=
  if some self = c.dev_list0 then c.dev_list1 else c.dev_list0

/-- What one run of `OpticalChannel::LatitudeCheck` did. -/
structure LatitudeCheckResult where
  /-- The return value. -/
  passed : Bool
  /-- The channel afterwards (`last_lat` may have been rewritten). -/
  channel : OpticalChannel
  /-- Whether `m_disconnectCb (dev_list[0], dev_list[1], this)` was invoked. -/
  disconnect : Bool
  /-- The headroom passed to `m_readyBreakCb`, when it was invoked. -/
  readyBreak : Option ℚ

/-- `OpticalChannel::LatitudeCheck`; `l0`, `l1` are the latitude sines of the
positions of `dev_list[0]` and `dev_list[1]`. -/
def OpticalChannel.LatitudeCheck (c : OpticalChannel) (l0 l1 : ℚ) : LatitudeCheckResult :=
  if l0 > c.lat_limit ∨ l1 > c.lat_limit then
    { passed := false, channel := c, disconnect := c.disconnectCbSet, readyBreak := none }
  else
    { passed := true
      channel := { c with last_lat0 := l0, last_lat1 := l1 }
      disconnect := false
      readyBreak :=
        if (l0 > c.last_lat0 ∧ l0 > c.threshold) ∨ (l1 > c.last_lat1 ∧ l1 > c.threshold) then
          (if c.readyBreakCbSet then some (c.lat_limit - max l0 l1) else none)
        else none }

/-! ## The helper -/

/-- The two latitude read-outs of a node's current position. -/
structure NodeLat where
  /-- `GetLatitude` of constellation-helper.cc: `180 / pi * asin (|z| / length)`. -/
  deg : ℚ
  /-- `GetLatitude` of optical-channel.cc: `|z| / length`. -/
  sine : ℚ

/-- Observable calls made by the helper and its channels. -/
inductive Event where
  /-- `m_channelConnectCb (a, b)`. -/
  | connect (a b : DevId)
  /-- `m_channelDisconnetCb (a, b, c)`. -/
  | disconnect (a b : DevId) (c : Nat)
  /-- `m_readyBreakCb (c, headroom)`. -/
  | readyBreak (c : Nat) (headroom : ℚ)
  /-- `Simulator::ScheduleWithContext (context, delay, &OpticalChannel::Receive,
  sender, receiver, packet)`. -/
  | scheduleReceive (context : Nat) (delay : ℚ) (sender receiver : DevId)
  deriving DecidableEq

/-- Members of `ConstellationHelper`, together with the objects it creates:
the nodes (`nodes`, with the element installed on each), the ns-3 name registry,
the devices and the channels. -/
structure ConstellationHelper where
  m_wizardSateElement : OrbitalElement := ⟨0, 0, 0, 0, 0, 0⟩
  m_allocateElement : OrbitalElement := ⟨0, 0, 0, 0, 0, 0⟩
  m_params : WalkerParams := ⟨ConstellationType.STAR, 66, 6, 1⟩
  lat_limit : ℚ := 60
  satsInPlane : Int := 11
  RAAN_span : ℚ := 180
  /-- Member `match`. -/
  bestMatch : Int := 0
  /-- `nodes.GetN ()`. -/
  nNodes : Nat := 0
  /-- The elements handed to `SetOrbitalElements` of each node's mobility model. -/
  element : Nat → Option OrbitalElement := fun _ => none
  /-- The node names known to `ns3::Names`, in the order of registration. -/
  names : List (String × Nat) := []
  /-- `devs.GetN () / 4`: the nodes that carry their four devices. -/
  nDevNodes : Nat := 0
  dev : DevId → OpticalDevice := fun _ => {}
  /-- Number of channels created so far. -/
  nChannels : Nat := 0
  channel : Nat → OpticalChannel := fun _ => {}
  unused_link : List Nat := []
  breaked_left : Finset DevId := ∅
  breaked_right : Finset DevId := ∅
  overPolar : Finset Nat := ∅
  /-- Callback invocations and scheduled receptions, oldest first. -/
  log : List Event := []

/-- `ConstellationHelper::SetConstellationParams`. -/
def SetConstellationParams (h : ConstellationHelper) (params : WalkerParams) :
    Except Fault ConstellationHelper :=
  let h1 : ConstellationHelper :=
    if params.type = ConstellationType.STAR then { h with RAAN_span := 180 } else h
  let h2 : ConstellationHelper :=
    if params.type = ConstellationType.DELTA then { h1 with RAAN_span := 360 } else h1
  let h3 : ConstellationHelper :=
    { h2 with m_params := { h2.m_params with P := params.P, F := params.F, T := params.T } }
  if h3.m_params.P = 0 then
    Except.error Fault.undefined
  else
    let h4 : ConstellationHelper :=
      { h3 with satsInPlane := Int.tdiv h3.m_params.T h3.m_params.P }
    if Int.tmod h4.m_params.T h4.m_params.P ≠ 0 then
      Except.error Fault.runtime_error
    else
      Except.ok h4

/-- `ConstellationHelper::GetSatsInPlane`. -/
def GetSatsInPlane (h : ConstellationHelper) : Int := h.satsInPlane

/-- `ConstellationHelper::GetNumOfPlane`. -/
def GetNumOfPlane (h : ConstellationHelper) : Int := h.m_params.P

/-- `ConstellationHelper::GetBestMatch`. -/
def GetBestMatch (h : ConstellationHelper) : Int := h.bestMatch

/-- `ConstellationHelper::SetLatitudeLimit`. -/
def SetLatitudeLimit (h : ConstellationHelper) (limit : ℚ) : ConstellationHelper :=
  { h with lat_limit := limit }

/-- `ConstellationHelper::SetWizardSatellite`. -/
def SetWizardSatellite (h : ConstellationHelper) (elem : OrbitalElement) : ConstellationHelper :=
  { h with m_wizardSateElement := elem }

/-! ## Names and node installation -/

/-- Format `{:02}` of fmt for a non-negative `int`. -/
def fmt02 (n : Nat) : String :=
  let s := Nat.repr n
  if s.length < 2 then "0" ++ s else s

/-- Node name `fmt::format ("S{:02}{:02}", i, j)`. -/
def nodeName (i j : Nat) : String :=
  "S" ++ fmt02 i ++ fmt02 j

/-- The letters `char desc[5] = "RLFB"` of `InstallDev`. -/
def desc : List Char := ['R', 'L', 'F', 'B']

/-- Device name `fmt::format ("{}/eth{}", name, desc[j])` of `InstallDev`, `j < 4`. -/
def deviceName (name : String) (j : Nat) : String :=
  name ++ "/eth" ++ String.singleton (desc.getD j (Char.ofNat 0))

/-- `Names::Add (name, node)`: ns-3 aborts when the name is taken or the object
is already named. -/
def Names.Add (reg : List (String × Nat)) (name : String) (obj : Nat) :
    Option (List (String × Nat)) :=
  if reg.any (fun e => decide (e.1 = name ∨ e.2 = obj)) then none
  else some (reg ++ [(name, obj)])

/-- `Names::Find` of a node name. -/
def Names.Find (reg : List (String × Nat)) (name : String) : Option Nat :=
  (reg.find? (fun e => decide (e.1 = name))).map Prod.snd

/-- `std::fmod (x, 360.0)` for `x ≥ 0`. -/
def fmod360 (x : ℚ) : ℚ :=
  x - 360 * ((⌊x / 360⌋ : Int) : ℚ)

/-- Body of the two nested loops of `ConstellationHelper::Install ()`; the second
component of the state is the local `minf`. -/
def InstallNode (i j : Nat) (s : ConstellationHelper × ℚ) : Option (ConstellationHelper × ℚ) :=
  let h := s.1
  let minf := s.2
  let N : Int := h.satsInPlane
  let idx : Nat := i * N.toNat + j
  if idx < h.nNodes then
    match Names.Add h.names (nodeName i j) idx with
    | none => none
    | some names =>
      let delta_theta : ℚ := 360 / (N : ℚ)
      let delta_omega : ℚ := 360 * (h.m_params.F : ℚ) / (h.m_params.T : ℚ)
      let f : ℚ := h.m_wizardSateElement.f + delta_omega * (i : ℚ) + delta_theta * (j : ℚ)
      let RAAN : ℚ := h.m_wizardSateElement.RAAN + h.RAAN_span / (h.m_params.P : ℚ) * (i : ℚ)
      let alloc : OrbitalElement := { h.m_allocateElement with f := f, RAAN := RAAN }
      let theta : ℚ := if f > h.m_wizardSateElement.f + 180 then f - 360 else f
      let diff : ℚ := fmod360 |h.m_wizardSateElement.f - theta|
      let better : Bool :=
        decide (h.m_params.type = ConstellationType.DELTA ∧ (i : Int) = h.m_params.P - 1 ∧
          diff < minf)
      some ({ h with
              names := names
              m_allocateElement := alloc
              bestMatch := if better then (j : Int) else h.bestMatch
              element := setAt h.element idx (some alloc) },
            if better then diff else minf)
  else none

/-- `ConstellationHelper::Install ()`. -/
def Install (h : ConstellationHelper) : Option ConstellationHelper :=
  let h0 : ConstellationHelper :=
    { h with nNodes := h.nNodes + h.m_params.T.toNat
             m_allocateElement := h.m_wizardSateElement }
  (forLoop h0.m_params.P.toNat
      (fun i => forLoop h0.satsInPlane.toNat (fun j => InstallNode i j)) (h0, 720)).map Prod.fst

/-- `Names::Find<OpticalDevice>` of the path `name/ethX`, where `X` is the
letter `desc[k]` of direction `k`: the device of that direction on the node
called `name`. -/
def FindDev (h : ConstellationHelper) (name : String) (d : Direction) : Option DevId :=
  match Names.Find h.names name with
  | none => none
  | some n => if n < h.nDevNodes then some ⟨n, d⟩ else none

/-! ## Link management -/

/-- `ConstellationHelper::DisConnect`. -/
def DisConnect (h : ConstellationHelper) (a b : DevId) (c : Nat) : ConstellationHelper :=
  let dev1 := setAt h.dev a (h.dev a).Detach
  let dev2 := setAt dev1 b (dev1 b).Detach
  { h with
    dev := dev2
    breaked_right := if a.dir = Direction.RIGHT then insert a h.breaked_right
                     else insert b h.breaked_right
    breaked_left := if a.dir = Direction.RIGHT then insert b h.breaked_left
                    else insert a h.breaked_left
    channel := setAt h.channel c (h.channel c).Detach
    unused_link := h.unused_link ++ [c]
    log := h.log ++ [Event.disconnect a b c] }

/-- `ConstellationHelper::Connect`; `none` when `unused_link` is empty. -/
def Connect (geo : Nat → NodeLat) (h : ConstellationHelper) (a b : DevId) :
    Option ConstellationHelper :=
  match h.unused_link.getLast? with
  | none => none
  | some c =>
    let dev1 := setAt h.dev a ((h.dev a).Attach c)
    let dev2 := setAt dev1 b ((dev1 b).Attach c)
    let ch := ((h.channel c).Attach a (geo a.node).sine).Attach b (geo b.node).sine
    some { h with
           unused_link := h.unused_link.dropLast
           dev := dev2
           channel := setAt h.channel c ch
           breaked_right := if a.dir = Direction.RIGHT then h.breaked_right.erase a
                            else h.breaked_right.erase b
           breaked_left := if a.dir = Direction.RIGHT then h.breaked_left.erase b
                           else h.breaked_left.erase a
           log := h.log ++ [Event.connect a b] }

/-- One iteration of the first pair of loops of `LinkConfig` (permanent links). -/
def permanentLink (geo : Nat → NodeLat) (N i j : Nat) (h : ConstellationHelper) :
    Option ConstellationHelper :=
  let c := h.nChannels
  let channel : OpticalChannel := OpticalChannel.SetType {} ChannelType.FOREVER
  match FindDev h (nodeName i j) Direction.FORWARD,
        FindDev h (nodeName i ((j + 1) % N)) Direction.BACKWARD with
  | some dev1, some dev2 =>
    let channel := (channel.Attach dev1 (geo dev1.node).sine).Attach dev2 (geo dev2.node).sine
    let d1 := setAt h.dev dev1 ((h.dev dev1).Attach c)
    let d2 := setAt d1 dev2 ((d1 dev2).Attach c)
    some { h with nChannels := c + 1, channel := setAt h.channel c channel, dev := d2 }
  | _, _ => none

/-- One iteration of the second pair of loops of `LinkConfig` (temporary links);
`i` is the slot in the plane, `j` the plane. -/
def temporaryLink (sinDeg : ℚ → ℚ) (geo : Nat → NodeLat) (i j : Nat) (h : ConstellationHelper) :
    Option ConstellationHelper :=
  let c := h.nChannels
  let channel : OpticalChannel :=
    OpticalChannel.SetReadyBreakCallback
      (OpticalChannel.SetDisconnetCallback
        (OpticalChannel.SetLatitudeLimit sinDeg
          (OpticalChannel.SetType {} ChannelType.TEMPORARY) h.lat_limit))
  match FindDev h (nodeName j i) Direction.RIGHT,
        FindDev h (nodeName (j + 1) i) Direction.LEFT with
  | some dev1, some dev2 =>
    let lat1 := (geo dev1.node).deg
    let lat2 := (geo dev2.node).deg
    let h1 : ConstellationHelper :=
      { h with nChannels := c + 1, channel := setAt h.channel c channel }
    if lat1 > h.lat_limit ∨ lat2 > h.lat_limit then
      let polar1 := if lat1 > h.lat_limit then insert dev1.node h1.overPolar else h1.overPolar
      let polar2 := if lat2 > h.lat_limit then insert dev2.node polar1 else polar1
      some { h1 with
             unused_link := h1.unused_link ++ [c]
             breaked_left := insert dev2 h1.breaked_left
             breaked_right := insert dev1 h1.breaked_right
             overPolar := polar2 }
    else
      let channel := (channel.Attach dev1 (geo dev1.node).sine).Attach dev2 (geo dev2.node).sine
      let d1 := setAt h1.dev dev1 ((h1.dev dev1).Attach c)
      let d2 := setAt d1 dev2 ((d1 dev2).Attach c)
      some { h1 with channel := setAt h1.channel c channel, dev := d2 }
  | _, _ => none

/-- `ConstellationHelper::LinkConfig` (the closing `Simulator::Schedule` of
`LinkMaintenance` is the tick of the transition system below). -/
def LinkConfig (sinDeg : ℚ → ℚ) (geo : Nat → NodeLat) (h : ConstellationHelper) :
    Option ConstellationHelper :=
  let N : Nat := (Int.tdiv h.m_params.T h.m_params.P).toNat
  (forLoop h.m_params.P.toNat (fun i => forLoop N (fun j => permanentLink geo N i j)) h).bind
    (forLoop N (fun i => forLoop (h.m_params.P - 1).toNat (fun j => temporaryLink sinDeg geo i j)))

/-- `ConstellationHelper::InstallDev`: four devices on every node, named after
the node (`Names::FindName` must know it), then `LinkConfig`. -/
def InstallDev (sinDeg : ℚ → ℚ) (geo : Nat → NodeLat) (h : ConstellationHelper) :
    Option ConstellationHelper :=
  if (List.range h.nNodes).all (fun n => h.names.any (fun e => decide (e.2 = n))) then
    LinkConfig sinDeg geo { h with nDevNodes := h.nNodes }
  else none

/-- The reconnection block of `LinkMaintenance` for one candidate neighbour
(`adj1`, then `adj2`; the source repeats the block); `none` is the value
`invalid`. -/
def reconnect (geo : Nat → NodeLat) (i : Nat) (adj : Option Nat) (h : ConstellationHelper) :
    Option ConstellationHelper :=
  match adj with
  | none => some h
  | some a =>
    if a < h.nNodes then
      (if (⟨a, Direction.RIGHT⟩ : DevId) ∈ h.breaked_right then
          Connect geo h ⟨a, Direction.RIGHT⟩ ⟨i, Direction.LEFT⟩
        else some h).bind fun h1 =>
        if (⟨a, Direction.LEFT⟩ : DevId) ∈ h1.breaked_left then
          Connect geo h1 ⟨a, Direction.LEFT⟩ ⟨i, Direction.RIGHT⟩
        else some h1
    else none

/-- The polar-entry block of `LinkMaintenance` for node `i`. -/
def polarEntry (i : Nat) (h : ConstellationHelper) : Option ConstellationHelper :=
  let h1 : ConstellationHelper := { h with overPolar := insert i h.overPolar }
  let devR : DevId := ⟨i, Direction.RIGHT⟩
  let devL : DevId := ⟨i, Direction.LEFT⟩
  let chR := (h1.dev devR).m_channel
  let chL := (h1.dev devL).m_channel
  let afterR : Option ConstellationHelper :=
    match chR with
    | none => some h1
    | some ch => ((h1.channel ch).GetAnother devR).map fun tmpL => DisConnect h1 tmpL devR ch
  afterR.bind fun h2 =>
    match chL with
    | none => some h2
    | some ch => ((h2.channel ch).GetAnother devL).map fun tmpR => DisConnect h2 tmpR devL ch

/-- The polar-exit block of `LinkMaintenance` for node `i`. -/
def polarExit (geo : Nat → NodeLat) (i : Nat) (h : ConstellationHelper) :
    Option ConstellationHelper :=
  let N : Nat := (Int.tdiv h.m_params.T h.m_params.P).toNat
  let h1 : ConstellationHelper := { h with overPolar := h.overPolar.erase i }
  let adj1 : Option Nat :=
    if i / N ≠ 0 then (if i - N ∈ h1.overPolar then none else some (i - N)) else none
  let adj2 : Option Nat :=
    if i / N ≠ (h.m_params.P - 1).toNat then
      (if i + N ∈ h1.overPolar then none else some (i + N))
    else none
  (reconnect geo i adj1 h1).bind (reconnect geo i adj2)

/-- Body of the loop of `LinkMaintenance` for node `i`. -/
def LinkMaintenanceNode (geo : Nat → NodeLat) (i : Nat) (h : ConstellationHelper) :
    Option ConstellationHelper :=
  let lat := (geo i).deg
  (if lat > h.lat_limit ∧ i ∉ h.overPolar then polarEntry i h else some h).bind fun h1 =>
    if lat < h1.lat_limit ∧ i ∈ h1.overPolar then polarExit geo i h1 else some h1

/-- `ConstellationHelper::LinkMaintenance`: one tick. -/
def LinkMaintenance (geo : Nat → NodeLat) (h : ConstellationHelper) : Option ConstellationHelper :=
  forLoop h.nNodes (LinkMaintenanceNode geo) h

/-- `OpticalChannel::Send` on channel `c`, called by device `sender`; `delay` is
the value of `GetDelay ()`.  The disconnect callback of a temporary channel is
`ConstellationHelper::DisConnect`. -/
def ChannelSend (geo : Nat → NodeLat) (h : ConstellationHelper) (c : Nat) (sender : DevId)
    (txTime delay : ℚ) : Option (Bool × ConstellationHelper) :=
  let ch := h.channel c
  let receiver := ch.GetAnother sender
  let schedule (h1 : ConstellationHelper) : Option (Bool × ConstellationHelper) :=
    match receiver, (h1.channel c).dev_list0, (h1.channel c).dev_list1 with
    | some r, some _, some _ =>
      some (true, { h1 with log := h1.log ++ [Event.scheduleReceive r.node (delay + txTime) sender r] })
    | _, _, _ => none
  if ch.isTemporary then
    match ch.dev_list0, ch.dev_list1 with
    | some d0, some d1 =>
      let r := ch.LatitudeCheck (geo d0.node).sine (geo d1.node).sine
      if r.passed then
        schedule { h with
                   channel := setAt h.channel c r.channel
                   log := h.log ++ (match r.readyBreak with
                                    | some x => [Event.readyBreak c x]
                                    | none => []) }
      else
        some (false, if r.disconnect then DisConnect h d0 d1 c else h)
    | _, _ => none
  else schedule h

/-- What the user configures before `Install` and `InstallDev`. -/
structure BuildInput where
  wizard : OrbitalElement
  params : WalkerParams
  lat_limit : ℚ
  /-- The sine of an angle in degrees, as `OpticalChannel::SetLatitudeLimit` computes it. -/
  sinDeg : ℚ → ℚ

/-- The construction sequence of constellation-test.cc: set the wizard, the
parameters and the limit, `Install ()`, `InstallDev (...)`. -/
def build (inp : BuildInput) (geo : Nat → NodeLat) : Option ConstellationHelper :=
  match SetConstellationParams (SetWizardSatellite {} inp.wizard) inp.params with
  | Except.error _ => none
  | Except.ok h => (Install (SetLatitudeLimit h inp.lat_limit)).bind (InstallDev inp.sinDeg geo)

/-- States of a constellation after the build: any number of `LinkMaintenance`
ticks and of `OpticalChannel::Send` calls by a device on the channel it holds,
under arbitrary positions. -/
inductive Reachable (inp : BuildInput) : ConstellationHelper → Prop where
  | init (geo : Nat → NodeLat) (h : ConstellationHelper) :
      build inp geo = some h → Reachable inp h
  | tick (geo : Nat → NodeLat) (h h1 : ConstellationHelper) :
      Reachable inp h → LinkMaintenance geo h = some h1 → Reachable inp h1
  | send (geo : Nat → NodeLat) (h h1 : ConstellationHelper) (d : DevId) (c : Nat)
      (txTime delay : ℚ) (ok : Bool) :
      Reachable inp h → (h.dev d).m_channel = some c →
      ChannelSend geo h c d txTime delay = some (ok, h1) → Reachable inp h1

/-! ## The net device: framing (optical-device.cc, with the ns-3 headers it uses) -/

/-- Bytes of an ns-3 `Packet`, first byte first. -/
abbrev Packet := List Nat

/-- `Mac48Address`: the six bytes `m_address[0]` to `m_address[5]`. -/
structure Mac48Address where
  b0 : Nat
  b1 : Nat
  b2 : Nat
  b3 : Nat
  b4 : Nat
  b5 : Nat
  deriving DecidableEq

/-- `WriteTo (i, address)`: the six bytes in order. -/
def Mac48Address.toBytes (m : Mac48Address) : List Nat :=
  [m.b0, m.b1, m.b2, m.b3, m.b4, m.b5]

/-- `Mac48Address::IsBroadcast`: equal to `ff:ff:ff:ff:ff:ff`. -/
def Mac48Address.IsBroadcast (m : Mac48Address) : Bool :=
  decide (m = ⟨255, 255, 255, 255, 255, 255⟩)

/-- `Mac48Address::IsGroup`: `(m_address[0] & 0x01) == 0x01`. -/
def Mac48Address.IsGroup (m : Mac48Address) : Bool :=
  decide (m.b0 % 2 = 1)

/-- `EthernetHeader (false)` of ns-3 (no preamble): 14 bytes on the wire. -/
structure EthernetHeader where
  m_source : Mac48Address
  m_destination : Mac48Address
  /-- A `uint16_t`. -/
  m_lengthType : Nat

/-- `EthernetHeader::Serialize`: destination, source, then the length/type field in
network byte order (`WriteHtonU16`). -/
def EthernetHeader.Serialize (hd : EthernetHeader) : List Nat :=
  hd.m_destination.toBytes ++ hd.m_source.toBytes ++
    [hd.m_lengthType / 256 % 256, hd.m_lengthType % 256]

/-- `Packet::RemoveHeader` of an `EthernetHeader (false)`; `none` when the packet
has fewer than 14 bytes (the buffer read asserts). -/
def RemoveEthernetHeader (p : Packet) : Option (EthernetHeader × Packet) :=
  match p with
  | d0 :: d1 :: d2 :: d3 :: d4 :: d5 :: s0 :: s1 :: s2 :: s3 :: s4 :: s5 :: t0 :: t1 :: rest =>
    some (⟨⟨s0, s1, s2, s3, s4, s5⟩, ⟨d0, d1, d2, d3, d4, d5⟩, t0 * 256 + t1⟩, rest)
  | _ => none

/-- `EthernetTrailer::Serialize`: the 32-bit `m_fcs` written by `WriteU32`, least
significant byte first. -/
def fcsBytes (fcs : Nat) : List Nat :=
  [fcs % 256, fcs / 256 % 256, fcs / 65536 % 256, fcs / 16777216 % 256]

/-- `ReadU32` of the four trailer bytes. -/
def readFcs (l : List Nat) : Option Nat :=
  match l with
  | [a, b, c, d] => some (a + 256 * b + 65536 * c + 16777216 * d)
  | _ => none

/-- `Packet::RemoveTrailer` of an `EthernetTrailer`: the stored `m_fcs` and the packet
without its last four bytes; `none` when the packet has fewer than four bytes. -/
def RemoveTrailer (p : Packet) : Option (Nat × Packet) :=
  if p.length < 4 then none
  else (readFcs (p.drop (p.length - 4))).map fun fcs => (fcs, p.take (p.length - 4))

/-- `Packet::RemoveHeader` of an `LlcSnapHeader`: eight bytes, the type in the last
two in network byte order; `none` when the packet has fewer than eight bytes. -/
def RemoveLlcSnapHeader (p : Packet) : Option (Nat × Packet) :=
  match p with
  | _ :: _ :: _ :: _ :: _ :: _ :: t0 :: t1 :: rest => some (t0 * 256 + t1, rest)
  | _ => none

/-- The framing block of `OpticalDevice::SendFrom` (lines 334 to 355): zero padding
of the payload to 46 bytes, the Ethernet II header with length/type
`protocolNumber`, and the trailer, whose FCS is computed by `CalcFcs` only when
`Node::ChecksumEnabled ()` (`crc32` stands for `CRC32Calculate`) and is 0 otherwise. -/
def addEthernetFraming (checksum : Bool) (crc32 : Packet → Nat) (payload : Packet)
    (source dest : Mac48Address) (protocolNumber : Nat) : Packet :=
  let padded : Packet :=
    if payload.length < 46 then payload ++ List.replicate (46 - payload.length) 0 else payload
  let withHeader : Packet := EthernetHeader.Serialize ⟨source, dest, protocolNumber⟩ ++ padded
  let fcs : Nat := if checksum then crc32 withHeader % 4294967296 else 0
  withHeader ++ fcsBytes fcs

/-- What `OpticalDevice::Receive` hands to the receive callbacks. -/
structure DecodedFrame where
  copy : Packet
  protocol : Nat
  src : Mac48Address
  dst : Mac48Address
  deriving DecidableEq

/-- The decoding block of `OpticalDevice::Receive` (lines 507 to 551).  The outer
`none` is an abort (packet too short for a header, or a failed `NS_ASSERT` of the
802.3 branch), the inner `none` is the drop after a failed `CheckFcs`. -/
def decodeFrame (checksum : Bool) (crc32 : Packet → Nat) (packet : Packet) :
    Option (Option DecodedFrame) :=
  match RemoveTrailer packet with
  | none => none
  | some (fcs, copy) =>
    if checksum = true ∧ fcs ≠ crc32 copy % 4294967296 then some none
    else
      match RemoveEthernetHeader copy with
      | none => none
      | some (header, copy) =>
        if header.m_lengthType ≤ 1500 then
          if copy.length < header.m_lengthType then none
          else
            let padlen := copy.length - header.m_lengthType
            if padlen > 46 then none
            else
              match RemoveLlcSnapHeader (copy.take (copy.length - padlen)) with
              | none => none
              | some (protocol, copy) =>
                some (some ⟨copy, protocol, header.m_source, header.m_destination⟩)
        else
          some (some ⟨copy, header.m_lengthType, header.m_source, header.m_destination⟩)

/-! ## The net device: transmit machine, queue and reception -/

/-- Enum `OpticalDevice::TxMachineState`. -/
inductive TxMachineState where
  | READY
  | BUSY
  deriving DecidableEq, Repr

/-- Enum `NetDevice::PacketType`. -/
inductive PacketType where
  | PACKET_HOST
  | PACKET_BROADCAST
  | PACKET_MULTICAST
  | PACKET_OTHERHOST
  deriving DecidableEq, Repr

/-- What a device does that is visible outside: its trace sources, its two receive
callbacks, the events it schedules and its calls of the channel. -/
inductive DevEvent where
  | MacTx (p : Packet)
  | MacTxDrop (p : Packet)
  | MacPromiscRx (p : Packet)
  | MacRx (p : Packet)
  | MacRxDrop (p : Packet)
  | PhyTxBegin (p : Packet)
  | PhyTxEnd (p : Packet)
  | PhyTxDrop (p : Packet)
  | PhyRxEnd (p : Packet)
  | PhyRxDrop (p : Packet)
  | Sniffer (p : Packet)
  | PromiscSniffer (p : Packet)
  /-- `m_linkChangeCallbacks ()`. -/
  | linkChange
  /-- `m_promiscCallback (this, copy, protocol, from, to, packetType)`. -/
  | promiscCallback (copy : Packet) (protocol : Nat) (src dst : Mac48Address) (type : PacketType)
  /-- `m_rxCallback (this, copy, protocol, from)`. -/
  | rxCallback (copy : Packet) (protocol : Nat) (src : Mac48Address)
  /-- `Simulator::Schedule (txCompleteTime, &OpticalDevice::TransmitComplete, this)`. -/
  | scheduleTransmitComplete (txTime : ℚ)
  /-- `m_channel->Send (this, p, txTime)`. -/
  | channelSend (p : Packet) (txTime : ℚ)
  deriving DecidableEq

/-- An `OpticalDevice` with the members of its NetDevice part: the link members of
`OpticalDevice` above, the transmit machine, the drop-tail queue (contents, head
first, and `MaxSize` in packets), the data rate in bit/s, the address, whether the
two receive callbacks are set, the number of `TransmitComplete` events the simulator
holds for the device, and the trace of what the device did. -/
structure OpticalNetDevice extends OpticalDevice where
  m_txMachineState : TxMachineState := TxMachineState.READY
  m_currentPkt : Option Packet := none
  m_queue : List Packet := []
  queueMaxSize : Nat := 100
  m_bps : ℚ := 32768
  m_address : Mac48Address := ⟨255, 255, 255, 255, 255, 255⟩
  promiscCallbackSet : Bool := false
  rxCallbackSet : Bool := false
  pendingTransmitComplete : Nat := 0
  trace : List DevEvent := []

/-- What `m_channel->Send` did, seen from the sending device: it returned true, or it
returned false, in which case the channel's disconnect callback
(`ConstellationHelper::DisConnect`) may have detached the device. -/
inductive SendOutcome where
  | sent
  | refused (detached : Bool)
  deriving DecidableEq

/-- Fire a trace source or callback. -/
def OpticalNetDevice.fire (d : OpticalNetDevice) (e : DevEvent) : OpticalNetDevice :=
  { d with trace := d.trace ++ [e] }

/-- `OpticalDevice::Attach` of an existing channel. -/
def OpticalNetDevice.Attach (d : OpticalNetDevice) (channel : Nat) : OpticalNetDevice :=
  { d with toOpticalDevice := d.toOpticalDevice.Attach channel
           trace := d.trace ++ [DevEvent.linkChange] }

/-- `OpticalDevice::Detach`. -/
def OpticalNetDevice.Detach (d : OpticalNetDevice) : OpticalNetDevice :=
  { d with toOpticalDevice := d.toOpticalDevice.Detach
           trace := d.trace ++ [DevEvent.linkChange] }

/-- `OpticalDevice::SetLinkDown`. -/
def OpticalNetDevice.SetLinkDown (d : OpticalNetDevice) : OpticalNetDevice :=
  { d with m_linkUp := false, trace := d.trace ++ [DevEvent.linkChange] }

/-- `DataRate::CalculateBytesTxTime`: seconds for `bytes` bytes at `m_bps` bit/s. -/
def OpticalNetDevice.txTime (d : OpticalNetDevice) (bytes : Nat) : ℚ :=
  (bytes : ℚ) * 8 / d.m_bps

/-- `OpticalDevice::TransmitStart`; `none` when `NS_ASSERT_MSG (m_txMachineState ==
READY)` fails. -/
def OpticalNetDevice.TransmitStart (out : SendOutcome) (d : OpticalNetDevice) (p : Packet) :
    Option (Bool × OpticalNetDevice) :=
  if d.m_txMachineState ≠ TxMachineState.READY then none
  else
    let d1 : OpticalNetDevice :=
      { d with m_txMachineState := TxMachineState.BUSY
               m_currentPkt := some p
               pendingTransmitComplete := d.pendingTransmitComplete + 1
               trace := d.trace ++ [DevEvent.PhyTxBegin p,
                 DevEvent.scheduleTransmitComplete (d.txTime p.length)] }
    match d1.m_channel with
    | none => some (false, d1.fire (DevEvent.PhyTxDrop p))
    | some _ =>
      let d2 := d1.fire (DevEvent.channelSend p (d.txTime p.length))
      match out with
      | SendOutcome.sent => some (true, d2)
      | SendOutcome.refused detached =>
        some (false, (if detached then d2.Detach else d2).fire (DevEvent.PhyTxDrop p))

/-- `OpticalDevice::TransmitComplete`, run by the simulator for one scheduled event;
`none` when one of its two assertions fails. -/
def OpticalNetDevice.TransmitComplete (out : SendOutcome) (d : OpticalNetDevice) :
    Option OpticalNetDevice :=
  if d.m_txMachineState ≠ TxMachineState.BUSY then none
  else
    match d.m_currentPkt with
    | none => none
    | some cur =>
      let d1 : OpticalNetDevice :=
        { d with m_txMachineState := TxMachineState.READY
                 m_currentPkt := none
                 pendingTransmitComplete := d.pendingTransmitComplete - 1
                 trace := d.trace ++ [DevEvent.PhyTxEnd cur] }
      match d1.m_queue with
      | [] => some d1
      | p :: rest =>
        let d2 : OpticalNetDevice :=
          { d1 with m_queue := rest
                    trace := d1.trace ++ [DevEvent.Sniffer p, DevEvent.PromiscSniffer p] }
        (d2.TransmitStart out p).map Prod.snd

/-- `OpticalDevice::SendFrom`; `Enqueue` of the drop-tail queue fails when the queue
holds `MaxSize` packets. -/
def OpticalNetDevice.SendFrom (checksum : Bool) (crc32 : Packet → Nat) (out : SendOutcome)
    (d : OpticalNetDevice) (packet : Packet) (source dest : Mac48Address)
    (protocolNumber : Nat) : Option (Bool × OpticalNetDevice) :=
  if d.m_linkUp = false ∨ d.m_channel = none then
    some (false, d.fire (DevEvent.MacTxDrop packet))
  else
    let d1 := d.fire (DevEvent.MacTx packet)
    let framed := addEthernetFraming checksum crc32 packet source dest protocolNumber
    if d1.m_queue.length + 1 ≤ d1.queueMaxSize then
      if d1.m_txMachineState = TxMachineState.READY then
        let next : Packet × List Packet :=
          match d1.m_queue with
          | [] => (framed, [])
          | q :: qs => (q, qs ++ [framed])
        let d2 : OpticalNetDevice :=
          { d1 with m_queue := next.2
                    trace := d1.trace ++ [DevEvent.Sniffer next.1,
                      DevEvent.PromiscSniffer next.1] }
        d2.TransmitStart out next.1
      else some (true, { d1 with m_queue := d1.m_queue ++ [framed] })
    else some (false, d1.fire (DevEvent.MacTxDrop framed))

/-- `OpticalDevice::Send`. -/
def OpticalNetDevice.Send (checksum : Bool) (crc32 : Packet → Nat) (out : SendOutcome)
    (d : OpticalNetDevice) (packet : Packet) (dest : Mac48Address) (protocolNumber : Nat) :
    Option (Bool × OpticalNetDevice) :=
  d.SendFrom checksum crc32 out packet d.m_address dest protocolNumber

/-- `OpticalDevice::Receive`; `corrupt` says whether an error model is set and its
`IsCorrupt` answers true.  `none` is an abort: of `decodeFrame`, or the call of a
null `m_rxCallback`. -/
def OpticalNetDevice.Receive (checksum : Bool) (crc32 : Packet → Nat) (corrupt : Bool)
    (d : OpticalNetDevice) (packet : Packet) : Option OpticalNetDevice :=
  if d.m_linkUp = false then some (d.fire (DevEvent.MacRxDrop packet))
  else
    let d1 := d.fire (DevEvent.PhyRxEnd packet)
    if corrupt then some (d1.fire (DevEvent.PhyRxDrop packet))
    else
      match decodeFrame checksum crc32 packet with
      | none => none
      | some none => some (d1.fire (DevEvent.PhyRxDrop packet))
      | some (some f) =>
        let packetType : PacketType :=
          if f.dst = d.m_address then PacketType.PACKET_HOST
          else if f.dst.IsBroadcast then PacketType.PACKET_BROADCAST
          else if f.dst.IsGroup then PacketType.PACKET_MULTICAST
          else PacketType.PACKET_OTHERHOST
        let d2 := d1.fire (DevEvent.PromiscSniffer packet)
        let d3 :=
          if d.promiscCallbackSet then
            (d2.fire (DevEvent.MacPromiscRx packet)).fire
              (DevEvent.promiscCallback f.copy f.protocol f.src f.dst packetType)
          else d2
        if packetType ≠ PacketType.PACKET_OTHERHOST then
          if d.rxCallbackSet then
            some (((d3.fire (DevEvent.MacRx packet)).fire (DevEvent.Sniffer packet)).fire
              (DevEvent.rxCallback f.copy f.protocol f.src))
          else none
        else some d3

/-- States of one device: a fresh device (`READY`, no packet, empty queue, no
channel, link down, nothing scheduled) with any configuration, then any sequence of
`Send`, `Attach`, `Detach`, `Receive`, executions of scheduled `TransmitComplete`
events, and, when `withLinkDown` is true, `SetLinkDown`. -/
inductive DevReachable (checksum : Bool) (crc32 : Packet → Nat) :
    Bool → OpticalNetDevice → Prop where
  | fresh (withLinkDown : Bool) (queueMaxSize : Nat) (bps : ℚ) (address : Mac48Address)
      (promisc rx : Bool) :
      DevReachable checksum crc32 withLinkDown
        { queueMaxSize := queueMaxSize, m_bps := bps, m_address := address
          promiscCallbackSet := promisc, rxCallbackSet := rx }
  | send (b : Bool) (d d1 : OpticalNetDevice) (out : SendOutcome) (packet : Packet)
      (dest : Mac48Address) (protocolNumber : Nat) (ret : Bool) :
      DevReachable checksum crc32 b d →
      d.Send checksum crc32 out packet dest protocolNumber = some (ret, d1) →
      DevReachable checksum crc32 b d1
  | attach (b : Bool) (d : OpticalNetDevice) (channel : Nat) :
      DevReachable checksum crc32 b d → DevReachable checksum crc32 b (d.Attach channel)
  | detach (b : Bool) (d : OpticalNetDevice) :
      DevReachable checksum crc32 b d → DevReachable checksum crc32 b d.Detach
  | receive (b : Bool) (d d1 : OpticalNetDevice) (corrupt : Bool) (packet : Packet) :
      DevReachable checksum crc32 b d →
      d.Receive checksum crc32 corrupt packet = some d1 →
      DevReachable checksum crc32 b d1
  | complete (b : Bool) (d d1 : OpticalNetDevice) (out : SendOutcome) :
      DevReachable checksum crc32 b d → 0 < d.pendingTransmitComplete →
      d.TransmitComplete out = some d1 → DevReachable checksum crc32 b d1
  | linkDown (d : OpticalNetDevice) :
      DevReachable checksum crc32 true d → DevReachable checksum crc32 true d.SetLinkDown

/-! ## Predicates used to state the results -/

/-- Position `(i1, j1)` of two nested loops is completed when the loops stand at
`(i, j)` (outer counter first). -/
def doneBefore (i j i1 j1 : Nat) : Prop :=
  i1 < i ∨ (i1 = i ∧ j1 < j)

/-- Number of planes `P` as a loop bound. -/
def planes (params : WalkerParams) : Nat := params.P.toNat

/-- Satellites per plane `N = T / P` (C++ division) as a loop bound. -/
def satsPerPlane (params : WalkerParams) : Nat := (Int.tdiv params.T params.P).toNat

/-- Valid configuration: `P > 0`, `T % P == 0` and `N = T / P ≥ 1`. -/
def Valid (params : WalkerParams) : Prop :=
  0 < params.P ∧ Int.tmod params.T params.P = 0 ∧ 1 ≤ Int.tdiv params.T params.P

/-- The helper `h1` is `h0` up to the members written by `Install ()`. -/
def InstallFrame (h0 h1 : ConstellationHelper) : Prop :=
  ∃ nm al bm el, h1 = { h0 with names := nm, m_allocateElement := al, bestMatch := bm,
                                element := el }

/-- State of the helper when `InstallDev` enters `LinkConfig`, for `p` planes of
`n` satellites: parameters stored, `p * n` named nodes carrying devices, no
channel yet. -/
structure ReadyToLink (inp : BuildInput) (n p : Nat) (h : ConstellationHelper) : Prop where
  paramsT : h.m_params.T = inp.params.T
  paramsP : h.m_params.P = inp.params.P
  limit : h.lat_limit = inp.lat_limit
  nodes : h.nNodes = p * n
  devNodes : h.nDevNodes = p * n
  find : ∀ i j, i < p → j < n → Names.Find h.names (nodeName i j) = some (i * n + j)
  noChannels : h.nChannels = 0
  devs : h.dev = fun _ => {}
  pool : h.unused_link = []
  left : h.breaked_left = ∅
  right : h.breaked_right = ∅
  polar : h.overPolar = ∅
  log : h.log = []

/-- The permanent link of plane `i`, slot `j`: channel `i * n + j` is a FOREVER
channel holding the FORWARD device of node `i * n + j` in slot 0 and the BACKWARD
device of node `i * n + (j + 1) % n` in slot 1, and both devices hold the channel
with their link up. -/
def PermPair (n i j : Nat) (h : ConstellationHelper) : Prop :=
  (h.channel (i * n + j)).isTemporary = false ∧
  (h.channel (i * n + j)).dev_list0 = some ⟨i * n + j, Direction.FORWARD⟩ ∧
  (h.channel (i * n + j)).dev_list1 = some ⟨i * n + (j + 1) % n, Direction.BACKWARD⟩ ∧
  h.dev ⟨i * n + j, Direction.FORWARD⟩ = ⟨some (i * n + j), true⟩ ∧
  h.dev ⟨i * n + (j + 1) % n, Direction.BACKWARD⟩ = ⟨some (i * n + j), true⟩

/-- The helper `h1` is `h0` up to the members written by the permanent-link loops. -/
def PermFrame (h0 h1 : ConstellationHelper) : Prop :=
  ∃ k ch dv, h1 = { h0 with nChannels := k, channel := ch, dev := dv }

/-- Invariant of the permanent-link loops of `LinkConfig` at position `(i, j)`. -/
def PermInv (n : Nat) (h0 : ConstellationHelper) (i j : Nat) (h : ConstellationHelper) : Prop :=
  PermFrame h0 h ∧ h.nChannels = i * n + j ∧
  (∀ i1 j1, doneBefore i j i1 j1 → j1 < n → PermPair n i1 j1 h) ∧
  (∀ d c, (h.dev d).m_channel = some c →
    c < h.nChannels ∧ (d.dir = Direction.FORWARD ∨ d.dir = Direction.BACKWARD)) ∧
  (∀ d, (h.dev d).m_linkUp = (h.dev d).m_channel.isSome)

/-- An inter-plane (RIGHT or LEFT) device. -/
def IsRL (d : DevId) : Prop :=
  d.dir = Direction.RIGHT ∨ d.dir = Direction.LEFT

/-- Consistency of the link-management state; `T` is the number of permanent
channels (channels `T ..` are the temporary ones).

* the spare pool holds distinct temporary channels with both slots empty;
* a temporary channel outside the pool holds a RIGHT and a LEFT device of two
  different nodes;
* an inter-plane device that holds a channel holds a temporary channel outside
  the pool and sits in one of its slots; the other devices hold permanent
  channels only;
* members of `breaked_right` (`breaked_left`) are RIGHT (LEFT) devices without
  channel;
* the link of a device is up exactly when it holds a channel. -/
structure InvCore (T : Nat) (h : ConstellationHelper) : Prop where
  pool_range : ∀ c ∈ h.unused_link, T ≤ c ∧ c < h.nChannels
  pool_nodup : h.unused_link.Nodup
  pool_slots : ∀ c ∈ h.unused_link,
    (h.channel c).dev_list0 = none ∧ (h.channel c).dev_list1 = none
  attached : ∀ c, T ≤ c → c < h.nChannels → c ∉ h.unused_link →
    ∃ a b, (h.channel c).dev_list0 = some a ∧ (h.channel c).dev_list1 = some b ∧
      ((a.dir = Direction.RIGHT ∧ b.dir = Direction.LEFT) ∨
        (a.dir = Direction.LEFT ∧ b.dir = Direction.RIGHT)) ∧ a.node ≠ b.node
  dev_ref : ∀ d c, IsRL d → (h.dev d).m_channel = some c →
    T ≤ c ∧ c < h.nChannels ∧ c ∉ h.unused_link ∧
      ((h.channel c).dev_list0 = some d ∨ (h.channel c).dev_list1 = some d)
  dev_other : ∀ d c, ¬ IsRL d → (h.dev d).m_channel = some c → c < T
  right_mem : ∀ d ∈ h.breaked_right, d.dir = Direction.RIGHT ∧ (h.dev d).m_channel = none
  left_mem : ∀ d ∈ h.breaked_left, d.dir = Direction.LEFT ∧ (h.dev d).m_channel = none
  temp : ∀ c, T ≤ c → c < h.nChannels → (h.channel c).isTemporary = true
  link_up : ∀ d, (h.dev d).m_linkUp = (h.dev d).m_channel.isSome

/-- Channel created by `LinkConfig` for the inter-plane pair of slot `i` between
planes `j` and `j + 1`: the permanent channels come first, then the temporary
ones in the order of the loops (slot outside, plane inside). -/
def pairChannel (n p i j : Nat) : Nat := p * n + i * (p - 1) + j

/-- RIGHT device of `S{j}{i}`. -/
def pairRight (n i j : Nat) : DevId := ⟨j * n + i, Direction.RIGHT⟩

/-- LEFT device of `S{j+1}{i}`. -/
def pairLeft (n i j : Nat) : DevId := ⟨(j + 1) * n + i, Direction.LEFT⟩

/-- The test `lat1 > lat_limit || lat2 > lat_limit` of `LinkConfig` for the pair of
slot `i` between planes `j` and `j + 1`. -/
def pairPolar (limit : ℚ) (geo : Nat → NodeLat) (n i j : Nat) : Prop :=
  (geo (j * n + i)).deg > limit ∨ (geo ((j + 1) * n + i)).deg > limit

/-- What `LinkConfig` leaves for the inter-plane pair of slot `i` between planes `j`
and `j + 1`: a TEMPORARY channel which is attached to both devices (slots filled,
both devices hold it with link up, nothing recorded as broken) when no endpoint is
above the limit, and otherwise sits in the spare pool with empty slots, both
devices without channel and recorded in `breaked_right` / `breaked_left`. -/
def TempPair (limit : ℚ) (geo : Nat → NodeLat) (n p i j : Nat) (h : ConstellationHelper) :
    Prop :=
  (h.channel (pairChannel n p i j)).isTemporary = true ∧
  (¬ pairPolar limit geo n i j →
    (h.channel (pairChannel n p i j)).dev_list0 = some (pairRight n i j) ∧
    (h.channel (pairChannel n p i j)).dev_list1 = some (pairLeft n i j) ∧
    h.dev (pairRight n i j) = ⟨some (pairChannel n p i j), true⟩ ∧
    h.dev (pairLeft n i j) = ⟨some (pairChannel n p i j), true⟩ ∧
    pairChannel n p i j ∉ h.unused_link ∧
    pairRight n i j ∉ h.breaked_right ∧ pairLeft n i j ∉ h.breaked_left) ∧
  (pairPolar limit geo n i j →
    (h.channel (pairChannel n p i j)).dev_list0 = none ∧
    (h.channel (pairChannel n p i j)).dev_list1 = none ∧
    h.dev (pairRight n i j) = ⟨none, false⟩ ∧
    h.dev (pairLeft n i j) = ⟨none, false⟩ ∧
    pairChannel n p i j ∈ h.unused_link ∧
    pairRight n i j ∈ h.breaked_right ∧ pairLeft n i j ∈ h.breaked_left)

/-- The helper `h1` is `h0` up to the members written by `LinkConfig`. -/
def LinkFrame (h0 h1 : ConstellationHelper) : Prop :=
  ∃ k ch dv pl l r o, h1 = { h0 with nChannels := k, channel := ch, dev := dv,
                                     unused_link := pl, breaked_left := l,
                                     breaked_right := r, overPolar := o }

/-- Invariant of the temporary-link loops of `LinkConfig` at position `(i, j)`
(`i` the slot, `j` the plane). -/
structure TempInv (limit : ℚ) (geo : Nat → NodeLat) (n p : Nat) (h0 : ConstellationHelper)
    (i j : Nat) (h : ConstellationHelper) : Prop where
  frame : LinkFrame h0 h
  count : h.nChannels = p * n + i * (p - 1) + j
  core : InvCore (p * n) h
  perm : ∀ i1 j1, i1 < p → j1 < n → PermPair n i1 j1 h
  pairs : ∀ i1 j1, doneBefore i j i1 j1 → j1 < p - 1 → TempPair limit geo n p i1 j1 h
  fresh : ∀ d, IsRL d →
    ((h.dev d).m_channel ≠ none ∨ d ∈ h.breaked_right ∨ d ∈ h.breaked_left) →
    ∃ i1 j1, doneBefore i j i1 j1 ∧ j1 < p - 1 ∧ (d = pairRight n i1 j1 ∨ d = pairLeft n i1 j1)
  polar : ∀ x, x ∈ h.overPolar ↔
    ∃ i1 j1, doneBefore i j i1 j1 ∧ j1 < p - 1 ∧
      (x = j1 * n + i1 ∨ x = (j1 + 1) * n + i1) ∧ (geo x).deg > limit

/-- One hop over the FORWARD link of node `x`: the node of the peer of the FORWARD
device on the channel that device holds. -/
def forwardHop (h : ConstellationHelper) (x : Nat) : Option Nat :=
  match (h.dev ⟨x, Direction.FORWARD⟩).m_channel with
  | none => none
  | some c => ((h.channel c).GetAnother ⟨x, Direction.FORWARD⟩).map DevId.node

/-- The node reached after `k` FORWARD hops from `x`. -/
def forwardHops (h : ConstellationHelper) : Nat → Nat → Option Nat
  | 0, x => some x
  | k + 1, x => (forwardHops h k x).bind (forwardHop h)

/-- Number of FOREVER channels among the channels created. -/
def countForever (h : ConstellationHelper) : Nat :=
  ((Finset.range h.nChannels).filter (fun c => (h.channel c).isTemporary = false)).card

/-- Number of TEMPORARY channels among the channels created. -/
def countTemporary (h : ConstellationHelper) : Nat :=
  ((Finset.range h.nChannels).filter (fun c => (h.channel c).isTemporary = true)).card

/-- A device without channel is recorded in the broken set of its direction. -/
def BrokenRecorded (h : ConstellationHelper) (d : DevId) : Prop :=
  (h.dev d).m_channel = none →
    (d.dir = Direction.RIGHT → d ∈ h.breaked_right) ∧
    (d.dir = Direction.LEFT → d ∈ h.breaked_left)

/-- What link maintenance and sending never change between `h` and `h1`: the
parameters, the permanent channels (`c < T`), the devices other than RIGHT and
LEFT, and the recording of broken devices. -/
structure Keeps (T : Nat) (h h1 : ConstellationHelper) : Prop where
  params : h1.m_params = h.m_params
  nodes : h1.nNodes = h.nNodes
  limit : h1.lat_limit = h.lat_limit
  count : h1.nChannels = h.nChannels
  perm_channel : ∀ c, c < T → h1.channel c = h.channel c
  other_dev : ∀ d, ¬ IsRL d → h1.dev d = h.dev d
  recorded : ∀ d, BrokenRecorded h d → BrokenRecorded h1 d

/-- Invariant of the states reachable from a build with input `inp`. -/
structure Inv (inp : BuildInput) (h : ConstellationHelper) : Prop where
  paramsT : h.m_params.T = inp.params.T
  paramsP : h.m_params.P = inp.params.P
  nodes : h.nNodes = planes inp.params * satsPerPlane inp.params
  limit : h.lat_limit = inp.lat_limit
  count : h.nChannels = planes inp.params * satsPerPlane inp.params +
    satsPerPlane inp.params * (planes inp.params - 1)
  core : InvCore (planes inp.params * satsPerPlane inp.params) h
  perm : ∀ i j, i < planes inp.params → j < satsPerPlane inp.params →
    PermPair (satsPerPlane inp.params) i j h
  ladder : ∀ i j, i < satsPerPlane inp.params → j < planes inp.params - 1 →
    BrokenRecorded h (pairRight (satsPerPlane inp.params) i j) ∧
    BrokenRecorded h (pairLeft (satsPerPlane inp.params) i j)

/-- Number of attached temporary channels: TEMPORARY channels with both slots
filled. -/
def countAttachedTemporary (h : ConstellationHelper) : Nat :=
  ((Finset.range h.nChannels).filter (fun c =>
    (h.channel c).isTemporary = true ∧ (h.channel c).dev_list0.isSome = true ∧
      (h.channel c).dev_list1.isSome = true)).card

/-- The node names of `p` planes of `n` satellites are pairwise different. -/
def NamesDistinct (p n : Nat) : Prop :=
  ∀ i j i1 j1, i < p → j < n → i1 < p → j1 < n →
    nodeName i j = nodeName i1 j1 → i = i1 ∧ j = j1

/-- Reads back a two-digit decimal string; used to show that `fmt02` is
injective below 100. -/
def readTwo (s : String) : Nat :=
  match s.data with
  | [a, b] => (a.toNat - 48) * 10 + (b.toNat - 48)
  | _ => 0

/-- The value `diff` of the best-match block of `Install ()` (lines 84 to 95) for
slot `j` of the last plane `i = P - 1`, from the wizard's true anomaly and the
parameters. -/
def bestMatchDiff (wizardF : ℚ) (T P F : Int) (j : Nat) : ℚ :=
  let f : ℚ := wizardF + 360 * (F : ℚ) / (T : ℚ) * ((P : ℚ) - 1) +
    360 / ((Int.tdiv T P : Int) : ℚ) * (j : ℚ)
  let theta : ℚ := if f > wizardF + 180 then f - 360 else f
  fmod360 |wizardF - theta|

/-- Reads a string of decimal digits from the left, continuing from `acc`; used to
show that `fmt02` is injective. -/
def readDigits (acc : Nat) (l : List Char) : Nat :=
  l.foldl (fun a c => a * 10 + (c.toNat - 48)) acc

/-- Each disconnect callback in the log has a ready-break callback for its channel
somewhere before it. -/
def DisconnectsAnnounced (log : List Event) : Prop :=
  ∀ pre post a b c, log = pre ++ Event.disconnect a b c :: post →
    ∃ x, Event.readyBreak c x ∈ pre

/-- Invariant of the callbacks: the temporary channels carry both callbacks. -/
structure RunInv (h : ConstellationHelper) : Prop where
  cb : ∀ c, (h.channel c).isTemporary = true →
    (h.channel c).disconnectCbSet = true ∧ (h.channel c).readyBreakCbSet = true

/-- Between `h` and `h1` the log grew by connect and disconnect callbacks only. -/
def LinkEventsOnly (h h1 : ConstellationHelper) : Prop :=
  ∃ l, h1.log = h.log ++ l ∧
    ∀ e ∈ l, (∃ a b, e = Event.connect a b) ∨ (∃ a b c, e = Event.disconnect a b c)

/-! ## Predicates on a single device -/

/-- Runs the transmit machine over a trace: `PhyTxBegin` (fired by `TransmitStart`)
is only accepted when not busy and makes busy, `PhyTxEnd` (fired by
`TransmitComplete`) is only accepted when busy and makes ready; `none` when the trace
is not accepted. -/
def txRun : Bool → List DevEvent → Option Bool
  | b, [] => some b
  | b, DevEvent.PhyTxBegin _ :: l => if b then none else txRun true l
  | b, DevEvent.PhyTxEnd _ :: l => if b then txRun false l else none
  | b, _ :: l => txRun b l

/-- Whether an event is neither `PhyTxBegin` nor `PhyTxEnd`. -/
def DevEvent.txNeutral : DevEvent → Bool
  | DevEvent.PhyTxBegin _ => false
  | DevEvent.PhyTxEnd _ => false
  | _ => true

/-- A piece of trace without `PhyTxBegin` and `PhyTxEnd`. -/
def TxNeutral (l : List DevEvent) : Prop :=
  l.all DevEvent.txNeutral = true

/-- Invariant of the transmit machine of a device. -/
structure TxInv (d : OpticalNetDevice) : Prop where
  busy_pkt : d.m_txMachineState = TxMachineState.BUSY ↔ d.m_currentPkt ≠ none
  busy_pending : d.m_txMachineState = TxMachineState.BUSY ↔ d.pendingTransmitComplete = 1
  pending_le : d.pendingTransmitComplete ≤ 1
  alternates : txRun false d.trace = some (decide (d.m_txMachineState = TxMachineState.BUSY))

/-- The link flag and the channel reference of a device: link up only with a
channel, and, for a device on which `SetLinkDown` is not used, a channel only with
the link up. -/
def LinkInv (withLinkDown : Bool) (d : OpticalNetDevice) : Prop :=
  (d.m_linkUp = true → d.m_channel ≠ none) ∧
  (withLinkDown = false → d.m_channel ≠ none → d.m_linkUp = true)

/-- The device `d1` is `d` with the events `l` added to its trace. -/
structure TraceOnly (d d1 : OpticalNetDevice) (l : List DevEvent) : Prop where
  link : d1.toOpticalDevice = d.toOpticalDevice
  state : d1.m_txMachineState = d.m_txMachineState
  pkt : d1.m_currentPkt = d.m_currentPkt
  pending : d1.pendingTransmitComplete = d.pendingTransmitComplete
  queue : d1.m_queue = d.m_queue
  events : d1.trace = d.trace ++ l

/-- The device `d` sits in one of the two slots of channel `c`. -/
def InSlot (h : ConstellationHelper) (d : DevId) (c : Nat) : Prop :=
  (h.channel c).dev_list0 = some d ∨ (h.channel c).dev_list1 = some d

/-- Device and channel references are mutually consistent: a device references
channel `c` exactly when it sits in one of the slots of `c`. -/
def RefsConsistent (h : ConstellationHelper) : Prop :=
  ∀ d c, (h.dev d).m_channel = some c ↔ InSlot h d c

/-- The packets handed to `TransmitStart`, oldest first: the packets of the
`PhyTxBegin` events of a trace. -/
def started : List DevEvent → List Packet
  | [] => []
  | DevEvent.PhyTxBegin p :: l => p :: started l
  | _ :: l => started l

/-- Whether `SendFrom` gets its packet into the queue: the link is up, there is a
channel, and `Enqueue` finds room. -/
def OpticalNetDevice.accepts (d : OpticalNetDevice) : Bool :=
  decide (¬ (d.m_linkUp = false ∨ d.m_channel = none) ∧ d.m_queue.length + 1 ≤ d.queueMaxSize)

/-- The states of `DevReachable`, each with the framed packets of the `Send` calls
that were accepted so far (those that got their packet into the queue), oldest
first. -/
inductive DevHistory (checksum : Bool) (crc32 : Packet → Nat) :
    Bool → OpticalNetDevice → List Packet → Prop where
  | fresh (withLinkDown : Bool) (queueMaxSize : Nat) (bps : ℚ) (address : Mac48Address)
      (promisc rx : Bool) :
      DevHistory checksum crc32 withLinkDown
        { queueMaxSize := queueMaxSize, m_bps := bps, m_address := address
          promiscCallbackSet := promisc, rxCallbackSet := rx } []
  | send (b : Bool) (d d1 : OpticalNetDevice) (acc : List Packet) (out : SendOutcome)
      (packet : Packet) (dest : Mac48Address) (protocolNumber : Nat) (ret : Bool) :
      DevHistory checksum crc32 b d acc →
      d.Send checksum crc32 out packet dest protocolNumber = some (ret, d1) →
      DevHistory checksum crc32 b d1
        (if d.accepts then
          acc ++ [addEthernetFraming checksum crc32 packet d.m_address dest protocolNumber]
         else acc)
  | attach (b : Bool) (d : OpticalNetDevice) (acc : List Packet) (channel : Nat) :
      DevHistory checksum crc32 b d acc → DevHistory checksum crc32 b (d.Attach channel) acc
  | detach (b : Bool) (d : OpticalNetDevice) (acc : List Packet) :
      DevHistory checksum crc32 b d acc → DevHistory checksum crc32 b d.Detach acc
  | receive (b : Bool) (d d1 : OpticalNetDevice) (acc : List Packet) (corrupt : Bool)
      (packet : Packet) :
      DevHistory checksum crc32 b d acc →
      d.Receive checksum crc32 corrupt packet = some d1 →
      DevHistory checksum crc32 b d1 acc
  | complete (b : Bool) (d d1 : OpticalNetDevice) (acc : List Packet) (out : SendOutcome) :
      DevHistory checksum crc32 b d acc → 0 < d.pendingTransmitComplete →
      d.TransmitComplete out = some d1 → DevHistory checksum crc32 b d1 acc
  | linkDown (d : OpticalNetDevice) (acc : List Packet) :
      DevHistory checksum crc32 true d acc →
      DevHistory checksum crc32 true d.SetLinkDown acc

/-- Invariant of the queue of a device whose accepted packets are `acc`: a READY
device has an empty queue, and the packets started so far followed by the queue are
the accepted packets in their order. -/
structure QueueInv (d : OpticalNetDevice) (acc : List Packet) : Prop where
  ready_empty : d.m_txMachineState = TxMachineState.READY → d.m_queue = []
  order : started d.trace ++ d.m_queue = acc

/-- Whether an event is the `MacRx` trace. -/
def DevEvent.isMacRx : DevEvent → Bool
  | DevEvent.MacRx _ => true
  | _ => false

/-- Whether an event is an invocation of the receive callback. -/
def DevEvent.isRxCallback : DevEvent → Bool
  | DevEvent.rxCallback _ _ _ => true
  | _ => false

/-! ## Floating-point code, in exact arithmetic

The code below computes with `double`.  It is embedded over an ordered field `α`
that stands for `double` without rounding, and the functions of `<cmath>` it calls
are the fields of a parameter; the results are stated for the real numbers with the
real functions (`Libm.Exact`).  `abs` applied to a `double` is the absolute value. -/

/-- The functions and the constant of `<cmath>` that the code uses. -/
structure Libm (α : Type) where
  /-- The constant `M_PI`. -/
  pi : α
  sqrt : α → α
  sin : α → α
  cos : α → α
  tan : α → α
  atan : α → α
  asin : α → α
  log10 : α → α

/-- The functions of `m` are the real functions. -/
structure Libm.Exact (m : Libm ℝ) : Prop where
  pi : m.pi = Real.pi
  sqrt : m.sqrt = Real.sqrt
  sin : m.sin = Real.sin
  cos : m.cos = Real.cos
  tan : m.tan = Real.tan
  atan : m.atan = Real.arctan
  asin : m.asin = Real.arcsin
  log10 : m.log10 = Real.logb 10

/-- `std::fmod (x, y)`: `x - n * y` where `n` is the quotient `x / y` rounded towards
zero, so that the result has the sign of `x`. -/
def fmod {α : Type} [LinearOrderedField α] [FloorRing α] (x y : α) : α :=
  x - ((if 0 ≤ x / y then ⌊x / y⌋ else ⌈x / y⌉ : Int) : α) * y

/-- An ns-3 `Vector3D`. -/
structure Vector3D (α : Type) where
  x : α
  y : α
  z : α

/-- `Vector3D::GetLength`. -/
def Vector3D.GetLength {α : Type} [LinearOrderedField α] (m : Libm α) (v : Vector3D α) : α :=
  m.sqrt (v.x * v.x + v.y * v.y + v.z * v.z)

/-- `GetLatitude` of constellation-helper.cc: the latitude in degrees. -/
def ConstellationHelper.GetLatitude {α : Type} [LinearOrderedField α] (m : Libm α)
    (pos : Vector3D α) : α :=
  180 / m.pi * m.asin (|pos.z| / pos.GetLength m)

/-- `GetLatitude` of optical-channel.cc: the sine of the latitude. -/
def OpticalChannel.GetLatitude {α : Type} [LinearOrderedField α] (m : Libm α)
    (pos : Vector3D α) : α :=
  |pos.z| / pos.GetLength m

/-- The radio members of `OpticalDevice` (optical-device.h), with their
initialisers. -/
structure OpticalRadio (α : Type) [LinearOrderedField α] where
  m_TxPowerDbm : α := 20
  m_rxSensitivityDbm : α := -40
  m_waveLength : α := 1550 * (1 / 10 ^ 9)
  m_TxGain : α := 110
  m_RxGain : α := 110

/-- `OpticalDevice::SetWaveLength`: `m_waveLength = wl * 1e-9`. -/
def OpticalRadio.SetWaveLength {α : Type} [LinearOrderedField α] (d : OpticalRadio α) (wl : α) :
    OpticalRadio α :=
  { d with m_waveLength := wl * (1 / 10 ^ 9) }

/-- `OpticalDevice::GetWaveLength`: `m_waveLength * 1e9`. -/
def OpticalRadio.GetWaveLength {α : Type} [LinearOrderedField α] (d : OpticalRadio α) : α :=
  d.m_waveLength * 10 ^ 9

/-- The local `rxPower` of `OpticalChannel::Receive`; `dist` is the value of
`GetDistanceFrom`. -/
def OpticalChannel.rxPower {α : Type} [LinearOrderedField α] (m : Libm α)
    (sender receiver : OpticalRadio α) (dist : α) : α :=
  let tx := sender.m_TxPowerDbm + sender.m_TxGain
  let loss := 20 * m.log10 (sender.GetWaveLength * (1 / 10 ^ 9) / (4 * m.pi * dist))
  tx + receiver.m_RxGain + loss

/-- `OpticalChannel::Receive`: whether `receiver->Receive (packet)` is called. -/
def OpticalChannel.Receive {α : Type} [LinearOrderedField α] (m : Libm α)
    (sender receiver : OpticalRadio α) (dist : α) : Bool :=
  if OpticalChannel.rxPower m sender receiver dist < receiver.m_rxSensitivityDbm then false
  else true

/-- `OrbitalElement` as the mobility model stores it: `a` in km, the angles in
radians. -/
structure KeplerElement (α : Type) where
  a : α
  e : α
  f : α
  i : α
  w : α
  RAAN : α

/-- The members of `SatelliteMobilityModel` that are not constant. -/
structure SatelliteMobilityModel (α : Type) [LinearOrderedField α] where
  m_element : KeplerElement α := ⟨0, 0, 0, 0, 0, 0⟩
  period : α := 0
  E0 : α := 0
  M0 : α := 0
  m_p : α := 0
  ecc : α := 0

/-- The constant member `miu = 3.986 * 1e5` (km^3 / s^2). -/
def miu {α : Type} [LinearOrderedField α] : α := 398600

/-- The constant member `prec = 1e-7`. -/
def prec {α : Type} [LinearOrderedField α] : α := 1 / 10 ^ 7

/-- The macro `RAD (x)`: `x * M_PI / 180`. -/
def RAD {α : Type} [LinearOrderedField α] (m : Libm α) (x : α) : α :=
  x * m.pi / 180

/-- `SatelliteMobilityModel::SetOrbitalElements (a, e, f, i, w, RAAN)`. -/
def SatelliteMobilityModel.SetOrbitalElements {α : Type} [LinearOrderedField α] (m : Libm α)
    (s : SatelliteMobilityModel α) (a e f i w RAAN : α) : SatelliteMobilityModel α :=
  let E0 := 2 * m.atan (m.sqrt ((1 - e) / (1 + e)) * m.tan (RAD m f / 2))
  { s with
    m_element := ⟨a, e, RAD m f, RAD m i, RAD m w, RAD m RAAN⟩
    m_p := a * (1 - e * e)
    period := 2 * m.pi * m.sqrt (a ^ 3 / miu)
    E0 := E0
    M0 := E0 - e * m.sin E0
    ecc := e }

/-- The `while (true)` loop of `SetTimeEpoch` (Newton iteration on Kepler's
equation), run for at most `fuel` rounds; the result is the final `E`, `none` when
the loop has not ended by then. -/
def keplerLoop {α : Type} [LinearOrderedField α] (m : Libm α) (ecc M tol : α) :
    Nat → α → Option α
  | 0, _ => none
  | fuel + 1, E =>
    let fE := E - ecc * m.sin E - M
    let dfE := 1 - ecc * m.cos E
    if |fE / dfE| > tol then keplerLoop m ecc M tol fuel (E - fE / dfE) else some E

/-- `SatelliteMobilityModel::SetTimeEpoch`; `t` is `time.GetSeconds ()`. -/
def SatelliteMobilityModel.SetTimeEpoch {α : Type} [LinearOrderedField α] [FloorRing α]
    (m : Libm α) (fuel : Nat) (s : SatelliteMobilityModel α) (t : α) :
    Option (SatelliteMobilityModel α) :=
  let t1 := fmod t s.period
  let M := 2 * m.pi / s.period * t1 + s.M0
  if s.ecc = 0 then some { s with m_element := { s.m_element with f := M } }
  else
    let E := if M < m.pi then M + s.ecc / 2 else M - s.ecc / 2
    (keplerLoop m s.ecc M prec fuel E).map fun E =>
      let f := 2 * m.atan (m.sqrt ((1 + s.ecc) / (1 - s.ecc)) * m.tan (E / 2))
      { s with m_element := { s.m_element with f := fmod f (2 * m.pi) } }

/-- `Eigen::AngleAxisd (angle, Vector3d::UnitZ ())` applied to a vector. -/
def rotateZ {α : Type} [LinearOrderedField α] (m : Libm α) (angle : α) (v : Vector3D α) :
    Vector3D α :=
  ⟨m.cos angle * v.x - m.sin angle * v.y, m.sin angle * v.x + m.cos angle * v.y, v.z⟩

/-- `Eigen::AngleAxisd (angle, Vector3d::UnitX ())` applied to a vector. -/
def rotateX {α : Type} [LinearOrderedField α] (m : Libm α) (angle : α) (v : Vector3D α) :
    Vector3D α :=
  ⟨v.x, m.cos angle * v.y - m.sin angle * v.z, m.sin angle * v.y + m.cos angle * v.z⟩

/-- The rotation `C3 (RAAN) C1 (i) C3 (w)` and the scaling by `1e3` that end
`DoGetPosition` and `DoGetVelocity`. -/
def toInertial {α : Type} [LinearOrderedField α] (m : Libm α) (el : KeplerElement α)
    (v : Vector3D α) : Vector3D α :=
  let r := rotateZ m el.RAAN (rotateX m el.i (rotateZ m el.w v))
  ⟨r.x * 1000, r.y * 1000, r.z * 1000⟩

/-- `SatelliteMobilityModel::DoGetPosition` at simulator time `now` (seconds): the
model after its `SetTimeEpoch (Simulator::Now ())` and the position in metres. -/
def SatelliteMobilityModel.DoGetPosition {α : Type} [LinearOrderedField α] [FloorRing α]
    (m : Libm α) (fuel : Nat) (s : SatelliteMobilityModel α) (now : α) :
    Option (SatelliteMobilityModel α × Vector3D α) :=
  (s.SetTimeEpoch m fuel now).map fun s1 =>
    let r := s1.m_p / (1 + s1.m_element.e * m.cos s1.m_element.f)
    (s1, toInertial m s1.m_element ⟨r * m.cos s1.m_element.f, r * m.sin s1.m_element.f, 0⟩)

/-- Scenario S2: STAR, `T = 66`, `P = 6`, `F = 1`, limit 60 degrees.  The stand-in
for the sine is only evaluated by `SetLatitudeLimit`. -/
def iridium : BuildInput :=
  { wizard := ⟨715814 / 100, 0, 0, 864 / 10, 0, 0⟩
    params := ⟨ConstellationType.STAR, 66, 6, 1⟩
    lat_limit := 60
    sinDeg := fun x => x / 90 }

/-- Walker STAR with three planes of one satellite (`T = 3`, `P = 3`, `F = 1`),
inclination 86.4 degrees, limit 50 degrees.  With the wizard at true anomaly 65.2
degrees the three nodes are at latitudes 65.0, 5.2 and 54.6 degrees; 5.6 degrees of
anomaly later they are at 70.5, 10.8 and 49.1 degrees. -/
def threePlanes : BuildInput :=
  { wizard := ⟨715814 / 100, 0, 652 / 10, 864 / 10, 0, 0⟩
    params := ⟨ConstellationType.STAR, 3, 3, 1⟩
    lat_limit := 50
    sinDeg := fun x => x / 90 }

/-- Scenario S3: DELTA, `T = 66`, `P = 6`, `F = 1`, wizard at true anomaly 0. -/
def deltaIridium : BuildInput :=
  { wizard := ⟨715814 / 100, 0, 0, 864 / 10, 0, 0⟩
    params := ⟨ConstellationType.DELTA, 66, 6, 1⟩
    lat_limit := 60
    sinDeg := fun x => x / 90 }

/-- Every node on the equator. -/
def equator : Nat → NodeLat := fun _ => ⟨0, 0⟩

/-- Latitudes in degrees listed by node (nodes beyond the list are on the equator);
the sine read-out uses the same stand-in as the inputs above. -/
def latitudes (l : List ℚ) : Nat → NodeLat :=
  fun x => ⟨l.getD x 0, l.getD x 0 / 90⟩

/-- Walker STAR with four planes of one satellite (`T = 4`, `P = 4`, `F = 1`),
inclination 86.4 degrees, limit 50 degrees.  The planes are a quarter of an orbit
apart in phase: with the wizard at true anomaly 0 the four nodes are at latitudes 0,
86, 0 and 86 degrees (rounded), an eighth of an orbit later all four are at 45
degrees, and after a quarter of an orbit they are at 86, 0, 86 and 0 degrees. -/
def fourPlanes : BuildInput :=
  { wizard := ⟨715814 / 100, 0, 0, 864 / 10, 0, 0⟩
    params := ⟨ConstellationType.STAR, 4, 4, 1⟩
    lat_limit := 50
    sinDeg := fun x => x / 90 }

/-- A run of `LinkMaintenance` ticks, one for each entry of `l` (the latitudes in
degrees, by node, at that tick). -/
def runTicks (h : Option ConstellationHelper) (l : List (List ℚ)) : Option ConstellationHelper :=
  l.foldl (fun acc g => acc.bind (LinkMaintenance (latitudes g))) h

/-! ## Basic facts about the helpers -/

theorem setAt_same {α β : Type} [DecidableEq α] (f : α → β) (a : α) (v : β) :
    setAt f a v a = v := by
  simp [setAt]

theorem setAt_other {α β : Type} [DecidableEq α] (f : α → β) (a : α) (v : β) (x : α)
    (hx : x ≠ a) : setAt f a v x = f x := by
  simp [setAt, hx]

theorem forLoop_succ {σ : Type} (n : Nat) (body : Nat → σ → Option σ) (s : σ) :
    forLoop (n + 1) body s = (forLoop n body s).bind (body n) := rfl

/-- Loop rule: an invariant indexed by the number of completed iterations. -/
theorem forLoop_inv {σ : Type} (I : Nat → σ → Prop) (body : Nat → σ → Option σ) :
    ∀ (n : Nat) (s s1 : σ), I 0 s →
      (∀ k, k < n → ∀ t t1, I k t → body k t = some t1 → I (k + 1) t1) →
      forLoop n body s = some s1 → I n s1 := by
  intro n
  induction n with
  | zero =>
    intro s s1 h0 _ hrun
    simp only [forLoop, Option.some.injEq] at hrun
    subst hrun
    exact h0
  | succ m ih =>
    intro s s1 h0 hstep hrun
    rw [forLoop_succ] at hrun
    cases hmid : forLoop m body s with
    | none => rw [hmid] at hrun; simp at hrun
    | some t =>
      rw [hmid] at hrun
      have hI : I m t := ih s t h0 (fun k hk => hstep k (Nat.lt_succ_of_lt hk)) hmid
      exact hstep m (Nat.lt_succ_self m) t s1 hI hrun

theorem idx_inj {n i j i1 j1 : Nat} (hj : j < n) (hj1 : j1 < n)
    (h : i * n + j = i1 * n + j1) : i = i1 ∧ j = j1 := by
  have hi : i = i1 := by
    rcases Nat.lt_trichotomy i i1 with hlt | heq | hgt
    · have h2 := Nat.mul_le_mul_right n (Nat.succ_le_of_lt hlt)
      rw [Nat.succ_mul] at h2
      omega
    · exact heq
    · have h2 := Nat.mul_le_mul_right n (Nat.succ_le_of_lt hgt)
      rw [Nat.succ_mul] at h2
      omega
  subst hi
  exact ⟨rfl, by omega⟩

theorem idx_lt {n p i j : Nat} (hi : i < p) (hj : j < n) : i * n + j < p * n := by
  have h2 := Nat.mul_le_mul_right n (Nat.succ_le_of_lt hi)
  rw [Nat.succ_mul] at h2
  omega

theorem succ_mod_eq {n j : Nat} (hj : j < n) :
    (j + 1) % n = if j + 1 = n then 0 else j + 1 := by
  by_cases h : j + 1 = n
  · simp [h]
  · rw [if_neg h]
    exact Nat.mod_eq_of_lt (by omega)

theorem succ_mod_lt {n j : Nat} (hj : j < n) : (j + 1) % n < n :=
  Nat.mod_lt _ (by omega)

theorem succ_mod_inj {n j j1 : Nat} (hj : j < n) (hj1 : j1 < n)
    (h : (j + 1) % n = (j1 + 1) % n) : j = j1 := by
  rw [succ_mod_eq hj, succ_mod_eq hj1] at h
  split at h <;> split at h <;> omega

/-! ## C1: parameter validation -/

/-- C1: for `P > 0`, `SetConstellationParams` fails exactly when `T mod P` (C++ `%`)
is not zero, the failure being the thrown `runtime_error`; when `T mod P = 0` it
returns, and then `GetSatsInPlane` is `T / P` (C++ `/`) and `GetNumOfPlane` is `P`. -/
theorem SetConstellationParams_contract (h : ConstellationHelper) (params : WalkerParams)
    (hP : 0 < params.P) :
    ((∃ e, SetConstellationParams h params = Except.error e) ↔
        Int.tmod params.T params.P ≠ 0) ∧
    (Int.tmod params.T params.P ≠ 0 →
        SetConstellationParams h params = Except.error Fault.runtime_error) ∧
    (Int.tmod params.T params.P = 0 →
        ∃ h1, SetConstellationParams h params = Except.ok h1) ∧
    (∀ h1, SetConstellationParams h params = Except.ok h1 →
        GetSatsInPlane h1 = Int.tdiv params.T params.P ∧ GetNumOfPlane h1 = params.P) := by
  have hP0 : params.P ≠ 0 := by omega
  by_cases hmod : Int.tmod params.T params.P = 0
  · refine ⟨?_, ?_, ?_, ?_⟩
    · simp [SetConstellationParams, hP0, hmod]
    · intro hne
      exact absurd hmod hne
    · intro _
      simp [SetConstellationParams, hP0, hmod]
    · intro h1 hok
      simp only [SetConstellationParams, hP0, hmod, if_false, ne_eq, not_true_eq_false,
        Except.ok.injEq] at hok
      subst hok
      simp [GetSatsInPlane, GetNumOfPlane]
  · refine ⟨?_, ?_, ?_, ?_⟩
    · simp [SetConstellationParams, hP0, hmod]
    · intro _
      simp [SetConstellationParams, hP0, hmod]
    · intro h0
      exact absurd h0 hmod
    · intro h1 hok
      simp [SetConstellationParams, hP0, hmod] at hok

/-- C1 at `T = 66`, `P = 6` (accepted, eleven satellites per plane). -/
theorem SetConstellationParams_contract_witness :
    (0 : Int) < (⟨ConstellationType.STAR, 66, 6, 1⟩ : WalkerParams).P ∧
    (∃ h1, SetConstellationParams {} ⟨ConstellationType.STAR, 66, 6, 1⟩ = Except.ok h1 ∧
      GetSatsInPlane h1 = 11 ∧ GetNumOfPlane h1 = 6) := by
  refine ⟨by decide, ?_⟩
  have hc := SetConstellationParams_contract {} ⟨ConstellationType.STAR, 66, 6, 1⟩ (by decide)
  obtain ⟨h1, hok⟩ := hc.2.2.1 (by decide)
  have hg := hc.2.2.2 h1 hok
  exact ⟨h1, hok, by simpa using hg.1, by simpa using hg.2⟩

/-! ## Names and `Install` -/

theorem Names.Find_append_of_some {reg l : List (String × Nat)} {name : String} {x : Nat}
    (h : Names.Find reg name = some x) : Names.Find (reg ++ l) name = some x := by
  unfold Names.Find at h ⊢
  rw [List.find?_append]
  cases hf : List.find? (fun e => decide (e.1 = name)) reg with
  | none => rw [hf] at h; simp at h
  | some e => rw [hf] at h; simpa using h

theorem Names.Find_of_Add {reg reg1 : List (String × Nat)} {name : String} {obj : Nat}
    (h : Names.Add reg name obj = some reg1) :
    Names.Find reg1 name = some obj ∧
      ∀ name1 x, Names.Find reg name1 = some x → Names.Find reg1 name1 = some x := by
  unfold Names.Add at h
  split at h
  · simp at h
  · rename_i hany
    simp only [Option.some.injEq] at h
    subst h
    refine ⟨?_, fun name1 x hx => Names.Find_append_of_some hx⟩
    have hnone : List.find? (fun e => decide (e.1 = name)) reg = none := by
      rw [List.find?_eq_none]
      intro e he hp
      apply hany
      rw [List.any_eq_true]
      exact ⟨e, he, by simp at hp; simp [hp]⟩
    unfold Names.Find
    rw [List.find?_append, hnone]
    simp

theorem doneBefore_succ_inner {i j i1 j1 : Nat} :
    doneBefore i (j + 1) i1 j1 ↔ doneBefore i j i1 j1 ∨ (i1 = i ∧ j1 = j) := by
  unfold doneBefore
  omega

theorem doneBefore_succ_outer {n i i1 j1 : Nat} (hj1 : j1 < n) :
    doneBefore (i + 1) 0 i1 j1 ↔ doneBefore i n i1 j1 := by
  unfold doneBefore
  omega

theorem doneBefore_zero {i1 j1 : Nat} : ¬ doneBefore 0 0 i1 j1 := by
  unfold doneBefore
  omega

theorem doneBefore_all {p i1 j1 : Nat} (hi : i1 < p) : doneBefore p 0 i1 j1 := by
  unfold doneBefore
  omega

theorem doneBefore_lt {p i j i1 j1 : Nat} (hi : i < p) (h : doneBefore i j i1 j1) :
    i1 < p := by
  unfold doneBefore at h
  omega

/-- Rule for two nested loops: `I i j` holds when the loops stand at `(i, j)`. -/
theorem nested_inv {σ : Type} (I : Nat → Nat → σ → Prop) (body : Nat → Nat → σ → Option σ)
    (p n : Nat) (s s1 : σ) (h0 : I 0 0 s)
    (hstep : ∀ i j, i < p → j < n → ∀ t t1, I i j t → body i j t = some t1 → I i (j + 1) t1)
    (hnext : ∀ i, i < p → ∀ t, I i n t → I (i + 1) 0 t)
    (hrun : forLoop p (fun i => forLoop n (fun j => body i j)) s = some s1) : I p 0 s1 := by
  refine forLoop_inv (fun i t => I i 0 t) _ p s s1 h0 ?_ hrun
  intro i hi t t1 hI hinner
  apply hnext i hi
  exact forLoop_inv (fun j u => I i j u) _ n t t1 hI
    (fun j hj u u1 hu hb => hstep i j hi hj u u1 hu hb) hinner

theorem InstallNode_spec {i j : Nat} {s s1 : ConstellationHelper × ℚ}
    (h : InstallNode i j s = some s1) :
    InstallFrame s.1 s1.1 ∧
      ∃ nm, Names.Add s.1.names (nodeName i j) (i * s.1.satsInPlane.toNat + j) = some nm ∧
        s1.1.names = nm := by
  unfold InstallNode at h
  simp only at h
  split at h
  · split at h
    · simp at h
    · rename_i nm hadd
      simp only [Option.some.injEq] at h
      subst h
      exact ⟨⟨_, _, _, _, rfl⟩, nm, hadd, rfl⟩
  · simp at h

theorem InstallFrame_refl (h : ConstellationHelper) : InstallFrame h h :=
  ⟨h.names, h.m_allocateElement, h.bestMatch, h.element, rfl⟩

theorem InstallFrame_trans {h0 h1 h2 : ConstellationHelper} (h01 : InstallFrame h0 h1)
    (h12 : InstallFrame h1 h2) : InstallFrame h0 h2 := by
  obtain ⟨a, b, c, d, rfl⟩ := h01
  obtain ⟨a1, b1, c1, d1, rfl⟩ := h12
  exact ⟨a1, b1, c1, d1, rfl⟩

theorem Install_spec {h h1 : ConstellationHelper} (hrun : Install h = some h1) :
    InstallFrame { h with nNodes := h.nNodes + h.m_params.T.toNat
                          m_allocateElement := h.m_wizardSateElement } h1 ∧
      ∀ i j, i < h.m_params.P.toNat → j < h.satsInPlane.toNat →
        Names.Find h1.names (nodeName i j) = some (i * h.satsInPlane.toNat + j) := by
  unfold Install at hrun
  simp only [Option.map_eq_some'] at hrun
  obtain ⟨s1, hloop, rfl⟩ := hrun
  generalize hh0 : ({ h with nNodes := h.nNodes + h.m_params.T.toNat
                             m_allocateElement := h.m_wizardSateElement } :
      ConstellationHelper) = h0 at hloop ⊢
  have hn : h0.satsInPlane = h.satsInPlane := by subst hh0; rfl
  have key := nested_inv
    (fun i j (t : ConstellationHelper × ℚ) =>
      InstallFrame h0 t.1 ∧
        ∀ i1 j1, doneBefore i j i1 j1 → j1 < h.satsInPlane.toNat →
          Names.Find t.1.names (nodeName i1 j1) = some (i1 * h.satsInPlane.toNat + j1))
    (fun i j => InstallNode i j) h.m_params.P.toNat h.satsInPlane.toNat (h0, 720) s1
    ⟨InstallFrame_refl h0, fun i1 j1 hd => absurd hd doneBefore_zero⟩
    (by
      intro i j _ _ t t1 hI hb
      obtain ⟨hfr, hfind⟩ := hI
      obtain ⟨hfr1, nm, hadd, hnm⟩ := InstallNode_spec hb
      refine ⟨InstallFrame_trans hfr hfr1, ?_⟩
      have hsat : t.1.satsInPlane = h.satsInPlane := by
        obtain ⟨a, b, c, d, e⟩ := hfr
        rw [e]; exact hn
      rw [hsat] at hadd
      obtain ⟨hnew, hold⟩ := Names.Find_of_Add hadd
      intro i1 j1 hd hj1
      rw [hnm]
      rcases doneBefore_succ_inner.mp hd with hd1 | ⟨rfl, rfl⟩
      · exact hold _ _ (hfind i1 j1 hd1 hj1)
      · exact hnew)
    (by
      intro i _ t hI
      refine ⟨hI.1, ?_⟩
      intro i1 j1 hd hj1
      exact hI.2 i1 j1 ((doneBefore_succ_outer hj1).mp hd) hj1)
    hloop
  refine ⟨key.1, ?_⟩
  intro i j hi hj
  exact key.2 i j (doneBefore_all hi) hj

theorem Valid.total {params : WalkerParams} (hv : Valid params) :
    params.T.toNat = planes params * satsPerPlane params := by
  obtain ⟨hb, hm, hn⟩ := hv
  unfold planes satsPerPlane
  have h1 := Int.tdiv_add_tmod params.T params.P
  rw [hm, add_zero] at h1
  have h2 : (0 : Int) ≤ Int.tdiv params.T params.P := by omega
  have h3 : params.T =
      ((params.P.toNat * (Int.tdiv params.T params.P).toNat : Nat) : Int) := by
    push_cast
    rw [Int.toNat_of_nonneg (le_of_lt hb), Int.toNat_of_nonneg h2]
    exact h1.symm
  omega

theorem Valid.planes_pos {params : WalkerParams} (hv : Valid params) : 0 < planes params := by
  obtain ⟨hb, _, _⟩ := hv
  unfold planes
  omega

theorem Valid.sats_pos {params : WalkerParams} (hv : Valid params) :
    0 < satsPerPlane params := by
  obtain ⟨_, _, hn⟩ := hv
  unfold satsPerPlane
  omega

theorem Valid.pred_planes {params : WalkerParams} (hv : Valid params) :
    (params.P - 1).toNat = planes params - 1 := by
  obtain ⟨hb, _, _⟩ := hv
  unfold planes
  omega

theorem node_decomp {n p x : Nat} (hx : x < p * n) :
    x / n < p ∧ x % n < n ∧ x / n * n + x % n = x := by
  have hn : 0 < n := by
    rcases Nat.eq_zero_or_pos n with h0 | h0
    · subst h0; simp at hx
    · exact h0
  refine ⟨?_, Nat.mod_lt _ hn, ?_⟩
  · exact (Nat.div_lt_iff_lt_mul hn).mpr hx
  · rw [Nat.mul_comm]; exact Nat.div_add_mod x n

theorem SetConstellationParams_ok {h h1 : ConstellationHelper} {params : WalkerParams}
    (hok : SetConstellationParams h params = Except.ok h1) :
    ∃ rs, h1 = { h with RAAN_span := rs
                        m_params := ⟨h.m_params.type, params.T, params.P, params.F⟩
                        satsInPlane := Int.tdiv params.T params.P } := by
  unfold SetConstellationParams at hok
  simp only at hok
  split at hok
  · simp at hok
  · split at hok
    · simp at hok
    · simp only [Except.ok.injEq] at hok
      subst hok
      by_cases h1 : params.type = ConstellationType.STAR <;>
        by_cases h2 : params.type = ConstellationType.DELTA <;>
        simp only [h1, h2, if_true, if_false] <;> exact ⟨_, rfl⟩

theorem InstallDev_spec {sinDeg : ℚ → ℚ} {geo : Nat → NodeLat} {h h1 : ConstellationHelper}
    (hrun : InstallDev sinDeg geo h = some h1) :
    LinkConfig sinDeg geo { h with nDevNodes := h.nNodes } = some h1 := by
  unfold InstallDev at hrun
  split at hrun
  · exact hrun
  · simp at hrun

/-- A completed build went through `LinkConfig` from a state with all nodes
named and no link yet. -/
theorem build_ready {inp : BuildInput} {geo : Nat → NodeLat} {h : ConstellationHelper}
    (hv : Valid inp.params) (hb : build inp geo = some h) :
    ∃ hD, ReadyToLink inp (satsPerPlane inp.params) (planes inp.params) hD ∧
      LinkConfig inp.sinDeg geo hD = some h := by
  unfold build at hb
  cases hS : SetConstellationParams (SetWizardSatellite {} inp.wizard) inp.params with
  | error e => rw [hS] at hb; simp at hb
  | ok h1 =>
    rw [hS] at hb
    simp only at hb
    obtain ⟨rs, rfl⟩ := SetConstellationParams_ok hS
    rw [Option.bind_eq_some] at hb
    obtain ⟨hI, hInst, hDev⟩ := hb
    obtain ⟨hfr, hfind⟩ := Install_spec hInst
    obtain ⟨nm, al, bm, el, rfl⟩ := hfr
    refine ⟨_, ?_, InstallDev_spec hDev⟩
    have htot := hv.total
    constructor
    · rfl
    · rfl
    · rfl
    · show 0 + inp.params.T.toNat = _
      omega
    · show 0 + inp.params.T.toNat = _
      omega
    · intro i j hi hj
      exact hfind i j hi hj
    · rfl
    · rfl
    · rfl
    · rfl
    · rfl
    · rfl
    · rfl

/-! ## `LinkConfig`: permanent links -/

theorem FindDev_eq {h : ConstellationHelper} {name : String} {x : Nat} (d : Direction)
    (hf : Names.Find h.names name = some x) (hx : x < h.nDevNodes) :
    FindDev h name d = some ⟨x, d⟩ := by
  unfold FindDev
  rw [hf]
  simp [hx]

theorem pair_ne_of_done {n i j i1 j1 : Nat} (hj : j < n) (hj1 : j1 < n)
    (hd : doneBefore i j i1 j1) : i1 * n + j1 ≠ i * n + j := by
  intro he
  obtain ⟨h1, h2⟩ := idx_inj hj1 hj he
  unfold doneBefore at hd
  omega

theorem succ_pair_ne_of_done {n i j i1 j1 : Nat} (hj : j < n) (hj1 : j1 < n)
    (hd : doneBefore i j i1 j1) : i1 * n + (j1 + 1) % n ≠ i * n + (j + 1) % n := by
  intro he
  obtain ⟨h1, h2⟩ := idx_inj (succ_mod_lt hj1) (succ_mod_lt hj) he
  have h3 := succ_mod_inj hj1 hj h2
  unfold doneBefore at hd
  omega

theorem permanentLink_step {inp : BuildInput} {geo : Nat → NodeLat} {n p i j : Nat}
    {hD t t1 : ConstellationHelper} (hR : ReadyToLink inp n p hD) (hi : i < p) (hj : j < n)
    (hI : PermInv n hD i j t) (hb : permanentLink geo n i j t = some t1) :
    PermInv n hD i (j + 1) t1 := by
  obtain ⟨⟨k, ch, dv, rfl⟩, hk, hpairs, hdevs, hlink⟩ := hI
  have hF1 : FindDev { hD with nChannels := k, channel := ch, dev := dv } (nodeName i j)
      Direction.FORWARD = some ⟨i * n + j, Direction.FORWARD⟩ :=
    FindDev_eq _ (hR.find i j hi hj) (by rw [show _ = hD.nDevNodes from rfl, hR.devNodes]
                                         exact idx_lt hi hj)
  have hF2 : FindDev { hD with nChannels := k, channel := ch, dev := dv }
      (nodeName i ((j + 1) % n)) Direction.BACKWARD =
      some ⟨i * n + (j + 1) % n, Direction.BACKWARD⟩ :=
    FindDev_eq _ (hR.find i _ hi (succ_mod_lt hj))
      (by rw [show _ = hD.nDevNodes from rfl, hR.devNodes]
          exact idx_lt hi (succ_mod_lt hj))
  unfold permanentLink at hb
  rw [hF1, hF2] at hb
  simp only [Option.some.injEq] at hb
  subst hb
  simp only at hk
  subst hk
  refine ⟨⟨_, _, _, rfl⟩, ?_, ?_, ?_, ?_⟩
  · show i * n + j + 1 = i * n + (j + 1)
    omega
  · intro i1 j1 hd hj1
    rcases doneBefore_succ_inner.mp hd with hd1 | ⟨rfl, rfl⟩
    · obtain ⟨q1, q2, q3, q4, q5⟩ := hpairs i1 j1 hd1 hj1
      have hne := pair_ne_of_done hj hj1 hd1
      have hne2 := succ_pair_ne_of_done hj hj1 hd1
      refine ⟨?_, ?_, ?_, ?_, ?_⟩
      · show (setAt ch _ _ _).isTemporary = false
        rw [setAt_other _ _ _ _ hne]; exact q1
      · show (setAt ch _ _ _).dev_list0 = _
        rw [setAt_other _ _ _ _ hne]; exact q2
      · show (setAt ch _ _ _).dev_list1 = _
        rw [setAt_other _ _ _ _ hne]; exact q3
      · show setAt (setAt dv _ _) _ _ _ = _
        rw [setAt_other _ _ _ _ (by simp), setAt_other _ _ _ _ (by simp [hne])]
        exact q4
      · show setAt (setAt dv _ _) _ _ _ = _
        rw [setAt_other _ _ _ _ (by simp [hne2]), setAt_other _ _ _ _ (by simp)]
        exact q5
    · refine ⟨?_, ?_, ?_, ?_, ?_⟩
      · show (setAt ch _ _ _).isTemporary = false
        rw [setAt_same]
        simp [OpticalChannel.Attach, OpticalChannel.SetType]
      · show (setAt ch _ _ _).dev_list0 = _
        rw [setAt_same]
        simp [OpticalChannel.Attach, OpticalChannel.SetType]
      · show (setAt ch _ _ _).dev_list1 = _
        rw [setAt_same]
        simp [OpticalChannel.Attach, OpticalChannel.SetType]
      · show setAt (setAt dv _ _) _ _ _ = _
        rw [setAt_other _ _ _ _ (by simp), setAt_same]
        rfl
      · show setAt (setAt dv _ _) _ _ _ = _
        rw [setAt_same]
        rfl
  · intro d c hc
    change (setAt (setAt dv _ _) _ _ d).m_channel = some c at hc
    show c < i * n + j + 1 ∧ _
    by_cases h2 : d = ⟨i * n + (j + 1) % n, Direction.BACKWARD⟩
    · rw [h2, setAt_same] at hc
      simp only [OpticalDevice.Attach, Option.some.injEq] at hc
      subst h2
      exact ⟨by omega, Or.inr rfl⟩
    · rw [setAt_other _ _ _ _ h2] at hc
      by_cases h1 : d = ⟨i * n + j, Direction.FORWARD⟩
      · rw [h1, setAt_same] at hc
        simp only [OpticalDevice.Attach, Option.some.injEq] at hc
        subst h1
        exact ⟨by omega, Or.inl rfl⟩
      · rw [setAt_other _ _ _ _ h1] at hc
        have := hdevs d c hc
        exact ⟨Nat.lt_succ_of_lt this.1, this.2⟩
  · intro d
    show (setAt (setAt dv _ _) _ _ d).m_linkUp = (setAt (setAt dv _ _) _ _ d).m_channel.isSome
    by_cases h2 : d = ⟨i * n + (j + 1) % n, Direction.BACKWARD⟩
    · rw [h2, setAt_same]; rfl
    · rw [setAt_other _ _ _ _ h2]
      by_cases h1 : d = ⟨i * n + j, Direction.FORWARD⟩
      · rw [h1, setAt_same]; rfl
      · rw [setAt_other _ _ _ _ h1]
        exact hlink d

theorem permanent_phase {inp : BuildInput} {geo : Nat → NodeLat} {n p : Nat}
    {hD hP : ConstellationHelper} (hR : ReadyToLink inp n p hD)
    (hrun : forLoop p (fun i => forLoop n (fun j => permanentLink geo n i j)) hD = some hP) :
    PermInv n hD p 0 hP := by
  refine nested_inv (fun i j t => PermInv n hD i j t) (fun i j => permanentLink geo n i j)
    p n hD hP ?_ ?_ ?_ hrun
  · refine ⟨⟨hD.nChannels, hD.channel, hD.dev, rfl⟩, ?_, ?_, ?_, ?_⟩
    · rw [hR.noChannels]; omega
    · intro i1 j1 hd
      exact absurd hd doneBefore_zero
    · intro d c hc
      rw [hR.devs] at hc
      simp at hc
    · intro d
      rw [hR.devs]
      rfl
  · intro i j hi hj t t1 hI hb
    exact permanentLink_step hR hi hj hI hb
  · intro i _ t hI
    obtain ⟨hfr, hk, hpairs, hdevs, hlink⟩ := hI
    refine ⟨hfr, ?_, ?_, hdevs, hlink⟩
    · rw [hk, Nat.succ_mul]; omega
    · intro i1 j1 hd hj1
      exact hpairs i1 j1 ((doneBefore_succ_outer hj1).mp hd) hj1

/-! ## `Connect` and `DisConnect` keep the link state consistent -/

theorem DisConnect_dev_ends (h : ConstellationHelper) (a b : DevId) (c : Nat) (d : DevId)
    (hd : d = a ∨ d = b) : ((DisConnect h a b c).dev d).m_channel = none := by
  show (setAt (setAt h.dev a _) b _ d).m_channel = none
  by_cases hb : d = b
  · rw [hb, setAt_same]; rfl
  · rw [setAt_other _ _ _ _ hb]
    have ha : d = a := by tauto
    rw [ha, setAt_same]; rfl

theorem DisConnect_dev_ends_link (h : ConstellationHelper) (a b : DevId) (c : Nat) (d : DevId)
    (hd : d = a ∨ d = b) : ((DisConnect h a b c).dev d).m_linkUp = false := by
  show (setAt (setAt h.dev a _) b _ d).m_linkUp = false
  by_cases hb : d = b
  · rw [hb, setAt_same]; rfl
  · rw [setAt_other _ _ _ _ hb]
    have ha : d = a := by tauto
    rw [ha, setAt_same]; rfl

theorem DisConnect_dev_other (h : ConstellationHelper) (a b : DevId) (c : Nat) (d : DevId)
    (ha : d ≠ a) (hb : d ≠ b) : (DisConnect h a b c).dev d = h.dev d := by
  show setAt (setAt h.dev a _) b _ d = _
  rw [setAt_other _ _ _ _ hb, setAt_other _ _ _ _ ha]

theorem DisConnect_channel_same (h : ConstellationHelper) (a b : DevId) (c : Nat) :
    (DisConnect h a b c).channel c = (h.channel c).Detach := by
  show setAt h.channel c _ c = _
  rw [setAt_same]

theorem DisConnect_channel_other (h : ConstellationHelper) (a b : DevId) (c c1 : Nat)
    (hc : c1 ≠ c) : (DisConnect h a b c).channel c1 = h.channel c1 := by
  show setAt h.channel c _ c1 = _
  rw [setAt_other _ _ _ _ hc]

theorem DisConnect_right (h : ConstellationHelper) (a b : DevId) (c : Nat) (d : DevId) :
    d ∈ (DisConnect h a b c).breaked_right ↔
      d ∈ h.breaked_right ∨ (if a.dir = Direction.RIGHT then d = a else d = b) := by
  show d ∈ (if a.dir = Direction.RIGHT then insert a h.breaked_right
            else insert b h.breaked_right) ↔ _
  split <;> simp [Finset.mem_insert, or_comm]

theorem DisConnect_left (h : ConstellationHelper) (a b : DevId) (c : Nat) (d : DevId) :
    d ∈ (DisConnect h a b c).breaked_left ↔
      d ∈ h.breaked_left ∨ (if a.dir = Direction.RIGHT then d = b else d = a) := by
  show d ∈ (if a.dir = Direction.RIGHT then insert b h.breaked_left
            else insert a h.breaked_left) ↔ _
  split <;> simp [Finset.mem_insert, or_comm]

/-- `DisConnect (a, b, c)` on an attached temporary channel `c` whose slots hold
exactly `a` and `b`. -/
theorem InvCore.disconnect {T : Nat} {h : ConstellationHelper} (hI : InvCore T h)
    {a b : DevId} {c : Nat} (hc1 : T ≤ c) (hc2 : c < h.nChannels) (hc3 : c ∉ h.unused_link)
    (hdir : (a.dir = Direction.RIGHT ∧ b.dir = Direction.LEFT) ∨
      (a.dir = Direction.LEFT ∧ b.dir = Direction.RIGHT))
    (hslots : ∀ d, ((h.channel c).dev_list0 = some d ∨ (h.channel c).dev_list1 = some d) →
      d = a ∨ d = b) :
    InvCore T (DisConnect h a b c) := by
  constructor
  · intro c1 hc
    change c1 ∈ h.unused_link ++ [c] at hc
    rw [List.mem_append, List.mem_singleton] at hc
    rcases hc with hc | rfl
    · exact hI.pool_range c1 hc
    · exact ⟨hc1, hc2⟩
  · show (h.unused_link ++ [c]).Nodup
    rw [List.nodup_append]
    refine ⟨hI.pool_nodup, List.nodup_singleton c, ?_⟩
    intro x hx hx2
    rw [List.mem_singleton] at hx2
    subst hx2
    exact hc3 hx
  · intro c1 hc
    change c1 ∈ h.unused_link ++ [c] at hc
    rw [List.mem_append, List.mem_singleton] at hc
    by_cases he : c1 = c
    · subst he
      rw [DisConnect_channel_same]
      exact ⟨rfl, rfl⟩
    · rw [DisConnect_channel_other _ _ _ _ _ he]
      rcases hc with hc | hc
      · exact hI.pool_slots c1 hc
      · exact absurd hc he
  · intro c1 h1 h2 h3
    change c1 ∉ h.unused_link ++ [c] at h3
    rw [List.mem_append, List.mem_singleton, not_or] at h3
    rw [DisConnect_channel_other _ _ _ _ _ h3.2]
    exact hI.attached c1 h1 h2 h3.1
  · intro d c1 hrl hd
    by_cases hab : d = a ∨ d = b
    · rw [DisConnect_dev_ends _ _ _ _ _ hab] at hd
      simp at hd
    · rw [not_or] at hab
      rw [DisConnect_dev_other _ _ _ _ _ hab.1 hab.2] at hd
      obtain ⟨q1, q2, q3, q4⟩ := hI.dev_ref d c1 hrl hd
      have hne : c1 ≠ c := by
        rintro rfl
        exact (not_or.mpr hab) (hslots d q4)
      rw [DisConnect_channel_other _ _ _ _ _ hne]
      refine ⟨q1, q2, ?_, q4⟩
      show c1 ∉ h.unused_link ++ [c]
      rw [List.mem_append, List.mem_singleton, not_or]
      exact ⟨q3, hne⟩
  · intro d c1 hrl hd
    have ha : d ≠ a := by
      rintro rfl
      exact hrl (by unfold IsRL; tauto)
    have hb : d ≠ b := by
      rintro rfl
      exact hrl (by unfold IsRL; tauto)
    rw [DisConnect_dev_other _ _ _ _ _ ha hb] at hd
    exact hI.dev_other d c1 hrl hd
  · intro d hd
    rw [DisConnect_right] at hd
    rcases hd with hd | hd
    · refine ⟨(hI.right_mem d hd).1, ?_⟩
      by_cases hab : d = a ∨ d = b
      · exact DisConnect_dev_ends _ _ _ _ _ hab
      · rw [not_or] at hab
        rw [DisConnect_dev_other _ _ _ _ _ hab.1 hab.2]
        exact (hI.right_mem d hd).2
    · split at hd
      · rename_i har
        subst hd
        exact ⟨har, DisConnect_dev_ends _ _ _ _ _ (Or.inl rfl)⟩
      · rename_i har
        subst hd
        refine ⟨?_, DisConnect_dev_ends _ _ _ _ _ (Or.inr rfl)⟩
        rcases hdir with h1 | h1
        · exact absurd h1.1 har
        · exact h1.2
  · intro d hd
    rw [DisConnect_left] at hd
    rcases hd with hd | hd
    · refine ⟨(hI.left_mem d hd).1, ?_⟩
      by_cases hab : d = a ∨ d = b
      · exact DisConnect_dev_ends _ _ _ _ _ hab
      · rw [not_or] at hab
        rw [DisConnect_dev_other _ _ _ _ _ hab.1 hab.2]
        exact (hI.left_mem d hd).2
    · split at hd
      · rename_i har
        subst hd
        refine ⟨?_, DisConnect_dev_ends _ _ _ _ _ (Or.inr rfl)⟩
        rcases hdir with h1 | h1
        · exact h1.2
        · rw [h1.1] at har
          exact absurd har (by decide)
      · rename_i har
        subst hd
        refine ⟨?_, DisConnect_dev_ends _ _ _ _ _ (Or.inl rfl)⟩
        rcases hdir with h1 | h1
        · exact absurd h1.1 har
        · exact h1.1
  · intro c1 h1 h2
    by_cases he : c1 = c
    · subst he
      rw [DisConnect_channel_same]
      exact hI.temp c1 h1 h2
    · rw [DisConnect_channel_other _ _ _ _ _ he]
      exact hI.temp c1 h1 h2
  · intro d
    by_cases hab : d = a ∨ d = b
    · rw [DisConnect_dev_ends _ _ _ _ _ hab, DisConnect_dev_ends_link _ _ _ _ _ hab]
      rfl
    · rw [not_or] at hab
      rw [DisConnect_dev_other _ _ _ _ _ hab.1 hab.2]
      exact hI.link_up d

/-- The shape of a successful `Connect`. -/
theorem Connect_some {geo : Nat → NodeLat} {h h1 : ConstellationHelper} {a b : DevId}
    (hrun : Connect geo h a b = some h1) :
    ∃ c, h.unused_link = h1.unused_link ++ [c] ∧
      h1.nChannels = h.nChannels ∧
      (∀ d, (d = a ∨ d = b) → h1.dev d = ⟨some c, true⟩) ∧
      (∀ d, d ≠ a → d ≠ b → h1.dev d = h.dev d) ∧
      h1.channel c = ((h.channel c).Attach a (geo a.node).sine).Attach b (geo b.node).sine ∧
      (∀ c1, c1 ≠ c → h1.channel c1 = h.channel c1) ∧
      (∀ d, d ∈ h1.breaked_right ↔
        d ∈ h.breaked_right ∧ (if a.dir = Direction.RIGHT then d ≠ a else d ≠ b)) ∧
      (∀ d, d ∈ h1.breaked_left ↔
        d ∈ h.breaked_left ∧ (if a.dir = Direction.RIGHT then d ≠ b else d ≠ a)) ∧
      h1.overPolar = h.overPolar ∧ h1.m_params = h.m_params ∧ h1.nNodes = h.nNodes ∧
      h1.lat_limit = h.lat_limit ∧ h1.log = h.log ++ [Event.connect a b] := by
  unfold Connect at hrun
  cases hl : h.unused_link.getLast? with
  | none => rw [hl] at hrun; simp at hrun
  | some c =>
    rw [hl] at hrun
    simp only [Option.some.injEq] at hrun
    subst hrun
    refine ⟨c, (List.dropLast_append_getLast? c hl).symm, rfl, ?_, ?_, ?_, ?_, ?_, ?_,
      rfl, rfl, rfl, rfl, rfl⟩
    · intro d hd
      show setAt (setAt h.dev a _) b _ d = _
      by_cases hb : d = b
      · rw [hb, setAt_same]; rfl
      · rw [setAt_other _ _ _ _ hb]
        have ha : d = a := by tauto
        rw [ha, setAt_same]; rfl
    · intro d ha hb
      show setAt (setAt h.dev a _) b _ d = _
      rw [setAt_other _ _ _ _ hb, setAt_other _ _ _ _ ha]
    · show setAt h.channel c _ c = _
      rw [setAt_same]
    · intro c1 hc1
      show setAt h.channel c _ c1 = _
      rw [setAt_other _ _ _ _ hc1]
    · intro d
      show d ∈ (if a.dir = Direction.RIGHT then h.breaked_right.erase a
                else h.breaked_right.erase b) ↔ _
      split <;> simp [Finset.mem_erase, and_comm]
    · intro d
      show d ∈ (if a.dir = Direction.RIGHT then h.breaked_left.erase b
                else h.breaked_left.erase a) ↔ _
      split <;> simp [Finset.mem_erase, and_comm]

theorem Attach_pair_slots (ch : OpticalChannel) (a b : DevId) (x y : ℚ)
    (h0 : ch.dev_list0 = none) :
    ((ch.Attach a x).Attach b y).dev_list0 = some a ∧
      ((ch.Attach a x).Attach b y).dev_list1 = some b ∧
      ((ch.Attach a x).Attach b y).isTemporary = ch.isTemporary := by
  simp [OpticalChannel.Attach, h0]

/-- `Connect (a, b)` on a RIGHT and a LEFT device of two different nodes. -/
theorem InvCore.connect {T : Nat} {geo : Nat → NodeLat} {h h1 : ConstellationHelper}
    (hI : InvCore T h) {a b : DevId}
    (hdir : (a.dir = Direction.RIGHT ∧ b.dir = Direction.LEFT) ∨
      (a.dir = Direction.LEFT ∧ b.dir = Direction.RIGHT))
    (hnode : a.node ≠ b.node) (hrun : Connect geo h a b = some h1) : InvCore T h1 := by
  obtain ⟨c, hpool, hn, hdev, hdevo, hch, hcho, hr, hl, _⟩ := Connect_some hrun
  have hcin : c ∈ h.unused_link := by rw [hpool]; simp
  have hnd := hI.pool_nodup
  rw [hpool, List.nodup_append] at hnd
  have hcnot : c ∉ h1.unused_link := fun hx => hnd.2.2 hx (List.mem_singleton.mpr rfl)
  have hsub : ∀ x, x ∈ h1.unused_link → x ∈ h.unused_link := by
    intro x hx; rw [hpool]; exact List.mem_append_left _ hx
  have hmem : ∀ x, x ∈ h.unused_link → x ∈ h1.unused_link ∨ x = c := by
    intro x hx; rw [hpool, List.mem_append, List.mem_singleton] at hx; exact hx
  obtain ⟨s0, s1, s2⟩ := Attach_pair_slots (h.channel c) a b (geo a.node).sine
    (geo b.node).sine (hI.pool_slots c hcin).1
  rw [← hch] at s0 s1 s2
  have hrange := hI.pool_range c hcin
  have hRLa : IsRL a := by unfold IsRL; tauto
  have hRLb : IsRL b := by unfold IsRL; tauto
  constructor
  · intro c1 hc
    rw [hn]
    exact hI.pool_range c1 (hsub c1 hc)
  · exact hnd.1
  · intro c1 hc
    have hne : c1 ≠ c := by rintro rfl; exact hcnot hc
    rw [hcho c1 hne]
    exact hI.pool_slots c1 (hsub c1 hc)
  · intro c1 h1' h2 h3
    by_cases he : c1 = c
    · subst he
      exact ⟨a, b, s0, s1, hdir, hnode⟩
    · rw [hcho c1 he]
      rw [hn] at h2
      refine hI.attached c1 h1' h2 ?_
      intro hx
      rcases hmem c1 hx with hx | hx
      · exact h3 hx
      · exact he hx
  · intro d c1 hrl hd
    rw [hn]
    by_cases hab : d = a ∨ d = b
    · rw [hdev d hab] at hd
      simp only [Option.some.injEq] at hd
      subst hd
      refine ⟨hrange.1, hrange.2, hcnot, ?_⟩
      rcases hab with rfl | rfl
      · exact Or.inl s0
      · exact Or.inr s1
    · rw [not_or] at hab
      rw [hdevo d hab.1 hab.2] at hd
      obtain ⟨q1, q2, q3, q4⟩ := hI.dev_ref d c1 hrl hd
      have hne : c1 ≠ c := by rintro rfl; exact q3 hcin
      rw [hcho c1 hne]
      exact ⟨q1, q2, fun hx => q3 (hsub c1 hx), q4⟩
  · intro d c1 hrl hd
    have ha : d ≠ a := by rintro rfl; exact hrl hRLa
    have hb : d ≠ b := by rintro rfl; exact hrl hRLb
    rw [hdevo d ha hb] at hd
    exact hI.dev_other d c1 hrl hd
  · intro d hd
    rw [hr] at hd
    obtain ⟨hd1, hd2⟩ := hd
    obtain ⟨q1, q2⟩ := hI.right_mem d hd1
    refine ⟨q1, ?_⟩
    have ha : d ≠ a := by
      rcases hdir with h1' | h1'
      · rw [if_pos h1'.1] at hd2; exact hd2
      · rintro rfl; rw [h1'.1] at q1; exact absurd q1 (by decide)
    have hb : d ≠ b := by
      rcases hdir with h1' | h1'
      · rintro rfl; rw [h1'.2] at q1; exact absurd q1 (by decide)
      · rw [if_neg (by rw [h1'.1]; decide)] at hd2; exact hd2
    rw [hdevo d ha hb]
    exact q2
  · intro d hd
    rw [hl] at hd
    obtain ⟨hd1, hd2⟩ := hd
    obtain ⟨q1, q2⟩ := hI.left_mem d hd1
    refine ⟨q1, ?_⟩
    have ha : d ≠ a := by
      rcases hdir with h1' | h1'
      · rintro rfl; rw [h1'.1] at q1; exact absurd q1 (by decide)
      · rw [if_neg (by rw [h1'.1]; decide)] at hd2; exact hd2
    have hb : d ≠ b := by
      rcases hdir with h1' | h1'
      · rw [if_pos h1'.1] at hd2; exact hd2
      · rintro rfl; rw [h1'.2] at q1; exact absurd q1 (by decide)
    rw [hdevo d ha hb]
    exact q2
  · intro c1 h1' h2
    rw [hn] at h2
    by_cases he : c1 = c
    · subst he
      rw [s2]
      exact hI.temp c1 h1' h2
    · rw [hcho c1 he]
      exact hI.temp c1 h1' h2
  · intro d
    by_cases hab : d = a ∨ d = b
    · rw [hdev d hab]
      rfl
    · rw [not_or] at hab
      rw [hdevo d hab.1 hab.2]
      exact hI.link_up d

/-! ## `LinkConfig`: temporary links -/

/-- A new temporary channel that goes to the spare pool (builder, polar pair). -/
theorem InvCore.extend_pool {T : Nat} {h h1 : ConstellationHelper} (hI : InvCore T h)
    {a b : DevId} (hT : T ≤ h.nChannels) (en : h1.nChannels = h.nChannels + 1)
    (enew : (h1.channel h.nChannels).dev_list0 = none ∧
      (h1.channel h.nChannels).dev_list1 = none ∧
      (h1.channel h.nChannels).isTemporary = true)
    (eold : ∀ c, c ≠ h.nChannels → h1.channel c = h.channel c)
    (edev : h1.dev = h.dev) (epool : h1.unused_link = h.unused_link ++ [h.nChannels])
    (er : h1.breaked_right = insert a h.breaked_right)
    (el : h1.breaked_left = insert b h.breaked_left)
    (ha : (h.dev a).m_channel = none) (hb : (h.dev b).m_channel = none)
    (hda : a.dir = Direction.RIGHT) (hdb : b.dir = Direction.LEFT) : InvCore T h1 := by
  constructor
  · intro c hc
    rw [epool, List.mem_append, List.mem_singleton] at hc
    rw [en]
    rcases hc with hc | rfl
    · have := hI.pool_range c hc
      exact ⟨this.1, by omega⟩
    · exact ⟨hT, by omega⟩
  · rw [epool, List.nodup_append]
    refine ⟨hI.pool_nodup, List.nodup_singleton _, ?_⟩
    intro x hx hx2
    rw [List.mem_singleton] at hx2
    subst hx2
    have := (hI.pool_range _ hx).2
    omega
  · intro c hc
    rw [epool, List.mem_append, List.mem_singleton] at hc
    by_cases he : c = h.nChannels
    · subst he
      exact ⟨enew.1, enew.2.1⟩
    · rw [eold c he]
      rcases hc with hc | hc
      · exact hI.pool_slots c hc
      · exact absurd hc he
  · intro c h1' h2 h3
    rw [epool, List.mem_append, List.mem_singleton, not_or] at h3
    rw [eold c h3.2]
    rw [en] at h2
    exact hI.attached c h1' (by omega) h3.1
  · intro d c hrl hd
    rw [edev] at hd
    obtain ⟨q1, q2, q3, q4⟩ := hI.dev_ref d c hrl hd
    have hne : c ≠ h.nChannels := by omega
    rw [eold c hne, en, epool]
    refine ⟨q1, by omega, ?_, q4⟩
    rw [List.mem_append, List.mem_singleton, not_or]
    exact ⟨q3, hne⟩
  · intro d c hrl hd
    rw [edev] at hd
    exact hI.dev_other d c hrl hd
  · intro d hd
    rw [er, Finset.mem_insert] at hd
    rw [edev]
    rcases hd with rfl | hd
    · exact ⟨hda, ha⟩
    · exact hI.right_mem d hd
  · intro d hd
    rw [el, Finset.mem_insert] at hd
    rw [edev]
    rcases hd with rfl | hd
    · exact ⟨hdb, hb⟩
    · exact hI.left_mem d hd
  · intro c h1' h2
    by_cases he : c = h.nChannels
    · subst he
      exact enew.2.2
    · rw [eold c he]
      rw [en] at h2
      exact hI.temp c h1' (by omega)
  · intro d
    rw [edev]
    exact hI.link_up d

/-- A new temporary channel attached to a RIGHT and a LEFT device (builder). -/
theorem InvCore.extend_attached {T : Nat} {h h1 : ConstellationHelper} (hI : InvCore T h)
    {a b : DevId} (hT : T ≤ h.nChannels) (en : h1.nChannels = h.nChannels + 1)
    (enew : (h1.channel h.nChannels).dev_list0 = some a ∧
      (h1.channel h.nChannels).dev_list1 = some b ∧
      (h1.channel h.nChannels).isTemporary = true)
    (eold : ∀ c, c ≠ h.nChannels → h1.channel c = h.channel c)
    (edev : ∀ d, (d = a ∨ d = b) → h1.dev d = ⟨some h.nChannels, true⟩)
    (edevo : ∀ d, d ≠ a → d ≠ b → h1.dev d = h.dev d)
    (epool : h1.unused_link = h.unused_link)
    (er : h1.breaked_right = h.breaked_right) (el : h1.breaked_left = h.breaked_left)
    (ha : a ∉ h.breaked_right) (hb : b ∉ h.breaked_left)
    (hda : a.dir = Direction.RIGHT) (hdb : b.dir = Direction.LEFT)
    (hnode : a.node ≠ b.node) : InvCore T h1 := by
  have hknot : h.nChannels ∉ h.unused_link := by
    intro hx
    have := (hI.pool_range _ hx).2
    omega
  constructor
  · intro c hc
    rw [epool] at hc
    rw [en]
    have := hI.pool_range c hc
    exact ⟨this.1, by omega⟩
  · rw [epool]; exact hI.pool_nodup
  · intro c hc
    rw [epool] at hc
    have hne : c ≠ h.nChannels := by rintro rfl; exact hknot hc
    rw [eold c hne]
    exact hI.pool_slots c hc
  · intro c h1' h2 h3
    rw [epool] at h3
    by_cases he : c = h.nChannels
    · subst he
      exact ⟨a, b, enew.1, enew.2.1, Or.inl ⟨hda, hdb⟩, hnode⟩
    · rw [eold c he]
      rw [en] at h2
      exact hI.attached c h1' (by omega) h3
  · intro d c hrl hd
    rw [en, epool]
    by_cases hab : d = a ∨ d = b
    · rw [edev d hab] at hd
      simp only [Option.some.injEq] at hd
      subst hd
      refine ⟨hT, by omega, hknot, ?_⟩
      rcases hab with rfl | rfl
      · exact Or.inl enew.1
      · exact Or.inr enew.2.1
    · rw [not_or] at hab
      rw [edevo d hab.1 hab.2] at hd
      obtain ⟨q1, q2, q3, q4⟩ := hI.dev_ref d c hrl hd
      have hne : c ≠ h.nChannels := by omega
      rw [eold c hne]
      exact ⟨q1, by omega, q3, q4⟩
  · intro d c hrl hd
    have ha' : d ≠ a := by rintro rfl; exact hrl (Or.inl hda)
    have hb' : d ≠ b := by rintro rfl; exact hrl (Or.inr hdb)
    rw [edevo d ha' hb'] at hd
    exact hI.dev_other d c hrl hd
  · intro d hd
    rw [er] at hd
    obtain ⟨q1, q2⟩ := hI.right_mem d hd
    have ha' : d ≠ a := by rintro rfl; exact ha hd
    have hb' : d ≠ b := by rintro rfl; rw [hdb] at q1; exact absurd q1 (by decide)
    rw [edevo d ha' hb']
    exact ⟨q1, q2⟩
  · intro d hd
    rw [el] at hd
    obtain ⟨q1, q2⟩ := hI.left_mem d hd
    have ha' : d ≠ a := by rintro rfl; rw [hda] at q1; exact absurd q1 (by decide)
    have hb' : d ≠ b := by rintro rfl; exact hb hd
    rw [edevo d ha' hb']
    exact ⟨q1, q2⟩
  · intro c h1' h2
    by_cases he : c = h.nChannels
    · subst he
      exact enew.2.2
    · rw [eold c he]
      rw [en] at h2
      exact hI.temp c h1' (by omega)
  · intro d
    by_cases hab : d = a ∨ d = b
    · rw [edev d hab]
      rfl
    · rw [not_or] at hab
      rw [edevo d hab.1 hab.2]
      exact hI.link_up d

/-- Permanent links survive any change that leaves the permanent channels and the
devices other than RIGHT and LEFT alone. -/
theorem PermPair.frame_perm {n i j : Nat} {h h1 : ConstellationHelper} (hp : PermPair n i j h)
    (ech : h1.channel (i * n + j) = h.channel (i * n + j))
    (edev : ∀ d, ¬ IsRL d → h1.dev d = h.dev d) : PermPair n i j h1 := by
  obtain ⟨q1, q2, q3, q4, q5⟩ := hp
  unfold PermPair
  rw [ech, edev ⟨i * n + j, Direction.FORWARD⟩ (by unfold IsRL; simp),
    edev ⟨i * n + (j + 1) % n, Direction.BACKWARD⟩ (by unfold IsRL; simp)]
  exact ⟨q1, q2, q3, q4, q5⟩

theorem TempPair.frame_temp {limit : ℚ} {geo : Nat → NodeLat} {n p i j : Nat}
    {h h1 : ConstellationHelper} (hp : TempPair limit geo n p i j h)
    (ech : h1.channel (pairChannel n p i j) = h.channel (pairChannel n p i j))
    (ea : h1.dev (pairRight n i j) = h.dev (pairRight n i j))
    (eb : h1.dev (pairLeft n i j) = h.dev (pairLeft n i j))
    (epool : pairChannel n p i j ∈ h1.unused_link ↔ pairChannel n p i j ∈ h.unused_link)
    (er : pairRight n i j ∈ h1.breaked_right ↔ pairRight n i j ∈ h.breaked_right)
    (el : pairLeft n i j ∈ h1.breaked_left ↔ pairLeft n i j ∈ h.breaked_left) :
    TempPair limit geo n p i j h1 := by
  unfold TempPair at hp ⊢
  rw [ech, ea, eb, epool, er, el]
  exact hp

theorem pair_distinct {n p i j i1 j1 : Nat} (hi : i < n) (hj : j < p - 1) (hj1 : j1 < p - 1)
    (hd : doneBefore i j i1 j1) :
    pairRight n i1 j1 ≠ pairRight n i j ∧ pairRight n i1 j1 ≠ pairLeft n i j ∧
    pairLeft n i1 j1 ≠ pairLeft n i j ∧ pairLeft n i1 j1 ≠ pairRight n i j ∧
    pairChannel n p i1 j1 ≠ pairChannel n p i j := by
  have hi1 : i1 < n := by unfold doneBefore at hd; omega
  unfold pairRight pairLeft pairChannel
  refine ⟨?_, by simp, ?_, by simp, ?_⟩
  · intro he
    simp only [DevId.mk.injEq, and_true] at he
    obtain ⟨h1, h2⟩ := idx_inj hi1 hi he
    unfold doneBefore at hd
    omega
  · intro he
    simp only [DevId.mk.injEq, and_true] at he
    obtain ⟨h1, h2⟩ := idx_inj hi1 hi he
    unfold doneBefore at hd
    omega
  · intro he
    have he2 : i1 * (p - 1) + j1 = i * (p - 1) + j := by omega
    obtain ⟨h1, h2⟩ := idx_inj hj1 hj he2
    unfold doneBefore at hd
    omega

theorem pair_nodes_ne {n i j : Nat} (hi : i < n) :
    (pairRight n i j).node ≠ (pairLeft n i j).node := by
  unfold pairRight pairLeft
  simp only
  rw [Nat.succ_mul]
  omega

theorem mem_polar_update {o : Finset Nat} {x a b : Nat} {c1 c2 : Prop} [Decidable c1]
    [Decidable c2] :
    x ∈ (if c2 then insert b (if c1 then insert a o else o) else (if c1 then insert a o else o))
      ↔ x ∈ o ∨ (c1 ∧ x = a) ∨ (c2 ∧ x = b) := by
  by_cases h1 : c1 <;> by_cases h2 : c2 <;> simp [h1, h2, Finset.mem_insert] <;> tauto

theorem temporaryLink_step {inp : BuildInput} {geo : Nat → NodeLat} {n p i j : Nat}
    {hD t t1 : ConstellationHelper} (hR : ReadyToLink inp n p hD) (hi : i < n)
    (hj : j < p - 1) (hI : TempInv hD.lat_limit geo n p hD i j t)
    (hb : temporaryLink inp.sinDeg geo i j t = some t1) :
    TempInv hD.lat_limit geo n p hD i (j + 1) t1 := by
  obtain ⟨hfr, hcount, hcore, hperm, hpairs, hfresh, hpolar⟩ := hI
  obtain ⟨k, ch, dv, pl, l, r, o, rfl⟩ := hfr
  have hF1 : FindDev { hD with nChannels := k, channel := ch, dev := dv, unused_link := pl,
                               breaked_left := l, breaked_right := r, overPolar := o }
      (nodeName j i) Direction.RIGHT = some (pairRight n i j) :=
    FindDev_eq _ (hR.find j i (by omega) hi)
      (by rw [show _ = hD.nDevNodes from rfl, hR.devNodes]; exact idx_lt (by omega) hi)
  have hF2 : FindDev { hD with nChannels := k, channel := ch, dev := dv, unused_link := pl,
                               breaked_left := l, breaked_right := r, overPolar := o }
      (nodeName (j + 1) i) Direction.LEFT = some (pairLeft n i j) :=
    FindDev_eq _ (hR.find (j + 1) i (by omega) hi)
      (by rw [show _ = hD.nDevNodes from rfl, hR.devNodes]; exact idx_lt (by omega) hi)
  simp only at hcount
  subst hcount
  -- the two devices of this pair have not been touched yet
  have hnew : ∀ d, d = pairRight n i j ∨ d = pairLeft n i j →
      (dv d).m_channel = none ∧ d ∉ r ∧ d ∉ l := by
    intro d hd
    have hrl : IsRL d := by
      rcases hd with rfl | rfl
      · exact Or.inl rfl
      · exact Or.inr rfl
    by_contra hcon
    have hex := hfresh d hrl (by
      by_contra hno
      simp only [not_or, not_not] at hno
      exact hcon ⟨hno.1, hno.2.1, hno.2.2⟩)
    obtain ⟨i1, j1, hd1, hj1, hor⟩ := hex
    obtain ⟨q1, q2, q3, q4, _⟩ := pair_distinct (n := n) (p := p) hi hj hj1 hd1
    rcases hd with rfl | rfl <;> rcases hor with e | e
    · exact q1 e.symm
    · exact q4 e.symm
    · exact q2 e.symm
    · exact q3 e.symm
  have hdef : ∀ d, (dv d).m_channel = none → dv d = ⟨none, false⟩ := by
    intro d hd
    have hl := hcore.link_up d
    change (dv d).m_linkUp = (dv d).m_channel.isSome at hl
    rw [hd] at hl
    cases hx : dv d with
    | mk mc lu =>
      rw [hx] at hd hl
      simp only at hd hl
      rw [hd, hl]
      rfl
  have hdone : ∀ i1 j1, doneBefore i (j + 1) i1 j1 →
      doneBefore i j i1 j1 ∨ (i1 = i ∧ j1 = j) := fun i1 j1 => doneBefore_succ_inner.mp
  unfold temporaryLink at hb
  rw [hF1, hF2] at hb
  simp only at hb
  split at hb
  · -- an endpoint is above the limit: spare pool
    rename_i hcond
    have hpol : pairPolar hD.lat_limit geo n i j := hcond
    simp only [Option.some.injEq] at hb
    subst hb
    constructor
    · exact ⟨_, _, _, _, _, _, _, rfl⟩
    · show p * n + i * (p - 1) + j + 1 = _
      omega
    · refine hcore.extend_pool (a := pairRight n i j) (b := pairLeft n i j)
        (show p * n ≤ p * n + i * (p - 1) + j by omega) rfl ?_ ?_ rfl rfl rfl rfl
        (hnew _ (Or.inl rfl)).1 (hnew _ (Or.inr rfl)).1 rfl rfl
      · show (setAt ch _ _ _).dev_list0 = none ∧ (setAt ch _ _ _).dev_list1 = none ∧
          (setAt ch _ _ _).isTemporary = true
        rw [setAt_same]
        exact ⟨rfl, rfl, rfl⟩
      · intro c hc
        exact setAt_other _ _ _ _ hc
    · intro i1 j1 hi1 hj1
      refine (hperm i1 j1 hi1 hj1).frame_perm ?_ (fun d _ => rfl)
      have := idx_lt hi1 hj1
      exact setAt_other _ _ _ _ (by omega)
    · intro i1 j1 hd hj1
      rcases hdone i1 j1 hd with hd1 | ⟨rfl, rfl⟩
      · obtain ⟨q1, q2, q3, q4, q5⟩ := pair_distinct (n := n) (p := p) hi hj hj1 hd1
        refine (hpairs i1 j1 hd1 hj1).frame_temp (setAt_other _ _ _ _ q5) rfl rfl ?_ ?_ ?_
        · show _ ∈ pl ++ [_] ↔ _
          rw [List.mem_append, List.mem_singleton]
          exact ⟨fun hx => hx.resolve_right q5, Or.inl⟩
        · show _ ∈ insert _ r ↔ _
          rw [Finset.mem_insert]
          exact ⟨fun hx => hx.resolve_left q1, Or.inr⟩
        · show _ ∈ insert _ l ↔ _
          rw [Finset.mem_insert]
          exact ⟨fun hx => hx.resolve_left q3, Or.inr⟩
      · refine ⟨?_, fun hno => absurd hpol hno, fun _ => ?_⟩
        · show (setAt ch _ _ _).isTemporary = true
          unfold pairChannel
          rw [setAt_same]; rfl
        · have ha := hnew _ (Or.inl rfl)
          have hb' := hnew _ (Or.inr rfl)
          refine ⟨?_, ?_, ?_, ?_, ?_, ?_, ?_⟩
          · show (setAt ch _ _ _).dev_list0 = none
            unfold pairChannel
            rw [setAt_same]; rfl
          · show (setAt ch _ _ _).dev_list1 = none
            unfold pairChannel
            rw [setAt_same]; rfl
          · exact hdef _ ha.1
          · exact hdef _ hb'.1
          · show _ ∈ pl ++ [_]
            unfold pairChannel
            simp
          · show _ ∈ insert _ r
            simp
          · show _ ∈ insert _ l
            simp
    · intro d hrl hd
      by_cases hab : d = pairRight n i j ∨ d = pairLeft n i j
      · exact ⟨i, j, Or.inr ⟨rfl, Nat.lt_succ_self j⟩, hj, hab⟩
      · rw [not_or] at hab
        have hd2 : (dv d).m_channel ≠ none ∨ d ∈ r ∨ d ∈ l := by
          rcases hd with hd | hd | hd
          · exact Or.inl hd
          · change d ∈ insert _ r at hd
            rw [Finset.mem_insert] at hd
            exact Or.inr (Or.inl (hd.resolve_left hab.1))
          · change d ∈ insert _ l at hd
            rw [Finset.mem_insert] at hd
            exact Or.inr (Or.inr (hd.resolve_left hab.2))
        obtain ⟨i2, j2, hd1, hj2, hor⟩ := hfresh d hrl hd2
        exact ⟨i2, j2, doneBefore_succ_inner.mpr (Or.inl hd1), hj2, hor⟩
    · intro x
      show x ∈ (if _ then insert _ (if _ then insert _ o else o)
                else (if _ then insert _ o else o)) ↔ _
      rw [mem_polar_update, hpolar x]
      constructor
      · rintro (⟨i2, j2, hd1, hj2, hx⟩ | ⟨hl1, rfl⟩ | ⟨hl2, rfl⟩)
        · exact ⟨i2, j2, doneBefore_succ_inner.mpr (Or.inl hd1), hj2, hx⟩
        · exact ⟨i, j, Or.inr ⟨rfl, Nat.lt_succ_self j⟩, hj, Or.inl rfl, hl1⟩
        · exact ⟨i, j, Or.inr ⟨rfl, Nat.lt_succ_self j⟩, hj, Or.inr rfl, hl2⟩
      · rintro ⟨i2, j2, hd, hj2, hx, hlat⟩
        rcases hdone i2 j2 hd with hd1 | ⟨rfl, rfl⟩
        · exact Or.inl ⟨i2, j2, hd1, hj2, hx, hlat⟩
        · rcases hx with rfl | rfl
          · exact Or.inr (Or.inl ⟨hlat, rfl⟩)
          · exact Or.inr (Or.inr ⟨hlat, rfl⟩)
  · -- both endpoints are within the limit: attach
    rename_i hcond
    have hpol : ¬ pairPolar hD.lat_limit geo n i j := hcond
    simp only [Option.some.injEq] at hb
    subst hb
    have hknot : p * n + i * (p - 1) + j ∉ pl := by
      intro hx
      have := (hcore.pool_range _ hx).2
      simp only at this
      omega
    have hslots := Attach_pair_slots
      (OpticalChannel.SetReadyBreakCallback
        (OpticalChannel.SetDisconnetCallback
          (OpticalChannel.SetLatitudeLimit inp.sinDeg
            (OpticalChannel.SetType {} ChannelType.TEMPORARY) hD.lat_limit)))
      (pairRight n i j) (pairLeft n i j) (geo (pairRight n i j).node).sine
      (geo (pairLeft n i j).node).sine rfl
    have edev : ∀ d, (d = pairRight n i j ∨ d = pairLeft n i j) →
        setAt (setAt dv (pairRight n i j)
          ((dv (pairRight n i j)).Attach (p * n + i * (p - 1) + j))) (pairLeft n i j)
          ((setAt dv (pairRight n i j)
            ((dv (pairRight n i j)).Attach (p * n + i * (p - 1) + j)) (pairLeft n i j)).Attach
              (p * n + i * (p - 1) + j)) d = ⟨some (p * n + i * (p - 1) + j), true⟩ := by
      intro d hd
      by_cases h2 : d = pairLeft n i j
      · rw [h2, setAt_same]; rfl
      · rw [setAt_other _ _ _ _ h2]
        have h1 : d = pairRight n i j := by tauto
        rw [h1, setAt_same]; rfl
    have edevo : ∀ d, d ≠ pairRight n i j → d ≠ pairLeft n i j →
        setAt (setAt dv (pairRight n i j)
          ((dv (pairRight n i j)).Attach (p * n + i * (p - 1) + j))) (pairLeft n i j)
          ((setAt dv (pairRight n i j)
            ((dv (pairRight n i j)).Attach (p * n + i * (p - 1) + j)) (pairLeft n i j)).Attach
              (p * n + i * (p - 1) + j)) d = dv d := by
      intro d h1 h2
      rw [setAt_other _ _ _ _ h2, setAt_other _ _ _ _ h1]
    constructor
    · exact ⟨_, _, _, _, _, _, _, rfl⟩
    · show p * n + i * (p - 1) + j + 1 = _
      omega
    · refine hcore.extend_attached (a := pairRight n i j) (b := pairLeft n i j)
        (show p * n ≤ p * n + i * (p - 1) + j by omega) rfl ?_ ?_ edev edevo rfl rfl rfl
        (hnew _ (Or.inl rfl)).2.1 (hnew _ (Or.inr rfl)).2.2 rfl rfl (pair_nodes_ne hi)
      · show (setAt (setAt ch _ _) _ _ _).dev_list0 = _ ∧
          (setAt (setAt ch _ _) _ _ _).dev_list1 = _ ∧
          (setAt (setAt ch _ _) _ _ _).isTemporary = true
        rw [setAt_same]
        exact ⟨hslots.1, hslots.2.1, hslots.2.2.trans rfl⟩
      · intro c hc
        show setAt (setAt ch _ _) _ _ c = ch c
        rw [setAt_other _ _ _ _ hc, setAt_other _ _ _ _ hc]
    · intro i1 j1 hi1 hj1
      refine (hperm i1 j1 hi1 hj1).frame_perm ?_ ?_
      · have := idx_lt hi1 hj1
        have hne : i1 * n + j1 ≠ p * n + i * (p - 1) + j := by omega
        show setAt (setAt ch _ _) _ _ _ = ch _
        rw [setAt_other _ _ _ _ hne, setAt_other _ _ _ _ hne]
      · intro d hd
        refine edevo d ?_ ?_
        · rintro rfl; exact hd (Or.inl rfl)
        · rintro rfl; exact hd (Or.inr rfl)
    · intro i1 j1 hd hj1
      rcases hdone i1 j1 hd with hd1 | ⟨rfl, rfl⟩
      · obtain ⟨q1, q2, q3, q4, q5⟩ := pair_distinct (n := n) (p := p) hi hj hj1 hd1
        refine (hpairs i1 j1 hd1 hj1).frame_temp ?_ (edevo _ q1 q2) (edevo _ q4 q3)
          Iff.rfl Iff.rfl Iff.rfl
        exact (setAt_other _ _ _ _ q5).trans (setAt_other _ _ _ _ q5)
      · refine ⟨?_, fun _ => ?_, fun hyes => absurd hyes hpol⟩
        · show (setAt (setAt ch _ _) _ _ _).isTemporary = true
          unfold pairChannel
          rw [setAt_same]
          exact hslots.2.2.trans rfl
        · refine ⟨?_, ?_, edev _ (Or.inl rfl), edev _ (Or.inr rfl), hknot,
            (hnew _ (Or.inl rfl)).2.1, (hnew _ (Or.inr rfl)).2.2⟩
          · show (setAt (setAt ch _ _) _ _ _).dev_list0 = _
            unfold pairChannel
            rw [setAt_same]
            exact hslots.1
          · show (setAt (setAt ch _ _) _ _ _).dev_list1 = _
            unfold pairChannel
            rw [setAt_same]
            exact hslots.2.1
    · intro d hrl hd
      by_cases hab : d = pairRight n i j ∨ d = pairLeft n i j
      · exact ⟨i, j, Or.inr ⟨rfl, Nat.lt_succ_self j⟩, hj, hab⟩
      · rw [not_or] at hab
        have hd2 : (dv d).m_channel ≠ none ∨ d ∈ r ∨ d ∈ l := by
          rcases hd with hd | hd | hd
          · left
            rw [← edevo d hab.1 hab.2]
            exact hd
          · exact Or.inr (Or.inl hd)
          · exact Or.inr (Or.inr hd)
        obtain ⟨i2, j2, hd1, hj2, hor⟩ := hfresh d hrl hd2
        exact ⟨i2, j2, doneBefore_succ_inner.mpr (Or.inl hd1), hj2, hor⟩
    · intro x
      show x ∈ o ↔ _
      rw [hpolar x]
      constructor
      · rintro ⟨i2, j2, hd1, hj2, hx⟩
        exact ⟨i2, j2, doneBefore_succ_inner.mpr (Or.inl hd1), hj2, hx⟩
      · rintro ⟨i2, j2, hd, hj2, hx, hlat⟩
        rcases hdone i2 j2 hd with hd1 | ⟨rfl, rfl⟩
        · exact ⟨i2, j2, hd1, hj2, hx, hlat⟩
        · exfalso
          apply hpol
          rcases hx with rfl | rfl
          · exact Or.inl hlat
          · exact Or.inr hlat

theorem temporary_phase {inp : BuildInput} {geo : Nat → NodeLat} {n p : Nat}
    {hD hP h : ConstellationHelper} (hR : ReadyToLink inp n p hD) (hP0 : PermInv n hD p 0 hP)
    (hrun : forLoop n (fun i => forLoop (p - 1) (fun j => temporaryLink inp.sinDeg geo i j)) hP
      = some h) :
    TempInv hD.lat_limit geo n p hD n 0 h := by
  obtain ⟨⟨k, ch, dv, rfl⟩, hk, hpairs, hdevs, hlink⟩ := hP0
  simp only at hk
  refine nested_inv (fun i j t => TempInv hD.lat_limit geo n p hD i j t)
    (fun i j => temporaryLink inp.sinDeg geo i j) n (p - 1) _ h ?_ ?_ ?_ hrun
  · constructor
    · exact ⟨_, _, _, _, _, _, _, rfl⟩
    · show k = _
      omega
    · constructor
      · intro c hc
        change c ∈ hD.unused_link at hc
        rw [hR.pool] at hc
        simp at hc
      · show hD.unused_link.Nodup
        rw [hR.pool]
        exact List.nodup_nil
      · intro c hc
        change c ∈ hD.unused_link at hc
        rw [hR.pool] at hc
        simp at hc
      · intro c h1 h2
        change c < k at h2
        omega
      · intro d c hrl hd
        have := (hdevs d c hd).2
        unfold IsRL at hrl
        rcases hrl with e | e <;> rw [e] at this <;> simp at this
      · intro d c _ hd
        have := (hdevs d c hd).1
        change c < k at this
        omega
      · intro d hd
        change d ∈ hD.breaked_right at hd
        rw [hR.right] at hd
        simp at hd
      · intro d hd
        change d ∈ hD.breaked_left at hd
        rw [hR.left] at hd
        simp at hd
      · intro c h1 h2
        change c < k at h2
        omega
      · exact hlink
    · intro i1 j1 hi1 hj1
      exact hpairs i1 j1 (doneBefore_all hi1) hj1
    · intro i1 j1 hd
      exact absurd hd doneBefore_zero
    · intro d hrl hd
      exfalso
      rcases hd with hd | hd | hd
      · cases hc : (dv d).m_channel with
        | none => exact hd hc
        | some c =>
          have := (hdevs d c hc).2
          unfold IsRL at hrl
          rcases hrl with e | e <;> rw [e] at this <;> simp at this
      · change d ∈ hD.breaked_right at hd
        rw [hR.right] at hd
        simp at hd
      · change d ∈ hD.breaked_left at hd
        rw [hR.left] at hd
        simp at hd
    · intro x
      show x ∈ hD.overPolar ↔ _
      rw [hR.polar]
      constructor
      · intro hx
        simp at hx
      · rintro ⟨i1, j1, hd, _⟩
        exact absurd hd doneBefore_zero
  · intro i j hi hj t t1 hI hb
    exact temporaryLink_step hR hi hj hI hb
  · intro i _ t hI
    obtain ⟨hfr, hcount, hcore, hperm, hpr, hfresh, hpolar⟩ := hI
    refine ⟨hfr, ?_, hcore, hperm, ?_, ?_, ?_⟩
    · rw [hcount, Nat.succ_mul]; omega
    · intro i1 j1 hd hj1
      exact hpr i1 j1 ((doneBefore_succ_outer hj1).mp hd) hj1
    · intro d hrl hd
      obtain ⟨i1, j1, hd1, hj1, hor⟩ := hfresh d hrl hd
      exact ⟨i1, j1, (doneBefore_succ_outer hj1).mpr hd1, hj1, hor⟩
    · intro x
      rw [hpolar x]
      constructor
      · rintro ⟨i1, j1, hd1, hj1, hx⟩
        exact ⟨i1, j1, (doneBefore_succ_outer hj1).mpr hd1, hj1, hx⟩
      · rintro ⟨i1, j1, hd1, hj1, hx⟩
        exact ⟨i1, j1, (doneBefore_succ_outer hj1).mp hd1, hj1, hx⟩

/-- What a completed build leaves, for a valid configuration. -/
theorem build_spec {inp : BuildInput} {geo : Nat → NodeLat} {h : ConstellationHelper}
    (hv : Valid inp.params) (hb : build inp geo = some h) :
    ∃ hD, ReadyToLink inp (satsPerPlane inp.params) (planes inp.params) hD ∧
      TempInv inp.lat_limit geo (satsPerPlane inp.params) (planes inp.params) hD
        (satsPerPlane inp.params) 0 h := by
  obtain ⟨hD, hR, hL⟩ := build_ready hv hb
  refine ⟨hD, hR, ?_⟩
  unfold LinkConfig at hL
  simp only at hL
  rw [hR.paramsT, hR.paramsP, hv.pred_planes] at hL
  rw [Option.bind_eq_some] at hL
  obtain ⟨hP, hperm, htemp⟩ := hL
  have h1 := permanent_phase hR hperm
  have h2 := temporary_phase hR h1 htemp
  rw [hR.limit] at h2
  exact h2

/-! ## C2: the permanent rings -/

theorem LinkFrame.names {h0 h : ConstellationHelper} (hf : LinkFrame h0 h) :
    h.names = h0.names ∧ h.m_params = h0.m_params ∧ h.nNodes = h0.nNodes ∧
      h.lat_limit = h0.lat_limit ∧ h.log = h0.log := by
  obtain ⟨k, ch, dv, pl, l, r, o, rfl⟩ := hf
  exact ⟨rfl, rfl, rfl, rfl, rfl⟩

theorem forwardHop_perm {n i j : Nat} {h : ConstellationHelper} (hp : PermPair n i j h) :
    forwardHop h (i * n + j) = some (i * n + (j + 1) % n) := by
  obtain ⟨_, q2, q3, q4, _⟩ := hp
  unfold forwardHop
  rw [q4]
  simp only
  unfold OpticalChannel.GetAnother
  rw [q2, q3]
  simp

theorem forwardHops_perm {n p i j : Nat} {h : ConstellationHelper} (hi : i < p) (hj : j < n)
    (hp : ∀ i1 j1, i1 < p → j1 < n → PermPair n i1 j1 h) (k : Nat) :
    forwardHops h k (i * n + j) = some (i * n + (j + k) % n) := by
  induction k with
  | zero =>
    show some _ = _
    rw [Nat.add_zero, Nat.mod_eq_of_lt hj]
  | succ k ih =>
    show (forwardHops h k (i * n + j)).bind (forwardHop h) = _
    rw [ih]
    show forwardHop h _ = _
    rw [forwardHop_perm (hp i _ hi (Nat.mod_lt _ (by omega))), Nat.mod_add_mod]
    rfl

theorem ring_no_early_return {n j k : Nat} (hj : j < n) (hk0 : 0 < k) (hk : k < n) :
    (j + k) % n ≠ j := by
  by_cases h : j + k < n
  · rw [Nat.mod_eq_of_lt h]; omega
  · rw [Nat.mod_eq_sub_mod (by omega), Nat.mod_eq_of_lt (by omega)]
    omega

theorem ring_reaches {n j j1 : Nat} (hj : j < n) (hj1 : j1 < n) :
    ∃ k, k < n ∧ (j + k) % n = j1 := by
  by_cases h : j ≤ j1
  · refine ⟨j1 - j, by omega, ?_⟩
    rw [show j + (j1 - j) = j1 by omega, Nat.mod_eq_of_lt hj1]
  · refine ⟨j1 + n - j, by omega, ?_⟩
    rw [show j + (j1 + n - j) = j1 + n by omega, Nat.add_mod_right, Nat.mod_eq_of_lt hj1]

theorem temp_iff_index {inp : BuildInput} {geo : Nat → NodeLat} {n p : Nat}
    {hD h : ConstellationHelper} (hT : TempInv inp.lat_limit geo n p hD n 0 h) (c : Nat)
    (hc : c < h.nChannels) : (h.channel c).isTemporary = true ↔ p * n ≤ c := by
  constructor
  · intro ht
    by_contra hlt
    obtain ⟨h1, h2, h3⟩ := node_decomp (Nat.lt_of_not_le hlt)
    have := (hT.perm _ _ h1 h2).1
    rw [h3, ht] at this
    simp at this
  · intro hge
    exact hT.core.temp c hge hc

theorem count_by_index {h : ConstellationHelper} {T M : Nat} (hn : h.nChannels = T + M)
    (hiff : ∀ c, c < h.nChannels → ((h.channel c).isTemporary = true ↔ T ≤ c)) :
    countForever h = T ∧ countTemporary h = M := by
  constructor
  · unfold countForever
    have : (Finset.range h.nChannels).filter (fun c => (h.channel c).isTemporary = false)
        = Finset.range T := by
      ext c
      simp only [Finset.mem_filter, Finset.mem_range]
      constructor
      · rintro ⟨hc, hf⟩
        by_contra hge
        have := (hiff c hc).mpr (by omega)
        rw [hf] at this
        simp at this
      · intro hc
        have hc2 : c < h.nChannels := by omega
        refine ⟨hc2, ?_⟩
        by_contra hne
        rw [Bool.not_eq_false] at hne
        have := (hiff c hc2).mp hne
        omega
    rw [this, Finset.card_range]
  · unfold countTemporary
    have : (Finset.range h.nChannels).filter (fun c => (h.channel c).isTemporary = true)
        = Finset.Ico T (T + M) := by
      ext c
      simp only [Finset.mem_filter, Finset.mem_range, Finset.mem_Ico]
      constructor
      · rintro ⟨hc, hf⟩
        exact ⟨(hiff c hc).mp hf, by omega⟩
      · rintro ⟨h1, h2⟩
        have hc2 : c < h.nChannels := by omega
        exact ⟨hc2, (hiff c hc2).mpr h1⟩
    rw [this, Nat.card_Ico]
    omega

/-- C2: after the build of a valid configuration (`P > 0`, `T % P = 0`,
`N = T / P ≥ 1`) the node named `S{i}{j}` is node `i * N + j`; the FOREVER channels
are exactly the first `T = P * N` channels, and channel `i * N + j` joins the FORWARD
device of `S{i}{j}` (slot 0) to the BACKWARD device of `S{i}{(j + 1) mod N}` (slot 1),
both devices holding it with link up.  Following FORWARD links from `S{i}{j}` leads
back to it after exactly `N` hops and not earlier, never leaves plane `i`, and
reaches every node of plane `i`. -/
theorem permanent_rings (inp : BuildInput) (geo : Nat → NodeLat) (h : ConstellationHelper)
    (hv : Valid inp.params) (hb : build inp geo = some h) :
    inp.params.T = ((planes inp.params * satsPerPlane inp.params : Nat) : Int) ∧
    (∀ i j, i < planes inp.params → j < satsPerPlane inp.params →
      Names.Find h.names (nodeName i j) = some (i * satsPerPlane inp.params + j)) ∧
    (∀ c, c < h.nChannels →
      ((h.channel c).isTemporary = false ↔ c < planes inp.params * satsPerPlane inp.params)) ∧
    countForever h = planes inp.params * satsPerPlane inp.params ∧
    (∀ i j, i < planes inp.params → j < satsPerPlane inp.params →
      PermPair (satsPerPlane inp.params) i j h ∧
      forwardHops h (satsPerPlane inp.params) (i * satsPerPlane inp.params + j) =
        some (i * satsPerPlane inp.params + j) ∧
      (∀ k, 0 < k → k < satsPerPlane inp.params →
        forwardHops h k (i * satsPerPlane inp.params + j) ≠
          some (i * satsPerPlane inp.params + j)) ∧
      (∀ k, ∃ j1, j1 < satsPerPlane inp.params ∧
        forwardHops h k (i * satsPerPlane inp.params + j) =
          some (i * satsPerPlane inp.params + j1)) ∧
      (∀ j1, j1 < satsPerPlane inp.params → ∃ k, k < satsPerPlane inp.params ∧
        forwardHops h k (i * satsPerPlane inp.params + j) =
          some (i * satsPerPlane inp.params + j1))) := by
  obtain ⟨hD, hR, hT⟩ := build_spec hv hb
  generalize hn : satsPerPlane inp.params = n at *
  generalize hp : planes inp.params = p at *
  have hcount : h.nChannels = p * n + n * (p - 1) := by
    have := hT.count
    omega
  have hiff := temp_iff_index hT
  refine ⟨?_, ?_, ?_, ?_, ?_⟩
  · have h1 := hv.total
    have h2 : 0 < inp.params.T := by
      have := hv.1
      have := hv.2.2
      have h3 := Int.tdiv_add_tmod inp.params.T inp.params.P
      rw [hv.2.1, add_zero] at h3
      rw [← h3]
      positivity
    rw [hn, hp] at h1
    omega
  · intro i j hi hj
    rw [hT.frame.names.1]
    exact hR.find i j hi hj
  · intro c hc
    rw [← not_iff_not, Bool.not_eq_false, hiff c hc]
    omega
  · exact (count_by_index hcount hiff).1
  · intro i j hi hj
    have hops := forwardHops_perm hi hj hT.perm
    refine ⟨hT.perm i j hi hj, ?_, ?_, ?_, ?_⟩
    · rw [hops, Nat.add_mod_right, Nat.mod_eq_of_lt hj]
    · intro k hk0 hk
      rw [hops]
      intro he
      simp only [Option.some.injEq] at he
      exact ring_no_early_return hj hk0 hk (by omega)
    · intro k
      exact ⟨(j + k) % n, Nat.mod_lt _ (by omega), hops k⟩
    · intro j1 hj1
      obtain ⟨k, hk, he⟩ := ring_reaches hj hj1
      exact ⟨k, hk, by rw [hops, he]⟩

theorem iridium_build_defined : ∃ h, build iridium equator = some h := by
  have hsome : (build iridium equator).isSome = true := by decide
  exact Option.isSome_iff_exists.mp hsome

theorem iridium_valid : Valid iridium.params := by
  unfold Valid
  decide

theorem iridium_planes : planes iridium.params = 6 := by decide

theorem iridium_sats : satsPerPlane iridium.params = 11 := by decide

/-- C2 on scenario S2 with every node on the equator: 66 permanent channels, and
eleven FORWARD hops from node 0 lead back to node 0. -/
theorem permanent_rings_witness :
    Valid iridium.params ∧
    ∃ h, build iridium equator = some h ∧ countForever h = 66 ∧
      forwardHops h 11 0 = some 0 := by
  obtain ⟨h, hb⟩ := iridium_build_defined
  have hc := permanent_rings iridium equator h iridium_valid hb
  rw [iridium_planes, iridium_sats] at hc
  refine ⟨iridium_valid, h, hb, hc.2.2.2.1, ?_⟩
  have := (hc.2.2.2.2 0 0 (by omega) (by omega)).2.1
  simpa using this

/-! ## C3 and C4: the temporary ladder and the latitude gate of the builder -/

theorem pairChannel_inj {n p i j i1 j1 : Nat} (hj : j < p - 1) (hj1 : j1 < p - 1)
    (he : pairChannel n p i j = pairChannel n p i1 j1) : i = i1 ∧ j = j1 := by
  unfold pairChannel at he
  exact idx_inj hj hj1 (by omega)

theorem temp_channel_pair {n p c : Nat} (h1 : p * n ≤ c) (h2 : c < p * n + n * (p - 1)) :
    ∃ i j, i < n ∧ j < p - 1 ∧ c = pairChannel n p i j := by
  obtain ⟨q1, q2, q3⟩ := node_decomp (n := p - 1) (p := n) (x := c - p * n) (by omega)
  refine ⟨(c - p * n) / (p - 1), (c - p * n) % (p - 1), q1, q2, ?_⟩
  unfold pairChannel
  omega

/-- C3: the build of a valid configuration creates `T + N * (P - 1)` channels, of
which exactly `N * (P - 1)` are TEMPORARY: one per pair (plane `j < P - 1`, slot
`i < N`), namely channel `T + i * (P - 1) + j`, whose slots hold the RIGHT device of
`S{j}{i}` and the LEFT device of `S{j+1}{i}` (or nothing, when the builder put it in
the spare pool).  No temporary channel holds a LEFT device of plane 0 or a RIGHT
device of plane `P - 1`.  For `T = 66`, `P = 6` there are 66 permanent and 55
temporary channels. -/
theorem temporary_ladder (inp : BuildInput) (geo : Nat → NodeLat) (h : ConstellationHelper)
    (hv : Valid inp.params) (hb : build inp geo = some h) :
    h.nChannels = planes inp.params * satsPerPlane inp.params +
      satsPerPlane inp.params * (planes inp.params - 1) ∧
    countTemporary h = satsPerPlane inp.params * (planes inp.params - 1) ∧
    (∀ c, c < h.nChannels → ((h.channel c).isTemporary = true ↔
      ∃ i j, i < satsPerPlane inp.params ∧ j < planes inp.params - 1 ∧
        c = pairChannel (satsPerPlane inp.params) (planes inp.params) i j)) ∧
    (∀ i j i1 j1, j < planes inp.params - 1 → j1 < planes inp.params - 1 →
      pairChannel (satsPerPlane inp.params) (planes inp.params) i j =
        pairChannel (satsPerPlane inp.params) (planes inp.params) i1 j1 → i = i1 ∧ j = j1) ∧
    (∀ i j, i < satsPerPlane inp.params → j < planes inp.params - 1 →
      Names.Find h.names (nodeName j i) = some (pairRight (satsPerPlane inp.params) i j).node ∧
      Names.Find h.names (nodeName (j + 1) i) =
        some (pairLeft (satsPerPlane inp.params) i j).node ∧
      pairChannel (satsPerPlane inp.params) (planes inp.params) i j < h.nChannels ∧
      (((h.channel (pairChannel (satsPerPlane inp.params) (planes inp.params) i j)).dev_list0 =
            some (pairRight (satsPerPlane inp.params) i j) ∧
          (h.channel (pairChannel (satsPerPlane inp.params) (planes inp.params) i j)).dev_list1 =
            some (pairLeft (satsPerPlane inp.params) i j)) ∨
        ((h.channel (pairChannel (satsPerPlane inp.params) (planes inp.params) i j)).dev_list0 =
            none ∧
          (h.channel (pairChannel (satsPerPlane inp.params) (planes inp.params) i j)).dev_list1 =
            none))) ∧
    (∀ c d, planes inp.params * satsPerPlane inp.params ≤ c → c < h.nChannels →
      ((h.channel c).dev_list0 = some d ∨ (h.channel c).dev_list1 = some d) →
      ¬ (d.dir = Direction.LEFT ∧ d.node < satsPerPlane inp.params) ∧
      ¬ (d.dir = Direction.RIGHT ∧
          (planes inp.params - 1) * satsPerPlane inp.params ≤ d.node)) ∧
    (inp.params.T = 66 → inp.params.P = 6 → countForever h = 66 ∧ countTemporary h = 55) := by
  obtain ⟨hD, hR, hT⟩ := build_spec hv hb
  have hcnt : ∀ T P : Int, inp.params.T = T → inp.params.P = P →
      planes inp.params = P.toNat ∧ satsPerPlane inp.params = (Int.tdiv T P).toNat := by
    intro T P h1 h2
    unfold planes satsPerPlane
    rw [h1, h2]
    exact ⟨rfl, rfl⟩
  generalize hn : satsPerPlane inp.params = n at *
  generalize hp : planes inp.params = p at *
  have hcount : h.nChannels = p * n + n * (p - 1) := by
    have := hT.count
    omega
  have hiff := temp_iff_index hT
  have hslot : ∀ i j, i < n → j < p - 1 →
      (((h.channel (pairChannel n p i j)).dev_list0 = some (pairRight n i j) ∧
          (h.channel (pairChannel n p i j)).dev_list1 = some (pairLeft n i j)) ∨
        ((h.channel (pairChannel n p i j)).dev_list0 = none ∧
          (h.channel (pairChannel n p i j)).dev_list1 = none)) := by
    intro i j hi hj
    obtain ⟨_, q2, q3⟩ := hT.pairs i j (Or.inl hi) hj
    by_cases hpol : pairPolar inp.lat_limit geo n i j
    · exact Or.inr ⟨(q3 hpol).1, (q3 hpol).2.1⟩
    · exact Or.inl ⟨(q2 hpol).1, (q2 hpol).2.1⟩
  have hlt : ∀ i j, i < n → j < p - 1 → pairChannel n p i j < p * n + n * (p - 1) := by
    intro i j hi hj
    have := idx_lt hi hj
    unfold pairChannel
    omega
  refine ⟨hcount, (count_by_index hcount hiff).2, ?_, ?_, ?_, ?_, ?_⟩
  · intro c hc
    rw [hiff c hc]
    constructor
    · intro hge
      exact temp_channel_pair hge (by omega)
    · rintro ⟨i, j, _, _, rfl⟩
      unfold pairChannel
      omega
  · intro i j i1 j1 hj hj1 he
    exact pairChannel_inj hj hj1 he
  · intro i j hi hj
    rw [hT.frame.names.1]
    refine ⟨hR.find j i (by omega) hi, hR.find (j + 1) i (by omega) hi, ?_, hslot i j hi hj⟩
    rw [hcount]
    exact hlt i j hi hj
  · intro c d hge hc hd
    obtain ⟨i, j, hi, hj, rfl⟩ := temp_channel_pair hge (by omega)
    have hd2 : d = pairRight n i j ∨ d = pairLeft n i j := by
      rcases hslot i j hi hj with ⟨e0, e1⟩ | ⟨e0, e1⟩
      · rw [e0, e1] at hd
        simp only [Option.some.injEq] at hd
        rcases hd with e | e
        · exact Or.inl e.symm
        · exact Or.inr e.symm
      · rw [e0, e1] at hd
        simp at hd
    rcases hd2 with rfl | rfl
    · refine ⟨by simp [pairRight], ?_⟩
      rintro ⟨_, hge2⟩
      have := idx_lt hj hi
      simp only [pairRight] at hge2
      omega
    · refine ⟨?_, by simp [pairLeft]⟩
      rintro ⟨_, hlt2⟩
      simp only [pairLeft] at hlt2
      rw [Nat.succ_mul] at hlt2
      omega
  · intro h66 h6
    obtain ⟨e1, e2⟩ := hcnt 66 6 h66 h6
    have e3 : p = 6 := e1.trans (by decide)
    have e4 : n = 11 := e2.trans (by decide)
    have := count_by_index hcount hiff
    rw [e3, e4] at this
    exact this

/-- C3 on scenario S2 with every node on the equator: 66 permanent and 55 temporary
channels. -/
theorem temporary_ladder_witness :
    Valid iridium.params ∧
    ∃ h, build iridium equator = some h ∧ countForever h = 66 ∧ countTemporary h = 55 := by
  obtain ⟨h, hb⟩ := iridium_build_defined
  have hc := temporary_ladder iridium equator h iridium_valid hb
  exact ⟨iridium_valid, h, hb, hc.2.2.2.2.2.2 rfl rfl⟩

/-- C4: after the build of a valid configuration, for every inter-plane pair (RIGHT
device of `S{j}{i}`, LEFT device of `S{j+1}{i}`, latitudes `lat1`, `lat2`): the
pair's channel holds both devices and both devices hold it with link up if and only
if `lat1 ≤ lat_limit` and `lat2 ≤ lat_limit`; otherwise the channel is in the spare
pool with empty slots, the devices hold no channel (link down), the RIGHT device is
in `breaked_right` and the LEFT device in `breaked_left`.  The polar set holds
exactly the endpoint node ids whose latitude exceeds the limit; the spare pool and
the two broken sets hold nothing else. -/
theorem builder_latitude_gate (inp : BuildInput) (geo : Nat → NodeLat)
    (h : ConstellationHelper) (hv : Valid inp.params) (hb : build inp geo = some h) :
    (∀ i j, i < satsPerPlane inp.params → j < planes inp.params - 1 →
      (((h.channel (pairChannel (satsPerPlane inp.params) (planes inp.params) i j)).dev_list0 =
            some (pairRight (satsPerPlane inp.params) i j) ∧
          (h.channel (pairChannel (satsPerPlane inp.params) (planes inp.params) i j)).dev_list1 =
            some (pairLeft (satsPerPlane inp.params) i j) ∧
          h.dev (pairRight (satsPerPlane inp.params) i j) =
            ⟨some (pairChannel (satsPerPlane inp.params) (planes inp.params) i j), true⟩ ∧
          h.dev (pairLeft (satsPerPlane inp.params) i j) =
            ⟨some (pairChannel (satsPerPlane inp.params) (planes inp.params) i j), true⟩) ↔
        ((geo (pairRight (satsPerPlane inp.params) i j).node).deg ≤ inp.lat_limit ∧
          (geo (pairLeft (satsPerPlane inp.params) i j).node).deg ≤ inp.lat_limit)) ∧
      (¬ ((geo (pairRight (satsPerPlane inp.params) i j).node).deg ≤ inp.lat_limit ∧
          (geo (pairLeft (satsPerPlane inp.params) i j).node).deg ≤ inp.lat_limit) →
        pairChannel (satsPerPlane inp.params) (planes inp.params) i j ∈ h.unused_link ∧
        (h.channel (pairChannel (satsPerPlane inp.params) (planes inp.params) i j)).dev_list0 =
          none ∧
        (h.channel (pairChannel (satsPerPlane inp.params) (planes inp.params) i j)).dev_list1 =
          none ∧
        h.dev (pairRight (satsPerPlane inp.params) i j) = ⟨none, false⟩ ∧
        h.dev (pairLeft (satsPerPlane inp.params) i j) = ⟨none, false⟩ ∧
        pairRight (satsPerPlane inp.params) i j ∈ h.breaked_right ∧
        pairLeft (satsPerPlane inp.params) i j ∈ h.breaked_left)) ∧
    (∀ x, x ∈ h.overPolar ↔
      ∃ i j, i < satsPerPlane inp.params ∧ j < planes inp.params - 1 ∧
        (x = (pairRight (satsPerPlane inp.params) i j).node ∨
          x = (pairLeft (satsPerPlane inp.params) i j).node) ∧
        (geo x).deg > inp.lat_limit) ∧
    (∀ c, c ∈ h.unused_link ↔
      ∃ i j, i < satsPerPlane inp.params ∧ j < planes inp.params - 1 ∧
        c = pairChannel (satsPerPlane inp.params) (planes inp.params) i j ∧
        pairPolar inp.lat_limit geo (satsPerPlane inp.params) i j) ∧
    (∀ d, d ∈ h.breaked_right ↔
      ∃ i j, i < satsPerPlane inp.params ∧ j < planes inp.params - 1 ∧
        d = pairRight (satsPerPlane inp.params) i j ∧
        pairPolar inp.lat_limit geo (satsPerPlane inp.params) i j) ∧
    (∀ d, d ∈ h.breaked_left ↔
      ∃ i j, i < satsPerPlane inp.params ∧ j < planes inp.params - 1 ∧
        d = pairLeft (satsPerPlane inp.params) i j ∧
        pairPolar inp.lat_limit geo (satsPerPlane inp.params) i j) := by
  obtain ⟨hD, hR, hT⟩ := build_spec hv hb
  generalize hn : satsPerPlane inp.params = n at *
  generalize hp : planes inp.params = p at *
  have hcount : h.nChannels = p * n + n * (p - 1) := by
    have := hT.count
    omega
  have hpolar_iff : ∀ i j, pairPolar inp.lat_limit geo n i j ↔
      ¬ ((geo (pairRight n i j).node).deg ≤ inp.lat_limit ∧
          (geo (pairLeft n i j).node).deg ≤ inp.lat_limit) := by
    intro i j
    unfold pairPolar pairRight pairLeft
    simp only [gt_iff_lt, not_and_or, not_le]
  have hdn : ∀ i1 j1, doneBefore n 0 i1 j1 ↔ i1 < n := by
    intro i1 j1
    unfold doneBefore
    omega
  refine ⟨?_, ?_, ?_, ?_, ?_⟩
  · intro i j hi hj
    obtain ⟨_, q2, q3⟩ := hT.pairs i j (Or.inl hi) hj
    constructor
    · constructor
      · intro hatt
        by_contra hno
        have hpol := (hpolar_iff i j).mpr hno
        have := (q3 hpol).1
        rw [hatt.1] at this
        simp at this
      · intro hle
        have hpol : ¬ pairPolar inp.lat_limit geo n i j := fun hx => (hpolar_iff i j).mp hx hle
        obtain ⟨a1, a2, a3, a4, _⟩ := q2 hpol
        exact ⟨a1, a2, a3, a4⟩
    · intro hno
      obtain ⟨a1, a2, a3, a4, a5, a6, a7⟩ := q3 ((hpolar_iff i j).mpr hno)
      exact ⟨a5, a1, a2, a3, a4, a6, a7⟩
  · intro x
    rw [hT.polar x]
    constructor
    · rintro ⟨i, j, hd, hj, hx, hlat⟩
      exact ⟨i, j, (hdn i j).mp hd, hj, hx, hlat⟩
    · rintro ⟨i, j, hi, hj, hx, hlat⟩
      exact ⟨i, j, (hdn i j).mpr hi, hj, hx, hlat⟩
  · intro c
    constructor
    · intro hc
      obtain ⟨hge, hlt⟩ := hT.core.pool_range c hc
      obtain ⟨i, j, hi, hj, rfl⟩ := temp_channel_pair hge (by omega)
      refine ⟨i, j, hi, hj, rfl, ?_⟩
      by_contra hpol
      exact ((hT.pairs i j (Or.inl hi) hj).2.1 hpol).2.2.2.2.1 hc
    · rintro ⟨i, j, hi, hj, rfl, hpol⟩
      exact ((hT.pairs i j (Or.inl hi) hj).2.2 hpol).2.2.2.2.1
  · intro d
    constructor
    · intro hd
      have hdir := (hT.core.right_mem d hd).1
      obtain ⟨i, j, hdone, hj, hor⟩ := hT.fresh d (Or.inl hdir) (Or.inr (Or.inl hd))
      have hi := (hdn i j).mp hdone
      rcases hor with rfl | rfl
      · refine ⟨i, j, hi, hj, rfl, ?_⟩
        by_contra hpol
        exact ((hT.pairs i j (Or.inl hi) hj).2.1 hpol).2.2.2.2.2.1 hd
      · simp [pairLeft] at hdir
    · rintro ⟨i, j, hi, hj, rfl, hpol⟩
      exact ((hT.pairs i j (Or.inl hi) hj).2.2 hpol).2.2.2.2.2.1
  · intro d
    constructor
    · intro hd
      have hdir := (hT.core.left_mem d hd).1
      obtain ⟨i, j, hdone, hj, hor⟩ := hT.fresh d (Or.inr hdir) (Or.inr (Or.inr hd))
      have hi := (hdn i j).mp hdone
      rcases hor with rfl | rfl
      · simp [pairRight] at hdir
      · refine ⟨i, j, hi, hj, rfl, ?_⟩
        by_contra hpol
        exact ((hT.pairs i j (Or.inl hi) hj).2.1 hpol).2.2.2.2.2.2 hd
    · rintro ⟨i, j, hi, hj, rfl, hpol⟩
      exact ((hT.pairs i j (Or.inl hi) hj).2.2 hpol).2.2.2.2.2.2

theorem threePlanes_valid : Valid threePlanes.params := by
  unfold Valid
  decide

theorem threePlanes_planes : planes threePlanes.params = 3 := by decide

theorem threePlanes_sats : satsPerPlane threePlanes.params = 1 := by decide

/-- C4 on three planes of one satellite (limit 50) with latitudes 70, 11, 49: the pair
of planes 0 and 1 is in the pool, the pair of planes 1 and 2 is attached, node 0
alone is polar. -/
theorem builder_latitude_gate_witness :
    Valid threePlanes.params ∧
    ∃ h, build threePlanes (latitudes [70, 11, 49]) = some h ∧
      3 ∈ h.unused_link ∧ h.dev ⟨1, Direction.RIGHT⟩ = ⟨some 4, true⟩ ∧
      (0 ∈ h.overPolar ∧ 1 ∉ h.overPolar) := by
  have hsome : (build threePlanes (latitudes [70, 11, 49])).isSome = true := by decide
  obtain ⟨h, hb⟩ := Option.isSome_iff_exists.mp hsome
  have hc := builder_latitude_gate threePlanes (latitudes [70, 11, 49]) h threePlanes_valid hb
  rw [threePlanes_planes, threePlanes_sats] at hc
  refine ⟨threePlanes_valid, h, hb, ?_, ?_, ?_, ?_⟩
  · exact ((hc.1 0 0 (by omega) (by omega)).2 (by decide)).1
  · exact (((hc.1 0 1 (by omega) (by omega)).1).mpr (by decide)).2.2.1
  · exact (hc.2.1 0).mpr ⟨0, 0, by omega, by omega, Or.inl rfl, by decide⟩
  · intro hx
    obtain ⟨i, j, _, _, _, hlat⟩ := (hc.2.1 1).mp hx
    exact absurd hlat (by decide)

/-! ## Link maintenance and sending keep the link state consistent -/

theorem InvCore.same_links {T : Nat} {h h1 : ConstellationHelper} (hI : InvCore T h)
    (edev : h1.dev = h.dev)
    (ech : ∀ c, (h1.channel c).dev_list0 = (h.channel c).dev_list0 ∧
      (h1.channel c).dev_list1 = (h.channel c).dev_list1 ∧
      (h1.channel c).isTemporary = (h.channel c).isTemporary)
    (en : h1.nChannels = h.nChannels) (ep : h1.unused_link = h.unused_link)
    (el : h1.breaked_left = h.breaked_left) (er : h1.breaked_right = h.breaked_right) :
    InvCore T h1 := by
  constructor
  · rw [ep, en]; exact hI.pool_range
  · rw [ep]; exact hI.pool_nodup
  · intro c hc
    rw [(ech c).1, (ech c).2.1]
    rw [ep] at hc
    exact hI.pool_slots c hc
  · intro c h1' h2 h3
    rw [(ech c).1, (ech c).2.1]
    rw [en] at h2
    rw [ep] at h3
    exact hI.attached c h1' h2 h3
  · intro d c hrl hd
    rw [edev] at hd
    rw [(ech c).1, (ech c).2.1, en, ep]
    exact hI.dev_ref d c hrl hd
  · intro d c hrl hd
    rw [edev] at hd
    exact hI.dev_other d c hrl hd
  · rw [er, edev]; exact hI.right_mem
  · rw [el, edev]; exact hI.left_mem
  · intro c h1' h2
    rw [(ech c).2.2]
    rw [en] at h2
    exact hI.temp c h1' h2
  · rw [edev]; exact hI.link_up

theorem Keeps.refl (T : Nat) (h : ConstellationHelper) : Keeps T h h :=
  ⟨rfl, rfl, rfl, rfl, fun _ _ => rfl, fun _ _ => rfl, fun _ hd => hd⟩

theorem Keeps.trans {T : Nat} {h h1 h2 : ConstellationHelper} (h01 : Keeps T h h1)
    (h12 : Keeps T h1 h2) : Keeps T h h2 :=
  ⟨h12.params.trans h01.params, h12.nodes.trans h01.nodes, h12.limit.trans h01.limit,
    h12.count.trans h01.count,
    fun c hc => (h12.perm_channel c hc).trans (h01.perm_channel c hc),
    fun d hd => (h12.other_dev d hd).trans (h01.other_dev d hd),
    fun d hd => h12.recorded d (h01.recorded d hd)⟩

theorem DisConnect_keeps {T : Nat} (h : ConstellationHelper) {a b : DevId} {c : Nat}
    (hc : T ≤ c)
    (hdir : (a.dir = Direction.RIGHT ∧ b.dir = Direction.LEFT) ∨
      (a.dir = Direction.LEFT ∧ b.dir = Direction.RIGHT)) :
    Keeps T h (DisConnect h a b c) := by
  have hRLa : IsRL a := by unfold IsRL; tauto
  have hRLb : IsRL b := by unfold IsRL; tauto
  refine ⟨rfl, rfl, rfl, rfl, ?_, ?_, ?_⟩
  · intro c1 hc1
    exact DisConnect_channel_other _ _ _ _ _ (by omega)
  · intro d hd
    refine DisConnect_dev_other _ _ _ _ _ ?_ ?_
    · rintro rfl; exact hd hRLa
    · rintro rfl; exact hd hRLb
  · intro d hrec hnone
    rw [DisConnect_right, DisConnect_left]
    by_cases ha : d = a
    · subst ha
      rcases hdir with h1 | h1
      · exact ⟨fun _ => Or.inr (by rw [if_pos h1.1]),
          fun hl => by rw [h1.1] at hl; exact absurd hl (by decide)⟩
      · have hne : ¬ d.dir = Direction.RIGHT := by rw [h1.1]; decide
        exact ⟨fun hr => absurd hr hne, fun _ => Or.inr (by rw [if_neg hne])⟩
    · by_cases hb : d = b
      · subst hb
        rcases hdir with h1 | h1
        · exact ⟨fun hr => by rw [h1.2] at hr; exact absurd hr (by decide),
            fun _ => Or.inr (by rw [if_pos h1.1])⟩
        · have hne : ¬ a.dir = Direction.RIGHT := by rw [h1.1]; decide
          exact ⟨fun _ => Or.inr (by rw [if_neg hne]),
            fun hl => by rw [h1.2] at hl; exact absurd hl (by decide)⟩
      · rw [DisConnect_dev_other _ _ _ _ _ ha hb] at hnone
        obtain ⟨q1, q2⟩ := hrec hnone
        exact ⟨fun hr => Or.inl (q1 hr), fun hl => Or.inl (q2 hl)⟩

theorem Connect_keeps {T : Nat} {geo : Nat → NodeLat} {h h1 : ConstellationHelper}
    (hI : InvCore T h) {a b : DevId}
    (hdir : (a.dir = Direction.RIGHT ∧ b.dir = Direction.LEFT) ∨
      (a.dir = Direction.LEFT ∧ b.dir = Direction.RIGHT))
    (hrun : Connect geo h a b = some h1) : Keeps T h h1 := by
  obtain ⟨c, hpool, hn, hdev, hdevo, hch, hcho, hr, hl, _, hpar, hnodes, hlim, _⟩ :=
    Connect_some hrun
  have hcin : c ∈ h.unused_link := by rw [hpool]; simp
  have hrange := hI.pool_range c hcin
  have hRLa : IsRL a := by unfold IsRL; tauto
  have hRLb : IsRL b := by unfold IsRL; tauto
  refine ⟨hpar, hnodes, hlim, hn, ?_, ?_, ?_⟩
  · intro c1 hc1
    exact hcho c1 (by omega)
  · intro d hd
    refine hdevo d ?_ ?_
    · rintro rfl; exact hd hRLa
    · rintro rfl; exact hd hRLb
  · intro d hrec hnone
    by_cases hab : d = a ∨ d = b
    · rw [hdev d hab] at hnone
      simp at hnone
    · rw [not_or] at hab
      rw [hdevo d hab.1 hab.2] at hnone
      obtain ⟨q1, q2⟩ := hrec hnone
      rw [hr, hl]
      constructor
      · intro hdr
        refine ⟨q1 hdr, ?_⟩
        split
        · exact hab.1
        · exact hab.2
      · intro hdl
        refine ⟨q2 hdl, ?_⟩
        split
        · exact hab.2
        · exact hab.1

/-- Disconnecting an inter-plane device `d` from the channel it holds, as the
polar-entry block does it: `DisConnect (GetAnother (d), d, channel)`. -/
theorem disconnect_peer {T : Nat} {h h1 : ConstellationHelper} (hI : InvCore T h) {d : DevId}
    {c : Nat} (hrl : IsRL d) (hd : (h.dev d).m_channel = some c)
    (hrun : ((h.channel c).GetAnother d).map (fun peer => DisConnect h peer d c) = some h1) :
    InvCore T h1 ∧ Keeps T h h1 ∧ h1.overPolar = h.overPolar ∧
      (∀ d1, d1.node = d.node → d1 ≠ d → h1.dev d1 = h.dev d1) := by
  obtain ⟨q1, q2, q3, q4⟩ := hI.dev_ref d c hrl hd
  obtain ⟨x, y, e0, e1, hdir, hnode⟩ := hI.attached c q1 q2 q3
  have hslots : ∀ z, ((h.channel c).dev_list0 = some z ∨ (h.channel c).dev_list1 = some z) →
      z = x ∨ z = y := by
    intro z hz
    rw [e0, e1] at hz
    simp only [Option.some.injEq] at hz
    rcases hz with e | e
    · exact Or.inl e.symm
    · exact Or.inr e.symm
  by_cases hdx : d = x
  · subst hdx
    have hget : (h.channel c).GetAnother d = some y := by
      unfold OpticalChannel.GetAnother
      rw [e0, e1]; simp
    rw [hget] at hrun
    simp only [Option.map_some', Option.some.injEq] at hrun
    subst hrun
    have hdir2 : (y.dir = Direction.RIGHT ∧ d.dir = Direction.LEFT) ∨
        (y.dir = Direction.LEFT ∧ d.dir = Direction.RIGHT) := by tauto
    refine ⟨hI.disconnect q1 q2 q3 hdir2 (fun z hz => (hslots z hz).symm),
      DisConnect_keeps h q1 hdir2, rfl, ?_⟩
    intro d1 hn1 hne
    exact DisConnect_dev_other _ _ _ _ _ (by rintro rfl; exact hnode hn1.symm) hne
  · have hdy : d = y := by
      rcases hslots d q4 with e | e
      · exact absurd e hdx
      · exact e
    subst hdy
    have hget : (h.channel c).GetAnother d = some x := by
      unfold OpticalChannel.GetAnother
      rw [e0]
      simp only [Option.some.injEq]
      rw [if_neg hdx]
    rw [hget] at hrun
    simp only [Option.map_some', Option.some.injEq] at hrun
    subst hrun
    refine ⟨hI.disconnect q1 q2 q3 hdir hslots, DisConnect_keeps h q1 hdir, rfl, ?_⟩
    intro d1 hn1 hne
    exact DisConnect_dev_other _ _ _ _ _ (by rintro rfl; exact hnode hn1) hne

theorem polarEntry_inv {T : Nat} {h h1 : ConstellationHelper} {i : Nat} (hI : InvCore T h)
    (hrun : polarEntry i h = some h1) :
    InvCore T h1 ∧ Keeps T h h1 ∧ h1.overPolar = insert i h.overPolar := by
  unfold polarEntry at hrun
  simp only at hrun
  rw [Option.bind_eq_some] at hrun
  obtain ⟨h2, hR, hL⟩ := hrun
  -- the state after the insertion into the polar set
  have hI0 : InvCore T { h with overPolar := insert i h.overPolar } :=
    hI.same_links rfl (fun _ => ⟨rfl, rfl, rfl⟩) rfl rfl rfl rfl
  have hK0 : Keeps T h { h with overPolar := insert i h.overPolar } :=
    ⟨rfl, rfl, rfl, rfl, fun _ _ => rfl, fun _ _ => rfl, fun _ hd => hd⟩
  -- RIGHT device
  have hstepR : InvCore T h2 ∧ Keeps T h h2 ∧ h2.overPolar = insert i h.overPolar ∧
      h2.dev ⟨i, Direction.LEFT⟩ = h.dev ⟨i, Direction.LEFT⟩ := by
    cases hchR : (h.dev ⟨i, Direction.RIGHT⟩).m_channel with
    | none =>
      rw [show ({ h with overPolar := insert i h.overPolar } : ConstellationHelper).dev = h.dev
        from rfl, hchR] at hR
      simp only [Option.some.injEq] at hR
      subst hR
      exact ⟨hI0, hK0, rfl, rfl⟩
    | some c =>
      rw [show ({ h with overPolar := insert i h.overPolar } : ConstellationHelper).dev = h.dev
        from rfl, hchR] at hR
      simp only at hR
      obtain ⟨a1, a2, a3, a4⟩ := disconnect_peer (d := ⟨i, Direction.RIGHT⟩) hI0
        (Or.inl rfl) hchR hR
      exact ⟨a1, hK0.trans a2, a3, a4 ⟨i, Direction.LEFT⟩ rfl (by simp)⟩
  obtain ⟨hI2, hK2, hP2, hdevL⟩ := hstepR
  cases hchL : (h.dev ⟨i, Direction.LEFT⟩).m_channel with
  | none =>
    rw [show ({ h with overPolar := insert i h.overPolar } : ConstellationHelper).dev = h.dev
      from rfl, hchL] at hL
    simp only [Option.some.injEq] at hL
    subst hL
    exact ⟨hI2, hK2, hP2⟩
  | some c =>
    rw [show ({ h with overPolar := insert i h.overPolar } : ConstellationHelper).dev = h.dev
      from rfl, hchL] at hL
    simp only at hL
    have hd2 : (h2.dev ⟨i, Direction.LEFT⟩).m_channel = some c := by rw [hdevL]; exact hchL
    obtain ⟨a1, a2, a3, _⟩ := disconnect_peer (d := ⟨i, Direction.LEFT⟩) hI2 (Or.inr rfl) hd2 hL
    exact ⟨a1, hK2.trans a2, a3.trans hP2⟩

theorem reconnect_inv {T : Nat} {geo : Nat → NodeLat} {h h1 : ConstellationHelper} {i : Nat}
    {adj : Option Nat} (hI : InvCore T h) (hadj : ∀ a, adj = some a → a ≠ i)
    (hrun : reconnect geo i adj h = some h1) :
    InvCore T h1 ∧ Keeps T h h1 ∧ h1.overPolar = h.overPolar := by
  unfold reconnect at hrun
  cases adj with
  | none =>
    simp only [Option.some.injEq] at hrun
    subst hrun
    exact ⟨hI, Keeps.refl T h, rfl⟩
  | some a =>
    have hne : a ≠ i := hadj a rfl
    simp only at hrun
    split at hrun
    · rw [Option.bind_eq_some] at hrun
      obtain ⟨h2, hfirst, hsecond⟩ := hrun
      have hstep1 : InvCore T h2 ∧ Keeps T h h2 ∧ h2.overPolar = h.overPolar := by
        split at hfirst
        · have hdir : ((⟨a, Direction.RIGHT⟩ : DevId).dir = Direction.RIGHT ∧
              (⟨i, Direction.LEFT⟩ : DevId).dir = Direction.LEFT) ∨
              ((⟨a, Direction.RIGHT⟩ : DevId).dir = Direction.LEFT ∧
              (⟨i, Direction.LEFT⟩ : DevId).dir = Direction.RIGHT) := Or.inl ⟨rfl, rfl⟩
          exact ⟨hI.connect hdir hne hfirst, Connect_keeps hI hdir hfirst,
            (Connect_some hfirst).choose_spec.2.2.2.2.2.2.2.2.1⟩
        · simp only [Option.some.injEq] at hfirst
          subst hfirst
          exact ⟨hI, Keeps.refl T h, rfl⟩
      obtain ⟨hI2, hK2, hP2⟩ := hstep1
      split at hsecond
      · have hdir : ((⟨a, Direction.LEFT⟩ : DevId).dir = Direction.RIGHT ∧
            (⟨i, Direction.RIGHT⟩ : DevId).dir = Direction.LEFT) ∨
            ((⟨a, Direction.LEFT⟩ : DevId).dir = Direction.LEFT ∧
            (⟨i, Direction.RIGHT⟩ : DevId).dir = Direction.RIGHT) := Or.inr ⟨rfl, rfl⟩
        exact ⟨hI2.connect hdir hne hsecond, hK2.trans (Connect_keeps hI2 hdir hsecond),
          ((Connect_some hsecond).choose_spec.2.2.2.2.2.2.2.2.1).trans hP2⟩
      · simp only [Option.some.injEq] at hsecond
        subst hsecond
        exact ⟨hI2, hK2, hP2⟩
    · simp at hrun

theorem polarExit_inv {T : Nat} {geo : Nat → NodeLat} {h h1 : ConstellationHelper} {i : Nat}
    (hI : InvCore T h) (hN : 0 < (Int.tdiv h.m_params.T h.m_params.P).toNat)
    (hrun : polarExit geo i h = some h1) :
    InvCore T h1 ∧ Keeps T h h1 ∧ h1.overPolar = h.overPolar.erase i := by
  unfold polarExit at hrun
  simp only at hrun
  rw [Option.bind_eq_some] at hrun
  obtain ⟨h2, hfirst, hsecond⟩ := hrun
  have hI0 : InvCore T { h with overPolar := h.overPolar.erase i } :=
    hI.same_links rfl (fun _ => ⟨rfl, rfl, rfl⟩) rfl rfl rfl rfl
  have hK0 : Keeps T h { h with overPolar := h.overPolar.erase i } :=
    ⟨rfl, rfl, rfl, rfl, fun _ _ => rfl, fun _ _ => rfl, fun _ hd => hd⟩
  obtain ⟨hI2, hK2, hP2⟩ := reconnect_inv hI0 (by
    intro a ha
    split at ha
    · rename_i hdiv
      split at ha
      · simp at ha
      · simp only [Option.some.injEq] at ha
        have hge : (Int.tdiv h.m_params.T h.m_params.P).toNat ≤ i := by
          by_contra hlt
          exact hdiv (Nat.div_eq_of_lt (Nat.lt_of_not_le hlt))
        omega
    · simp at ha) hfirst
  obtain ⟨hI3, hK3, hP3⟩ := reconnect_inv hI2 (by
    intro a ha
    split at ha
    · split at ha
      · simp at ha
      · simp only [Option.some.injEq] at ha
        omega
    · simp at ha) hsecond
  exact ⟨hI3, (hK0.trans hK2).trans hK3, hP3.trans hP2⟩

theorem LinkMaintenanceNode_inv {T : Nat} {geo : Nat → NodeLat} {h h1 : ConstellationHelper}
    {i : Nat} (hI : InvCore T h) (hN : 0 < (Int.tdiv h.m_params.T h.m_params.P).toNat)
    (hrun : LinkMaintenanceNode geo i h = some h1) :
    InvCore T h1 ∧ Keeps T h h1 ∧ (∀ x, x ≠ i → (x ∈ h1.overPolar ↔ x ∈ h.overPolar)) := by
  unfold LinkMaintenanceNode at hrun
  simp only at hrun
  rw [Option.bind_eq_some] at hrun
  obtain ⟨h2, hentry, hexit⟩ := hrun
  have hstep1 : InvCore T h2 ∧ Keeps T h h2 ∧
      (∀ x, x ≠ i → (x ∈ h2.overPolar ↔ x ∈ h.overPolar)) := by
    split at hentry
    · obtain ⟨a1, a2, a3⟩ := polarEntry_inv hI hentry
      refine ⟨a1, a2, ?_⟩
      intro x hx
      rw [a3, Finset.mem_insert]
      exact ⟨fun hm => hm.resolve_left hx, Or.inr⟩
    · simp only [Option.some.injEq] at hentry
      subst hentry
      exact ⟨hI, Keeps.refl T h, fun _ _ => Iff.rfl⟩
  obtain ⟨hI2, hK2, hP2⟩ := hstep1
  split at hexit
  · have hN2 : 0 < (Int.tdiv h2.m_params.T h2.m_params.P).toNat := by
      rw [hK2.params]; exact hN
    obtain ⟨a1, a2, a3⟩ := polarExit_inv hI2 hN2 hexit
    refine ⟨a1, hK2.trans a2, ?_⟩
    intro x hx
    rw [a3, Finset.mem_erase]
    exact ⟨fun hm => (hP2 x hx).mp hm.2, fun hm => ⟨hx, (hP2 x hx).mpr hm⟩⟩
  · simp only [Option.some.injEq] at hexit
    subst hexit
    exact ⟨hI2, hK2, hP2⟩

theorem LinkMaintenance_inv {T : Nat} {geo : Nat → NodeLat} {h h1 : ConstellationHelper}
    (hI : InvCore T h) (hN : 0 < (Int.tdiv h.m_params.T h.m_params.P).toNat)
    (hrun : LinkMaintenance geo h = some h1) : InvCore T h1 ∧ Keeps T h h1 := by
  unfold LinkMaintenance at hrun
  refine forLoop_inv (fun _ t => InvCore T t ∧ Keeps T h t) (LinkMaintenanceNode geo)
    h.nNodes h h1 ⟨hI, Keeps.refl T h⟩ ?_ hrun
  intro k _ t t1 hIt hb
  have hN2 : 0 < (Int.tdiv t.m_params.T t.m_params.P).toNat := by
    rw [hIt.2.params]; exact hN
  obtain ⟨a1, a2, _⟩ := LinkMaintenanceNode_inv hIt.1 hN2 hb
  exact ⟨a1, hIt.2.trans a2⟩

theorem LatitudeCheck_links (ch : OpticalChannel) (l0 l1 : ℚ) :
    (ch.LatitudeCheck l0 l1).channel.dev_list0 = ch.dev_list0 ∧
    (ch.LatitudeCheck l0 l1).channel.dev_list1 = ch.dev_list1 ∧
    (ch.LatitudeCheck l0 l1).channel.isTemporary = ch.isTemporary := by
  unfold OpticalChannel.LatitudeCheck
  split <;> exact ⟨rfl, rfl, rfl⟩

theorem ChannelSend_inv {T : Nat} {geo : Nat → NodeLat} {h h1 : ConstellationHelper}
    {c : Nat} {d : DevId} {txTime delay : ℚ} {ok : Bool} (hI : InvCore T h)
    (hperm : ∀ c1, c1 < T → (h.channel c1).isTemporary = false)
    (hd : (h.dev d).m_channel = some c)
    (hrun : ChannelSend geo h c d txTime delay = some (ok, h1)) :
    InvCore T h1 ∧ Keeps T h h1 := by
  unfold ChannelSend at hrun
  simp only at hrun
  split at hrun
  · -- TEMPORARY channel
    rename_i htemp
    have hge : T ≤ c := by
      by_contra hlt
      rw [hperm c (Nat.lt_of_not_le hlt)] at htemp
      simp at htemp
    have hrl : IsRL d := by
      by_contra hno
      have := hI.dev_other d c hno hd
      omega
    obtain ⟨_, q2, q3, _⟩ := hI.dev_ref d c hrl hd
    obtain ⟨x, y, e0, e1, hdir, _⟩ := hI.attached c hge q2 q3
    rw [e0, e1] at hrun
    simp only at hrun
    split at hrun
    · -- the check passed: `last_lat` and the log change
      have hI1 : InvCore T
          { h with
            channel := setAt h.channel c
              ((h.channel c).LatitudeCheck (geo x.node).sine (geo y.node).sine).channel
            log := h.log ++
              (match ((h.channel c).LatitudeCheck (geo x.node).sine
                  (geo y.node).sine).readyBreak with
               | some z => [Event.readyBreak c z]
               | none => []) } := by
        refine hI.same_links rfl ?_ rfl rfl rfl rfl
        intro c1
        by_cases he : c1 = c
        · subst he
          show (setAt h.channel c1 _ c1).dev_list0 = _ ∧ (setAt h.channel c1 _ c1).dev_list1 = _ ∧
            (setAt h.channel c1 _ c1).isTemporary = _
          rw [setAt_same]
          exact LatitudeCheck_links _ _ _
        · show (setAt h.channel c _ c1).dev_list0 = _ ∧ (setAt h.channel c _ c1).dev_list1 = _ ∧
            (setAt h.channel c _ c1).isTemporary = _
          rw [setAt_other _ _ _ _ he]
          exact ⟨rfl, rfl, rfl⟩
      split at hrun
      · simp only [Option.some.injEq, Prod.mk.injEq] at hrun
        obtain ⟨_, rfl⟩ := hrun
        refine ⟨hI1.same_links rfl (fun _ => ⟨rfl, rfl, rfl⟩) rfl rfl rfl rfl, ?_⟩
        refine ⟨rfl, rfl, rfl, rfl, ?_, fun _ _ => rfl, fun _ hx => hx⟩
        intro c1 hc1
        exact setAt_other _ _ _ _ (by omega)
      · simp at hrun
    · -- the check failed
      simp only [Option.some.injEq, Prod.mk.injEq] at hrun
      obtain ⟨_, rfl⟩ := hrun
      split
      · refine ⟨hI.disconnect hge q2 q3 hdir ?_, DisConnect_keeps h hge hdir⟩
        intro z hz
        rw [e0, e1] at hz
        simp only [Option.some.injEq] at hz
        rcases hz with e | e
        · exact Or.inl e.symm
        · exact Or.inr e.symm
      · exact ⟨hI, Keeps.refl T h⟩
  · -- FOREVER channel: only the log changes
    split at hrun
    · simp only [Option.some.injEq, Prod.mk.injEq] at hrun
      obtain ⟨_, rfl⟩ := hrun
      exact ⟨hI.same_links rfl (fun _ => ⟨rfl, rfl, rfl⟩) rfl rfl rfl rfl,
        ⟨rfl, rfl, rfl, rfl, fun _ _ => rfl, fun _ _ => rfl, fun _ hx => hx⟩⟩
    · simp at hrun

theorem Inv.step {inp : BuildInput} {h h1 : ConstellationHelper} (hI : Inv inp h)
    (hc : InvCore (planes inp.params * satsPerPlane inp.params) h1)
    (hk : Keeps (planes inp.params * satsPerPlane inp.params) h h1) : Inv inp h1 := by
  constructor
  · rw [hk.params]; exact hI.paramsT
  · rw [hk.params]; exact hI.paramsP
  · rw [hk.nodes]; exact hI.nodes
  · rw [hk.limit]; exact hI.limit
  · rw [hk.count]; exact hI.count
  · exact hc
  · intro i j hi hj
    exact (hI.perm i j hi hj).frame_perm (hk.perm_channel _ (idx_lt hi hj)) hk.other_dev
  · intro i j hi hj
    exact ⟨hk.recorded _ (hI.ladder i j hi hj).1, hk.recorded _ (hI.ladder i j hi hj).2⟩

theorem Inv.of_build {inp : BuildInput} {geo : Nat → NodeLat} {h : ConstellationHelper}
    (hv : Valid inp.params) (hb : build inp geo = some h) : Inv inp h := by
  obtain ⟨hD, hR, hT⟩ := build_spec hv hb
  obtain ⟨e1, e2, e3, e4, _⟩ := hT.frame.names
  constructor
  · rw [e2]; exact hR.paramsT
  · rw [e2]; exact hR.paramsP
  · rw [e3]; exact hR.nodes
  · rw [e4]; exact hR.limit
  · have := hT.count
    omega
  · exact hT.core
  · exact hT.perm
  · intro i j hi hj
    obtain ⟨_, q2, q3⟩ := hT.pairs i j (Or.inl hi) hj
    by_cases hpol : pairPolar inp.lat_limit geo (satsPerPlane inp.params) i j
    · obtain ⟨_, _, _, _, _, a6, a7⟩ := q3 hpol
      exact ⟨fun _ => ⟨fun _ => a6, fun hl => by simp [pairRight] at hl⟩,
        fun _ => ⟨fun hr => by simp [pairLeft] at hr, fun _ => a7⟩⟩
    · obtain ⟨_, _, a3, a4, _⟩ := q2 hpol
      constructor
      · intro hnone
        rw [a3] at hnone
        simp at hnone
      · intro hnone
        rw [a4] at hnone
        simp at hnone

theorem Inv.sats_nonzero {inp : BuildInput} {h : ConstellationHelper} (hv : Valid inp.params)
    (hI : Inv inp h) : 0 < (Int.tdiv h.m_params.T h.m_params.P).toNat := by
  rw [hI.paramsT, hI.paramsP]
  exact hv.sats_pos

theorem Inv.perm_forever {inp : BuildInput} {h : ConstellationHelper} (hI : Inv inp h) (c : Nat)
    (hc : c < planes inp.params * satsPerPlane inp.params) :
    (h.channel c).isTemporary = false := by
  obtain ⟨h1, h2, h3⟩ := node_decomp hc
  have := (hI.perm _ _ h1 h2).1
  rw [h3] at this
  exact this

/-- Every reachable state of a valid configuration satisfies the invariant. -/
theorem Reachable.inv {inp : BuildInput} {h : ConstellationHelper} (hv : Valid inp.params)
    (hr : Reachable inp h) : Inv inp h := by
  induction hr with
  | init geo h hb => exact Inv.of_build hv hb
  | tick geo h h1 _ hrun ih =>
    obtain ⟨a1, a2⟩ := LinkMaintenance_inv ih.core (ih.sats_nonzero hv) hrun
    exact ih.step a1 a2
  | send geo h h1 d c txTime delay ok _ hd hrun ih =>
    obtain ⟨a1, a2⟩ := ChannelSend_inv ih.core ih.perm_forever hd hrun
    exact ih.step a1 a2

/-! ## C7: conservation of the temporary channels -/

/-- C7: in every state reachable from the build of a valid configuration by
`LinkMaintenance` ticks and `OpticalChannel::Send` calls (among them the sends that
fail the latitude check and disconnect), the size of the spare pool plus the number
of attached temporary channels is `N * (P - 1)`. -/
theorem spare_pool_conservation (inp : BuildInput) (h : ConstellationHelper)
    (hv : Valid inp.params) (hr : Reachable inp h) :
    h.unused_link.length + countAttachedTemporary h =
      satsPerPlane inp.params * (planes inp.params - 1) := by
  have hI := hr.inv hv
  have hcount := hI.count
  have hforever := hI.perm_forever
  have hcore := hI.core
  clear hI
  generalize hn : satsPerPlane inp.params = n at *
  generalize hp : planes inp.params = p at *
  have hset : (Finset.range h.nChannels).filter (fun c =>
      (h.channel c).isTemporary = true ∧ (h.channel c).dev_list0.isSome = true ∧
        (h.channel c).dev_list1.isSome = true)
      = Finset.Ico (p * n) (p * n + n * (p - 1)) \ h.unused_link.toFinset := by
    ext c
    simp only [Finset.mem_filter, Finset.mem_range, Finset.mem_sdiff, Finset.mem_Ico,
      List.mem_toFinset]
    constructor
    · rintro ⟨hc, ht, h0, _⟩
      have hge : p * n ≤ c := by
        by_contra hlt
        rw [hforever c (Nat.lt_of_not_le hlt)] at ht
        simp at ht
      refine ⟨⟨hge, by omega⟩, ?_⟩
      intro hin
      rw [(hcore.pool_slots c hin).1] at h0
      simp at h0
    · rintro ⟨⟨hge, hlt⟩, hnot⟩
      have hc : c < h.nChannels := by omega
      obtain ⟨a, b, e0, e1, _⟩ := hcore.attached c hge hc hnot
      exact ⟨hc, hcore.temp c hge hc, by rw [e0]; rfl, by rw [e1]; rfl⟩
  have hsub : h.unused_link.toFinset ⊆ Finset.Ico (p * n) (p * n + n * (p - 1)) := by
    intro c hc
    rw [List.mem_toFinset] at hc
    have := hcore.pool_range c hc
    rw [Finset.mem_Ico]
    omega
  have hcard : h.unused_link.toFinset.card = h.unused_link.length :=
    List.toFinset_card_of_nodup hcore.pool_nodup
  have hle := Finset.card_le_card hsub
  unfold countAttachedTemporary
  rw [hset, Finset.card_sdiff hsub, hcard, Nat.card_Ico]
  rw [hcard, Nat.card_Ico] at hle
  omega

theorem threePlanes_run_defined :
    ∃ h0 h1, build threePlanes (latitudes [65, 5, 55]) = some h0 ∧
      LinkMaintenance (latitudes [70, 11, 49]) h0 = some h1 := by
  have hsome : ((build threePlanes (latitudes [65, 5, 55])).bind
      (LinkMaintenance (latitudes [70, 11, 49]))).isSome = true := by decide
  obtain ⟨h1, hrun⟩ := Option.isSome_iff_exists.mp hsome
  rw [Option.bind_eq_some] at hrun
  obtain ⟨h0, hb, ht⟩ := hrun
  exact ⟨h0, h1, hb, ht⟩

theorem threePlanes_reachable :
    ∃ h1, Reachable threePlanes h1 ∧
      (build threePlanes (latitudes [65, 5, 55])).bind (LinkMaintenance (latitudes [70, 11, 49]))
        = some h1 := by
  obtain ⟨h0, h1, hb, ht⟩ := threePlanes_run_defined
  refine ⟨h1, Reachable.tick _ h0 h1 (Reachable.init _ h0 hb) ht, ?_⟩
  rw [hb]
  exact ht

/-- C7 on three planes of one satellite, built with nodes 0 and 2 above the limit,
after a tick at which node 2 is below the limit again: two temporary channels in
all. -/
theorem spare_pool_conservation_witness :
    Valid threePlanes.params ∧
    ∃ h, Reachable threePlanes h ∧ h.unused_link.length + countAttachedTemporary h = 2 := by
  obtain ⟨h, hr, _⟩ := threePlanes_reachable
  have hc := spare_pool_conservation threePlanes h threePlanes_valid hr
  rw [threePlanes_planes, threePlanes_sats] at hc
  exact ⟨threePlanes_valid, h, hr, hc⟩

/-! ## C5 and C6: the polar-exit block connects devices off the ladder -/

/-- C5, evaluation of the code: three planes of one satellite, limit 50, built at
latitudes 65, 5, 55 (nodes 0 and 2 above the limit, both temporary channels in the
pool).  At the first tick (latitudes 70, 11, 49) node 2 is below the limit again and
node 0 is not.  Afterwards the pair of nodes 0 and 1 has a polar endpoint, yet the
spare pool is empty and the LEFT device of node 1 is not recorded as broken: it holds
channel 3, whose other end is the RIGHT device of node 2.  After a second tick with
every node below the limit no node is polar, and the RIGHT device of node 0 still
holds no channel. -/
theorem polar_exit_leaves_pair_broken :
    ((build threePlanes (latitudes [65, 5, 55])).bind
        (LinkMaintenance (latitudes [70, 11, 49]))).map
      (fun h => (decide (0 ∈ h.overPolar), h.unused_link,
        decide ((⟨0, Direction.RIGHT⟩ : DevId) ∈ h.breaked_right),
        decide ((⟨1, Direction.LEFT⟩ : DevId) ∈ h.breaked_left)))
      = some (true, [], true, false) ∧
    ((build threePlanes (latitudes [65, 5, 55])).bind
        (LinkMaintenance (latitudes [70, 11, 49]))).map
      (fun h => ((h.dev ⟨1, Direction.LEFT⟩).m_channel, (h.channel 3).dev_list0,
        (h.channel 3).dev_list1))
      = some (some 3, some ⟨1, Direction.LEFT⟩, some ⟨2, Direction.RIGHT⟩) ∧
    (((build threePlanes (latitudes [65, 5, 55])).bind
        (LinkMaintenance (latitudes [70, 11, 49]))).bind
        (LinkMaintenance (latitudes [40, 20, 10]))).map
      (fun h => (decide (h.overPolar = ∅), (h.dev ⟨0, Direction.RIGHT⟩).m_channel,
        (h.dev ⟨1, Direction.LEFT⟩).m_channel, h.unused_link))
      = some (true, none, some 3, []) := by
  refine ⟨?_, ?_, ?_⟩ <;> decide

/-- C6, evaluation of the code: in the same run, the first tick calls `Connect` on
the RIGHT device of node 1 and the LEFT device of node 2 (a ladder pair) and then on
the LEFT device of node 1 and the RIGHT device of node 2, which is the RIGHT device
of the last plane; channel 3 is attached to that second pair. -/
theorem polar_exit_connects_off_ladder :
    ((build threePlanes (latitudes [65, 5, 55])).bind
        (LinkMaintenance (latitudes [70, 11, 49]))).map
      (fun h => (h.log, (h.channel 3).isTemporary, (h.channel 3).dev_list0,
        (h.channel 3).dev_list1, (h.dev ⟨2, Direction.RIGHT⟩).m_channel))
    = some ([Event.connect ⟨1, Direction.RIGHT⟩ ⟨2, Direction.LEFT⟩,
             Event.connect ⟨1, Direction.LEFT⟩ ⟨2, Direction.RIGHT⟩],
        true, some ⟨1, Direction.LEFT⟩, some ⟨2, Direction.RIGHT⟩, some 3) := by
  decide

/-! ## C8: the broken sets -/

/-- C8 as stated fails right after the build: with three planes of one satellite on
the equator, the LEFT device of node 0 (plane 0) holds no channel and is not a member
of `breaked_left`. -/
theorem broken_sets_iff_fails :
    ¬ (∀ h, Reachable threePlanes h → ∀ d : DevId,
        (d ∈ h.breaked_left ↔ d.dir = Direction.LEFT ∧ (h.dev d).m_channel = none) ∧
        (d ∈ h.breaked_right ↔ d.dir = Direction.RIGHT ∧ (h.dev d).m_channel = none)) := by
  intro hall
  have hfacts : (build threePlanes equator).map
      (fun h => (decide ((⟨0, Direction.LEFT⟩ : DevId) ∈ h.breaked_left),
        (h.dev ⟨0, Direction.LEFT⟩).m_channel)) = some (false, none) := by decide
  cases hb : build threePlanes equator with
  | none => rw [hb] at hfacts; simp at hfacts
  | some h =>
    rw [hb] at hfacts
    simp only [Option.map_some', Option.some.injEq, Prod.mk.injEq, decide_eq_false_iff_not]
      at hfacts
    exact hfacts.1 (((hall h (Reachable.init _ h hb) ⟨0, Direction.LEFT⟩).1).mpr
      ⟨rfl, hfacts.2⟩)

/-- C8 amended: in every state reachable from the build of a valid configuration,
every member of `breaked_left` is a LEFT device without channel and every member of
`breaked_right` is a RIGHT device without channel; a LEFT device of a node outside
plane 0 is a member of `breaked_left` exactly when it holds no channel, and a RIGHT
device of a node outside plane `P - 1` is a member of `breaked_right` exactly when it
holds no channel. -/
theorem broken_sets_ladder (inp : BuildInput) (h : ConstellationHelper)
    (hv : Valid inp.params) (hr : Reachable inp h) :
    (∀ d, d ∈ h.breaked_left → d.dir = Direction.LEFT ∧ (h.dev d).m_channel = none) ∧
    (∀ d, d ∈ h.breaked_right → d.dir = Direction.RIGHT ∧ (h.dev d).m_channel = none) ∧
    (∀ x, satsPerPlane inp.params ≤ x → x < planes inp.params * satsPerPlane inp.params →
      ((⟨x, Direction.LEFT⟩ : DevId) ∈ h.breaked_left ↔
        (h.dev ⟨x, Direction.LEFT⟩).m_channel = none)) ∧
    (∀ x, x < (planes inp.params - 1) * satsPerPlane inp.params →
      ((⟨x, Direction.RIGHT⟩ : DevId) ∈ h.breaked_right ↔
        (h.dev ⟨x, Direction.RIGHT⟩).m_channel = none)) := by
  have hI := hr.inv hv
  have hcore := hI.core
  have hladder := hI.ladder
  have hnpos := hv.sats_pos
  clear hI
  generalize hn : satsPerPlane inp.params = n at *
  generalize hp : planes inp.params = p at *
  refine ⟨hcore.left_mem, hcore.right_mem, ?_, ?_⟩
  · intro x hge hlt
    refine ⟨fun hm => (hcore.left_mem _ hm).2, fun hnone => ?_⟩
    obtain ⟨q1, q2, q3⟩ := node_decomp hlt
    have hdiv : 1 ≤ x / n := (Nat.one_le_div_iff hnpos).mpr hge
    have hx : (⟨x, Direction.LEFT⟩ : DevId) = pairLeft n (x % n) (x / n - 1) := by
      unfold pairLeft
      rw [Nat.sub_add_cancel hdiv, q3]
    rw [hx] at hnone ⊢
    exact ((hladder (x % n) (x / n - 1) q2 (by omega)).2 hnone).2 rfl
  · intro x hlt
    refine ⟨fun hm => (hcore.right_mem _ hm).2, fun hnone => ?_⟩
    obtain ⟨q1, q2, q3⟩ := node_decomp hlt
    have hx : (⟨x, Direction.RIGHT⟩ : DevId) = pairRight n (x % n) (x / n) := by
      unfold pairRight
      rw [q3]
    rw [hx] at hnone ⊢
    exact ((hladder (x % n) (x / n) q2 q1).1 hnone).1 rfl

/-- C8 amended, on the state reached in the three-plane run: the LEFT device of node
2 holds a channel and is not recorded as broken. -/
theorem broken_sets_ladder_witness :
    Valid threePlanes.params ∧
    ∃ h, Reachable threePlanes h ∧
      ((⟨2, Direction.LEFT⟩ : DevId) ∈ h.breaked_left ↔
        (h.dev ⟨2, Direction.LEFT⟩).m_channel = none) := by
  obtain ⟨h, hr, _⟩ := threePlanes_reachable
  have hc := broken_sets_ladder threePlanes h threePlanes_valid hr
  rw [threePlanes_planes, threePlanes_sats] at hc
  exact ⟨threePlanes_valid, h, hr, hc.2.2.1 2 (by omega) (by omega)⟩

/-! ## C9: permanent links are never broken -/

/-- C9: in every state reachable from the build of a valid configuration by
`LinkMaintenance` ticks and `OpticalChannel::Send` calls, permanent channel
`i * N + j` is still FOREVER and still holds the FORWARD device of `S{i}{j}` and the
BACKWARD device of `S{i}{(j + 1) mod N}`, both devices still hold that channel with
link up, and a `Send` on it by either device, whatever the positions, returns true
and only schedules the reception at the peer: no latitude check is run (no callback
fires, the stored latitudes and every link stay as they are). -/
theorem permanent_links_never_broken (inp : BuildInput) (h : ConstellationHelper)
    (hv : Valid inp.params) (hr : Reachable inp h) :
    ∀ i j, i < planes inp.params → j < satsPerPlane inp.params →
      PermPair (satsPerPlane inp.params) i j h ∧
      (∀ (geo : Nat → NodeLat) (txTime delay : ℚ),
        ChannelSend geo h (i * satsPerPlane inp.params + j)
            ⟨i * satsPerPlane inp.params + j, Direction.FORWARD⟩ txTime delay =
          some (true, { h with log := h.log ++
            [Event.scheduleReceive (i * satsPerPlane inp.params + (j + 1) % satsPerPlane inp.params)
              (delay + txTime) ⟨i * satsPerPlane inp.params + j, Direction.FORWARD⟩
              ⟨i * satsPerPlane inp.params + (j + 1) % satsPerPlane inp.params,
                Direction.BACKWARD⟩] })) ∧
      (∀ (geo : Nat → NodeLat) (txTime delay : ℚ),
        ChannelSend geo h (i * satsPerPlane inp.params + j)
            ⟨i * satsPerPlane inp.params + (j + 1) % satsPerPlane inp.params,
              Direction.BACKWARD⟩ txTime delay =
          some (true, { h with log := h.log ++
            [Event.scheduleReceive (i * satsPerPlane inp.params + j) (delay + txTime)
              ⟨i * satsPerPlane inp.params + (j + 1) % satsPerPlane inp.params,
                Direction.BACKWARD⟩
              ⟨i * satsPerPlane inp.params + j, Direction.FORWARD⟩] })) := by
  intro i j hi hj
  have hp := (hr.inv hv).perm i j hi hj
  obtain ⟨q1, q2, q3, _, _⟩ := hp
  refine ⟨(hr.inv hv).perm i j hi hj, ?_, ?_⟩
  · intro geo txTime delay
    unfold ChannelSend OpticalChannel.GetAnother
    simp [q1, q2, q3]
  · intro geo txTime delay
    unfold ChannelSend OpticalChannel.GetAnother
    simp [q1, q2, q3]

/-- C9 on the state reached in the three-plane run: the permanent channel of node 1
still joins its FORWARD and BACKWARD devices (a ring of length one). -/
theorem permanent_links_never_broken_witness :
    Valid threePlanes.params ∧
    ∃ h, Reachable threePlanes h ∧ PermPair 1 1 0 h := by
  obtain ⟨h, hr, _⟩ := threePlanes_reachable
  have hc := permanent_links_never_broken threePlanes h threePlanes_valid hr 1 0
  rw [threePlanes_planes, threePlanes_sats] at hc
  exact ⟨threePlanes_valid, h, hr, (hc (by omega) (by omega)).1⟩

/-! ## C10: a latitude equal to the limit is not polar -/

theorem LinkMaintenanceNode_at_limit (geo : Nat → NodeLat) (i : Nat) (h : ConstellationHelper)
    (hlat : (geo i).deg = h.lat_limit) : LinkMaintenanceNode geo i h = some h := by
  unfold LinkMaintenanceNode
  simp [hlat]

theorem tick_polar_at_limit {T : Nat} {geo : Nat → NodeLat} {h h1 : ConstellationHelper}
    (hI : InvCore T h) (hN : 0 < (Int.tdiv h.m_params.T h.m_params.P).toNat)
    (hrun : LinkMaintenance geo h = some h1) (i : Nat) (hlat : (geo i).deg = h.lat_limit) :
    i ∈ h1.overPolar ↔ i ∈ h.overPolar := by
  unfold LinkMaintenance at hrun
  have key := forLoop_inv
    (fun _ t => InvCore T t ∧ Keeps T h t ∧ (i ∈ t.overPolar ↔ i ∈ h.overPolar))
    (LinkMaintenanceNode geo) h.nNodes h h1 ⟨hI, Keeps.refl T h, Iff.rfl⟩ (by
      intro k _ t t1 hIt hb
      obtain ⟨a1, a2, a3⟩ := hIt
      by_cases hk : k = i
      · subst hk
        rw [LinkMaintenanceNode_at_limit geo k t (by rw [a2.limit]; exact hlat)] at hb
        simp only [Option.some.injEq] at hb
        subst hb
        exact ⟨a1, a2, a3⟩
      · have hN2 : 0 < (Int.tdiv t.m_params.T t.m_params.P).toNat := by
          rw [a2.params]; exact hN
        obtain ⟨b1, b2, b3⟩ := LinkMaintenanceNode_inv a1 hN2 hb
        exact ⟨b1, a2.trans b2, (b3 i (fun he => hk he.symm)).trans a3⟩) hrun
  exact key.2.2

/-- C10: strict `>` semantics at the limit.  (a) The builder attaches the temporary
channel of a pair in which one endpoint is exactly at `lat_limit` and the other is
not above it.  (b) In a state reachable from the build, the iteration of
`LinkMaintenance` for a node whose latitude is exactly `lat_limit` changes nothing
(no insertion into the polar set, no `DisConnect`), and over the whole tick that node
is in the polar set afterwards exactly if it was before.  (c) `LatitudeCheck` passes,
without invoking the disconnect callback, when one latitude sine equals the limit
sine and the other does not exceed it. -/
theorem latitude_equal_to_limit (inp : BuildInput) (h : ConstellationHelper)
    (hv : Valid inp.params) (hr : Reachable inp h) :
    (∀ (geo0 : Nat → NodeLat) (h0 : ConstellationHelper), build inp geo0 = some h0 →
      ∀ i j, i < satsPerPlane inp.params → j < planes inp.params - 1 →
        (((geo0 (pairRight (satsPerPlane inp.params) i j).node).deg = inp.lat_limit ∧
            (geo0 (pairLeft (satsPerPlane inp.params) i j).node).deg ≤ inp.lat_limit) ∨
          ((geo0 (pairRight (satsPerPlane inp.params) i j).node).deg ≤ inp.lat_limit ∧
            (geo0 (pairLeft (satsPerPlane inp.params) i j).node).deg = inp.lat_limit)) →
        (h0.channel (pairChannel (satsPerPlane inp.params) (planes inp.params) i j)).dev_list0 =
          some (pairRight (satsPerPlane inp.params) i j) ∧
        (h0.channel (pairChannel (satsPerPlane inp.params) (planes inp.params) i j)).dev_list1 =
          some (pairLeft (satsPerPlane inp.params) i j) ∧
        h0.dev (pairRight (satsPerPlane inp.params) i j) =
          ⟨some (pairChannel (satsPerPlane inp.params) (planes inp.params) i j), true⟩ ∧
        h0.dev (pairLeft (satsPerPlane inp.params) i j) =
          ⟨some (pairChannel (satsPerPlane inp.params) (planes inp.params) i j), true⟩) ∧
    (∀ (geo : Nat → NodeLat) (i : Nat), (geo i).deg = inp.lat_limit →
      LinkMaintenanceNode geo i h = some h ∧
      ∀ h1, LinkMaintenance geo h = some h1 → (i ∈ h1.overPolar ↔ i ∈ h.overPolar)) ∧
    (∀ (c : OpticalChannel) (l : ℚ), l ≤ c.lat_limit →
      (c.LatitudeCheck c.lat_limit l).passed = true ∧
      (c.LatitudeCheck c.lat_limit l).disconnect = false ∧
      (c.LatitudeCheck l c.lat_limit).passed = true ∧
      (c.LatitudeCheck l c.lat_limit).disconnect = false) := by
  have hI := hr.inv hv
  refine ⟨?_, ?_, ?_⟩
  · intro geo0 h0 hb i j hi hj hlat
    obtain ⟨hD, hR, hT⟩ := build_spec hv hb
    have hpol : ¬ pairPolar inp.lat_limit geo0 (satsPerPlane inp.params) i j := by
      unfold pairPolar
      unfold pairRight pairLeft at hlat
      simp only [gt_iff_lt, not_or, not_lt]
      rcases hlat with ⟨e, hle⟩ | ⟨hle, e⟩
      · exact ⟨le_of_eq e, hle⟩
      · exact ⟨hle, le_of_eq e⟩
    obtain ⟨a1, a2, a3, a4, _⟩ := (hT.pairs i j (Or.inl hi) hj).2.1 hpol
    exact ⟨a1, a2, a3, a4⟩
  · intro geo i hlat
    have hlat2 : (geo i).deg = h.lat_limit := by rw [hI.limit]; exact hlat
    refine ⟨LinkMaintenanceNode_at_limit geo i h hlat2, ?_⟩
    intro h1 hrun
    exact tick_polar_at_limit hI.core (hI.sats_nonzero hv) hrun i hlat2
  · intro c l hl
    unfold OpticalChannel.LatitudeCheck
    have h1 : ¬ (c.lat_limit > c.lat_limit ∨ l > c.lat_limit) := by
      simp only [gt_iff_lt, lt_self_iff_false, false_or, not_lt]
      exact hl
    have h2 : ¬ (l > c.lat_limit ∨ c.lat_limit > c.lat_limit) := by
      simp only [gt_iff_lt, lt_self_iff_false, or_false, not_lt]
      exact hl
    rw [if_neg h1, if_neg h2]
    exact ⟨rfl, rfl, rfl, rfl⟩

/-- C10 on three planes of one satellite built with node 0 exactly at the limit of
50 degrees: the channel of nodes 0 and 1 is attached, and a tick at the same
latitudes leaves node 0 out of the polar set. -/
theorem latitude_equal_to_limit_witness :
    Valid threePlanes.params ∧
    ∃ h h1, Reachable threePlanes h ∧ LinkMaintenance (latitudes [50, 0, 0]) h = some h1 ∧
      h.dev ⟨0, Direction.RIGHT⟩ = ⟨some 3, true⟩ ∧
      (0 ∈ h1.overPolar ↔ 0 ∈ h.overPolar) := by
  have hsome : ((build threePlanes (latitudes [50, 0, 0])).bind
      (LinkMaintenance (latitudes [50, 0, 0]))).isSome = true := by decide
  obtain ⟨h1, hrun⟩ := Option.isSome_iff_exists.mp hsome
  rw [Option.bind_eq_some] at hrun
  obtain ⟨h, hb, ht⟩ := hrun
  have hr : Reachable threePlanes h := Reachable.init _ h hb
  have hc := latitude_equal_to_limit threePlanes h threePlanes_valid hr
  rw [threePlanes_planes, threePlanes_sats] at hc
  refine ⟨threePlanes_valid, h, h1, hr, ht, ?_, ?_⟩
  · exact (hc.1 _ h hb 0 0 (by omega) (by omega) (Or.inl ⟨by decide, by decide⟩)).2.2.1
  · exact (hc.2.1 (latitudes [50, 0, 0]) 0 (by decide)).2 h1 ht

/-! ## The build completes when the node names are distinct -/

/-- Total loop rule: the body is defined wherever the invariant holds. -/
theorem forLoop_defined {σ : Type} (I : Nat → σ → Prop) (body : Nat → σ → Option σ) :
    ∀ (n : Nat) (s : σ), I 0 s →
      (∀ k, k < n → ∀ t, I k t → ∃ t1, body k t = some t1 ∧ I (k + 1) t1) →
      ∃ s1, forLoop n body s = some s1 ∧ I n s1 := by
  intro n
  induction n with
  | zero =>
    intro s h0 _
    exact ⟨s, rfl, h0⟩
  | succ m ih =>
    intro s h0 hstep
    obtain ⟨t, ht, hIt⟩ := ih s h0 (fun k hk => hstep k (Nat.lt_succ_of_lt hk))
    obtain ⟨t1, hb, hI1⟩ := hstep m (Nat.lt_succ_self m) t hIt
    refine ⟨t1, ?_, hI1⟩
    rw [forLoop_succ, ht]
    exact hb

theorem nested_defined {σ : Type} (I : Nat → Nat → σ → Prop) (body : Nat → Nat → σ → Option σ)
    (p n : Nat) (s : σ) (h0 : I 0 0 s)
    (hstep : ∀ i j, i < p → j < n → ∀ t, I i j t → ∃ t1, body i j t = some t1 ∧ I i (j + 1) t1)
    (hnext : ∀ i, i < p → ∀ t, I i n t → I (i + 1) 0 t) :
    ∃ s1, forLoop p (fun i => forLoop n (fun j => body i j)) s = some s1 ∧ I p 0 s1 := by
  refine forLoop_defined (fun i t => I i 0 t) _ p s h0 ?_
  intro i hi t hI
  obtain ⟨t1, hrun, hI1⟩ := forLoop_defined (fun j u => I i j u) (fun j => body i j) n t hI
    (fun j hj u hu => hstep i j hi hj u hu)
  exact ⟨t1, hrun, hnext i hi t1 hI1⟩

theorem SetConstellationParams_defined (h : ConstellationHelper) {params : WalkerParams}
    (hv : Valid params) : ∃ h1, SetConstellationParams h params = Except.ok h1 := by
  have hP0 : params.P ≠ 0 := by
    have := hv.1
    omega
  simp [SetConstellationParams, hP0, hv.2.1]

theorem Install_defined {h : ConstellationHelper} {p n : Nat} (hp : h.m_params.P.toNat = p)
    (hn : h.satsInPlane.toNat = n) (hT : h.m_params.T.toNat = p * n) (h0 : h.nNodes = 0)
    (hnm : h.names = []) (hd : NamesDistinct p n) : ∃ h1, Install h = some h1 := by
  unfold Install
  simp only
  rw [hp, hn]
  generalize hh0 : ({ h with nNodes := h.nNodes + h.m_params.T.toNat
                             m_allocateElement := h.m_wizardSateElement } :
      ConstellationHelper) = hs
  have hnodes : hs.nNodes = p * n := by subst hh0; show h.nNodes + _ = _; omega
  have hsat : hs.satsInPlane.toNat = n := by subst hh0; exact hn
  have hnames : hs.names = [] := by subst hh0; exact hnm
  obtain ⟨s1, hrun, _⟩ := nested_defined
    (fun i j (t : ConstellationHelper × ℚ) =>
      InstallFrame hs t.1 ∧
        ∀ e, e ∈ t.1.names → ∃ i1 j1, doneBefore i j i1 j1 ∧ i1 < p ∧ j1 < n ∧
          e = (nodeName i1 j1, i1 * n + j1))
    (fun i j => InstallNode i j) p n (hs, 720)
    ⟨InstallFrame_refl hs, by
      intro e he
      rw [hnames] at he
      simp at he⟩
    (by
      intro i j hi hj t hI
      obtain ⟨hfr, hent⟩ := hI
      have hfields : t.1.nNodes = p * n ∧ t.1.satsInPlane.toNat = n := by
        obtain ⟨a, b, c, d, e⟩ := hfr
        rw [e]
        exact ⟨hnodes, hsat⟩
      have hadd : ∃ nm, Names.Add t.1.names (nodeName i j) (i * n + j) = some nm ∧
          ∀ e, e ∈ nm → e ∈ t.1.names ∨ e = (nodeName i j, i * n + j) := by
        unfold Names.Add
        have hany : (t.1.names.any
            (fun e => decide (e.1 = nodeName i j ∨ e.2 = i * n + j))) = false := by
          rw [List.any_eq_false]
          intro e he
          obtain ⟨i1, j1, hdone, hi1, hj1, rfl⟩ := hent e he
          simp only [decide_eq_true_eq, not_or]
          constructor
          · intro hname
            obtain ⟨e1, e2⟩ := hd i1 j1 i j hi1 hj1 hi hj hname
            unfold doneBefore at hdone
            omega
          · intro hobj
            obtain ⟨e1, e2⟩ := idx_inj hj1 hj hobj
            unfold doneBefore at hdone
            omega
        rw [hany]
        refine ⟨_, rfl, ?_⟩
        intro e he
        rw [List.mem_append, List.mem_singleton] at he
        exact he
      obtain ⟨nm, hnmadd, hmem⟩ := hadd
      have hdef : ∃ t1, InstallNode i j t = some t1 := by
        unfold InstallNode
        simp only
        rw [hfields.2, if_pos (by rw [hfields.1]; exact idx_lt hi hj), hnmadd]
        exact ⟨_, rfl⟩
      obtain ⟨t1, ht1⟩ := hdef
      obtain ⟨hfr1, nm1, hadd1, hnm1⟩ := InstallNode_spec ht1
      rw [hfields.2, hnmadd] at hadd1
      simp only [Option.some.injEq] at hadd1
      subst hadd1
      refine ⟨t1, ht1, InstallFrame_trans hfr hfr1, ?_⟩
      intro e he
      rw [hnm1] at he
      rcases hmem e he with hold | rfl
      · obtain ⟨i1, j1, hdone, hi1, hj1, he1⟩ := hent e hold
        exact ⟨i1, j1, doneBefore_succ_inner.mpr (Or.inl hdone), hi1, hj1, he1⟩
      · exact ⟨i, j, doneBefore_succ_inner.mpr (Or.inr ⟨rfl, rfl⟩), hi, hj, rfl⟩)
    (by
      intro i _ t hI
      refine ⟨hI.1, ?_⟩
      intro e he
      obtain ⟨i1, j1, hdone, hi1, hj1, he1⟩ := hI.2 e he
      exact ⟨i1, j1, (doneBefore_succ_outer hj1).mpr hdone, hi1, hj1, he1⟩)
  rw [hrun]
  exact ⟨_, rfl⟩

theorem permanentLink_defined {inp : BuildInput} {geo : Nat → NodeLat} {n p i j : Nat}
    {hD t : ConstellationHelper} (hR : ReadyToLink inp n p hD) (hi : i < p) (hj : j < n)
    (hfr : PermFrame hD t) : ∃ t1, permanentLink geo n i j t = some t1 := by
  obtain ⟨k, ch, dv, rfl⟩ := hfr
  have hF1 : FindDev { hD with nChannels := k, channel := ch, dev := dv } (nodeName i j)
      Direction.FORWARD = some ⟨i * n + j, Direction.FORWARD⟩ :=
    FindDev_eq _ (hR.find i j hi hj) (by rw [show _ = hD.nDevNodes from rfl, hR.devNodes]
                                         exact idx_lt hi hj)
  have hF2 : FindDev { hD with nChannels := k, channel := ch, dev := dv }
      (nodeName i ((j + 1) % n)) Direction.BACKWARD =
      some ⟨i * n + (j + 1) % n, Direction.BACKWARD⟩ :=
    FindDev_eq _ (hR.find i _ hi (succ_mod_lt hj))
      (by rw [show _ = hD.nDevNodes from rfl, hR.devNodes]
          exact idx_lt hi (succ_mod_lt hj))
  unfold permanentLink
  rw [hF1, hF2]
  exact ⟨_, rfl⟩

theorem temporaryLink_defined {inp : BuildInput} {geo : Nat → NodeLat} {n p i j : Nat}
    {hD t : ConstellationHelper} (hR : ReadyToLink inp n p hD) (hi : i < n) (hj : j < p - 1)
    (hfr : LinkFrame hD t) : ∃ t1, temporaryLink inp.sinDeg geo i j t = some t1 := by
  obtain ⟨k, ch, dv, pl, l, r, o, rfl⟩ := hfr
  have hF1 : FindDev { hD with nChannels := k, channel := ch, dev := dv, unused_link := pl,
                               breaked_left := l, breaked_right := r, overPolar := o }
      (nodeName j i) Direction.RIGHT = some (pairRight n i j) :=
    FindDev_eq _ (hR.find j i (by omega) hi)
      (by rw [show _ = hD.nDevNodes from rfl, hR.devNodes]; exact idx_lt (by omega) hi)
  have hF2 : FindDev { hD with nChannels := k, channel := ch, dev := dv, unused_link := pl,
                               breaked_left := l, breaked_right := r, overPolar := o }
      (nodeName (j + 1) i) Direction.LEFT = some (pairLeft n i j) :=
    FindDev_eq _ (hR.find (j + 1) i (by omega) hi)
      (by rw [show _ = hD.nDevNodes from rfl, hR.devNodes]; exact idx_lt (by omega) hi)
  unfold temporaryLink
  rw [hF1, hF2]
  simp only
  split <;> exact ⟨_, rfl⟩

theorem LinkConfig_defined {inp : BuildInput} {geo : Nat → NodeLat} {n p : Nat}
    {hD : ConstellationHelper} (hR : ReadyToLink inp n p hD)
    (hn : (Int.tdiv hD.m_params.T hD.m_params.P).toNat = n) (hp : hD.m_params.P.toNat = p)
    (hp1 : (hD.m_params.P - 1).toNat = p - 1) :
    ∃ h, LinkConfig inp.sinDeg geo hD = some h := by
  unfold LinkConfig
  simp only
  rw [hn, hp, hp1]
  obtain ⟨hP, hrunP, hIP⟩ := nested_defined (fun i j t => PermInv n hD i j t)
    (fun i j => permanentLink geo n i j) p n hD
    (by
      refine ⟨⟨hD.nChannels, hD.channel, hD.dev, rfl⟩, ?_, ?_, ?_, ?_⟩
      · rw [hR.noChannels]; omega
      · intro i1 j1 hd
        exact absurd hd doneBefore_zero
      · intro d c hc
        rw [hR.devs] at hc
        simp at hc
      · intro d
        rw [hR.devs]
        rfl)
    (by
      intro i j hi hj t hI
      obtain ⟨t1, ht1⟩ := @permanentLink_defined inp geo n p i j hD t hR hi hj hI.1
      exact ⟨t1, ht1, permanentLink_step hR hi hj hI ht1⟩)
    (by
      intro i _ t hI
      obtain ⟨hfr, hk, hpairs, hdevs, hlink⟩ := hI
      refine ⟨hfr, ?_, ?_, hdevs, hlink⟩
      · rw [hk, Nat.succ_mul]; omega
      · intro i1 j1 hd hj1
        exact hpairs i1 j1 ((doneBefore_succ_outer hj1).mp hd) hj1)
  rw [hrunP]
  simp only [Option.some_bind]
  obtain ⟨k, ch, dv, hPeq⟩ := hIP.1
  obtain ⟨h, hrunT, _⟩ := nested_defined (fun _ _ t => LinkFrame hD t)
    (fun i j => temporaryLink inp.sinDeg geo i j) n (p - 1) hP
    (by rw [hPeq]; exact ⟨_, _, _, _, _, _, _, rfl⟩)
    (by
      intro i j hi hj t hfr
      obtain ⟨t1, ht1⟩ := @temporaryLink_defined inp geo n p i j hD t hR hi hj hfr
      refine ⟨t1, ht1, ?_⟩
      obtain ⟨k1, ch1, dv1, pl1, l1, r1, o1, rfl⟩ := hfr
      unfold temporaryLink at ht1
      split at ht1
      · simp only at ht1
        split at ht1
        · simp only [Option.some.injEq] at ht1
          subst ht1
          exact ⟨_, _, _, _, _, _, _, rfl⟩
        · simp only [Option.some.injEq] at ht1
          subst ht1
          exact ⟨_, _, _, _, _, _, _, rfl⟩
      · simp at ht1)
    (fun _ _ t ht => ht)
  exact ⟨h, hrunT⟩

/-- For a valid configuration whose node names are pairwise different the build
runs to completion, whatever the positions. -/
theorem build_defined (inp : BuildInput) (geo : Nat → NodeLat) (hv : Valid inp.params)
    (hd : NamesDistinct (planes inp.params) (satsPerPlane inp.params)) :
    ∃ h, build inp geo = some h := by
  obtain ⟨h1, hS⟩ := SetConstellationParams_defined (SetWizardSatellite {} inp.wizard) hv
  obtain ⟨rs, hS1⟩ := SetConstellationParams_ok hS
  have htot := hv.total
  obtain ⟨hI, hInst⟩ := Install_defined (h := SetLatitudeLimit h1 inp.lat_limit)
    (p := planes inp.params) (n := satsPerPlane inp.params)
    (by rw [hS1]; rfl) (by rw [hS1]; rfl) (by rw [hS1]; exact htot) (by rw [hS1]; rfl)
    (by rw [hS1]; rfl) hd
  have hb1 : build inp geo = InstallDev inp.sinDeg geo hI := by
    unfold build
    rw [hS]
    simp only
    rw [hInst]
    rfl
  obtain ⟨hfr, hfind⟩ := Install_spec hInst
  have hfind2 : ∀ i j, i < planes inp.params → j < satsPerPlane inp.params →
      Names.Find hI.names (nodeName i j) = some (i * satsPerPlane inp.params + j) := by
    intro i j hi hj
    have := hfind i j (by rw [hS1]; exact hi) (by rw [hS1]; exact hj)
    rw [hS1] at this
    exact this
  have hnodes : hI.nNodes = planes inp.params * satsPerPlane inp.params := by
    obtain ⟨a, b, c, d, e⟩ := hfr
    rw [e, hS1]
    show 0 + inp.params.T.toNat = _
    omega
  have hcheck : (List.range hI.nNodes).all
      (fun x => hI.names.any (fun e => decide (e.2 = x))) = true := by
    rw [List.all_eq_true]
    intro x hx
    rw [List.mem_range, hnodes] at hx
    obtain ⟨q1, q2, q3⟩ := node_decomp hx
    have hf := hfind2 _ _ q1 q2
    rw [q3] at hf
    unfold Names.Find at hf
    rw [Option.map_eq_some'] at hf
    obtain ⟨e, he, he2⟩ := hf
    rw [List.any_eq_true]
    exact ⟨e, List.mem_of_find?_eq_some he, by simp [he2]⟩
  have hb2 : InstallDev inp.sinDeg geo hI =
      LinkConfig inp.sinDeg geo { hI with nDevNodes := hI.nNodes } := by
    unfold InstallDev
    rw [if_pos hcheck]
  rw [hb1, hb2]
  clear hb1 hb2 hcheck hnodes hfind hInst hS
  subst hS1
  obtain ⟨nm, al, bm, el, rfl⟩ := hfr
  refine LinkConfig_defined (n := satsPerPlane inp.params) (p := planes inp.params)
    ?_ rfl rfl hv.pred_planes
  constructor
  · rfl
  · rfl
  · rfl
  · show 0 + inp.params.T.toNat = _
    omega
  · show 0 + inp.params.T.toNat = _
    omega
  · exact hfind2
  · rfl
  · rfl
  · rfl
  · rfl
  · rfl
  · rfl
  · rfl

/-! ## Names of up to 100 planes of up to 100 satellites -/

set_option maxRecDepth 100000 in
theorem fmt02_two : ∀ i, i < 100 → (fmt02 i).data.length = 2 ∧ readTwo (fmt02 i) = i := by
  decide

theorem nodeName_data (i j : Nat) :
    (nodeName i j).data = 'S' :: ((fmt02 i).data ++ (fmt02 j).data) := by
  simp [nodeName]

theorem nodeName_inj_small {i j i1 j1 : Nat} (hi : i < 100) (hj : j < 100) (hi1 : i1 < 100)
    (hj1 : j1 < 100) (h : nodeName i j = nodeName i1 j1) : i = i1 ∧ j = j1 := by
  have hd := congrArg String.data h
  rw [nodeName_data, nodeName_data] at hd
  simp only [List.cons.injEq, true_and] at hd
  obtain ⟨e1, e2⟩ := List.append_inj hd (by rw [(fmt02_two i hi).1, (fmt02_two i1 hi1).1])
  have f1 : fmt02 i = fmt02 i1 := String.ext e1
  have f2 : fmt02 j = fmt02 j1 := String.ext e2
  constructor
  · rw [← (fmt02_two i hi).2, f1, (fmt02_two i1 hi1).2]
  · rw [← (fmt02_two j hj).2, f2, (fmt02_two j1 hj1).2]

theorem NamesDistinct_small {p n : Nat} (hp : p ≤ 100) (hn : n ≤ 100) : NamesDistinct p n :=
  fun _ _ _ _ hi hj hi1 hj1 h =>
    nodeName_inj_small (by omega) (by omega) (by omega) (by omega) h

/-- A valid configuration of at most 100 planes of at most 100 satellites is
always built to completion. -/
theorem build_defined_small (inp : BuildInput) (geo : Nat → NodeLat) (hv : Valid inp.params)
    (hp : planes inp.params ≤ 100) (hn : satsPerPlane inp.params ≤ 100) :
    ∃ h, build inp geo = some h :=
  build_defined inp geo hv (NamesDistinct_small hp hn)

/-! ## C11: a polar node exactly at the limit does not take the exit branch -/

/-- C11, evaluation of the code: three planes of one satellite, limit 50, built at
latitudes 65, 5, 5, so that node 0 is in the polar set and the channel of nodes 0 and
1 is in the spare pool.  At the next tick node 0 is at latitude exactly 50 (and the
RIGHT device of node 0 and the LEFT device of node 1 are recorded as broken, node 1
is not polar).  The tick leaves node 0 in the polar set, calls `Connect` for nobody
and leaves the channel in the pool: the test of the exit block is `lat < lat_limit`. -/
theorem polar_exit_skipped_at_limit :
    (build threePlanes (latitudes [65, 5, 5])).map
      (fun h => (decide (0 ∈ h.overPolar), decide (1 ∈ h.overPolar), h.unused_link,
        decide ((⟨0, Direction.RIGHT⟩ : DevId) ∈ h.breaked_right),
        decide ((⟨1, Direction.LEFT⟩ : DevId) ∈ h.breaked_left)))
      = some (true, false, [3], true, true) ∧
    decide ((latitudes [50, 5, 5] 0).deg = threePlanes.lat_limit) = true ∧
    ((build threePlanes (latitudes [65, 5, 5])).bind
        (LinkMaintenance (latitudes [50, 5, 5]))).map
      (fun h => (decide (0 ∈ h.overPolar), h.log, h.unused_link,
        (h.dev ⟨0, Direction.RIGHT⟩).m_channel, (h.dev ⟨1, Direction.LEFT⟩).m_channel))
      = some (true, [], [3], none, none) := by
  refine ⟨?_, ?_, ?_⟩ <;> decide

/-! ## C12: the constellation type is never stored -/

theorem fmod360_small {x : ℚ} (h0 : 0 ≤ x) (h1 : x < 360) : fmod360 x = x := by
  unfold fmod360
  have hfloor : ⌊x / 360⌋ = 0 := by
    rw [Int.floor_eq_zero_iff]
    constructor
    · positivity
    · rw [div_lt_one (by norm_num)]
      exact h1
  rw [hfloor]
  simp

/-- C12, evaluation of the code: for DELTA with `T = 66`, `P = 6`, `F = 1` and the
wizard at true anomaly 0, `SetConstellationParams` uses `params.type` for
`RAAN_span` but leaves `m_params.type` at its initial value STAR (it copies `P`, `F`
and `T` only), so the best-match block of `Install` is never entered and
`GetBestMatch` returns its initial value 0 after the build.  The differences `diff`
of the eleven slots of the last plane are listed: the smallest is `360 / 66` at slot
10, and slot 0 has `300 / 11`. -/
theorem best_match_never_computed :
    (match SetConstellationParams (SetWizardSatellite {} deltaIridium.wizard)
        deltaIridium.params with
      | Except.ok h => some (h.m_params.type, h.RAAN_span)
      | Except.error _ => none) = some (ConstellationType.STAR, 360) ∧
    (build deltaIridium equator).map GetBestMatch = some 0 ∧
    (List.range 11).map (bestMatchDiff 0 66 6 1) =
      [300 / 11, 60, 1020 / 11, 1380 / 11, 1740 / 11, 1860 / 11, 1500 / 11, 1140 / 11,
        780 / 11, 420 / 11, 360 / 66] := by
  refine ⟨?_, ?_, ?_⟩
  · decide
  · decide
  · have h6 : Int.tdiv 66 6 = 11 := by decide
    simp only [List.range, List.range.loop, List.map, bestMatchDiff, h6]
    norm_num [fmod360_small, abs_of_nonneg, abs_of_neg]

/-! ## C13: the orbital elements handed to the nodes -/

theorem InstallNode_element {i j : Nat} {s s1 : ConstellationHelper × ℚ}
    (h : InstallNode i j s = some s1) :
    s1.1.m_allocateElement =
        { s.1.m_allocateElement with
          f := s.1.m_wizardSateElement.f +
            360 * (s.1.m_params.F : ℚ) / (s.1.m_params.T : ℚ) * (i : ℚ) +
            360 / (s.1.satsInPlane : ℚ) * (j : ℚ)
          RAAN := s.1.m_wizardSateElement.RAAN +
            s.1.RAAN_span / (s.1.m_params.P : ℚ) * (i : ℚ) } ∧
      s1.1.element = setAt s.1.element (i * s.1.satsInPlane.toNat + j)
        (some s1.1.m_allocateElement) ∧
      (s.1.m_params.type = ConstellationType.STAR → s1.1.bestMatch = s.1.bestMatch) := by
  unfold InstallNode at h
  simp only at h
  split at h
  · split at h
    · simp at h
    · simp only [Option.some.injEq] at h
      subst h
      refine ⟨rfl, rfl, ?_⟩
      intro hstar
      simp [hstar]
  · simp at h

/-- What `Install ()` leaves on the nodes: node `i * N + j` carries the wizard's
element with `f` and `RAAN` replaced; `match` is untouched while the stored type is
STAR. -/
theorem Install_elements {h h1 : ConstellationHelper} (hrun : Install h = some h1) :
    (∀ i j, i < h.m_params.P.toNat → j < h.satsInPlane.toNat →
      h1.element (i * h.satsInPlane.toNat + j) = some
        { h.m_wizardSateElement with
          f := h.m_wizardSateElement.f +
            360 * (h.m_params.F : ℚ) / (h.m_params.T : ℚ) * (i : ℚ) +
            360 / (h.satsInPlane : ℚ) * (j : ℚ)
          RAAN := h.m_wizardSateElement.RAAN +
            h.RAAN_span / (h.m_params.P : ℚ) * (i : ℚ) }) ∧
    (h.m_params.type = ConstellationType.STAR → h1.bestMatch = h.bestMatch) := by
  unfold Install at hrun
  simp only [Option.map_eq_some'] at hrun
  obtain ⟨s1, hloop, rfl⟩ := hrun
  have key := nested_inv
    (fun i j (t : ConstellationHelper × ℚ) =>
      (∃ nm al bm el, t.1 = { h with nNodes := h.nNodes + h.m_params.T.toNat
                                     m_allocateElement := al, names := nm, bestMatch := bm
                                     element := el }) ∧
      t.1.m_allocateElement.a = h.m_wizardSateElement.a ∧
      t.1.m_allocateElement.e = h.m_wizardSateElement.e ∧
      t.1.m_allocateElement.i = h.m_wizardSateElement.i ∧
      t.1.m_allocateElement.w = h.m_wizardSateElement.w ∧
      (h.m_params.type = ConstellationType.STAR → t.1.bestMatch = h.bestMatch) ∧
      ∀ i1 j1, doneBefore i j i1 j1 → j1 < h.satsInPlane.toNat →
        t.1.element (i1 * h.satsInPlane.toNat + j1) = some
          { h.m_wizardSateElement with
            f := h.m_wizardSateElement.f +
              360 * (h.m_params.F : ℚ) / (h.m_params.T : ℚ) * (i1 : ℚ) +
              360 / (h.satsInPlane : ℚ) * (j1 : ℚ)
            RAAN := h.m_wizardSateElement.RAAN +
              h.RAAN_span / (h.m_params.P : ℚ) * (i1 : ℚ) })
    (fun i j => InstallNode i j) h.m_params.P.toNat h.satsInPlane.toNat
    ({ h with nNodes := h.nNodes + h.m_params.T.toNat
              m_allocateElement := h.m_wizardSateElement }, 720) s1
    ⟨⟨_, _, _, _, rfl⟩, rfl, rfl, rfl, rfl, fun _ => rfl,
      fun i1 j1 hd => absurd hd doneBefore_zero⟩
    (by
      intro i j _ hj t t1 hI hb
      obtain ⟨⟨nm, al, bm, el, ht⟩, ha, he, hi, hw, hbest, hel⟩ := hI
      obtain ⟨halloc, helem, hbm⟩ := InstallNode_element hb
      obtain ⟨⟨nm1, al1, bm1, el1, ht1⟩, _⟩ := InstallNode_spec hb
      have hfields : t.1.m_wizardSateElement = h.m_wizardSateElement ∧
          t.1.m_params = h.m_params ∧ t.1.satsInPlane = h.satsInPlane ∧
          t.1.RAAN_span = h.RAAN_span := by
        rw [ht]
        exact ⟨rfl, rfl, rfl, rfl⟩
      obtain ⟨f1, f2, f3, f4⟩ := hfields
      rw [f1, f2, f3, f4] at halloc
      rw [f3] at helem
      rw [f2] at hbm
      have hnew : t1.1.m_allocateElement =
          { h.m_wizardSateElement with
            f := h.m_wizardSateElement.f +
              360 * (h.m_params.F : ℚ) / (h.m_params.T : ℚ) * (i : ℚ) +
              360 / (h.satsInPlane : ℚ) * (j : ℚ)
            RAAN := h.m_wizardSateElement.RAAN +
              h.RAAN_span / (h.m_params.P : ℚ) * (i : ℚ) } := by
        rw [halloc]
        simp only [ha, he, hi, hw]
      refine ⟨⟨nm1, al1, bm1, el1, ?_⟩, ?_, ?_, ?_, ?_, ?_, ?_⟩
      · rw [ht1, ht]
      · rw [hnew]
      · rw [hnew]
      · rw [hnew]
      · rw [hnew]
      · intro hstar
        rw [hbm hstar]
        exact hbest hstar
      · intro i1 j1 hd hj1
        rw [helem]
        rcases doneBefore_succ_inner.mp hd with hd1 | ⟨rfl, rfl⟩
        · rw [setAt_other _ _ _ _ (pair_ne_of_done hj hj1 hd1)]
          exact hel i1 j1 hd1 hj1
        · rw [setAt_same, hnew])
    (by
      intro i _ t hI
      obtain ⟨hfr, ha, he, hi, hw, hbest, hel⟩ := hI
      refine ⟨hfr, ha, he, hi, hw, hbest, ?_⟩
      intro i1 j1 hd hj1
      exact hel i1 j1 ((doneBefore_succ_outer hj1).mp hd) hj1)
    hloop
  refine ⟨?_, key.2.2.2.2.2.1⟩
  intro i j hi hj
  exact key.2.2.2.2.2.2 i j (doneBefore_all hi) hj

theorem permanentLink_frame {geo : Nat → NodeLat} {N i j : Nat} {hD t t1 : ConstellationHelper}
    (hfr : LinkFrame hD t) (hb : permanentLink geo N i j t = some t1) : LinkFrame hD t1 := by
  obtain ⟨k, ch, dv, pl, l, r, o, rfl⟩ := hfr
  unfold permanentLink at hb
  split at hb
  · simp only [Option.some.injEq] at hb
    subst hb
    exact ⟨_, _, _, _, _, _, _, rfl⟩
  · simp at hb

theorem temporaryLink_frame {sinDeg : ℚ → ℚ} {geo : Nat → NodeLat} {i j : Nat}
    {hD t t1 : ConstellationHelper}
    (hfr : LinkFrame hD t) (hb : temporaryLink sinDeg geo i j t = some t1) :
    LinkFrame hD t1 := by
  obtain ⟨k, ch, dv, pl, l, r, o, rfl⟩ := hfr
  unfold temporaryLink at hb
  split at hb
  · simp only at hb
    split at hb
    · simp only [Option.some.injEq] at hb
      subst hb
      exact ⟨_, _, _, _, _, _, _, rfl⟩
    · simp only [Option.some.injEq] at hb
      subst hb
      exact ⟨_, _, _, _, _, _, _, rfl⟩
  · simp at hb

/-- `LinkConfig` writes the link-management members only. -/
theorem LinkConfig_frame {sinDeg : ℚ → ℚ} {geo : Nat → NodeLat} {hD h : ConstellationHelper}
    (hrun : LinkConfig sinDeg geo hD = some h) : LinkFrame hD h := by
  unfold LinkConfig at hrun
  simp only at hrun
  rw [Option.bind_eq_some] at hrun
  obtain ⟨hP, hperm, htemp⟩ := hrun
  have h1 : LinkFrame hD hP := nested_inv (fun _ _ t => LinkFrame hD t)
    (fun i j => permanentLink geo _ i j) _ _ hD hP ⟨_, _, _, _, _, _, _, rfl⟩
    (fun i j _ _ t t1 hI hb => permanentLink_frame hI hb) (fun _ _ _ hI => hI) hperm
  exact nested_inv (fun _ _ t => LinkFrame hD t)
    (fun i j => temporaryLink sinDeg geo i j) _ _ hP h h1
    (fun i j _ _ t t1 hI hb => temporaryLink_frame hI hb) (fun _ _ _ hI => hI) htemp

/-- The three stages of a completed build. -/
theorem build_stages {inp : BuildInput} {geo : Nat → NodeLat} {h : ConstellationHelper}
    (hb : build inp geo = some h) :
    ∃ h1 hI, SetConstellationParams (SetWizardSatellite {} inp.wizard) inp.params =
        Except.ok h1 ∧
      Install (SetLatitudeLimit h1 inp.lat_limit) = some hI ∧
      LinkConfig inp.sinDeg geo { hI with nDevNodes := hI.nNodes } = some h := by
  unfold build at hb
  cases hS : SetConstellationParams (SetWizardSatellite {} inp.wizard) inp.params with
  | error e => rw [hS] at hb; simp at hb
  | ok h1 =>
    rw [hS] at hb
    simp only at hb
    rw [Option.bind_eq_some] at hb
    obtain ⟨hI, hInst, hDev⟩ := hb
    exact ⟨h1, hI, rfl, hInst, InstallDev_spec hDev⟩

theorem SetConstellationParams_span {h h1 : ConstellationHelper} {params : WalkerParams}
    (hok : SetConstellationParams h params = Except.ok h1) :
    h1.RAAN_span = if params.type = ConstellationType.STAR then 180 else 360 := by
  unfold SetConstellationParams at hok
  simp only at hok
  split at hok
  · simp at hok
  · split at hok
    · simp at hok
    · simp only [Except.ok.injEq] at hok
      subst hok
      cases hty : params.type <;> simp

/-- After every completed build `GetBestMatch` returns 0: the stored type is the
initial STAR whatever `params.type` is. -/
theorem build_bestMatch {inp : BuildInput} {geo : Nat → NodeLat} {h : ConstellationHelper}
    (hb : build inp geo = some h) : GetBestMatch h = 0 := by
  obtain ⟨h1, hI, hS, hInst, hL⟩ := build_stages hb
  obtain ⟨rs, rfl⟩ := SetConstellationParams_ok hS
  have hbm := (Install_elements hInst).2 rfl
  obtain ⟨k, ch, dv, pl, l, r, o, rfl⟩ := LinkConfig_frame hL
  exact hbm

/-- C13: after the build of a valid configuration, node `i * N + j` (`i < P`,
`j < N`) was handed the wizard's `a`, `e`, `i` and `w`, the node
`RAAN = wizard.RAAN + RAAN_span / P * i` with `RAAN_span` 180 for STAR and 360 for
DELTA, and the true anomaly `wizard.f + 360 * F / T * i + 360 / N * j` (as rationals,
equal and hence equal modulo 360).  For STAR with `T = 66`, `P = 6`, `F = 1` this is
`N = 11`, step `360 / 11`, plane offset `360 / 66` and `RAAN` step 30. -/
theorem installed_elements (inp : BuildInput) (geo : Nat → NodeLat) (h : ConstellationHelper)
    (hv : Valid inp.params) (hb : build inp geo = some h) :
    (∀ i j, i < planes inp.params → j < satsPerPlane inp.params →
      h.element (i * satsPerPlane inp.params + j) = some
        { a := inp.wizard.a, e := inp.wizard.e, i := inp.wizard.i, w := inp.wizard.w
          RAAN := inp.wizard.RAAN +
            (if inp.params.type = ConstellationType.STAR then 180 else 360) /
              (inp.params.P : ℚ) * (i : ℚ)
          f := inp.wizard.f + 360 * (inp.params.F : ℚ) / (inp.params.T : ℚ) * (i : ℚ) +
            360 / (satsPerPlane inp.params : ℚ) * (j : ℚ) }) ∧
    (inp.params = ⟨ConstellationType.STAR, 66, 6, 1⟩ →
      satsPerPlane inp.params = 11 ∧
      ∀ i j, i < 6 → j < 11 →
        h.element (i * 11 + j) = some
          { a := inp.wizard.a, e := inp.wizard.e, i := inp.wizard.i, w := inp.wizard.w
            RAAN := inp.wizard.RAAN + 30 * (i : ℚ)
            f := inp.wizard.f + 360 / 66 * (i : ℚ) + 360 / 11 * (j : ℚ) }) := by
  have hgen : ∀ i j, i < planes inp.params → j < satsPerPlane inp.params →
      h.element (i * satsPerPlane inp.params + j) = some
        { a := inp.wizard.a, e := inp.wizard.e, i := inp.wizard.i, w := inp.wizard.w
          RAAN := inp.wizard.RAAN +
            (if inp.params.type = ConstellationType.STAR then 180 else 360) /
              (inp.params.P : ℚ) * (i : ℚ)
          f := inp.wizard.f + 360 * (inp.params.F : ℚ) / (inp.params.T : ℚ) * (i : ℚ) +
            360 / (satsPerPlane inp.params : ℚ) * (j : ℚ) } := by
    intro i j hi hj
    obtain ⟨h1, hI, hS, hInst, hL⟩ := build_stages hb
    have hspan := SetConstellationParams_span hS
    obtain ⟨rs, rfl⟩ := SetConstellationParams_ok hS
    have hel := (Install_elements hInst).1 i j hi hj
    obtain ⟨k, ch, dv, pl, l, r, o, rfl⟩ := LinkConfig_frame hL
    have hN : ((Int.tdiv inp.params.T inp.params.P : Int) : ℚ) =
        ((satsPerPlane inp.params : Nat) : ℚ) := by
      have h0 : (0 : Int) ≤ Int.tdiv inp.params.T inp.params.P := by
        have := hv.2.2
        omega
      unfold satsPerPlane
      rw [← Int.cast_natCast, Int.toNat_of_nonneg h0]
    have hspan2 : rs = if inp.params.type = ConstellationType.STAR then 180 else 360 := hspan
    refine hel.trans ?_
    show some (OrbitalElement.mk _ _ _ _ _ _) = some (OrbitalElement.mk _ _ _ _ _ _)
    rw [← hN, ← hspan2]
    rfl
  refine ⟨hgen, ?_⟩
  intro hparams
  have hn : satsPerPlane inp.params = 11 := by rw [hparams]; decide
  have hp : planes inp.params = 6 := by rw [hparams]; decide
  refine ⟨hn, ?_⟩
  intro i j hi hj
  have hg := hgen i j (by rw [hp]; exact hi) (by rw [hn]; exact hj)
  rw [hn] at hg
  rw [hg, hparams]
  norm_num

/-- C13 on the Iridium configuration: node `2 * 11 + 3` carries the wizard's element
with `RAAN = 60` and `f = 2 * 360 / 66 + 3 * 360 / 11`. -/
theorem installed_elements_witness :
    Valid iridium.params ∧ ∃ h, build iridium equator = some h ∧
      h.element (2 * 11 + 3) = some
        { a := 715814 / 100, e := 0, i := 864 / 10, w := 0, RAAN := 60
          f := 2 * (360 / 66) + 3 * (360 / 11) } := by
  obtain ⟨h, hb⟩ := iridium_build_defined
  have hc := (installed_elements iridium equator h iridium_valid hb).2 rfl
  refine ⟨iridium_valid, h, hb, ?_⟩
  rw [hc.2 2 3 (by omega) (by omega)]
  simp only [iridium]
  norm_num

/-! ## C14: when the names are unique -/

theorem digitChar_read : ∀ m, m < 10 → (Nat.digitChar m).toNat - 48 = m ∧ (0 < m → Nat.digitChar m ≠ '0') := by
  decide

theorem toDigitsCore_read : ∀ (fuel n : Nat) (ds : List Char), n < fuel →
    readDigits 0 (Nat.toDigitsCore 10 fuel n ds) = readDigits n ds := by
  intro fuel
  induction fuel with
  | zero => intro n ds h; omega
  | succ f ih =>
    intro n ds h
    unfold Nat.toDigitsCore
    simp only
    have hd := (digitChar_read (n % 10) (Nat.mod_lt _ (by norm_num))).1
    split
    · rename_i h0
      unfold readDigits
      simp only [List.foldl_cons]
      rw [hd]
      congr 1
      omega
    · rename_i h0
      rw [ih (n / 10) _ (by omega)]
      unfold readDigits
      simp only [List.foldl_cons]
      rw [hd]
      congr 1
      omega

theorem toDigitsCore_head : ∀ (fuel n : Nat) (ds : List Char), n < fuel → 0 < n →
    ∃ c tl, Nat.toDigitsCore 10 fuel n ds = c :: tl ∧ c ≠ '0' := by
  intro fuel
  induction fuel with
  | zero => intro n ds h; omega
  | succ f ih =>
    intro n ds h hpos
    unfold Nat.toDigitsCore
    simp only
    split
    · rename_i h0
      refine ⟨_, _, rfl, ?_⟩
      have : n % 10 = n := by omega
      exact (digitChar_read (n % 10) (Nat.mod_lt _ (by norm_num))).2 (by omega)
    · rename_i h0
      exact ih (n / 10) _ (by omega) (by omega)

theorem toDigitsCore_length : ∀ (fuel n : Nat) (ds : List Char),
    ds.length < (Nat.toDigitsCore 10 (fuel + 1) n ds).length := by
  intro fuel
  induction fuel with
  | zero =>
    intro n ds
    unfold Nat.toDigitsCore
    simp only
    split
    · simp
    · simp [Nat.toDigitsCore]
  | succ f ih =>
    intro n ds
    unfold Nat.toDigitsCore
    simp only
    split
    · simp
    · have := ih (n / 10) (Nat.digitChar (n % 10) :: ds)
      simp only [List.length_cons] at this
      omega

theorem repr_data (n : Nat) : (Nat.repr n).data = Nat.toDigitsCore 10 (n + 1) n [] := rfl

theorem fmt02_data (n : Nat) :
    (fmt02 n).data = if (Nat.toDigitsCore 10 (n + 1) n []).length < 2
      then '0' :: Nat.toDigitsCore 10 (n + 1) n [] else Nat.toDigitsCore 10 (n + 1) n [] := by
  unfold fmt02
  simp only [String.length, repr_data]
  split <;> simp [repr_data]

theorem fmt02_read (n : Nat) : readDigits 0 (fmt02 n).data = n := by
  rw [fmt02_data]
  have h := toDigitsCore_read (n + 1) n [] (by omega)
  split
  · unfold readDigits at h ⊢
    simp only [List.foldl_cons]
    exact h
  · exact h

theorem fmt02_inj {a b : Nat} (h : fmt02 a = fmt02 b) : a = b := by
  rw [← fmt02_read a, ← fmt02_read b, h]

/-- A formatted index has at least two characters, and exactly two when it starts
with `0`. -/
theorem fmt02_shape (n : Nat) :
    2 ≤ (fmt02 n).data.length ∧
      (∀ tl, (fmt02 n).data = '0' :: tl → (fmt02 n).data.length = 2) := by
  rw [fmt02_data]
  have hlen := toDigitsCore_length n n []
  simp only [List.length_nil] at hlen
  split
  · rename_i hlt
    refine ⟨by simp only [List.length_cons]; omega, ?_⟩
    intro tl _
    simp only [List.length_cons]
    omega
  · rename_i hge
    refine ⟨by omega, ?_⟩
    intro tl htl
    rcases Nat.eq_zero_or_pos n with h0 | hpos
    · subst h0
      exact absurd (by decide : (Nat.toDigitsCore 10 (0 + 1) 0 []).length < 2) hge
    · obtain ⟨c, tl1, hc, hne⟩ := toDigitsCore_head (n + 1) n [] (by omega) hpos
      rw [hc] at htl
      simp only [List.cons.injEq] at htl
      exact absurd htl.1 hne

theorem fmt02_hundred : (fmt02 100).data = ['1', '0', '0'] := by decide

theorem fmt_parts_eq {i j i1 j1 : Nat}
    (h : (fmt02 i).data ++ (fmt02 j).data = (fmt02 i1).data ++ (fmt02 j1).data)
    (hl : (fmt02 i).data.length = (fmt02 i1).data.length ∨
      (fmt02 j).data.length = (fmt02 j1).data.length) : i = i1 ∧ j = j1 := by
  have hboth : (fmt02 i).data = (fmt02 i1).data ∧ (fmt02 j).data = (fmt02 j1).data := by
    rcases hl with hl | hl
    · exact List.append_inj h hl
    · exact List.append_inj' h hl
  exact ⟨fmt02_inj (String.ext hboth.1), fmt02_inj (String.ext hboth.2)⟩

theorem fmt_hundred_clash {j i1 j1 : Nat} (hi1 : i1 < 100)
    (h : (fmt02 100).data ++ (fmt02 j).data = (fmt02 i1).data ++ (fmt02 j1).data) : False := by
  have hlen1 := (fmt02_two i1 hi1).1
  have h2 := congrArg (List.drop 2) h
  rw [fmt02_hundred] at h2
  rw [List.drop_left' hlen1] at h2
  simp only [List.cons_append, List.drop_succ_cons, List.drop_zero, List.nil_append] at h2
  have hz := (fmt02_shape j1).2 _ h2.symm
  have hj := (fmt02_shape j).1
  rw [← h2] at hz
  simp only [List.length_cons] at hz
  omega

theorem NamesDistinct_of_small {p n : Nat} (h : p ≤ 101 ∨ n ≤ 100) : NamesDistinct p n := by
  intro i j i1 j1 hi hj hi1 hj1 he
  have hd := congrArg String.data he
  rw [nodeName_data, nodeName_data] at hd
  simp only [List.cons.injEq, true_and] at hd
  rcases h with hp | hn
  · rcases Nat.lt_or_ge i 100 with hi100 | hi100
    · rcases Nat.lt_or_ge i1 100 with hi1100 | hi1100
      · exact fmt_parts_eq hd (Or.inl (by rw [(fmt02_two i hi100).1, (fmt02_two i1 hi1100).1]))
      · have : i1 = 100 := by omega
        subst this
        exact (fmt_hundred_clash hi100 hd.symm).elim
    · have : i = 100 := by omega
      subst this
      rcases Nat.lt_or_ge i1 100 with hi1100 | hi1100
      · exact (fmt_hundred_clash hi1100 hd).elim
      · have : i1 = 100 := by omega
        subst this
        exact fmt_parts_eq hd (Or.inl rfl)
  · exact fmt_parts_eq hd (Or.inr (by
      rw [(fmt02_two j (by omega)).1, (fmt02_two j1 (by omega)).1]))

theorem NamesDistinct_iff (p n : Nat) : NamesDistinct p n ↔ p ≤ 101 ∨ n ≤ 100 := by
  constructor
  · intro h
    by_contra hc
    have := h 10 100 101 0 (by omega) (by omega) (by omega) (by omega) (by decide)
    omega
  · exact NamesDistinct_of_small

theorem desc_inj : ∀ k k1, k < 4 → k1 < 4 →
    desc.getD k (Char.ofNat 0) = desc.getD k1 (Char.ofNat 0) → k = k1 := by
  intro k k1 hk hk1
  interval_cases k <;> interval_cases k1 <;> decide

theorem deviceName_data (name : String) (k : Nat) :
    (deviceName name k).data = name.data ++ ['/', 'e', 't', 'h', desc.getD k (Char.ofNat 0)] := by
  simp [deviceName, String.singleton]

theorem deviceName_inj {a b : String} {k k1 : Nat} (hk : k < 4) (hk1 : k1 < 4)
    (h : deviceName a k = deviceName b k1) : a = b ∧ k = k1 := by
  have hd := congrArg String.data h
  rw [deviceName_data, deviceName_data] at hd
  obtain ⟨e1, e2⟩ := List.append_inj' hd rfl
  simp only [List.cons.injEq, true_and, and_true] at e2
  exact ⟨String.ext e1, desc_inj k k1 hk hk1 e2⟩

/-- C14 as stated fails: `T = 10302`, `P = 102` is a valid configuration with
`N = 101`, and its nodes `(10, 100)` and `(101, 0)` are both named `S10100`. -/
theorem node_names_collide :
    Valid ⟨ConstellationType.STAR, 10302, 102, 1⟩ ∧
    planes ⟨ConstellationType.STAR, 10302, 102, 1⟩ = 102 ∧
    satsPerPlane ⟨ConstellationType.STAR, 10302, 102, 1⟩ = 101 ∧
    nodeName 10 100 = "S10100" ∧ nodeName 101 0 = "S10100" ∧
    ¬ (∀ params : WalkerParams, Valid params →
        ∀ i j i1 j1, i < planes params → j < satsPerPlane params →
          i1 < planes params → j1 < satsPerPlane params →
          nodeName i j = nodeName i1 j1 → i = i1 ∧ j = j1) := by
  have hv : Valid ⟨ConstellationType.STAR, 10302, 102, 1⟩ := by
    unfold Valid
    decide
  refine ⟨hv, by decide, by decide, by decide, by decide, ?_⟩
  intro hall
  have h := hall ⟨ConstellationType.STAR, 10302, 102, 1⟩ hv 10 100 101 0
    (by decide) (by decide) (by decide) (by decide) (by decide)
  omega

/-- C14 amended: with at most 101 planes or at most 100 satellites per plane, the
node names `S{i:02}{j:02}` of two different positions `(i, j)` differ, and so do the
device names `{node name}/eth{R|L|F|B}` of two different (node, port) pairs. -/
theorem names_unique (params : WalkerParams)
    (hsmall : planes params ≤ 101 ∨ satsPerPlane params ≤ 100) :
    (∀ i j i1 j1, i < planes params → j < satsPerPlane params →
      i1 < planes params → j1 < satsPerPlane params →
      nodeName i j = nodeName i1 j1 → i = i1 ∧ j = j1) ∧
    (∀ i j k i1 j1 k1, i < planes params → j < satsPerPlane params → k < 4 →
      i1 < planes params → j1 < satsPerPlane params → k1 < 4 →
      deviceName (nodeName i j) k = deviceName (nodeName i1 j1) k1 →
        i = i1 ∧ j = j1 ∧ k = k1) := by
  have hd := NamesDistinct_of_small hsmall
  refine ⟨hd, ?_⟩
  intro i j k i1 j1 k1 hi hj hk hi1 hj1 hk1 he
  obtain ⟨e1, e2⟩ := deviceName_inj hk hk1 he
  obtain ⟨e3, e4⟩ := hd i j i1 j1 hi hj hi1 hj1 e1
  exact ⟨e3, e4, e2⟩

/-- C14 amended, on the Iridium configuration (6 planes of 11 satellites): the
names of the LEFT devices of nodes `(1, 10)` and `(5, 1)` differ. -/
theorem names_unique_witness :
    (planes iridium.params ≤ 101 ∨ satsPerPlane iridium.params ≤ 100) ∧
    deviceName (nodeName 1 10) 1 ≠ deviceName (nodeName 5 1) 1 := by
  have hs : planes iridium.params ≤ 101 ∨ satsPerPlane iridium.params ≤ 100 :=
    Or.inl (by decide)
  refine ⟨hs, ?_⟩
  intro he
  have h := (names_unique iridium.params hs).2 1 10 1 5 1 1 (by decide) (by decide)
    (by decide) (by decide) (by decide) (by decide) he
  omega

/-! ## C19: the latitude gate of `OpticalChannel::Send` -/

theorem DisConnect_log (h : ConstellationHelper) (a b : DevId) (c : Nat) :
    (DisConnect h a b c).log = h.log ++ [Event.disconnect a b c] := rfl

/-- What `Send` does on a temporary channel with both slots filled, by the outcome
of the test `l0 > lat_limit || l1 > lat_limit`. -/
theorem ChannelSend_temporary {geo : Nat → NodeLat} {h : ConstellationHelper} {c : Nat}
    {d0 d1 : DevId} (sender : DevId) (txTime delay : ℚ)
    (htemp : (h.channel c).isTemporary = true)
    (hd0 : (h.channel c).dev_list0 = some d0) (hd1 : (h.channel c).dev_list1 = some d1) :
    ((geo d0.node).sine > (h.channel c).lat_limit ∨
        (geo d1.node).sine > (h.channel c).lat_limit →
      ChannelSend geo h c sender txTime delay =
        some (false, if (h.channel c).disconnectCbSet then DisConnect h d0 d1 c else h)) ∧
    (¬ ((geo d0.node).sine > (h.channel c).lat_limit ∨
        (geo d1.node).sine > (h.channel c).lat_limit) →
      ∃ h1 rb, ChannelSend geo h c sender txTime delay = some (true, h1) ∧
        (rb = [] ∨ ∃ x, rb = [Event.readyBreak c x]) ∧
        h1.log = h.log ++ rb ++
          [Event.scheduleReceive (if sender = d0 then d1 else d0).node (delay + txTime) sender
            (if sender = d0 then d1 else d0)]) := by
  have hrecv : (h.channel c).GetAnother sender = some (if sender = d0 then d1 else d0) := by
    unfold OpticalChannel.GetAnother
    rw [hd0, hd1]
    by_cases hs : sender = d0
    · simp [hs]
    · simp [hs]
  constructor
  · intro hpolar
    unfold ChannelSend
    simp only [htemp, hd0, hd1, if_true]
    unfold OpticalChannel.LatitudeCheck
    simp only [if_pos hpolar]
    simp
  · intro hpolar
    unfold ChannelSend
    simp only [htemp, hd0, hd1, if_true, hrecv]
    unfold OpticalChannel.LatitudeCheck
    simp only [if_neg hpolar, setAt_same, hd0, hd1, if_true]
    refine ⟨_, _, rfl, ?_, rfl⟩
    split
    · exact Or.inr ⟨_, rfl⟩
    · exact Or.inl rfl

/-! ## The callbacks of the temporary channels -/

theorem RunInv.of_channel_eq {h h1 : ConstellationHelper} (hI : RunInv h)
    (hc : h1.channel = h.channel) : RunInv h1 := by
  constructor
  rw [hc]
  exact hI.cb

theorem RunInv.after_disconnect {h : ConstellationHelper} (hI : RunInv h) (a b : DevId) (c : Nat) :
    RunInv (DisConnect h a b c) := by
  constructor
  intro c1 ht
  by_cases he : c1 = c
  · subst he
    rw [DisConnect_channel_same] at ht ⊢
    exact hI.cb c1 ht
  · rw [DisConnect_channel_other h a b c c1 he] at ht ⊢
    exact hI.cb c1 ht

theorem Attach_flags (ch : OpticalChannel) (a : DevId) (x : ℚ) :
    (ch.Attach a x).isTemporary = ch.isTemporary ∧
    (ch.Attach a x).disconnectCbSet = ch.disconnectCbSet ∧
    (ch.Attach a x).readyBreakCbSet = ch.readyBreakCbSet := by
  unfold OpticalChannel.Attach
  split <;> exact ⟨rfl, rfl, rfl⟩

theorem LatitudeCheck_flags (ch : OpticalChannel) (l0 l1 : ℚ) :
    (ch.LatitudeCheck l0 l1).channel.disconnectCbSet = ch.disconnectCbSet ∧
    (ch.LatitudeCheck l0 l1).channel.readyBreakCbSet = ch.readyBreakCbSet := by
  unfold OpticalChannel.LatitudeCheck
  split <;> exact ⟨rfl, rfl⟩

theorem RunInv.after_connect {geo : Nat → NodeLat} {h h1 : ConstellationHelper} {a b : DevId}
    (hI : RunInv h) (hrun : Connect geo h a b = some h1) : RunInv h1 := by
  obtain ⟨c, _, _, _, _, hch, hother, _, _, _, _, _, _, _⟩ := Connect_some hrun
  constructor
  intro c1 ht
  by_cases he : c1 = c
  · subst he
    rw [hch] at ht ⊢
    obtain ⟨p1, p2, p3⟩ := Attach_flags ((h.channel c1).Attach a (geo a.node).sine) b
      (geo b.node).sine
    obtain ⟨q1, q2, q3⟩ := Attach_flags (h.channel c1) a (geo a.node).sine
    rw [p1, q1] at ht
    rw [p2, p3, q2, q3]
    exact hI.cb c1 ht
  · rw [hother c1 he] at ht ⊢
    exact hI.cb c1 ht

theorem RunInv.after_entry {h h1 : ConstellationHelper} {i : Nat} (hI : RunInv h)
    (hrun : polarEntry i h = some h1) : RunInv h1 := by
  unfold polarEntry at hrun
  simp only at hrun
  rw [Option.bind_eq_some] at hrun
  obtain ⟨h2, hR, hL⟩ := hrun
  have hI0 : RunInv { h with overPolar := insert i h.overPolar } := hI.of_channel_eq rfl
  have hI2 : RunInv h2 := by
    split at hR
    · simp only [Option.some.injEq] at hR
      subst hR
      exact hI0
    · rw [Option.map_eq_some'] at hR
      obtain ⟨d, _, rfl⟩ := hR
      exact hI0.after_disconnect _ _ _
  split at hL
  · simp only [Option.some.injEq] at hL
    subst hL
    exact hI2
  · rw [Option.map_eq_some'] at hL
    obtain ⟨d, _, rfl⟩ := hL
    exact hI2.after_disconnect _ _ _

theorem RunInv.after_reconnect {geo : Nat → NodeLat} {h h1 : ConstellationHelper} {i : Nat}
    {adj : Option Nat} (hI : RunInv h) (hrun : reconnect geo i adj h = some h1) :
    RunInv h1 := by
  unfold reconnect at hrun
  cases adj with
  | none =>
    simp only [Option.some.injEq] at hrun
    subst hrun
    exact hI
  | some a =>
    simp only at hrun
    split at hrun
    · rw [Option.bind_eq_some] at hrun
      obtain ⟨h2, hfirst, hsecond⟩ := hrun
      have hI2 : RunInv h2 := by
        split at hfirst
        · exact hI.after_connect hfirst
        · simp only [Option.some.injEq] at hfirst
          subst hfirst
          exact hI
      split at hsecond
      · exact hI2.after_connect hsecond
      · simp only [Option.some.injEq] at hsecond
        subst hsecond
        exact hI2
    · simp at hrun

theorem RunInv.after_exit {geo : Nat → NodeLat} {h h1 : ConstellationHelper} {i : Nat}
    (hI : RunInv h) (hrun : polarExit geo i h = some h1) : RunInv h1 := by
  unfold polarExit at hrun
  simp only at hrun
  rw [Option.bind_eq_some] at hrun
  obtain ⟨h2, hfirst, hsecond⟩ := hrun
  have hI0 : RunInv { h with overPolar := h.overPolar.erase i } := hI.of_channel_eq rfl
  exact (hI0.after_reconnect hfirst).after_reconnect hsecond

theorem RunInv.after_node {geo : Nat → NodeLat} {h h1 : ConstellationHelper} {i : Nat}
    (hI : RunInv h) (hrun : LinkMaintenanceNode geo i h = some h1) : RunInv h1 := by
  unfold LinkMaintenanceNode at hrun
  simp only at hrun
  rw [Option.bind_eq_some] at hrun
  obtain ⟨h2, hentry, hexit⟩ := hrun
  have hI2 : RunInv h2 := by
    split at hentry
    · exact hI.after_entry hentry
    · simp only [Option.some.injEq] at hentry
      subst hentry
      exact hI
  split at hexit
  · exact hI2.after_exit hexit
  · simp only [Option.some.injEq] at hexit
    subst hexit
    exact hI2

theorem RunInv.after_tick {geo : Nat → NodeLat} {h h1 : ConstellationHelper}
    (hI : RunInv h) (hrun : LinkMaintenance geo h = some h1) : RunInv h1 := by
  unfold LinkMaintenance at hrun
  exact forLoop_inv (fun _ t => RunInv t) (LinkMaintenanceNode geo) h.nNodes h h1 hI
    (fun _ _ t t1 hIt hb => hIt.after_node hb) hrun

theorem RunInv.of_flags_eq {h h1 : ConstellationHelper} (hI : RunInv h)
    (hc : ∀ c, (h1.channel c).isTemporary = (h.channel c).isTemporary ∧
      (h1.channel c).disconnectCbSet = (h.channel c).disconnectCbSet ∧
      (h1.channel c).readyBreakCbSet = (h.channel c).readyBreakCbSet) : RunInv h1 := by
  constructor
  intro c ht
  obtain ⟨q1, q2, q3⟩ := hc c
  rw [q1] at ht
  rw [q2, q3]
  exact hI.cb c ht

theorem RunInv.after_send {geo : Nat → NodeLat} {h h1 : ConstellationHelper} {c : Nat}
    {d : DevId} {txTime delay : ℚ} {ok : Bool} (hI : RunInv h)
    (hrun : ChannelSend geo h c d txTime delay = some (ok, h1)) : RunInv h1 := by
  unfold ChannelSend at hrun
  simp only at hrun
  split at hrun
  · split at hrun
    · rename_i d0 d1 e0 e1
      split at hrun
      · -- the check passed
        have hI1 : RunInv
            { h with
              channel := setAt h.channel c
                ((h.channel c).LatitudeCheck (geo d0.node).sine (geo d1.node).sine).channel
              log := h.log ++
                (match ((h.channel c).LatitudeCheck (geo d0.node).sine
                    (geo d1.node).sine).readyBreak with
                 | some z => [Event.readyBreak c z]
                 | none => []) } := by
          refine hI.of_flags_eq ?_
          intro c1
          by_cases he : c1 = c
          · subst he
            show (setAt h.channel c1 _ c1).isTemporary = _ ∧
              (setAt h.channel c1 _ c1).disconnectCbSet = _ ∧
              (setAt h.channel c1 _ c1).readyBreakCbSet = _
            rw [setAt_same]
            exact ⟨(LatitudeCheck_links _ _ _).2.2, (LatitudeCheck_flags _ _ _).1,
              (LatitudeCheck_flags _ _ _).2⟩
          · show (setAt h.channel c _ c1).isTemporary = _ ∧
              (setAt h.channel c _ c1).disconnectCbSet = _ ∧
              (setAt h.channel c _ c1).readyBreakCbSet = _
            rw [setAt_other _ _ _ _ he]
            exact ⟨rfl, rfl, rfl⟩
        split at hrun
        · simp only [Option.some.injEq, Prod.mk.injEq] at hrun
          obtain ⟨_, rfl⟩ := hrun
          exact hI1.of_channel_eq rfl
        · simp at hrun
      · -- the check failed
        simp only [Option.some.injEq, Prod.mk.injEq] at hrun
        obtain ⟨_, rfl⟩ := hrun
        split
        · exact hI.after_disconnect _ _ _
        · exact hI
    · simp at hrun
  · split at hrun
    · simp only [Option.some.injEq, Prod.mk.injEq] at hrun
      obtain ⟨_, rfl⟩ := hrun
      exact hI.of_channel_eq rfl
    · simp at hrun

theorem permanentLink_callbacks {geo : Nat → NodeLat} {N i j : Nat} {t t1 : ConstellationHelper}
    (hcb : ∀ c, (t.channel c).isTemporary = true →
      (t.channel c).disconnectCbSet = true ∧ (t.channel c).readyBreakCbSet = true)
    (hb : permanentLink geo N i j t = some t1) :
    ∀ c, (t1.channel c).isTemporary = true →
      (t1.channel c).disconnectCbSet = true ∧ (t1.channel c).readyBreakCbSet = true := by
  unfold permanentLink at hb
  split at hb
  · simp only [Option.some.injEq] at hb
    subst hb
    intro c ht
    by_cases he : c = t.nChannels
    · subst he
      exfalso
      have hch : (setAt t.channel t.nChannels _ t.nChannels).isTemporary = true := ht
      rw [setAt_same, (Attach_flags _ _ _).1, (Attach_flags _ _ _).1] at hch
      simp [OpticalChannel.SetType] at hch
    · have hch : (setAt t.channel t.nChannels _ c).isTemporary = true := ht
      show (setAt t.channel t.nChannels _ c).disconnectCbSet = true ∧
        (setAt t.channel t.nChannels _ c).readyBreakCbSet = true
      rw [setAt_other _ _ _ _ he] at hch ⊢
      exact hcb c hch
  · simp at hb

theorem temporaryLink_callbacks {sinDeg : ℚ → ℚ} {geo : Nat → NodeLat} {i j : Nat}
    {t t1 : ConstellationHelper}
    (hcb : ∀ c, (t.channel c).isTemporary = true →
      (t.channel c).disconnectCbSet = true ∧ (t.channel c).readyBreakCbSet = true)
    (hb : temporaryLink sinDeg geo i j t = some t1) :
    ∀ c, (t1.channel c).isTemporary = true →
      (t1.channel c).disconnectCbSet = true ∧ (t1.channel c).readyBreakCbSet = true := by
  unfold temporaryLink at hb
  split at hb
  · simp only at hb
    split at hb
    · simp only [Option.some.injEq] at hb
      subst hb
      intro c ht
      by_cases he : c = t.nChannels
      · subst he
        show (setAt t.channel t.nChannels _ t.nChannels).disconnectCbSet = true ∧
          (setAt t.channel t.nChannels _ t.nChannels).readyBreakCbSet = true
        rw [setAt_same]
        exact ⟨rfl, rfl⟩
      · have hch : (setAt t.channel t.nChannels _ c).isTemporary = true := ht
        show (setAt t.channel t.nChannels _ c).disconnectCbSet = true ∧
          (setAt t.channel t.nChannels _ c).readyBreakCbSet = true
        rw [setAt_other _ _ _ _ he] at hch ⊢
        exact hcb c hch
    · simp only [Option.some.injEq] at hb
      subst hb
      intro c ht
      by_cases he : c = t.nChannels
      · subst he
        show (setAt (setAt t.channel t.nChannels _) t.nChannels _ t.nChannels).disconnectCbSet
            = true ∧
          (setAt (setAt t.channel t.nChannels _) t.nChannels _ t.nChannels).readyBreakCbSet
            = true
        rw [setAt_same, (Attach_flags _ _ _).2.1, (Attach_flags _ _ _).2.2,
          (Attach_flags _ _ _).2.1, (Attach_flags _ _ _).2.2]
        exact ⟨rfl, rfl⟩
      · have hch : (setAt (setAt t.channel t.nChannels _) t.nChannels _ c).isTemporary = true :=
          ht
        show (setAt (setAt t.channel t.nChannels _) t.nChannels _ c).disconnectCbSet = true ∧
          (setAt (setAt t.channel t.nChannels _) t.nChannels _ c).readyBreakCbSet = true
        rw [setAt_other _ _ _ _ he, setAt_other _ _ _ _ he] at hch ⊢
        exact hcb c hch
  · simp at hb

theorem LinkConfig_callbacks {sinDeg : ℚ → ℚ} {geo : Nat → NodeLat} {hD h : ConstellationHelper}
    (hcb : ∀ c, (hD.channel c).isTemporary = true →
      (hD.channel c).disconnectCbSet = true ∧ (hD.channel c).readyBreakCbSet = true)
    (hrun : LinkConfig sinDeg geo hD = some h) :
    ∀ c, (h.channel c).isTemporary = true →
      (h.channel c).disconnectCbSet = true ∧ (h.channel c).readyBreakCbSet = true := by
  unfold LinkConfig at hrun
  simp only at hrun
  rw [Option.bind_eq_some] at hrun
  obtain ⟨hP, hperm, htemp⟩ := hrun
  have h1 := nested_inv
    (fun _ _ (t : ConstellationHelper) => ∀ c, (t.channel c).isTemporary = true →
      (t.channel c).disconnectCbSet = true ∧ (t.channel c).readyBreakCbSet = true)
    (fun i j => permanentLink geo _ i j) _ _ hD hP hcb
    (fun i j _ _ t t1 hI hb => permanentLink_callbacks hI hb) (fun _ _ _ hI => hI) hperm
  exact nested_inv
    (fun _ _ (t : ConstellationHelper) => ∀ c, (t.channel c).isTemporary = true →
      (t.channel c).disconnectCbSet = true ∧ (t.channel c).readyBreakCbSet = true)
    (fun i j => temporaryLink sinDeg geo i j) _ _ hP h h1
    (fun i j _ _ t t1 hI hb => temporaryLink_callbacks hI hb) (fun _ _ _ hI => hI) htemp

/-- After the build the log is empty and the temporary channels carry both
callbacks. -/
theorem RunInv.after_build {inp : BuildInput} {geo : Nat → NodeLat} {h : ConstellationHelper}
    (hb : build inp geo = some h) : RunInv h ∧ h.log = [] := by
  obtain ⟨h1, hI, hS, hInst, hL⟩ := build_stages hb
  obtain ⟨rs, rfl⟩ := SetConstellationParams_ok hS
  obtain ⟨hfr, _⟩ := Install_spec hInst
  obtain ⟨nm, al, bm, el, rfl⟩ := hfr
  have hcb := LinkConfig_callbacks (by
    intro c ht
    have hf : false = true := ht
    exact absurd hf (by decide)) hL
  obtain ⟨k, ch, dv, pl, l, r, o, rfl⟩ := LinkConfig_frame hL
  exact ⟨⟨hcb⟩, rfl⟩

theorem Reachable.run_inv {inp : BuildInput} {h : ConstellationHelper}
    (hr : Reachable inp h) : RunInv h := by
  induction hr with
  | init geo h hb => exact (RunInv.after_build hb).1
  | tick geo h h1 _ ht ih => exact ih.after_tick ht
  | send geo h h1 d c txTime delay ok _ _ hs ih => exact ih.after_send hs

/-- C19: `OpticalChannel::Send` on a TEMPORARY channel with both slots filled and the
disconnect callback set (as on every temporary channel of the helper).  The call
returns false and adds to the log exactly one disconnect callback, with
(slot 0 device, slot 1 device, channel), and no scheduled reception, if and only if
the latitude sine of at least one endpoint is strictly greater than the limit sine;
the state is then that of `DisConnect`.  Otherwise the call returns true and adds one
scheduled `Receive` for the peer of the sender, in the context of the peer's node, at
delay `GetDelay () + txTime` (after at most one ready-break callback). -/
theorem send_latitude_gate (geo : Nat → NodeLat) (h : ConstellationHelper) (c : Nat)
    (d0 d1 sender : DevId) (txTime delay : ℚ)
    (htemp : (h.channel c).isTemporary = true)
    (hd0 : (h.channel c).dev_list0 = some d0) (hd1 : (h.channel c).dev_list1 = some d1)
    (hcb : (h.channel c).disconnectCbSet = true) :
    ((∃ h1, ChannelSend geo h c sender txTime delay = some (false, h1) ∧
        h1.log = h.log ++ [Event.disconnect d0 d1 c]) ↔
      ((geo d0.node).sine > (h.channel c).lat_limit ∨
        (geo d1.node).sine > (h.channel c).lat_limit)) ∧
    ((geo d0.node).sine > (h.channel c).lat_limit ∨
        (geo d1.node).sine > (h.channel c).lat_limit →
      ChannelSend geo h c sender txTime delay = some (false, DisConnect h d0 d1 c)) ∧
    (¬ ((geo d0.node).sine > (h.channel c).lat_limit ∨
        (geo d1.node).sine > (h.channel c).lat_limit) →
      ∃ h1 rb, ChannelSend geo h c sender txTime delay = some (true, h1) ∧
        (rb = [] ∨ ∃ x, rb = [Event.readyBreak c x]) ∧
        h1.log = h.log ++ rb ++
          [Event.scheduleReceive (if sender = d0 then d1 else d0).node (delay + txTime) sender
            (if sender = d0 then d1 else d0)]) := by
  obtain ⟨hfail, hpass⟩ := @ChannelSend_temporary geo h c d0 d1 sender txTime delay htemp hd0 hd1
  rw [hcb] at hfail
  simp only [if_true] at hfail
  refine ⟨⟨?_, ?_⟩, hfail, hpass⟩
  · rintro ⟨h1, hrun, _⟩
    by_contra hno
    obtain ⟨h2, rb, hrun2, _, _⟩ := hpass hno
    rw [hrun2] at hrun
    simp at hrun
  · intro hpolar
    exact ⟨_, hfail hpolar, rfl⟩

/-- C19 on three planes of one satellite built on the equator: a send by the RIGHT
device of node 0 over channel 3 passes the check and schedules one reception for the
LEFT device of node 1. -/
theorem send_latitude_gate_witness :
    ∃ h, Reachable threePlanes h ∧
      (h.channel 3).isTemporary = true ∧
      (h.channel 3).dev_list0 = some ⟨0, Direction.RIGHT⟩ ∧
      (h.channel 3).dev_list1 = some ⟨1, Direction.LEFT⟩ ∧
      (h.channel 3).disconnectCbSet = true ∧
      ∃ h1 rb, ChannelSend equator h 3 ⟨0, Direction.RIGHT⟩ 1 2 = some (true, h1) ∧
        (rb = [] ∨ ∃ x, rb = [Event.readyBreak 3 x]) ∧
        h1.log = h.log ++ rb ++
          [Event.scheduleReceive 1 3 ⟨0, Direction.RIGHT⟩ ⟨1, Direction.LEFT⟩] := by
  have hfacts : (build threePlanes equator).map
      (fun h => ((h.channel 3).isTemporary, (h.channel 3).dev_list0, (h.channel 3).dev_list1,
        (h.channel 3).lat_limit)) =
      some (true, some ⟨0, Direction.RIGHT⟩, some ⟨1, Direction.LEFT⟩,
        threePlanes.sinDeg 50) := by
    rfl
  cases hb : build threePlanes equator with
  | none => rw [hb] at hfacts; simp at hfacts
  | some h =>
    rw [hb] at hfacts
    simp only [Option.map_some', Option.some.injEq, Prod.mk.injEq] at hfacts
    obtain ⟨f1, f2, f3, f4⟩ := hfacts
    have hr : Reachable threePlanes h := Reachable.init _ h hb
    have hcb := (hr.run_inv.cb 3 f1).1
    have hgate := (send_latitude_gate equator h 3 ⟨0, Direction.RIGHT⟩ ⟨1, Direction.LEFT⟩
      ⟨0, Direction.RIGHT⟩ 1 2 f1 f2 f3 hcb).2.2 (by
        rw [f4]
        simp only [threePlanes, equator]
        norm_num)
    obtain ⟨h1, rb, g1, g2, g3⟩ := hgate
    refine ⟨h, hr, f1, f2, f3, hcb, h1, rb, g1, g2, ?_⟩
    rw [g3]
    norm_num

/-! ## C20: ready-break callbacks come from sends only -/

theorem LinkEventsOnly.same {h h1 : ConstellationHelper} (hl : h1.log = h.log) :
    LinkEventsOnly h h1 :=
  ⟨[], by rw [hl]; simp, by simp⟩

theorem LinkEventsOnly.chain {h h1 h2 : ConstellationHelper} (h01 : LinkEventsOnly h h1)
    (h12 : LinkEventsOnly h1 h2) : LinkEventsOnly h h2 := by
  obtain ⟨l1, e1, p1⟩ := h01
  obtain ⟨l2, e2, p2⟩ := h12
  refine ⟨l1 ++ l2, by rw [e2, e1, List.append_assoc], ?_⟩
  intro e he
  rcases List.mem_append.mp he with hm | hm
  · exact p1 e hm
  · exact p2 e hm

theorem LinkEventsOnly.of_disconnect (h : ConstellationHelper) (a b : DevId) (c : Nat) :
    LinkEventsOnly h (DisConnect h a b c) :=
  ⟨[Event.disconnect a b c], rfl, by
    intro e he
    rw [List.mem_singleton] at he
    exact Or.inr ⟨a, b, c, he⟩⟩

theorem LinkEventsOnly.of_connect {geo : Nat → NodeLat} {h h1 : ConstellationHelper}
    {a b : DevId} (hrun : Connect geo h a b = some h1) : LinkEventsOnly h h1 := by
  obtain ⟨c, _, _, _, _, _, _, _, _, _, _, _, _, hlog⟩ := Connect_some hrun
  refine ⟨[Event.connect a b], hlog, ?_⟩
  intro e he
  rw [List.mem_singleton] at he
  exact Or.inl ⟨a, b, he⟩

theorem LinkEventsOnly.of_entry {h h1 : ConstellationHelper} {i : Nat}
    (hrun : polarEntry i h = some h1) : LinkEventsOnly h h1 := by
  unfold polarEntry at hrun
  simp only at hrun
  rw [Option.bind_eq_some] at hrun
  obtain ⟨h2, hR, hL⟩ := hrun
  have h02 : LinkEventsOnly h h2 := by
    split at hR
    · simp only [Option.some.injEq] at hR
      subst hR
      exact LinkEventsOnly.same rfl
    · rw [Option.map_eq_some'] at hR
      obtain ⟨d, _, rfl⟩ := hR
      exact (LinkEventsOnly.same rfl).chain (LinkEventsOnly.of_disconnect _ _ _ _)
  split at hL
  · simp only [Option.some.injEq] at hL
    subst hL
    exact h02
  · rw [Option.map_eq_some'] at hL
    obtain ⟨d, _, rfl⟩ := hL
    exact h02.chain (LinkEventsOnly.of_disconnect _ _ _ _)

theorem LinkEventsOnly.of_reconnect {geo : Nat → NodeLat} {h h1 : ConstellationHelper}
    {i : Nat} {adj : Option Nat} (hrun : reconnect geo i adj h = some h1) :
    LinkEventsOnly h h1 := by
  unfold reconnect at hrun
  cases adj with
  | none =>
    simp only [Option.some.injEq] at hrun
    subst hrun
    exact LinkEventsOnly.same rfl
  | some a =>
    simp only at hrun
    split at hrun
    · rw [Option.bind_eq_some] at hrun
      obtain ⟨h2, hfirst, hsecond⟩ := hrun
      have h02 : LinkEventsOnly h h2 := by
        split at hfirst
        · exact LinkEventsOnly.of_connect hfirst
        · simp only [Option.some.injEq] at hfirst
          subst hfirst
          exact LinkEventsOnly.same rfl
      split at hsecond
      · exact h02.chain (LinkEventsOnly.of_connect hsecond)
      · simp only [Option.some.injEq] at hsecond
        subst hsecond
        exact h02
    · simp at hrun

theorem LinkEventsOnly.of_exit {geo : Nat → NodeLat} {h h1 : ConstellationHelper} {i : Nat}
    (hrun : polarExit geo i h = some h1) : LinkEventsOnly h h1 := by
  unfold polarExit at hrun
  simp only at hrun
  rw [Option.bind_eq_some] at hrun
  obtain ⟨h2, hfirst, hsecond⟩ := hrun
  exact ((LinkEventsOnly.same rfl).chain (LinkEventsOnly.of_reconnect hfirst)).chain
    (LinkEventsOnly.of_reconnect hsecond)

theorem LinkEventsOnly.of_node {geo : Nat → NodeLat} {h h1 : ConstellationHelper} {i : Nat}
    (hrun : LinkMaintenanceNode geo i h = some h1) : LinkEventsOnly h h1 := by
  unfold LinkMaintenanceNode at hrun
  simp only at hrun
  rw [Option.bind_eq_some] at hrun
  obtain ⟨h2, hentry, hexit⟩ := hrun
  have h02 : LinkEventsOnly h h2 := by
    split at hentry
    · exact LinkEventsOnly.of_entry hentry
    · simp only [Option.some.injEq] at hentry
      subst hentry
      exact LinkEventsOnly.same rfl
  split at hexit
  · exact h02.chain (LinkEventsOnly.of_exit hexit)
  · simp only [Option.some.injEq] at hexit
    subst hexit
    exact h02

theorem LinkEventsOnly.of_tick {geo : Nat → NodeLat} {h h1 : ConstellationHelper}
    (hrun : LinkMaintenance geo h = some h1) : LinkEventsOnly h h1 := by
  unfold LinkMaintenance at hrun
  exact forLoop_inv (fun _ t => LinkEventsOnly h t) (LinkMaintenanceNode geo) h.nNodes h h1
    (LinkEventsOnly.same rfl) (fun _ _ t t1 hIt hb => hIt.chain (LinkEventsOnly.of_node hb)) hrun

/-- C20 as stated fails: three planes of one satellite, limit 50, built at latitudes
49, 5, 5 (every pair attached).  At the first tick node 0 is at latitude 51: the tick
disconnects its channel, and the log holds this disconnect callback and nothing
before it. -/
theorem disconnect_without_ready_break :
    ((build threePlanes (latitudes [49, 5, 5])).bind
        (LinkMaintenance (latitudes [51, 5, 5]))).map (fun h => h.log) =
      some [Event.disconnect ⟨1, Direction.LEFT⟩ ⟨0, Direction.RIGHT⟩ 3] ∧
    ¬ (∀ h, Reachable threePlanes h → DisconnectsAnnounced h.log) := by
  have hlog : ((build threePlanes (latitudes [49, 5, 5])).bind
      (LinkMaintenance (latitudes [51, 5, 5]))).map (fun h => h.log) =
      some [Event.disconnect ⟨1, Direction.LEFT⟩ ⟨0, Direction.RIGHT⟩ 3] := by decide
  refine ⟨hlog, ?_⟩
  intro hall
  cases hrun : (build threePlanes (latitudes [49, 5, 5])).bind
      (LinkMaintenance (latitudes [51, 5, 5])) with
  | none => rw [hrun] at hlog; simp at hlog
  | some h1 =>
    rw [hrun] at hlog
    simp only [Option.map_some', Option.some.injEq] at hlog
    rw [Option.bind_eq_some] at hrun
    obtain ⟨h0, hb, ht⟩ := hrun
    have hr : Reachable threePlanes h1 := Reachable.tick _ h0 h1 (Reachable.init _ h0 hb) ht
    obtain ⟨x, hx⟩ := hall h1 hr [] [] ⟨1, Direction.LEFT⟩ ⟨0, Direction.RIGHT⟩ 3
      (by rw [hlog]; rfl)
    simp at hx

/-- What a call of `OpticalChannel::Send` adds to the log: either no ready-break
callback at all, or the call returned true on a temporary channel with both slots
filled, which it leaves filled, the spare pool is as before, the only ready-break
callback is for this channel, and no disconnect callback comes with it. -/
theorem ChannelSend_events {geo : Nat → NodeLat} {h h1 : ConstellationHelper} {c : Nat}
    {d : DevId} {txTime delay : ℚ} {ok : Bool}
    (hrun : ChannelSend geo h c d txTime delay = some (ok, h1)) :
    ∃ l, h1.log = h.log ++ l ∧
      ((∀ c1 x, Event.readyBreak c1 x ∉ l) ∨
        (ok = true ∧ (h.channel c).isTemporary = true ∧ h1.unused_link = h.unused_link ∧
          (∃ a b, (h.channel c).dev_list0 = some a ∧ (h.channel c).dev_list1 = some b ∧
            (h1.channel c).dev_list0 = some a ∧ (h1.channel c).dev_list1 = some b) ∧
          (∀ c1 x, Event.readyBreak c1 x ∈ l → c1 = c) ∧
          (∀ a b c2, Event.disconnect a b c2 ∉ l))) := by
  unfold ChannelSend at hrun
  simp only at hrun
  split at hrun
  · rename_i htemp
    split at hrun
    · rename_i d0 d1 e0 e1
      split at hrun
      · -- the check passed
        split at hrun
        · rename_i r s0 s1 hrecv hs0 hs1
          simp only [Option.some.injEq, Prod.mk.injEq] at hrun
          obtain ⟨hok, rfl⟩ := hrun
          have hs0a : (setAt h.channel c
              ((h.channel c).LatitudeCheck (geo d0.node).sine (geo d1.node).sine).channel
              c).dev_list0 = some d0 := by
            rw [setAt_same, (LatitudeCheck_links _ _ _).1, e0]
          have hs1a : (setAt h.channel c
              ((h.channel c).LatitudeCheck (geo d0.node).sine (geo d1.node).sine).channel
              c).dev_list1 = some d1 := by
            rw [setAt_same, (LatitudeCheck_links _ _ _).2.1, e1]
          refine ⟨(match ((h.channel c).LatitudeCheck (geo d0.node).sine
              (geo d1.node).sine).readyBreak with
            | some z => [Event.readyBreak c z]
            | none => []) ++ [Event.scheduleReceive r.node (delay + txTime) d r], ?_, Or.inr
            ⟨hok.symm, htemp, rfl, ⟨d0, d1, e0, e1, hs0a, hs1a⟩, ?_, ?_⟩⟩
          · show (h.log ++ _) ++ [_] = h.log ++ (_ ++ [_])
            rw [List.append_assoc]
          · intro c1 x hmem
            cases hrb : ((h.channel c).LatitudeCheck (geo d0.node).sine
                (geo d1.node).sine).readyBreak with
            | none =>
              rw [hrb] at hmem
              simp at hmem
            | some z =>
              rw [hrb] at hmem
              simp at hmem
              exact hmem.1
          · intro a b c2 hmem
            cases hrb : ((h.channel c).LatitudeCheck (geo d0.node).sine
                (geo d1.node).sine).readyBreak with
            | none =>
              rw [hrb] at hmem
              simp at hmem
            | some z =>
              rw [hrb] at hmem
              simp at hmem
        · simp at hrun
      · -- the check failed
        simp only [Option.some.injEq, Prod.mk.injEq] at hrun
        obtain ⟨_, rfl⟩ := hrun
        split
        · refine ⟨[Event.disconnect d0 d1 c], rfl, Or.inl ?_⟩
          intro c1 x hmem
          simp at hmem
        · refine ⟨[], by simp, Or.inl ?_⟩
          intro c1 x hmem
          simp at hmem
    · simp at hrun
  · split at hrun
    · rename_i r s0 s1 hrecv hs0 hs1
      simp only [Option.some.injEq, Prod.mk.injEq] at hrun
      obtain ⟨_, rfl⟩ := hrun
      refine ⟨[Event.scheduleReceive r.node (delay + txTime) d r], rfl, Or.inl ?_⟩
      intro c1 x hmem
      simp at hmem
    · simp at hrun

/-- C20 amended: ready-break callbacks are issued for connected channels only, and
only by sends.  The build issues no callback.  From every state reachable from the
build of a valid configuration by ticks and sends: a `LinkMaintenance` tick adds
connect and disconnect callbacks to the log and nothing else, so the disconnects of a
tick come without ready-break; and when a call of `OpticalChannel::Send` on channel
`c` adds a ready-break callback, the callback is for `c`, the call returned true, `c`
is a temporary channel that is connected before and after the call (both slots hold
devices, the same ones, and `c` is not in the spare pool), and the call adds no
disconnect callback. -/
theorem ready_break_while_connected (inp : BuildInput) (h : ConstellationHelper)
    (hv : Valid inp.params) (hr : Reachable inp h) :
    (∀ geo h0, build inp geo = some h0 → h0.log = []) ∧
    (∀ geo h1, LinkMaintenance geo h = some h1 →
      ∃ l, h1.log = h.log ++ l ∧
        ∀ e ∈ l, (∃ a b, e = Event.connect a b) ∨ (∃ a b c, e = Event.disconnect a b c)) ∧
    (∀ geo c d txTime delay ok h1, ChannelSend geo h c d txTime delay = some (ok, h1) →
      ∃ l, h1.log = h.log ++ l ∧
        ∀ c1 x, Event.readyBreak c1 x ∈ l →
          c1 = c ∧ ok = true ∧ (h.channel c).isTemporary = true ∧
          c ∉ h.unused_link ∧ c ∉ h1.unused_link ∧
          (∃ a b, (h.channel c).dev_list0 = some a ∧ (h.channel c).dev_list1 = some b ∧
            (h1.channel c).dev_list0 = some a ∧ (h1.channel c).dev_list1 = some b) ∧
          ∀ a b c2, Event.disconnect a b c2 ∉ l) := by
  refine ⟨fun geo h0 hb => (RunInv.after_build hb).2,
    fun geo h1 ht => LinkEventsOnly.of_tick ht, ?_⟩
  intro geo c d txTime delay ok h1 hrun
  obtain ⟨l, hl, hcase⟩ := ChannelSend_events hrun
  refine ⟨l, hl, ?_⟩
  intro c1 x hmem
  rcases hcase with hnone | ⟨hok, htemp, hpool, ⟨a, b, e0, e1, f0, f1⟩, hsame, hnod⟩
  · exact absurd hmem (hnone c1 x)
  · have hnot : c ∉ h.unused_link := by
      intro hin
      have := ((hr.inv hv).core.pool_slots c hin).1
      rw [e0] at this
      simp at this
    refine ⟨hsame c1 x hmem, hok, htemp, hnot, ?_, ⟨a, b, e0, e1, f0, f1⟩, hnod⟩
    rw [hpool]
    exact hnot

/-- A run of the three-plane constellation (limit 50) with all four kinds of
callback: built on the equator; a tick with node 0 at latitude 70 disconnects
channel 3; a tick with node 0 back on the equator connects it again; in the state
reached, a send over channel 3 by the RIGHT device of node 0, with node 0 at latitude
48, passes the check inside the 3 degree band. -/
theorem threePlanes_send_run :
    ∃ h h1, Reachable threePlanes h ∧
      ChannelSend (latitudes [48, 0, 0]) h 3 ⟨0, Direction.RIGHT⟩ 1 2 = some (true, h1) ∧
      h.log = [Event.disconnect ⟨1, Direction.LEFT⟩ ⟨0, Direction.RIGHT⟩ 3,
        Event.connect ⟨1, Direction.LEFT⟩ ⟨0, Direction.RIGHT⟩] ∧
      h1.log = [Event.disconnect ⟨1, Direction.LEFT⟩ ⟨0, Direction.RIGHT⟩ 3,
        Event.connect ⟨1, Direction.LEFT⟩ ⟨0, Direction.RIGHT⟩,
        Event.readyBreak 3 (1 / 45),
        Event.scheduleReceive 1 3 ⟨0, Direction.RIGHT⟩ ⟨1, Direction.LEFT⟩] := by
  have hrun : (((build threePlanes equator).bind
      (LinkMaintenance (latitudes [70, 0, 0]))).bind
      (LinkMaintenance (latitudes [0, 0, 0]))).bind
      (fun h => (ChannelSend (latitudes [48, 0, 0]) h 3 ⟨0, Direction.RIGHT⟩ 1 2).map
        (fun r => (r.1, h.log, r.2.log))) =
      some (true,
        [Event.disconnect ⟨1, Direction.LEFT⟩ ⟨0, Direction.RIGHT⟩ 3,
         Event.connect ⟨1, Direction.LEFT⟩ ⟨0, Direction.RIGHT⟩],
        [Event.disconnect ⟨1, Direction.LEFT⟩ ⟨0, Direction.RIGHT⟩ 3,
         Event.connect ⟨1, Direction.LEFT⟩ ⟨0, Direction.RIGHT⟩,
         Event.readyBreak 3 (1 / 45),
         Event.scheduleReceive 1 3 ⟨0, Direction.RIGHT⟩ ⟨1, Direction.LEFT⟩]) := by
    decide!
  rw [Option.bind_eq_some] at hrun
  obtain ⟨h2, hrun2, hsend⟩ := hrun
  rw [Option.bind_eq_some] at hrun2
  obtain ⟨h1, hrun1, ht2⟩ := hrun2
  rw [Option.bind_eq_some] at hrun1
  obtain ⟨h0, hb, ht1⟩ := hrun1
  rw [Option.map_eq_some'] at hsend
  obtain ⟨⟨ok, h3⟩, hs, hres⟩ := hsend
  simp only [Prod.mk.injEq] at hres
  obtain ⟨hok, hlog2, hlog3⟩ := hres
  have hok1 : ok = true := hok
  subst hok1
  have hr2 : Reachable threePlanes h2 :=
    Reachable.tick _ h1 h2 (Reachable.tick _ h0 h1 (Reachable.init _ h0 hb) ht1) ht2
  exact ⟨h2, h3, hr2, hs, hlog2, hlog3⟩

/-- C20 amended, on that run: the send that issues the ready-break callback for
channel 3 finds channel 3 outside the spare pool with both slots filled, leaves it
so, and issues no disconnect callback. -/
theorem ready_break_while_connected_witness :
    Valid threePlanes.params ∧
    ∃ h h1, Reachable threePlanes h ∧
      ChannelSend (latitudes [48, 0, 0]) h 3 ⟨0, Direction.RIGHT⟩ 1 2 = some (true, h1) ∧
      Event.readyBreak 3 (1 / 45) ∈ h1.log ∧
      3 ∉ h.unused_link ∧ 3 ∉ h1.unused_link ∧
      ∃ a b, (h.channel 3).dev_list0 = some a ∧ (h.channel 3).dev_list1 = some b ∧
        (h1.channel 3).dev_list0 = some a ∧ (h1.channel 3).dev_list1 = some b := by
  obtain ⟨h, h1, hr, hs, hlog, hlog1⟩ := threePlanes_send_run
  obtain ⟨l, hl, hall⟩ := (ready_break_while_connected threePlanes h threePlanes_valid hr).2.2
    (latitudes [48, 0, 0]) 3 ⟨0, Direction.RIGHT⟩ 1 2 true h1 hs
  have hmem : Event.readyBreak 3 (1 / 45) ∈ l := by
    rw [hlog1, hlog] at hl
    have hl1 : [Event.disconnect ⟨1, Direction.LEFT⟩ ⟨0, Direction.RIGHT⟩ 3,
        Event.connect ⟨1, Direction.LEFT⟩ ⟨0, Direction.RIGHT⟩] ++
        [Event.readyBreak 3 (1 / 45),
          Event.scheduleReceive 1 3 ⟨0, Direction.RIGHT⟩ ⟨1, Direction.LEFT⟩] =
        [Event.disconnect ⟨1, Direction.LEFT⟩ ⟨0, Direction.RIGHT⟩ 3,
          Event.connect ⟨1, Direction.LEFT⟩ ⟨0, Direction.RIGHT⟩] ++ l := hl
    rw [← List.append_cancel_left hl1]
    simp
  obtain ⟨_, _, _, q1, q2, q3, _⟩ := hall 3 (1 / 45) hmem
  refine ⟨threePlanes_valid, h, h1, hr, hs, ?_, q1, q2, q3⟩
  rw [hlog1]
  simp

/-! ## The frame built by SendFrom and read by Receive -/

theorem readFcs_fcsBytes {f : Nat} (hf : f < 4294967296) : readFcs (fcsBytes f) = some f := by
  unfold fcsBytes readFcs
  simp only [Option.some.injEq]
  omega

theorem RemoveTrailer_framed (p : Packet) {f : Nat} (hf : f < 4294967296) :
    RemoveTrailer (p ++ fcsBytes f) = some (f, p) := by
  have hlen : (fcsBytes f).length = 4 := rfl
  unfold RemoveTrailer
  rw [List.length_append, hlen]
  rw [if_neg (by omega)]
  have h4 : p.length + 4 - 4 = p.length := by omega
  rw [h4, List.drop_left, List.take_left, readFcs_fcsBytes hf]
  rfl

theorem RemoveEthernetHeader_Serialize (source dest : Mac48Address) {lengthType : Nat}
    (hlt : lengthType < 65536) (rest : Packet) :
    RemoveEthernetHeader (EthernetHeader.Serialize ⟨source, dest, lengthType⟩ ++ rest) =
      some (⟨source, dest, lengthType⟩, rest) := by
  have hlt2 : lengthType / 256 % 256 * 256 + lengthType % 256 = lengthType := by omega
  simp only [EthernetHeader.Serialize, Mac48Address.toBytes, List.cons_append, List.nil_append,
    RemoveEthernetHeader, hlt2]

/-- The frame of `SendFrom` decodes to what was sent when the protocol number is
above 1500. -/
theorem decodeFrame_framing (checksum : Bool) (crc32 : Packet → Nat) (payload : Packet)
    (source dest : Mac48Address) {protocolNumber : Nat} (h1 : 1500 < protocolNumber)
    (h2 : protocolNumber < 65536) :
    decodeFrame checksum crc32
        (addEthernetFraming checksum crc32 payload source dest protocolNumber) =
      some (some ⟨payload ++ List.replicate (46 - payload.length) 0, protocolNumber,
        source, dest⟩) := by
  have hpad : (if payload.length < 46 then payload ++ List.replicate (46 - payload.length) 0
      else payload) = payload ++ List.replicate (46 - payload.length) 0 := by
    split
    · rfl
    · rename_i hge
      have h0 : 46 - payload.length = 0 := by omega
      rw [h0]
      simp
  unfold addEthernetFraming decodeFrame
  simp only [hpad]
  have hf : (if checksum = true then
      crc32 (EthernetHeader.Serialize ⟨source, dest, protocolNumber⟩ ++
        (payload ++ List.replicate (46 - payload.length) 0)) % 4294967296 else 0) < 4294967296 := by
    split
    · exact Nat.mod_lt _ (by norm_num)
    · norm_num
  rw [RemoveTrailer_framed _ hf]
  simp only
  have hcrc : ¬ (checksum = true ∧
      (if checksum = true then
        crc32 (EthernetHeader.Serialize ⟨source, dest, protocolNumber⟩ ++
          (payload ++ List.replicate (46 - payload.length) 0)) % 4294967296 else 0) ≠
        crc32 (EthernetHeader.Serialize ⟨source, dest, protocolNumber⟩ ++
          (payload ++ List.replicate (46 - payload.length) 0)) % 4294967296) := by
    rintro ⟨hc, hne⟩
    rw [if_pos hc] at hne
    exact hne rfl
  rw [if_neg hcrc, RemoveEthernetHeader_Serialize source dest h2]
  simp only
  rw [if_neg (by omega)]

theorem SendFrom_hands_frame (checksum : Bool) (crc32 : Packet → Nat) (out : SendOutcome)
    (s : OpticalNetDevice) (payload : Packet) (source dest : Mac48Address)
    (protocolNumber : Nat) (hup : s.m_linkUp = true) (hch : s.m_channel ≠ none)
    (hready : s.m_txMachineState = TxMachineState.READY) (hq : s.m_queue = [])
    (hmax : 1 ≤ s.queueMaxSize) :
    ∃ ret s1, s.SendFrom checksum crc32 out payload source dest protocolNumber =
        some (ret, s1) ∧
      DevEvent.channelSend (addEthernetFraming checksum crc32 payload source dest protocolNumber)
        (s.txTime (addEthernetFraming checksum crc32 payload source dest
          protocolNumber).length) ∈ s1.trace := by
  obtain ⟨c, hc⟩ := Option.ne_none_iff_exists'.mp hch
  unfold OpticalNetDevice.SendFrom
  have hcond : ¬ (s.m_linkUp = false ∨ s.m_channel = none) := by
    rw [hup, hc]
    simp
  rw [if_neg hcond]
  simp only [OpticalNetDevice.fire, hq, List.length_nil, Nat.zero_add, hmax, if_true, hready]
  unfold OpticalNetDevice.TransmitStart
  simp only [hready, ne_eq, not_true_eq_false, if_false, hc, OpticalNetDevice.fire,
    OpticalNetDevice.txTime]
  cases out with
  | sent => exact ⟨_, _, rfl, by simp⟩
  | refused det =>
    refine ⟨_, _, rfl, ?_⟩
    cases det <;> simp [OpticalNetDevice.Detach]

/-- C15 amended: for every payload, source MAC, destination MAC and protocol number
above 1500 and below 65536, the frame built by `SendFrom` (Ethernet II header with
length-type = protocol, zero padding of the payload to at least 46 bytes, trailer)
decodes to the same source MAC, destination MAC and protocol number and to the
payload followed only by the zero padding; `Receive` on a link-up device whose error
model does not corrupt the frame hands exactly these to the promiscuous callback and,
unless the packet is for another host, to the receive callback; and the frame is the
one that `SendFrom` of a ready device with an empty queue hands to the channel. -/
theorem frame_round_trip (checksum : Bool) (crc32 : Packet → Nat) (payload : Packet)
    (source dest : Mac48Address) (protocolNumber : Nat) (h1 : 1500 < protocolNumber)
    (h2 : protocolNumber < 65536) (d : OpticalNetDevice) (hup : d.m_linkUp = true)
    (hrx : d.rxCallbackSet = true) :
    decodeFrame checksum crc32
        (addEthernetFraming checksum crc32 payload source dest protocolNumber) =
      some (some ⟨payload ++ List.replicate (46 - payload.length) 0, protocolNumber,
        source, dest⟩) ∧
    (∃ d1 ty, d.Receive checksum crc32 false
          (addEthernetFraming checksum crc32 payload source dest protocolNumber) = some d1 ∧
        (d.promiscCallbackSet = true →
          DevEvent.promiscCallback (payload ++ List.replicate (46 - payload.length) 0)
            protocolNumber source dest ty ∈ d1.trace) ∧
        (ty ≠ PacketType.PACKET_OTHERHOST →
          DevEvent.rxCallback (payload ++ List.replicate (46 - payload.length) 0)
            protocolNumber source ∈ d1.trace) ∧
        (dest = d.m_address → ty = PacketType.PACKET_HOST)) ∧
    (∀ (out : SendOutcome) (s : OpticalNetDevice), s.m_linkUp = true → s.m_channel ≠ none →
      s.m_txMachineState = TxMachineState.READY → s.m_queue = [] → 1 ≤ s.queueMaxSize →
      ∃ ret s1, s.SendFrom checksum crc32 out payload source dest protocolNumber =
          some (ret, s1) ∧
        DevEvent.channelSend
          (addEthernetFraming checksum crc32 payload source dest protocolNumber)
          (s.txTime (addEthernetFraming checksum crc32 payload source dest
            protocolNumber).length) ∈ s1.trace) := by
  have hdec := decodeFrame_framing checksum crc32 payload source dest h1 h2
  refine ⟨hdec, ?_, ?_⟩
  · unfold OpticalNetDevice.Receive
    rw [hup, hdec]
    simp only [Bool.true_eq_false, Bool.false_eq_true, if_false, hrx, if_true]
    have hhost : dest = d.m_address →
        (if dest = d.m_address then PacketType.PACKET_HOST
          else if dest.IsBroadcast = true then PacketType.PACKET_BROADCAST
          else if dest.IsGroup = true then PacketType.PACKET_MULTICAST
          else PacketType.PACKET_OTHERHOST) = PacketType.PACKET_HOST := by
      intro he
      simp [he]
    generalize (if dest = d.m_address then PacketType.PACKET_HOST
        else if dest.IsBroadcast = true then PacketType.PACKET_BROADCAST
        else if dest.IsGroup = true then PacketType.PACKET_MULTICAST
        else PacketType.PACKET_OTHERHOST) = ty at hhost ⊢
    by_cases hother : ty ≠ PacketType.PACKET_OTHERHOST
    · rw [if_pos hother]
      refine ⟨_, ty, rfl, ?_, ?_, hhost⟩
      · intro hp
        simp [OpticalNetDevice.fire, hp]
      · intro _
        simp [OpticalNetDevice.fire]
    · rw [if_neg hother]
      refine ⟨_, ty, rfl, ?_, ?_, hhost⟩
      · intro hp
        simp [OpticalNetDevice.fire, hp]
      · intro hne
        exact absurd hne hother
  · intro out s a1 a2 a3 a4 a5
    exact SendFrom_hands_frame checksum crc32 out s payload source dest protocolNumber
      a1 a2 a3 a4 a5

/-- C15 as stated fails for a protocol number of at most 1500: a payload of 46 zero
bytes sent with protocol number 46 is framed without padding, and `Receive` takes the
802.3 branch, strips eight bytes as an LLC/SNAP header and hands protocol 0 and 38
bytes to the receive callback. -/
theorem round_trip_fails_for_length_field :
    decodeFrame false (fun _ => 0)
        (addEthernetFraming false (fun _ => 0) (List.replicate 46 0) ⟨0, 0, 0, 0, 0, 1⟩
          ⟨0, 0, 0, 0, 0, 2⟩ 46) =
      some (some ⟨List.replicate 38 0, 0, ⟨0, 0, 0, 0, 0, 1⟩, ⟨0, 0, 0, 0, 0, 2⟩⟩) ∧
    ((({ m_address := ⟨0, 0, 0, 0, 0, 2⟩, rxCallbackSet := true } : OpticalNetDevice).Attach
          0).Receive false (fun _ => 0) false
        (addEthernetFraming false (fun _ => 0) (List.replicate 46 0) ⟨0, 0, 0, 0, 0, 1⟩
          ⟨0, 0, 0, 0, 0, 2⟩ 46)).map (fun d => d.trace.getLast?) =
      some (some (DevEvent.rxCallback (List.replicate 38 0) 0 ⟨0, 0, 0, 0, 0, 1⟩)) ∧
    ¬ (∀ (payload : Packet) (source dest : Mac48Address) (protocolNumber : Nat),
        protocolNumber < 65536 →
        decodeFrame false (fun _ => 0)
            (addEthernetFraming false (fun _ => 0) payload source dest protocolNumber) =
          some (some ⟨payload ++ List.replicate (46 - payload.length) 0, protocolNumber,
            source, dest⟩)) := by
  have h1 : decodeFrame false (fun _ => 0)
      (addEthernetFraming false (fun _ => 0) (List.replicate 46 0) ⟨0, 0, 0, 0, 0, 1⟩
        ⟨0, 0, 0, 0, 0, 2⟩ 46) =
      some (some ⟨List.replicate 38 0, 0, ⟨0, 0, 0, 0, 0, 1⟩, ⟨0, 0, 0, 0, 0, 2⟩⟩) := by
    decide
  refine ⟨h1, by decide, ?_⟩
  intro hall
  have h2 := hall (List.replicate 46 0) ⟨0, 0, 0, 0, 0, 1⟩ ⟨0, 0, 0, 0, 0, 2⟩ 46 (by decide)
  rw [h1] at h2
  revert h2
  decide

/-- C15 amended, for IPv4 (protocol number 2048) with the checksum enabled and a
stand-in for the CRC: three payload bytes come back followed by 43 zero bytes. -/
theorem frame_round_trip_witness :
    1500 < 2048 ∧ 2048 < 65536 ∧
    decodeFrame true (fun p => p.sum)
        (addEthernetFraming true (fun p => p.sum) [1, 2, 3] ⟨0, 0, 0, 0, 0, 1⟩
          ⟨0, 0, 0, 0, 0, 2⟩ 2048) =
      some (some ⟨[1, 2, 3] ++ List.replicate (46 - 3) 0, 2048, ⟨0, 0, 0, 0, 0, 1⟩,
        ⟨0, 0, 0, 0, 0, 2⟩⟩) :=
  ⟨by decide, by decide,
    (frame_round_trip true (fun p => p.sum) [1, 2, 3] ⟨0, 0, 0, 0, 0, 1⟩ ⟨0, 0, 0, 0, 0, 2⟩ 2048
      (by decide) (by decide)
      (({ m_address := ⟨0, 0, 0, 0, 0, 2⟩, rxCallbackSet := true } : OpticalNetDevice).Attach 0)
      rfl rfl).1⟩

/-! ## The transmit machine and the link flag of a device -/

theorem txRun_append (l1 l2 : List DevEvent) :
    ∀ b, txRun b (l1 ++ l2) = (txRun b l1).bind (fun b1 => txRun b1 l2) := by
  induction l1 with
  | nil => intro b; rfl
  | cons e l ih =>
    intro b
    cases e
    case PhyTxBegin p => cases b <;> simp [txRun, ih]
    case PhyTxEnd p => cases b <;> simp [txRun, ih]
    all_goals exact ih b

theorem txRun_neutral {l : List DevEvent} (hn : TxNeutral l) : ∀ b, txRun b l = some b := by
  induction l with
  | nil => intro b; rfl
  | cons e l ih =>
    intro b
    unfold TxNeutral at hn ih
    rw [List.all_cons, Bool.and_eq_true] at hn
    cases e
    case PhyTxBegin p => exact absurd hn.1 (by simp [DevEvent.txNeutral])
    case PhyTxEnd p => exact absurd hn.1 (by simp [DevEvent.txNeutral])
    all_goals exact ih hn.2 b

theorem TxInv.update {d d1 : OpticalNetDevice} (hI : TxInv d)
    (hs : d1.m_txMachineState = d.m_txMachineState) (hc : d1.m_currentPkt = d.m_currentPkt)
    (hp : d1.pendingTransmitComplete = d.pendingTransmitComplete) (l : List DevEvent)
    (ht : d1.trace = d.trace ++ l) (hn : TxNeutral l) : TxInv d1 := by
  constructor
  · rw [hs, hc]; exact hI.busy_pkt
  · rw [hs, hp]; exact hI.busy_pending
  · rw [hp]; exact hI.pending_le
  · rw [ht, txRun_append, hI.alternates, hs]
    exact txRun_neutral hn _

theorem TxInv.ready {d : OpticalNetDevice} (hI : TxInv d)
    (hr : d.m_txMachineState = TxMachineState.READY) :
    d.m_currentPkt = none ∧ d.pendingTransmitComplete = 0 ∧ txRun false d.trace = some false := by
  have hnb : d.m_txMachineState ≠ TxMachineState.BUSY := by rw [hr]; decide
  refine ⟨?_, ?_, ?_⟩
  · by_contra hne
    exact hnb (hI.busy_pkt.mpr hne)
  · have h1 := hI.pending_le
    have h2 : d.pendingTransmitComplete ≠ 1 := fun h => hnb (hI.busy_pending.mpr h)
    omega
  · rw [hI.alternates]
    simp [hnb]

/-- `TransmitStart` on a READY device: defined, and what it leaves. -/
theorem TransmitStart_ready (out : SendOutcome) (d : OpticalNetDevice) (p : Packet)
    (hr : d.m_txMachineState = TxMachineState.READY) :
    ∃ r d1 l, d.TransmitStart out p = some (r, d1) ∧
      d1.m_txMachineState = TxMachineState.BUSY ∧ d1.m_currentPkt = some p ∧
      d1.pendingTransmitComplete = d.pendingTransmitComplete + 1 ∧
      d1.m_queue = d.m_queue ∧
      d1.trace = d.trace ++ DevEvent.PhyTxBegin p :: l ∧ TxNeutral l ∧
      (d1.toOpticalDevice = d.toOpticalDevice ∨
        d1.toOpticalDevice = d.toOpticalDevice.Detach) := by
  unfold OpticalNetDevice.TransmitStart
  simp only [hr, ne_eq, not_true_eq_false, if_false]
  cases hch : d.m_channel with
  | none =>
    refine ⟨_, _, [DevEvent.scheduleTransmitComplete (d.txTime p.length), DevEvent.PhyTxDrop p],
      rfl, rfl, rfl, rfl, rfl, ?_, ?_, ?_⟩
    · simp [OpticalNetDevice.fire]
    · rfl
    · exact Or.inl rfl
  | some c =>
    cases out with
    | sent =>
      refine ⟨_, _, [DevEvent.scheduleTransmitComplete (d.txTime p.length),
        DevEvent.channelSend p (d.txTime p.length)], rfl, rfl, rfl, rfl, rfl, ?_, ?_, ?_⟩
      · simp [OpticalNetDevice.fire]
      · rfl
      · exact Or.inl rfl
    | refused det =>
      cases det with
      | false =>
        refine ⟨_, _, [DevEvent.scheduleTransmitComplete (d.txTime p.length),
          DevEvent.channelSend p (d.txTime p.length), DevEvent.PhyTxDrop p],
          rfl, rfl, rfl, rfl, rfl, ?_, ?_, ?_⟩
        · simp [OpticalNetDevice.fire]
        · rfl
        · exact Or.inl rfl
      | true =>
        refine ⟨_, _, [DevEvent.scheduleTransmitComplete (d.txTime p.length),
          DevEvent.channelSend p (d.txTime p.length), DevEvent.linkChange,
          DevEvent.PhyTxDrop p], rfl, rfl, rfl, rfl, rfl, ?_, ?_, ?_⟩
        · simp [OpticalNetDevice.fire, OpticalNetDevice.Detach]
        · rfl
        · exact Or.inr rfl

theorem TxInv.after_start {d d1 : OpticalNetDevice} {out : SendOutcome} {p : Packet} {r : Bool}
    (hI : TxInv d) (hr : d.m_txMachineState = TxMachineState.READY)
    (hrun : d.TransmitStart out p = some (r, d1)) : TxInv d1 := by
  obtain ⟨r1, d2, l, hs, a1, a2, a3, _, a5, a6, _⟩ := TransmitStart_ready out d p hr
  rw [hs] at hrun
  simp only [Option.some.injEq, Prod.mk.injEq] at hrun
  obtain ⟨_, rfl⟩ := hrun
  obtain ⟨_, hp0, hrun0⟩ := hI.ready hr
  constructor
  · rw [a1, a2]; simp
  · rw [a1, a3, hp0]
    simp
  · rw [a3, hp0]
  · rw [a5, txRun_append, hrun0, a1]
    simp only [Option.some_bind, txRun, Bool.false_eq_true, if_false]
    rw [txRun_neutral a6]
    simp

theorem TransmitStart_some {out : SendOutcome} {d d1 : OpticalNetDevice} {p : Packet} {r : Bool}
    (hrun : d.TransmitStart out p = some (r, d1)) :
    d.m_txMachineState = TxMachineState.READY ∧
      (d1.toOpticalDevice = d.toOpticalDevice ∨
        d1.toOpticalDevice = d.toOpticalDevice.Detach) := by
  have hr : d.m_txMachineState = TxMachineState.READY := by
    by_contra hne
    unfold OpticalNetDevice.TransmitStart at hrun
    rw [if_pos hne] at hrun
    simp at hrun
  obtain ⟨r1, d2, l, hs, _, _, _, _, _, _, hl⟩ := TransmitStart_ready out d p hr
  rw [hs] at hrun
  simp only [Option.some.injEq, Prod.mk.injEq] at hrun
  obtain ⟨_, rfl⟩ := hrun
  exact ⟨hr, hl⟩

/-- `TransmitComplete` with an event pending: both assertions hold. -/
theorem TransmitComplete_pending (out : SendOutcome) {d : OpticalNetDevice} (hI : TxInv d)
    (hp : 0 < d.pendingTransmitComplete) :
    ∃ d1, d.TransmitComplete out = some d1 ∧ TxInv d1 := by
  have hp1 : d.pendingTransmitComplete = 1 := by
    have := hI.pending_le
    omega
  have hbusy : d.m_txMachineState = TxMachineState.BUSY := hI.busy_pending.mpr hp1
  obtain ⟨cur, hcur⟩ := Option.ne_none_iff_exists'.mp (hI.busy_pkt.mp hbusy)
  have hI1 : TxInv
      { d with m_txMachineState := TxMachineState.READY
               m_currentPkt := none
               pendingTransmitComplete := d.pendingTransmitComplete - 1
               trace := d.trace ++ [DevEvent.PhyTxEnd cur] } := by
    constructor
    · simp
    · show TxMachineState.READY = TxMachineState.BUSY ↔ d.pendingTransmitComplete - 1 = 1
      rw [hp1]
      simp
    · show d.pendingTransmitComplete - 1 ≤ 1
      omega
    · show txRun false (d.trace ++ [DevEvent.PhyTxEnd cur]) = _
      rw [txRun_append, hI.alternates, hbusy]
      rfl
  unfold OpticalNetDevice.TransmitComplete
  rw [if_neg (by rw [hbusy]; simp), hcur]
  simp only
  cases hq : d.m_queue with
  | nil => exact ⟨_, rfl, hI1.update rfl rfl rfl [] (by simp) rfl⟩
  | cons p rest =>
    simp only
    have hI2 : TxInv
        { d with m_txMachineState := TxMachineState.READY
                 m_currentPkt := none
                 pendingTransmitComplete := d.pendingTransmitComplete - 1
                 m_queue := rest
                 trace := d.trace ++ [DevEvent.PhyTxEnd cur] ++
                   [DevEvent.Sniffer p, DevEvent.PromiscSniffer p] } :=
      hI1.update rfl rfl rfl [DevEvent.Sniffer p, DevEvent.PromiscSniffer p] rfl rfl
    obtain ⟨r, d3, l, hs, _⟩ := TransmitStart_ready out
      { d with m_txMachineState := TxMachineState.READY
               m_currentPkt := none
               pendingTransmitComplete := d.pendingTransmitComplete - 1
               m_queue := rest
               trace := d.trace ++ [DevEvent.PhyTxEnd cur] ++
                 [DevEvent.Sniffer p, DevEvent.PromiscSniffer p] } p rfl
    refine ⟨d3, ?_, hI2.after_start rfl hs⟩
    rw [hs]
    rfl

/-- `SendFrom` is defined in every state of the invariant (the assertion of
`TransmitStart` holds) and keeps the invariant. -/
theorem SendFrom_total (checksum : Bool) (crc32 : Packet → Nat) (out : SendOutcome)
    {d : OpticalNetDevice} (hI : TxInv d) (packet : Packet) (source dest : Mac48Address)
    (protocolNumber : Nat) :
    ∃ r d1, d.SendFrom checksum crc32 out packet source dest protocolNumber = some (r, d1) ∧
      TxInv d1 := by
  unfold OpticalNetDevice.SendFrom
  split
  · exact ⟨_, _, rfl, hI.update rfl rfl rfl [DevEvent.MacTxDrop packet] rfl rfl⟩
  · have hI1 : TxInv (d.fire (DevEvent.MacTx packet)) :=
      hI.update rfl rfl rfl [DevEvent.MacTx packet] rfl rfl
    simp only
    split
    · split
      · rename_i hready
        generalize hnext : (match (d.fire (DevEvent.MacTx packet)).m_queue with
          | [] => (addEthernetFraming checksum crc32 packet source dest protocolNumber, [])
          | q :: qs => (q, qs ++
              [addEthernetFraming checksum crc32 packet source dest protocolNumber])) = next
        have hI2 : TxInv
            { d.fire (DevEvent.MacTx packet) with
              m_queue := next.2
              trace := (d.fire (DevEvent.MacTx packet)).trace ++
                [DevEvent.Sniffer next.1, DevEvent.PromiscSniffer next.1] } :=
          hI1.update rfl rfl rfl [DevEvent.Sniffer next.1, DevEvent.PromiscSniffer next.1]
            rfl rfl
        obtain ⟨r, d3, l, hs, _⟩ := TransmitStart_ready out
          { d.fire (DevEvent.MacTx packet) with
            m_queue := next.2
            trace := (d.fire (DevEvent.MacTx packet)).trace ++
              [DevEvent.Sniffer next.1, DevEvent.PromiscSniffer next.1] } next.1 hready
        exact ⟨r, d3, hs, hI2.after_start hready hs⟩
      · exact ⟨_, _, rfl, hI1.update rfl rfl rfl [] (by simp) rfl⟩
    · exact ⟨_, _, rfl, hI1.update rfl rfl rfl
        [DevEvent.MacTxDrop (addEthernetFraming checksum crc32 packet source dest
          protocolNumber)] rfl rfl⟩

theorem TraceOnly.none (d : OpticalNetDevice) : TraceOnly d d [] :=
  ⟨rfl, rfl, rfl, rfl, rfl, by simp⟩

theorem TraceOnly.fired {d d1 : OpticalNetDevice} {l : List DevEvent} (h : TraceOnly d d1 l)
    (e : DevEvent) : TraceOnly d (d1.fire e) (l ++ [e]) :=
  ⟨h.link, h.state, h.pkt, h.pending, h.queue, by
    show d1.trace ++ [e] = d.trace ++ (l ++ [e])
    rw [h.events, List.append_assoc]⟩

theorem Receive_shape {checksum : Bool} {crc32 : Packet → Nat} {corrupt : Bool}
    {d d1 : OpticalNetDevice} {packet : Packet}
    (hrun : d.Receive checksum crc32 corrupt packet = some d1) :
    ∃ l, TraceOnly d d1 l ∧ TxNeutral l := by
  unfold OpticalNetDevice.Receive at hrun
  split at hrun
  · simp only [Option.some.injEq] at hrun
    subst hrun
    exact ⟨_, (TraceOnly.none d).fired _, rfl⟩
  · simp only at hrun
    split at hrun
    · simp only [Option.some.injEq] at hrun
      subst hrun
      exact ⟨_, ((TraceOnly.none d).fired _).fired _, rfl⟩
    · split at hrun
      · simp at hrun
      · simp only [Option.some.injEq] at hrun
        subst hrun
        exact ⟨_, ((TraceOnly.none d).fired _).fired _, rfl⟩
      · rename_i f _
        generalize (if f.dst = d.m_address then PacketType.PACKET_HOST
          else if f.dst.IsBroadcast then PacketType.PACKET_BROADCAST
          else if f.dst.IsGroup then PacketType.PACKET_MULTICAST
          else PacketType.PACKET_OTHERHOST) = ty at hrun
        by_cases hty : ty ≠ PacketType.PACKET_OTHERHOST
        · rw [if_pos hty] at hrun
          cases hrx : d.rxCallbackSet
          · rw [hrx] at hrun
            simp at hrun
          · rw [hrx] at hrun
            cases hp : d.promiscCallbackSet
            · rw [hp] at hrun
              simp only [if_true, Bool.false_eq_true, if_false, Option.some.injEq] at hrun
              subst hrun
              exact ⟨_, (((((TraceOnly.none d).fired _).fired _).fired _).fired _).fired _, rfl⟩
            · rw [hp] at hrun
              simp only [if_true, Option.some.injEq] at hrun
              subst hrun
              exact ⟨_, (((((((TraceOnly.none d).fired _).fired _).fired _).fired _).fired
                _).fired _).fired _, rfl⟩
        · rw [if_neg hty] at hrun
          cases hp : d.promiscCallbackSet
          · rw [hp] at hrun
            simp only [Bool.false_eq_true, if_false, Option.some.injEq] at hrun
            subst hrun
            exact ⟨_, ((TraceOnly.none d).fired _).fired _, rfl⟩
          · rw [hp] at hrun
            simp only [if_true, Option.some.injEq] at hrun
            subst hrun
            exact ⟨_, ((((TraceOnly.none d).fired _).fired _).fired _).fired _, rfl⟩

theorem SendFrom_link {checksum : Bool} {crc32 : Packet → Nat} {out : SendOutcome}
    {d d1 : OpticalNetDevice} {packet : Packet} {source dest : Mac48Address}
    {protocolNumber : Nat} {r : Bool}
    (hrun : d.SendFrom checksum crc32 out packet source dest protocolNumber = some (r, d1)) :
    d1.toOpticalDevice = d.toOpticalDevice ∨
      d1.toOpticalDevice = d.toOpticalDevice.Detach := by
  unfold OpticalNetDevice.SendFrom at hrun
  split at hrun
  · simp only [Option.some.injEq, Prod.mk.injEq] at hrun
    obtain ⟨_, rfl⟩ := hrun
    exact Or.inl rfl
  · simp only at hrun
    split at hrun
    · split at hrun
      · exact (TransmitStart_some hrun).2
      · simp only [Option.some.injEq, Prod.mk.injEq] at hrun
        obtain ⟨_, rfl⟩ := hrun
        exact Or.inl rfl
    · simp only [Option.some.injEq, Prod.mk.injEq] at hrun
      obtain ⟨_, rfl⟩ := hrun
      exact Or.inl rfl

theorem TransmitComplete_link {out : SendOutcome} {d d1 : OpticalNetDevice}
    (hrun : d.TransmitComplete out = some d1) :
    d1.toOpticalDevice = d.toOpticalDevice ∨
      d1.toOpticalDevice = d.toOpticalDevice.Detach := by
  unfold OpticalNetDevice.TransmitComplete at hrun
  split at hrun
  · simp at hrun
  · split at hrun
    · simp at hrun
    · simp only at hrun
      split at hrun
      · simp only [Option.some.injEq] at hrun
        subst hrun
        exact Or.inl rfl
      · rw [Option.map_eq_some'] at hrun
        obtain ⟨⟨r, d2⟩, hs, rfl⟩ := hrun
        exact (TransmitStart_some hs).2

theorem LinkInv.of_link {b : Bool} {d d1 : OpticalNetDevice} (hI : LinkInv b d)
    (hl : d1.toOpticalDevice = d.toOpticalDevice ∨
      d1.toOpticalDevice = d.toOpticalDevice.Detach) : LinkInv b d1 := by
  have hup : d1.m_linkUp = d1.toOpticalDevice.m_linkUp := rfl
  have hch : d1.m_channel = d1.toOpticalDevice.m_channel := rfl
  rcases hl with hl | hl
  · rw [LinkInv, hup, hch, hl]
    exact hI
  · rw [LinkInv, hup, hch, hl]
    constructor
    · intro h
      simp [OpticalDevice.Detach] at h
    · intro _ h
      simp [OpticalDevice.Detach] at h

/-- Every reachable device satisfies the invariant of the transmit machine. -/
theorem DevReachable.tx_inv {checksum : Bool} {crc32 : Packet → Nat} {b : Bool}
    {d : OpticalNetDevice} (hr : DevReachable checksum crc32 b d) : TxInv d := by
  induction hr with
  | fresh b q bps a p r =>
    constructor
    · simp
    · simp
    · simp
    · rfl
  | send b d d1 out packet dest protocolNumber ret _ hs ih =>
    obtain ⟨r, d2, hs2, hI2⟩ := SendFrom_total checksum crc32 out ih packet d.m_address dest
      protocolNumber
    unfold OpticalNetDevice.Send at hs
    rw [hs2] at hs
    simp only [Option.some.injEq, Prod.mk.injEq] at hs
    obtain ⟨_, rfl⟩ := hs
    exact hI2
  | attach b d c _ ih => exact ih.update rfl rfl rfl [DevEvent.linkChange] rfl rfl
  | detach b d _ ih => exact ih.update rfl rfl rfl [DevEvent.linkChange] rfl rfl
  | receive b d d1 corrupt packet _ hrecv ih =>
    obtain ⟨l, hsh, hn⟩ := Receive_shape hrecv
    exact ih.update hsh.state hsh.pkt hsh.pending l hsh.events hn
  | complete b d d1 out _ hp hc ih =>
    obtain ⟨d2, hc2, hI2⟩ := TransmitComplete_pending out ih hp
    rw [hc2] at hc
    simp only [Option.some.injEq] at hc
    subst hc
    exact hI2
  | linkDown d _ ih => exact ih.update rfl rfl rfl [DevEvent.linkChange] rfl rfl

/-- Every reachable device satisfies the link invariant. -/
theorem DevReachable.link_inv {checksum : Bool} {crc32 : Packet → Nat} {b : Bool}
    {d : OpticalNetDevice} (hr : DevReachable checksum crc32 b d) : LinkInv b d := by
  induction hr with
  | fresh b q bps a p r =>
    constructor
    · intro h
      simp at h
    · intro _ h
      simp at h
  | send b d d1 out packet dest protocolNumber ret _ hs ih => exact ih.of_link (SendFrom_link hs)
  | attach b d c _ ih =>
    constructor
    · intro _
      simp [OpticalNetDevice.Attach, OpticalDevice.Attach]
    · intro _ _
      simp [OpticalNetDevice.Attach, OpticalDevice.Attach]
  | detach b d _ ih => exact ih.of_link (Or.inr rfl)
  | receive b d d1 corrupt packet _ hrecv ih =>
    obtain ⟨l, hsh, _⟩ := Receive_shape hrecv
    exact ih.of_link (Or.inl hsh.link)
  | complete b d d1 out _ hp hc ih => exact ih.of_link (TransmitComplete_link hc)
  | linkDown d _ ih =>
    constructor
    · intro h
      simp [OpticalNetDevice.SetLinkDown] at h
    · intro h
      simp at h

/-- C16: a device with link up and a channel whose queue holds `MaxSize` packets (in
any transmit state, in particular BUSY).  `Send` returns false; it fires `MacTx` and
then `MacTxDrop` once (with the framed packet) and nothing else, so no `PhyTx` trace;
the queue, the in-flight packet, the transmit state, the pending
`TransmitComplete` events and the link are unchanged. -/
theorem queue_overflow (checksum : Bool) (crc32 : Packet → Nat) (out : SendOutcome)
    (d : OpticalNetDevice) (packet : Packet) (dest : Mac48Address) (protocolNumber : Nat)
    (hup : d.m_linkUp = true) (hch : d.m_channel ≠ none)
    (hbusy : d.m_txMachineState = TxMachineState.BUSY)
    (hfull : d.queueMaxSize ≤ d.m_queue.length) :
    ∃ d1, d.Send checksum crc32 out packet dest protocolNumber = some (false, d1) ∧
      d1.trace = d.trace ++ [DevEvent.MacTx packet,
        DevEvent.MacTxDrop
          (addEthernetFraming checksum crc32 packet d.m_address dest protocolNumber)] ∧
      d1.m_queue = d.m_queue ∧ d1.m_currentPkt = d.m_currentPkt ∧
      d1.m_txMachineState = TxMachineState.BUSY ∧
      d1.pendingTransmitComplete = d.pendingTransmitComplete ∧
      d1.toOpticalDevice = d.toOpticalDevice := by
  obtain ⟨c, hc⟩ := Option.ne_none_iff_exists'.mp hch
  have hcond : ¬ (d.m_linkUp = false ∨ d.m_channel = none) := by
    rw [hup, hc]
    simp
  have hcap : ¬ ((d.fire (DevEvent.MacTx packet)).m_queue.length + 1 ≤
      (d.fire (DevEvent.MacTx packet)).queueMaxSize) := by
    show ¬ (d.m_queue.length + 1 ≤ d.queueMaxSize)
    omega
  unfold OpticalNetDevice.Send OpticalNetDevice.SendFrom
  rw [if_neg hcond]
  simp only
  rw [if_neg hcap]
  refine ⟨_, rfl, ?_, rfl, rfl, hbusy, rfl, rfl⟩
  simp [OpticalNetDevice.fire]

/-- C16 on a device that is transmitting one packet and holds one more in a queue of
size one. -/
theorem queue_overflow_witness :
    ∃ d1, ({ m_channel := some 0, m_linkUp := true, m_txMachineState := TxMachineState.BUSY
             m_currentPkt := some [1], m_queue := [[2]], queueMaxSize := 1
             pendingTransmitComplete := 1 } : OpticalNetDevice).Send
          false (fun _ => 0) SendOutcome.sent [3] ⟨0, 0, 0, 0, 0, 2⟩ 2048 = some (false, d1) ∧
      d1.m_queue = [[2]] ∧ d1.m_currentPkt = some [1] := by
  obtain ⟨d1, h1, _, h3, h4, _⟩ := queue_overflow false (fun _ => 0) SendOutcome.sent
    ({ m_channel := some 0, m_linkUp := true, m_txMachineState := TxMachineState.BUSY
       m_currentPkt := some [1], m_queue := [[2]], queueMaxSize := 1
       pendingTransmitComplete := 1 } : OpticalNetDevice)
    [3] ⟨0, 0, 0, 0, 0, 2⟩ 2048 rfl (by simp) rfl (by simp)
  exact ⟨d1, h1, h3, h4⟩

/-- C17: in every state of a device reachable from a fresh device through `Send`,
`Attach`, `Detach`, `Receive`, `SetLinkDown` and the execution of scheduled
`TransmitComplete` events: the state is BUSY iff an in-flight packet is recorded iff
exactly one `TransmitComplete` event is pending (and none is pending in READY);
`Send` is defined, so the assertion of `TransmitStart` holds whenever it is entered;
`TransmitComplete` is defined whenever one of its events is pending, so both of its
assertions hold; and the trace is accepted by the transmit machine: every
`PhyTxBegin` of `TransmitStart` comes in READY and is followed by exactly one
`PhyTxEnd` of `TransmitComplete` before the next one. -/
theorem transmit_machine (checksum : Bool) (crc32 : Packet → Nat) (b : Bool)
    (d : OpticalNetDevice) (hr : DevReachable checksum crc32 b d) :
    (d.m_txMachineState = TxMachineState.BUSY ↔ d.m_currentPkt ≠ none) ∧
    (d.m_currentPkt ≠ none ↔ d.pendingTransmitComplete = 1) ∧
    (d.m_txMachineState = TxMachineState.READY ↔ d.pendingTransmitComplete = 0) ∧
    (∀ out packet dest protocolNumber,
      ∃ ret d1, d.Send checksum crc32 out packet dest protocolNumber = some (ret, d1)) ∧
    (∀ out, 0 < d.pendingTransmitComplete → ∃ d1, d.TransmitComplete out = some d1) ∧
    txRun false d.trace = some (decide (d.m_txMachineState = TxMachineState.BUSY)) := by
  have hI := hr.tx_inv
  refine ⟨hI.busy_pkt, hI.busy_pkt.symm.trans hI.busy_pending, ?_, ?_, ?_, hI.alternates⟩
  · constructor
    · intro hready
      exact (hI.ready hready).2.1
    · intro hp
      cases hs : d.m_txMachineState with
      | READY => rfl
      | BUSY =>
        have := hI.busy_pending.mp hs
        omega
  · intro out packet dest protocolNumber
    obtain ⟨r, d1, hs, _⟩ := SendFrom_total checksum crc32 out hI packet d.m_address dest
      protocolNumber
    exact ⟨r, d1, hs⟩
  · intro out hp
    obtain ⟨d1, hs, _⟩ := TransmitComplete_pending out hI hp
    exact ⟨d1, hs⟩

/-- C17 on a device that was attached and then sent one packet. -/
theorem transmit_machine_witness :
    ∃ d, DevReachable false (fun _ => 0) false d ∧
      (d.m_txMachineState = TxMachineState.BUSY ↔ d.m_currentPkt ≠ none) ∧
      (d.m_currentPkt ≠ none ↔ d.pendingTransmitComplete = 1) := by
  have h0 : DevReachable false (fun _ => 0) false
      (({ queueMaxSize := 100, m_bps := 1000000000, m_address := ⟨0, 0, 0, 0, 0, 1⟩
          promiscCallbackSet := false, rxCallbackSet := true } : OpticalNetDevice).Attach 0) :=
    DevReachable.attach _ _ 0 (DevReachable.fresh false 100 1000000000 ⟨0, 0, 0, 0, 0, 1⟩
      false true)
  obtain ⟨ret, d1, hs⟩ := (transmit_machine false (fun _ => 0) false _ h0).2.2.2.1
    SendOutcome.sent [1, 2, 3] ⟨0, 0, 0, 0, 0, 2⟩ 2048
  have h1 : DevReachable false (fun _ => 0) false d1 :=
    DevReachable.send _ _ d1 SendOutcome.sent [1, 2, 3] ⟨0, 0, 0, 0, 0, 2⟩ 2048 ret h0 hs
  have hm := transmit_machine false (fun _ => 0) false d1 h1
  exact ⟨d1, h1, hm.1, hm.2.1⟩

/-- C18 as stated fails: a fresh device attached to channel 0 on which `SetLinkDown`
is called keeps its channel reference while its link-up flag is false. -/
theorem channel_without_link_up :
    DevReachable false (fun _ => 0) true
      ((({ } : OpticalNetDevice).Attach 0).SetLinkDown) ∧
    ((({ } : OpticalNetDevice).Attach 0).SetLinkDown).m_channel = some 0 ∧
    ((({ } : OpticalNetDevice).Attach 0).SetLinkDown).m_linkUp = false ∧
    ¬ (∀ d, DevReachable false (fun _ => 0) true d →
        (d.m_channel ≠ none ↔ d.m_linkUp = true)) := by
  have hr : DevReachable false (fun _ => 0) true
      ((({ } : OpticalNetDevice).Attach 0).SetLinkDown) :=
    DevReachable.linkDown _ (DevReachable.attach _ _ 0
      (DevReachable.fresh true 100 32768 ⟨255, 255, 255, 255, 255, 255⟩ false false))
  refine ⟨hr, rfl, rfl, ?_⟩
  intro hall
  have h := (hall _ hr).mp (by decide)
  revert h
  decide

/-- C18 amended: in every state of a device reachable from a fresh device through
`Attach` of an existing channel, `Detach`, `SetLinkDown`, `Send`, `Receive` and
scheduled `TransmitComplete` events, the link-up flag is true only if the channel
reference is non-null; and when `SetLinkDown` is not among the operations, the
channel reference is non-null if and only if the link-up flag is true. -/
theorem link_up_needs_channel (checksum : Bool) (crc32 : Packet → Nat) (b : Bool)
    (d : OpticalNetDevice) (hr : DevReachable checksum crc32 b d) :
    (d.m_linkUp = true → d.m_channel ≠ none) ∧
    (b = false → (d.m_channel ≠ none ↔ d.m_linkUp = true)) := by
  obtain ⟨h1, h2⟩ := hr.link_inv
  exact ⟨h1, fun hb => ⟨h2 hb, h1⟩⟩

/-- C18 amended, on a fresh device attached to channel 0. -/
theorem link_up_needs_channel_witness :
    DevReachable false (fun _ => 0) false (({ } : OpticalNetDevice).Attach 0) ∧
    ((({ } : OpticalNetDevice).Attach 0).m_channel ≠ none ↔
      (({ } : OpticalNetDevice).Attach 0).m_linkUp = true) := by
  have hr : DevReachable false (fun _ => 0) false (({ } : OpticalNetDevice).Attach 0) :=
    DevReachable.attach _ _ 0
      (DevReachable.fresh false 100 32768 ⟨255, 255, 255, 255, 255, 255⟩ false false)
  exact ⟨hr, (link_up_needs_channel false (fun _ => 0) false _ hr).2 rfl⟩


/-! ## C28 and C29: the polar-exit block can empty the pool and attach a device twice -/

theorem runTicks_snoc (h : Option ConstellationHelper) (l : List (List ℚ)) (g : List ℚ) :
    runTicks h (l ++ [g]) = (runTicks h l).bind (LinkMaintenance (latitudes g)) := by
  simp [runTicks, List.foldl_append]

theorem runTicks_reachable {inp : BuildInput} {g0 : Nat → NodeLat} (l : List (List ℚ)) :
    ∀ h, runTicks (build inp g0) l = some h → Reachable inp h := by
  induction l using List.reverseRecOn with
  | nil =>
    intro h hrun
    exact Reachable.init g0 h hrun
  | append_singleton l g ih =>
    intro h hrun
    rw [runTicks_snoc, Option.bind_eq_some] at hrun
    obtain ⟨h0, h1, h2⟩ := hrun
    exact Reachable.tick _ h0 h (ih h0 h1) h2

/-- C28, evaluation of the code: four planes of one satellite, a quarter of an orbit
apart, limit 50, checked every eighth of an orbit.  After the build (nodes 1 and 3
above the limit) and four ticks the three temporary channels are in the spare pool
and nodes 1 and 3 are polar.  At the fifth tick (every node at 45 degrees) nothing
happens for node 0, then node 1 leaves the polar region with both neighbours outside
it: `Connect` is called on the RIGHT device of node 0 and the LEFT device of node 1,
on the LEFT device of node 0 and the RIGHT device of node 1, and on the RIGHT device
of node 2 and the LEFT device of node 1, which empties the pool; the LEFT device of
node 2 is still recorded as broken, so `Connect` is called a fourth time, on an empty
pool. -/
theorem connect_on_empty_pool :
    (∃ h, Reachable fourPlanes h ∧
      runTicks (build fourPlanes (latitudes [0, 86, 0, 86]))
        [[45, 45, 45, 45], [86, 0, 86, 0], [45, 45, 45, 45], [0, 86, 0, 86]] = some h) ∧
    (runTicks (build fourPlanes (latitudes [0, 86, 0, 86]))
        [[45, 45, 45, 45], [86, 0, 86, 0], [45, 45, 45, 45], [0, 86, 0, 86]]).map
      (fun h => (h.unused_link, decide (1 ∈ h.overPolar), decide (0 ∈ h.overPolar),
        decide (2 ∈ h.overPolar),
        (LinkMaintenanceNode (latitudes [45, 45, 45, 45]) 0 h).map
          (fun h0 => decide (h0.log = h.log))))
      = some ([4, 5, 6], true, false, false, some true) ∧
    (runTicks (build fourPlanes (latitudes [0, 86, 0, 86]))
        [[45, 45, 45, 45], [86, 0, 86, 0], [45, 45, 45, 45], [0, 86, 0, 86]]).bind
      (fun h => ((reconnect (latitudes [45, 45, 45, 45]) 1 (some 0)
            { h with overPolar := h.overPolar.erase 1 }).bind
          (fun x => Connect (latitudes [45, 45, 45, 45]) x
            ⟨2, Direction.RIGHT⟩ ⟨1, Direction.LEFT⟩)).map
          (fun x => (x.log.drop h.log.length, x.unused_link,
            decide ((⟨2, Direction.LEFT⟩ : DevId) ∈ x.breaked_left),
            (Connect (latitudes [45, 45, 45, 45]) x
              ⟨2, Direction.LEFT⟩ ⟨1, Direction.RIGHT⟩).isNone)))
      = some ([Event.connect ⟨0, Direction.RIGHT⟩ ⟨1, Direction.LEFT⟩,
               Event.connect ⟨0, Direction.LEFT⟩ ⟨1, Direction.RIGHT⟩,
               Event.connect ⟨2, Direction.RIGHT⟩ ⟨1, Direction.LEFT⟩], [], true, true) ∧
    (runTicks (build fourPlanes (latitudes [0, 86, 0, 86]))
        [[45, 45, 45, 45], [86, 0, 86, 0], [45, 45, 45, 45], [0, 86, 0, 86]]).map
      (fun h => (LinkMaintenance (latitudes [45, 45, 45, 45]) h).isNone) = some true := by
  have hrun : (runTicks (build fourPlanes (latitudes [0, 86, 0, 86]))
        [[45, 45, 45, 45], [86, 0, 86, 0], [45, 45, 45, 45], [0, 86, 0, 86]]).isSome
      = true := by decide
  obtain ⟨h, hh⟩ := Option.isSome_iff_exists.mp hrun
  refine ⟨⟨h, runTicks_reachable _ h hh, hh⟩, ?_, ?_, ?_⟩ <;> decide

/-- C29, evaluation of the code: four planes of one satellite, limit 50, built with
nodes 1 and 3 above the limit; at the first tick every node is at 45 degrees.  The
exit block of node 1 calls `Connect` on the RIGHT device of node 0 and the LEFT
device of node 1 (channel 6), then on the RIGHT device of node 2 and the same LEFT
device of node 1 (channel 5).  In the state after the tick the LEFT device of node 1
sits in a slot of channel 6 and in a slot of channel 5 and references channel 5; the
RIGHT device of node 0 references channel 6. -/
theorem device_in_two_channels :
    (∃ h, Reachable fourPlanes h ∧ ¬ RefsConsistent h ∧
      runTicks (build fourPlanes (latitudes [0, 86, 0, 86])) [[45, 45, 45, 45]] = some h) ∧
    (runTicks (build fourPlanes (latitudes [0, 86, 0, 86])) [[45, 45, 45, 45]]).map
      (fun h => (h.log, h.unused_link))
      = some ([Event.connect ⟨0, Direction.RIGHT⟩ ⟨1, Direction.LEFT⟩,
               Event.connect ⟨2, Direction.RIGHT⟩ ⟨1, Direction.LEFT⟩,
               Event.connect ⟨2, Direction.LEFT⟩ ⟨1, Direction.RIGHT⟩], []) ∧
    (runTicks (build fourPlanes (latitudes [0, 86, 0, 86])) [[45, 45, 45, 45]]).map
      (fun h => ((h.dev ⟨1, Direction.LEFT⟩).m_channel,
        (h.dev ⟨0, Direction.RIGHT⟩).m_channel, (h.dev ⟨2, Direction.RIGHT⟩).m_channel))
      = some (some 5, some 6, some 5) ∧
    (runTicks (build fourPlanes (latitudes [0, 86, 0, 86])) [[45, 45, 45, 45]]).map
      (fun h => ((h.channel 6).dev_list0, (h.channel 6).dev_list1,
        (h.channel 5).dev_list0, (h.channel 5).dev_list1))
      = some (some ⟨0, Direction.RIGHT⟩, some ⟨1, Direction.LEFT⟩,
          some ⟨2, Direction.RIGHT⟩, some ⟨1, Direction.LEFT⟩) := by
  have hrun : (runTicks (build fourPlanes (latitudes [0, 86, 0, 86]))
        [[45, 45, 45, 45]]).isSome = true := by decide
  obtain ⟨h, hh⟩ := Option.isSome_iff_exists.mp hrun
  have hval : (runTicks (build fourPlanes (latitudes [0, 86, 0, 86])) [[45, 45, 45, 45]]).map
      (fun h => ((h.dev ⟨1, Direction.LEFT⟩).m_channel, (h.channel 6).dev_list1))
      = some (some 5, some ⟨1, Direction.LEFT⟩) := by decide
  refine ⟨⟨h, runTicks_reachable _ h hh, ?_, hh⟩, ?_, ?_, ?_⟩
  · rw [hh] at hval
    simp only [Option.map_some', Option.some.injEq, Prod.mk.injEq] at hval
    intro hc
    have h6 := (hc ⟨1, Direction.LEFT⟩ 6).mpr (Or.inr hval.2)
    rw [hval.1] at h6
    exact absurd h6 (by decide)
  all_goals decide

/-- What does hold of the references in every reachable state of a valid
configuration: an inter-plane device that references a channel sits in one of its
slots, no channel is in the spare pool twice, and no device references a channel of
the pool. -/
theorem references_point_into_slots (inp : BuildInput) (h : ConstellationHelper)
    (hv : Valid inp.params) (hr : Reachable inp h) :
    (∀ d c, IsRL d → (h.dev d).m_channel = some c → InSlot h d c) ∧
    h.unused_link.Nodup ∧
    (∀ c ∈ h.unused_link, ∀ d, (h.dev d).m_channel ≠ some c) := by
  have hI := (hr.inv hv).core
  refine ⟨fun d c hd hc => (hI.dev_ref d c hd hc).2.2.2, hI.pool_nodup, ?_⟩
  intro c hc d hd
  by_cases hrl : IsRL d
  · exact (hI.dev_ref d c hrl hd).2.2.1 hc
  · have h1 := hI.dev_other d c hrl hd
    have h2 := (hI.pool_range c hc).1
    omega

/-! ## C30: a READY device has an empty queue, and packets start in order -/

theorem started_append (l1 l2 : List DevEvent) :
    started (l1 ++ l2) = started l1 ++ started l2 := by
  induction l1 with
  | nil => rfl
  | cons e l ih =>
    cases e
    case PhyTxBegin p => simp [started, ih]
    all_goals simpa [started] using ih

theorem started_neutral {l : List DevEvent} (hn : TxNeutral l) : started l = [] := by
  induction l with
  | nil => rfl
  | cons e l ih =>
    unfold TxNeutral at hn ih
    rw [List.all_cons, Bool.and_eq_true] at hn
    cases e
    case PhyTxBegin p => exact absurd hn.1 (by simp [DevEvent.txNeutral])
    all_goals simpa [started] using ih hn.2

theorem QueueInv.same_queue {d d1 : OpticalNetDevice} {acc : List Packet} (hQ : QueueInv d acc)
    (hs : d1.m_txMachineState = d.m_txMachineState) (hq : d1.m_queue = d.m_queue)
    (l : List DevEvent) (ht : d1.trace = d.trace ++ l) (hn : TxNeutral l) :
    QueueInv d1 acc := by
  constructor
  · rw [hs, hq]; exact hQ.ready_empty
  · rw [ht, started_append, started_neutral hn, hq, List.append_nil]
    exact hQ.order

/-- `TransmitStart` of packet `p` on a READY device whose queue is `q`, when `p :: q`
continues the packets started so far to `acc`. -/
theorem QueueInv.of_start {d d1 : OpticalNetDevice} {out : SendOutcome} {p : Packet}
    {r : Bool} {acc : List Packet} (hr : d.m_txMachineState = TxMachineState.READY)
    (horder : started d.trace ++ p :: d.m_queue = acc)
    (hrun : d.TransmitStart out p = some (r, d1)) :
    QueueInv d1 acc ∧ d1.m_queue = d.m_queue ∧ started d1.trace = started d.trace ++ [p] := by
  obtain ⟨r1, d2, l, hs, a1, _, _, a4, a5, a6, _⟩ := TransmitStart_ready out d p hr
  rw [hs] at hrun
  simp only [Option.some.injEq, Prod.mk.injEq] at hrun
  obtain ⟨_, rfl⟩ := hrun
  have hst : started d2.trace = started d.trace ++ [p] := by
    rw [a5, started_append]
    simp [started, started_neutral a6]
  refine ⟨⟨?_, ?_⟩, a4, hst⟩
  · intro hready
    rw [a1] at hready
    exact absurd hready (by decide)
  · rw [hst, a4, ← horder]
    simp

/-- What `Send` does to the queue of a device that has the invariant. -/
theorem QueueInv.of_send {checksum : Bool} {crc32 : Packet → Nat} {out : SendOutcome}
    {d d1 : OpticalNetDevice} {acc : List Packet} {packet : Packet} {dest : Mac48Address}
    {protocolNumber : Nat} {ret : Bool} (hQ : QueueInv d acc)
    (hrun : d.Send checksum crc32 out packet dest protocolNumber = some (ret, d1)) :
    QueueInv d1
      (if d.accepts then
        acc ++ [addEthernetFraming checksum crc32 packet d.m_address dest protocolNumber]
       else acc) ∧
    (d.accepts = true → d.m_txMachineState = TxMachineState.READY →
      d1.m_queue = [] ∧
      started d1.trace = started d.trace ++
        [addEthernetFraming checksum crc32 packet d.m_address dest protocolNumber]) := by
  unfold OpticalNetDevice.Send OpticalNetDevice.SendFrom at hrun
  unfold OpticalNetDevice.accepts
  split at hrun
  · rename_i hdown
    simp only [Option.some.injEq, Prod.mk.injEq] at hrun
    obtain ⟨_, rfl⟩ := hrun
    have hacc : decide (¬ (d.m_linkUp = false ∨ d.m_channel = none) ∧
        d.m_queue.length + 1 ≤ d.queueMaxSize) = false := by
      simp only [decide_eq_false_iff_not, not_and]
      intro hn
      exact absurd hdown hn
    rw [hacc]
    exact ⟨hQ.same_queue rfl rfl [DevEvent.MacTxDrop packet] rfl rfl, fun h => absurd h (by decide)⟩
  · rename_i hup
    have hQ1 : QueueInv (d.fire (DevEvent.MacTx packet)) acc :=
      hQ.same_queue rfl rfl [DevEvent.MacTx packet] rfl rfl
    simp only at hrun
    split at hrun
    · rename_i hroom
      have hroom1 : d.m_queue.length + 1 ≤ d.queueMaxSize := hroom
      have hacc : decide (¬ (d.m_linkUp = false ∨ d.m_channel = none) ∧
          d.m_queue.length + 1 ≤ d.queueMaxSize) = true := by
        simp only [decide_eq_true_eq]
        exact ⟨hup, hroom1⟩
      rw [hacc]
      simp only [if_true]
      split at hrun
      · rename_i hready
        have hready1 : d.m_txMachineState = TxMachineState.READY := hready
        have hq : (d.fire (DevEvent.MacTx packet)).m_queue = [] := hQ.ready_empty hready1
        rw [hq] at hrun
        simp only at hrun
        have hst : started (d.fire (DevEvent.MacTx packet)).trace = started d.trace := by
          show started (d.trace ++ [DevEvent.MacTx packet]) = _
          rw [started_append]
          simp [started]
        obtain ⟨b1, b2, b3⟩ := @QueueInv.of_start _ d1 out _ ret
          (acc ++ [addEthernetFraming checksum crc32 packet d.m_address dest protocolNumber])
          (show ({ d.fire (DevEvent.MacTx packet) with
              m_queue := []
              trace := (d.fire (DevEvent.MacTx packet)).trace ++
                [DevEvent.Sniffer (addEthernetFraming checksum crc32 packet d.m_address dest
                    protocolNumber),
                  DevEvent.PromiscSniffer (addEthernetFraming checksum crc32 packet d.m_address
                    dest protocolNumber)] } : OpticalNetDevice).m_txMachineState
              = TxMachineState.READY from hready1)
          (by
            show started ((d.trace ++ [DevEvent.MacTx packet]) ++ _) ++ [_] = _
            rw [started_append, started_append]
            have hq0 : d.m_queue = [] := hQ.ready_empty hready1
            have := hQ.order
            rw [hq0, List.append_nil] at this
            simp [started, this])
          hrun
        refine ⟨b1, fun _ _ => ⟨b2, ?_⟩⟩
        rw [b3]
        show started ((d.trace ++ [DevEvent.MacTx packet]) ++ _) ++ _ = _
        rw [started_append, started_append]
        simp [started]
      · rename_i hbusy
        simp only [Option.some.injEq, Prod.mk.injEq] at hrun
        obtain ⟨_, rfl⟩ := hrun
        refine ⟨⟨?_, ?_⟩, fun _ hr => absurd hr hbusy⟩
        · intro hr
          exact absurd hr hbusy
        · show started (d.trace ++ [DevEvent.MacTx packet]) ++ (d.m_queue ++ [_]) = _
          rw [started_append, ← hQ.order]
          simp [started]
    · rename_i hfull
      have hfull1 : ¬ d.m_queue.length + 1 ≤ d.queueMaxSize := hfull
      simp only [Option.some.injEq, Prod.mk.injEq] at hrun
      obtain ⟨_, rfl⟩ := hrun
      have hacc : decide (¬ (d.m_linkUp = false ∨ d.m_channel = none) ∧
          d.m_queue.length + 1 ≤ d.queueMaxSize) = false := by
        simp only [decide_eq_false_iff_not, not_and]
        intro _
        exact hfull1
      rw [hacc]
      exact ⟨hQ1.same_queue rfl rfl [DevEvent.MacTxDrop _] rfl rfl,
        fun h => absurd h (by decide)⟩

/-- What `TransmitComplete` does to the queue of a device that has the invariant. -/
theorem QueueInv.of_complete {out : SendOutcome} {d d1 : OpticalNetDevice}
    {acc : List Packet} (hQ : QueueInv d acc) (hrun : d.TransmitComplete out = some d1) :
    QueueInv d1 acc := by
  unfold OpticalNetDevice.TransmitComplete at hrun
  split at hrun
  · simp at hrun
  · split at hrun
    · simp at hrun
    · rename_i cur hcur
      simp only at hrun
      have hst : started (d.trace ++ [DevEvent.PhyTxEnd cur]) = started d.trace := by
        rw [started_append]
        simp [started]
      cases hq : d.m_queue with
      | nil =>
        rw [hq] at hrun
        simp only [Option.some.injEq] at hrun
        subst hrun
        refine ⟨fun _ => rfl, ?_⟩
        show started (d.trace ++ [DevEvent.PhyTxEnd cur]) ++ [] = acc
        rw [hst, ← hQ.order, hq]
      | cons p rest =>
        rw [hq] at hrun
        simp only [Option.map_eq_some', Prod.exists, exists_eq_right] at hrun
        obtain ⟨r, hrun⟩ := hrun
        exact (@QueueInv.of_start _ d1 out p r acc rfl (by
          show started ((d.trace ++ [DevEvent.PhyTxEnd cur]) ++
            [DevEvent.Sniffer p, DevEvent.PromiscSniffer p]) ++ p :: rest = acc
          rw [started_append, hst, ← hQ.order, hq]
          simp [started]) hrun).1

theorem DevHistory.queue_inv {checksum : Bool} {crc32 : Packet → Nat} {b : Bool}
    {d : OpticalNetDevice} {acc : List Packet} (hr : DevHistory checksum crc32 b d acc) :
    QueueInv d acc := by
  induction hr with
  | fresh => exact ⟨fun _ => rfl, rfl⟩
  | send b d d1 acc out packet dest protocolNumber ret _ hrun ih =>
    exact (ih.of_send hrun).1
  | attach b d acc channel _ ih => exact ih.same_queue rfl rfl [DevEvent.linkChange] rfl rfl
  | detach b d acc _ ih => exact ih.same_queue rfl rfl [DevEvent.linkChange] rfl rfl
  | receive b d d1 acc corrupt packet _ hrun ih =>
    obtain ⟨l, hl, hn⟩ := Receive_shape hrun
    exact ih.same_queue hl.state hl.queue l hl.events hn
  | complete b d d1 acc out _ _ hrun ih => exact ih.of_complete hrun
  | linkDown d acc _ ih => exact ih.same_queue rfl rfl [DevEvent.linkChange] rfl rfl

theorem DevHistory.reachable {checksum : Bool} {crc32 : Packet → Nat} {b : Bool}
    {d : OpticalNetDevice} {acc : List Packet} (hr : DevHistory checksum crc32 b d acc) :
    DevReachable checksum crc32 b d := by
  induction hr with
  | fresh b q bps a p r => exact DevReachable.fresh b q bps a p r
  | send b d d1 acc out packet dest protocolNumber ret _ hrun ih =>
    exact DevReachable.send b d d1 out packet dest protocolNumber ret ih hrun
  | attach b d acc channel _ ih => exact DevReachable.attach b d channel ih
  | detach b d acc _ ih => exact DevReachable.detach b d ih
  | receive b d d1 acc corrupt packet _ hrun ih =>
    exact DevReachable.receive b d d1 corrupt packet ih hrun
  | complete b d d1 acc out _ hp hrun ih => exact DevReachable.complete b d d1 out ih hp hrun
  | linkDown d acc _ ih => exact DevReachable.linkDown d ih

theorem DevReachable.history {checksum : Bool} {crc32 : Packet → Nat} {b : Bool}
    {d : OpticalNetDevice} (hr : DevReachable checksum crc32 b d) :
    ∃ acc, DevHistory checksum crc32 b d acc := by
  induction hr with
  | fresh b q bps a p r => exact ⟨[], DevHistory.fresh b q bps a p r⟩
  | send b d d1 out packet dest protocolNumber ret _ hrun ih =>
    obtain ⟨acc, ha⟩ := ih
    exact ⟨_, DevHistory.send b d d1 acc out packet dest protocolNumber ret ha hrun⟩
  | attach b d channel _ ih =>
    obtain ⟨acc, ha⟩ := ih
    exact ⟨acc, DevHistory.attach b d acc channel ha⟩
  | detach b d _ ih =>
    obtain ⟨acc, ha⟩ := ih
    exact ⟨acc, DevHistory.detach b d acc ha⟩
  | receive b d d1 corrupt packet _ hrun ih =>
    obtain ⟨acc, ha⟩ := ih
    exact ⟨acc, DevHistory.receive b d d1 acc corrupt packet ha hrun⟩
  | complete b d d1 out _ hp hrun ih =>
    obtain ⟨acc, ha⟩ := ih
    exact ⟨acc, DevHistory.complete b d d1 acc out ha hp hrun⟩
  | linkDown d _ ih =>
    obtain ⟨acc, ha⟩ := ih
    exact ⟨acc, DevHistory.linkDown d acc ha⟩

/-- C30: in every state of a device reachable from a fresh device (READY, empty
queue) through `Send`, `Attach`, `Detach`, `Receive`, `SetLinkDown` and the
execution of scheduled `TransmitComplete` events, transmit state READY implies
that the egress queue is empty.  The state has a history of accepted packets, and
for every history the packets handed to `TransmitStart` so far, followed by the
queue, are the accepted packets in the order in which their `Send` calls were
accepted.  A `Send` in READY state that is accepted hands its own framed packet to
`TransmitStart` and leaves the queue empty. -/
theorem ready_queue_empty (checksum : Bool) (crc32 : Packet → Nat) (b : Bool)
    (d : OpticalNetDevice) (hr : DevReachable checksum crc32 b d) :
    (d.m_txMachineState = TxMachineState.READY → d.m_queue = []) ∧
    (∃ acc, DevHistory checksum crc32 b d acc) ∧
    (∀ acc, DevHistory checksum crc32 b d acc → started d.trace ++ d.m_queue = acc) ∧
    (∀ out packet dest protocolNumber, d.m_txMachineState = TxMachineState.READY →
      d.accepts = true →
      ∃ ret d1, d.Send checksum crc32 out packet dest protocolNumber = some (ret, d1) ∧
        d1.m_queue = [] ∧
        started d1.trace = started d.trace ++
          [addEthernetFraming checksum crc32 packet d.m_address dest protocolNumber]) := by
  obtain ⟨acc, ha⟩ := hr.history
  have hQ := ha.queue_inv
  refine ⟨hQ.ready_empty, ⟨acc, ha⟩, fun acc1 ha1 => ha1.queue_inv.order, ?_⟩
  intro out packet dest protocolNumber hready hacc
  obtain ⟨ret, d1, hs, _⟩ := SendFrom_total checksum crc32 out hr.tx_inv packet d.m_address dest
    protocolNumber
  obtain ⟨c1, c2⟩ := (hQ.of_send hs).2 hacc hready
  exact ⟨ret, d1, hs, c1, c2⟩

/-- C30 on a fresh device attached to channel 0 (READY, link up, room in the queue):
its first `Send` leaves the queue empty and starts the frame of its own packet. -/
theorem ready_queue_empty_witness :
    DevReachable false (fun _ => 0) false
      (({ m_address := ⟨0, 0, 0, 0, 0, 1⟩ } : OpticalNetDevice).Attach 0) ∧
    ∃ ret d1, (({ m_address := ⟨0, 0, 0, 0, 0, 1⟩ } : OpticalNetDevice).Attach 0).Send
          false (fun _ => 0) SendOutcome.sent [1, 2, 3] ⟨0, 0, 0, 0, 0, 2⟩ 2048 =
        some (ret, d1) ∧
      d1.m_queue = [] ∧
      started d1.trace =
        [addEthernetFraming false (fun _ => 0) [1, 2, 3] ⟨0, 0, 0, 0, 0, 1⟩
          ⟨0, 0, 0, 0, 0, 2⟩ 2048] := by
  have h0 : DevReachable false (fun _ => 0) false
      (({ m_address := ⟨0, 0, 0, 0, 0, 1⟩ } : OpticalNetDevice).Attach 0) :=
    DevReachable.attach _ _ 0
      (DevReachable.fresh false 100 32768 ⟨0, 0, 0, 0, 0, 1⟩ false false)
  exact ⟨h0, (ready_queue_empty false (fun _ => 0) false _ h0).2.2.2 SendOutcome.sent
    [1, 2, 3] ⟨0, 0, 0, 0, 0, 2⟩ 2048 rfl (by decide)⟩

/-! ## C22: the packet type and the receive callback -/

/-- C22: `OpticalDevice::Receive` of `packet`.  On a device whose link is down it
fires `MacRxDrop` and nothing else.  On a link-up device with the receive callback
set, for a frame that passes the error model and decodes to `f` (so the FCS check
passed), the packet type `ty` is HOST if the destination is the device address, else
BROADCAST if it is the broadcast address, else MULTICAST if it is a group address,
else OTHERHOST; the promiscuous callback, when set, gets `ty`; when `ty` is not
OTHERHOST, `MacRx` is fired once and the receive callback is invoked once, with the
decoded payload, protocol and source; when `ty` is OTHERHOST neither happens. -/
theorem receive_dispatch (checksum : Bool) (crc32 : Packet → Nat) (d : OpticalNetDevice)
    (packet : Packet) :
    (d.m_linkUp = false → ∀ corrupt,
      d.Receive checksum crc32 corrupt packet = some (d.fire (DevEvent.MacRxDrop packet))) ∧
    (∀ f, d.m_linkUp = true → d.rxCallbackSet = true →
      decodeFrame checksum crc32 packet = some (some f) →
      ∃ ty d1 l, d.Receive checksum crc32 false packet = some d1 ∧
        d1.trace = d.trace ++ l ∧
        (f.dst = d.m_address → ty = PacketType.PACKET_HOST) ∧
        (f.dst ≠ d.m_address → f.dst.IsBroadcast = true →
          ty = PacketType.PACKET_BROADCAST) ∧
        (f.dst ≠ d.m_address → f.dst.IsBroadcast = false → f.dst.IsGroup = true →
          ty = PacketType.PACKET_MULTICAST) ∧
        (f.dst ≠ d.m_address → f.dst.IsBroadcast = false → f.dst.IsGroup = false →
          ty = PacketType.PACKET_OTHERHOST) ∧
        (d.promiscCallbackSet = true →
          DevEvent.promiscCallback f.copy f.protocol f.src f.dst ty ∈ l) ∧
        (ty ≠ PacketType.PACKET_OTHERHOST →
          l.countP DevEvent.isMacRx = 1 ∧ l.countP DevEvent.isRxCallback = 1 ∧
          DevEvent.MacRx packet ∈ l ∧ DevEvent.rxCallback f.copy f.protocol f.src ∈ l) ∧
        (ty = PacketType.PACKET_OTHERHOST →
          l.countP DevEvent.isMacRx = 0 ∧ l.countP DevEvent.isRxCallback = 0)) := by
  constructor
  · intro hdown corrupt
    unfold OpticalNetDevice.Receive
    rw [if_pos hdown]
  · intro f hup hrx hdec
    unfold OpticalNetDevice.Receive
    rw [hup, hdec]
    simp only [Bool.true_eq_false, Bool.false_eq_true, if_false, hrx, if_true]
    have hty : ∀ ty, ty = (if f.dst = d.m_address then PacketType.PACKET_HOST
          else if f.dst.IsBroadcast = true then PacketType.PACKET_BROADCAST
          else if f.dst.IsGroup = true then PacketType.PACKET_MULTICAST
          else PacketType.PACKET_OTHERHOST) →
        (f.dst = d.m_address → ty = PacketType.PACKET_HOST) ∧
        (f.dst ≠ d.m_address → f.dst.IsBroadcast = true →
          ty = PacketType.PACKET_BROADCAST) ∧
        (f.dst ≠ d.m_address → f.dst.IsBroadcast = false → f.dst.IsGroup = true →
          ty = PacketType.PACKET_MULTICAST) ∧
        (f.dst ≠ d.m_address → f.dst.IsBroadcast = false → f.dst.IsGroup = false →
          ty = PacketType.PACKET_OTHERHOST) := by
      intro ty he
      subst he
      refine ⟨fun h => by simp [h], fun h1 h2 => by simp [h1, h2],
        fun h1 h2 h3 => by simp [h1, h2, h3], fun h1 h2 h3 => by simp [h1, h2, h3]⟩
    generalize hg : (if f.dst = d.m_address then PacketType.PACKET_HOST
        else if f.dst.IsBroadcast = true then PacketType.PACKET_BROADCAST
        else if f.dst.IsGroup = true then PacketType.PACKET_MULTICAST
        else PacketType.PACKET_OTHERHOST) = ty
    obtain ⟨t1, t2, t3, t4⟩ := hty ty hg.symm
    cases hp : d.promiscCallbackSet <;> by_cases hother : ty ≠ PacketType.PACKET_OTHERHOST
    · rw [if_pos hother]
      refine ⟨ty, _, [DevEvent.PhyRxEnd packet, DevEvent.PromiscSniffer packet,
        DevEvent.MacRx packet, DevEvent.Sniffer packet,
        DevEvent.rxCallback f.copy f.protocol f.src], rfl, ?_, t1, t2, t3, t4, ?_, ?_, ?_⟩
      · simp [OpticalNetDevice.fire]
      · intro h; exact absurd h (by decide)
      · intro _
        refine ⟨rfl, rfl, by simp, by simp⟩
      · intro h; exact absurd h hother
    · rw [if_neg hother]
      refine ⟨ty, _, [DevEvent.PhyRxEnd packet, DevEvent.PromiscSniffer packet],
        rfl, ?_, t1, t2, t3, t4, ?_, ?_, ?_⟩
      · simp [OpticalNetDevice.fire]
      · intro h; exact absurd h (by decide)
      · intro h; exact absurd h hother
      · intro _; exact ⟨rfl, rfl⟩
    · rw [if_pos hother]
      refine ⟨ty, _, [DevEvent.PhyRxEnd packet, DevEvent.PromiscSniffer packet,
        DevEvent.MacPromiscRx packet,
        DevEvent.promiscCallback f.copy f.protocol f.src f.dst ty,
        DevEvent.MacRx packet, DevEvent.Sniffer packet,
        DevEvent.rxCallback f.copy f.protocol f.src], rfl, ?_, t1, t2, t3, t4, ?_, ?_, ?_⟩
      · simp [OpticalNetDevice.fire]
      · intro _; simp
      · intro _
        refine ⟨rfl, rfl, by simp, by simp⟩
      · intro h; exact absurd h hother
    · rw [if_neg hother]
      refine ⟨ty, _, [DevEvent.PhyRxEnd packet, DevEvent.PromiscSniffer packet,
        DevEvent.MacPromiscRx packet,
        DevEvent.promiscCallback f.copy f.protocol f.src f.dst ty],
        rfl, ?_, t1, t2, t3, t4, ?_, ?_, ?_⟩
      · simp [OpticalNetDevice.fire]
      · intro _; simp
      · intro h; exact absurd h hother
      · intro _; exact ⟨rfl, rfl⟩

/-- C22 on the frame of three payload bytes sent with protocol 2048 to the address of
the receiving device: the type is HOST, `MacRx` is fired once and the receive
callback is invoked once. -/
theorem receive_dispatch_witness :
    ∃ ty d1 l, (({ m_address := ⟨0, 0, 0, 0, 0, 2⟩, rxCallbackSet := true } :
          OpticalNetDevice).Attach 0).Receive false (fun _ => 0) false
        (addEthernetFraming false (fun _ => 0) [1, 2, 3] ⟨0, 0, 0, 0, 0, 1⟩
          ⟨0, 0, 0, 0, 0, 2⟩ 2048) = some d1 ∧
      d1.trace = [DevEvent.linkChange] ++ l ∧ ty = PacketType.PACKET_HOST ∧
      l.countP DevEvent.isMacRx = 1 ∧ l.countP DevEvent.isRxCallback = 1 := by
  obtain ⟨ty, d1, l, h1, h2, h3, _, _, _, _, h8, _⟩ :=
    (receive_dispatch false (fun _ => 0)
      (({ m_address := ⟨0, 0, 0, 0, 0, 2⟩, rxCallbackSet := true } :
        OpticalNetDevice).Attach 0)
      (addEthernetFraming false (fun _ => 0) [1, 2, 3] ⟨0, 0, 0, 0, 0, 1⟩
        ⟨0, 0, 0, 0, 0, 2⟩ 2048)).2
      ⟨[1, 2, 3] ++ List.replicate 43 0, 2048, ⟨0, 0, 0, 0, 0, 1⟩, ⟨0, 0, 0, 0, 0, 2⟩⟩
      rfl rfl (by decide)
  have hty := h3 rfl
  have hc := h8 (by rw [hty]; decide)
  exact ⟨ty, d1, l, h1, h2, hty, hc.1, hc.2.1⟩

/-! ## C26: the ready-break callback of `LatitudeCheck` -/

theorem fmod_small (x y : ℝ) (hy : 0 < y) (h1 : -y < x) (h2 : x < y) : fmod x y = x := by
  unfold fmod
  by_cases h0 : 0 ≤ x / y
  · rw [if_pos h0]
    have : ⌊x / y⌋ = 0 := by
      rw [Int.floor_eq_iff]
      constructor
      · simpa using h0
      · simp only [Int.cast_zero, zero_add]
        rw [div_lt_one hy]
        exact h2
    rw [this]
    simp
  · rw [if_neg h0]
    have : ⌈x / y⌉ = 0 := by
      rw [Int.ceil_eq_iff]
      constructor
      · simp only [Int.cast_zero, zero_sub]
        rw [lt_div_iff₀ hy]
        linarith
      · simp only [Int.cast_zero]
        exact le_of_lt (not_le.mp h0)
    rw [this]
    simp

theorem miu_pos : (0 : ℝ) < miu := by
  unfold miu
  norm_num

theorem period_pos (m : Libm ℝ) (hm : m.Exact) (s0 : SatelliteMobilityModel ℝ)
    (a e f i w RAAN : ℝ) (ha : 0 < a) :
    0 < (s0.SetOrbitalElements m a e f i w RAAN).period := by
  show 0 < 2 * m.pi * m.sqrt (a ^ 3 / miu)
  rw [hm.pi, hm.sqrt]
  have h1 : 0 < a ^ 3 / miu := div_pos (pow_pos ha 3) miu_pos
  have h2 := Real.sqrt_pos.mpr h1
  have h3 := Real.pi_pos
  positivity

theorem rotateZ_z (m : Libm ℝ) (angle : ℝ) (v : Vector3D ℝ) : (rotateZ m angle v).z = v.z := rfl

theorem rotateZ_norm (m : Libm ℝ) (hm : m.Exact) (angle : ℝ) (v : Vector3D ℝ) :
    (rotateZ m angle v).x ^ 2 + (rotateZ m angle v).y ^ 2 + (rotateZ m angle v).z ^ 2 =
      v.x ^ 2 + v.y ^ 2 + v.z ^ 2 := by
  unfold rotateZ
  rw [hm.sin, hm.cos]
  simp only
  linear_combination (v.x ^ 2 + v.y ^ 2) * Real.sin_sq_add_cos_sq angle

theorem rotateX_norm (m : Libm ℝ) (hm : m.Exact) (angle : ℝ) (v : Vector3D ℝ) :
    (rotateX m angle v).x ^ 2 + (rotateX m angle v).y ^ 2 + (rotateX m angle v).z ^ 2 =
      v.x ^ 2 + v.y ^ 2 + v.z ^ 2 := by
  unfold rotateX
  rw [hm.sin, hm.cos]
  simp only
  linear_combination (v.y ^ 2 + v.z ^ 2) * Real.sin_sq_add_cos_sq angle

/-- The rotation and scaling of `DoGetPosition` multiply the length by 1000. -/
theorem toInertial_length (m : Libm ℝ) (hm : m.Exact) (el : KeplerElement ℝ) (v : Vector3D ℝ) :
    (toInertial m el v).GetLength m = 1000 * Real.sqrt (v.x ^ 2 + v.y ^ 2 + v.z ^ 2) := by
  have h := (rotateZ_norm m hm el.RAAN (rotateX m el.i (rotateZ m el.w v))).trans
    ((rotateX_norm m hm el.i (rotateZ m el.w v)).trans (rotateZ_norm m hm el.w v))
  unfold Vector3D.GetLength toInertial
  rw [hm.sqrt]
  simp only
  have hsq : (rotateZ m el.RAAN (rotateX m el.i (rotateZ m el.w v))).x * 1000 *
        ((rotateZ m el.RAAN (rotateX m el.i (rotateZ m el.w v))).x * 1000) +
      (rotateZ m el.RAAN (rotateX m el.i (rotateZ m el.w v))).y * 1000 *
        ((rotateZ m el.RAAN (rotateX m el.i (rotateZ m el.w v))).y * 1000) +
      (rotateZ m el.RAAN (rotateX m el.i (rotateZ m el.w v))).z * 1000 *
        ((rotateZ m el.RAAN (rotateX m el.i (rotateZ m el.w v))).z * 1000) =
      1000 ^ 2 * (v.x ^ 2 + v.y ^ 2 + v.z ^ 2) := by
    rw [← h]
    ring
  rw [hsq, Real.sqrt_mul (by norm_num), Real.sqrt_sq (by norm_num)]

/-- The z component after the rotation and scaling of a vector of the orbital
plane. -/
theorem toInertial_z (m : Libm ℝ) (hm : m.Exact) (el : KeplerElement ℝ) (r f : ℝ) :
    (toInertial m el ⟨r * Real.cos f, r * Real.sin f, 0⟩).z =
      1000 * r * Real.sin el.i * Real.sin (el.w + f) := by
  unfold toInertial rotateZ rotateX
  rw [hm.sin, hm.cos, Real.sin_add]
  simp only
  ring

/-- `SetTimeEpoch` on a circular orbit. -/
theorem SetTimeEpoch_circular (m : Libm ℝ) (fuel : ℕ) (s : SatelliteMobilityModel ℝ) (t : ℝ)
    (he : s.ecc = 0) :
    s.SetTimeEpoch m fuel t = some { s with m_element :=
      { s.m_element with f := 2 * m.pi / s.period * fmod t s.period + s.M0 } } := by
  unfold SatelliteMobilityModel.SetTimeEpoch
  rw [if_pos he]

/-- The initial mean anomaly of a circular orbit installed with true anomaly 0. -/
theorem M0_zero (m : Libm ℝ) (hm : m.Exact) (s0 : SatelliteMobilityModel ℝ) (a i w RAAN : ℝ) :
    (s0.SetOrbitalElements m a 0 0 i w RAAN).M0 = 0 := by
  show 2 * m.atan (m.sqrt ((1 - 0) / (1 + 0)) * m.tan (RAD m 0 / 2)) -
    0 * m.sin (2 * m.atan (m.sqrt ((1 - 0) / (1 + 0)) * m.tan (RAD m 0 / 2))) = 0
  rw [hm.atan, hm.tan, hm.sqrt]
  simp [RAD]

/-- `DoGetPosition` on a circular orbit: the position for the true anomaly that
`SetTimeEpoch` stores. -/
theorem DoGetPosition_circular (m : Libm ℝ) (hm : m.Exact) (s0 : SatelliteMobilityModel ℝ)
    (a f0 i w RAAN t : ℝ) (fuel : ℕ) :
    ∃ F, (s0.SetOrbitalElements m a 0 f0 i w RAAN).DoGetPosition m fuel t =
      some ({ (s0.SetOrbitalElements m a 0 f0 i w RAAN) with
              m_element := ⟨a, 0, F, i * Real.pi / 180, w * Real.pi / 180,
                RAAN * Real.pi / 180⟩ },
        toInertial m ⟨a, 0, F, i * Real.pi / 180, w * Real.pi / 180, RAAN * Real.pi / 180⟩
          ⟨a * Real.cos F, a * Real.sin F, 0⟩) ∧
      F = 2 * Real.pi / (s0.SetOrbitalElements m a 0 f0 i w RAAN).period *
          fmod t (s0.SetOrbitalElements m a 0 f0 i w RAAN).period +
        (s0.SetOrbitalElements m a 0 f0 i w RAAN).M0 := by
  have hepoch := SetTimeEpoch_circular m fuel (s0.SetOrbitalElements m a 0 f0 i w RAAN) t rfl
  unfold SatelliteMobilityModel.DoGetPosition
  rw [hepoch]
  refine ⟨_, ?_, rfl⟩
  simp only [Option.map_some', SatelliteMobilityModel.SetOrbitalElements, RAD, hm.pi, hm.cos,
    hm.sin]
  simp

/-- C24: circular orbit in exact real arithmetic.  For `e = 0` and every `a > 0`,
inclination, `w`, `RAAN`, initial anomaly and time, `DoGetPosition` returns, the
Euclidean norm of the position is `1000 * a` metres, and its z component is
`1000 * a * sin (i) * sin (w + f)` with the angles in radians and `f` the true
anomaly stored by `SetTimeEpoch`; with initial anomaly 0 and `w = 0`, at a quarter
of the period, the z component is `1000 * a * sin (i)`. -/
theorem circular_orbit (m : Libm ℝ) (hm : m.Exact) (s0 : SatelliteMobilityModel ℝ)
    (a f0 i w RAAN t : ℝ) (fuel : ℕ) (ha : 0 < a) :
    ∃ s1 pos, (s0.SetOrbitalElements m a 0 f0 i w RAAN).DoGetPosition m fuel t =
        some (s1, pos) ∧
      pos.GetLength m = 1000 * a ∧
      pos.z = 1000 * a * Real.sin (i * Real.pi / 180) *
        Real.sin (w * Real.pi / 180 + s1.m_element.f) ∧
      (f0 = 0 → w = 0 → t = (s0.SetOrbitalElements m a 0 f0 i w RAAN).period / 4 →
        pos.z = 1000 * a * Real.sin (i * Real.pi / 180)) := by
  have hP := period_pos m hm s0 a 0 f0 i w RAAN ha
  obtain ⟨F, hpos, hF⟩ := DoGetPosition_circular m hm s0 a f0 i w RAAN t fuel
  refine ⟨_, _, hpos, ?_, ?_, ?_⟩
  · rw [toInertial_length m hm]
    have hsum : (a * Real.cos F) ^ 2 + (a * Real.sin F) ^ 2 + (0 : ℝ) ^ 2 = a ^ 2 := by
      linear_combination a ^ 2 * Real.sin_sq_add_cos_sq F
    simp only
    rw [hsum, Real.sqrt_sq ha.le]
  · rw [toInertial_z m hm]
  · intro hf hw ht
    subst hf hw
    rw [toInertial_z m hm]
    have hM0 := M0_zero m hm s0 a i 0 RAAN
    have hfm : fmod t (s0.SetOrbitalElements m a 0 0 i 0 RAAN).period = t := by
      apply fmod_small _ _ hP <;> rw [ht] <;> linarith
    have hf1 : F = Real.pi / 2 := by
      rw [hF, hfm, hM0, ht]
      field_simp
      ring
    rw [hf1]
    simp

/-! ## C23 and C24 on the orbit of the tests -/

/-- C24 for the orbit of satellite-pcap-test.cc (`a = 7158.14` km, inclination 86.4
degrees, `f = w = RAAN = 0`) at a quarter of the period: the position has norm
`7158.14e3` m and z component `sin (86.4 degrees) * 7158.14e3`. -/
theorem circular_orbit_witness :
    (0 : ℝ) < 715814 / 100 ∧
    ∃ s1 pos, (SatelliteMobilityModel.SetOrbitalElements
        ⟨Real.pi, Real.sqrt, Real.sin, Real.cos, Real.tan, Real.arctan, Real.arcsin,
          Real.logb 10⟩ { } (715814 / 100) 0 0 (864 / 10) 0 0).DoGetPosition
        ⟨Real.pi, Real.sqrt, Real.sin, Real.cos, Real.tan, Real.arctan, Real.arcsin,
          Real.logb 10⟩ 0
        ((SatelliteMobilityModel.SetOrbitalElements
          ⟨Real.pi, Real.sqrt, Real.sin, Real.cos, Real.tan, Real.arctan, Real.arcsin,
            Real.logb 10⟩ { } (715814 / 100) 0 0 (864 / 10) 0 0).period / 4) =
        some (s1, pos) ∧
      pos.GetLength
        ⟨Real.pi, Real.sqrt, Real.sin, Real.cos, Real.tan, Real.arctan, Real.arcsin,
          Real.logb 10⟩ = 1000 * (715814 / 100) ∧
      pos.z = 1000 * (715814 / 100) * Real.sin (864 / 10 * Real.pi / 180) := by
  obtain ⟨s1, pos, h1, h2, _, h4⟩ := circular_orbit
    ⟨Real.pi, Real.sqrt, Real.sin, Real.cos, Real.tan, Real.arctan, Real.arcsin, Real.logb 10⟩
    ⟨rfl, rfl, rfl, rfl, rfl, rfl, rfl, rfl⟩ { } (715814 / 100) 0 (864 / 10) 0 0
    ((SatelliteMobilityModel.SetOrbitalElements
      ⟨Real.pi, Real.sqrt, Real.sin, Real.cos, Real.tan, Real.arctan, Real.arcsin,
        Real.logb 10⟩ { } (715814 / 100) 0 0 (864 / 10) 0 0).period / 4) 0 (by norm_num)
  exact ⟨by norm_num, s1, pos, h1, h2, h4 rfl rfl rfl⟩

/-! ## C25: the stored true anomaly is not normalised -/

/-- The initial mean anomaly of a circular orbit. -/
theorem M0_circular (m : Libm ℝ) (hm : m.Exact) (s0 : SatelliteMobilityModel ℝ)
    (a f0 i w RAAN : ℝ) :
    (s0.SetOrbitalElements m a 0 f0 i w RAAN).M0 =
      2 * Real.arctan (Real.tan (f0 * Real.pi / 180 / 2)) := by
  show 2 * m.atan (m.sqrt ((1 - 0) / (1 + 0)) * m.tan (RAD m f0 / 2)) -
    0 * m.sin (2 * m.atan (m.sqrt ((1 - 0) / (1 + 0)) * m.tan (RAD m f0 / 2))) = _
  rw [hm.atan, hm.tan, hm.sqrt]
  unfold RAD
  rw [hm.pi]
  simp

theorem tan_three_quarters_pi : Real.tan (270 * Real.pi / 180 / 2) = -1 := by
  have h : 270 * Real.pi / 180 / 2 = -(Real.pi / 4) + Real.pi := by ring
  rw [h, Real.tan_periodic, Real.tan_neg, Real.tan_pi_div_four]

theorem tan_quarter_pi : Real.tan (90 * Real.pi / 180 / 2) = 1 := by
  have h : 90 * Real.pi / 180 / 2 = Real.pi / 4 := by ring
  rw [h, Real.tan_pi_div_four]

/-- C25, evaluation of the code in real arithmetic on the circular orbit of the
tests (`a = 7158.14` km, `e = 0`, inclination 86.4 degrees).  Installed with initial
anomaly 270 degrees, `SetTimeEpoch` at `t = 0` stores the true anomaly `-pi / 2`,
which is negative.  Installed with initial anomaly 90 degrees, `SetTimeEpoch` at
three quarters of the period stores `2 * pi`, which is not below `2 * pi`. -/
theorem true_anomaly_not_normalised :
    (∀ fuel, ((SatelliteMobilityModel.SetOrbitalElements
        ⟨Real.pi, Real.sqrt, Real.sin, Real.cos, Real.tan, Real.arctan, Real.arcsin,
          Real.logb 10⟩ { } (715814 / 100) 0 270 (864 / 10) 0 0).SetTimeEpoch
        ⟨Real.pi, Real.sqrt, Real.sin, Real.cos, Real.tan, Real.arctan, Real.arcsin,
          Real.logb 10⟩ fuel 0).map (fun s => s.m_element.f) = some (-(Real.pi / 2))) ∧
    -(Real.pi / 2) < 0 ∧
    (∀ fuel, ((SatelliteMobilityModel.SetOrbitalElements
        ⟨Real.pi, Real.sqrt, Real.sin, Real.cos, Real.tan, Real.arctan, Real.arcsin,
          Real.logb 10⟩ { } (715814 / 100) 0 90 (864 / 10) 0 0).SetTimeEpoch
        ⟨Real.pi, Real.sqrt, Real.sin, Real.cos, Real.tan, Real.arctan, Real.arcsin,
          Real.logb 10⟩ fuel
        (3 * (SatelliteMobilityModel.SetOrbitalElements
          ⟨Real.pi, Real.sqrt, Real.sin, Real.cos, Real.tan, Real.arctan, Real.arcsin,
            Real.logb 10⟩ { } (715814 / 100) 0 90 (864 / 10) 0 0).period / 4)).map
      (fun s => s.m_element.f) = some (2 * Real.pi)) ∧
    ¬ (2 * Real.pi < 2 * Real.pi) := by
  have hm : Libm.Exact ⟨Real.pi, Real.sqrt, Real.sin, Real.cos, Real.tan, Real.arctan,
      Real.arcsin, Real.logb 10⟩ := ⟨rfl, rfl, rfl, rfl, rfl, rfl, rfl, rfl⟩
  refine ⟨?_, by have := Real.pi_pos; linarith, ?_, lt_irrefl _⟩
  · intro fuel
    rw [SetTimeEpoch_circular _ fuel _ 0 rfl]
    simp only [Option.map_some', Option.some.injEq]
    rw [M0_circular _ hm, tan_three_quarters_pi, Real.arctan_neg, Real.arctan_one]
    have h0 : ∀ P : ℝ, fmod 0 P = 0 := by
      intro P
      simp [fmod]
    rw [h0]
    ring
  · intro fuel
    have hP := period_pos _ hm { } (715814 / 100) 0 90 (864 / 10) 0 0 (by norm_num)
    rw [SetTimeEpoch_circular _ fuel _ _ rfl]
    simp only [Option.map_some', Option.some.injEq]
    rw [M0_circular _ hm, tan_quarter_pi, Real.arctan_one,
      fmod_small _ _ hP (by linarith) (by linarith)]
    field_simp
    ring

/-- On an elliptic orbit (`0 < e < 1`) the call `fmod (f, 2 * M_PI)` of
`SetTimeEpoch` changes nothing: whenever the Kepler loop ends, with `E`, the stored
true anomaly is `2 * atan (sqrt ((1 + e) / (1 - e)) * tan (E / 2))` itself, a value
strictly between `-pi` and `pi`, negative whenever `tan (E / 2)` is. -/
theorem SetTimeEpoch_elliptic (m : Libm ℝ) (hm : m.Exact) (fuel : ℕ)
    (s s1 : SatelliteMobilityModel ℝ) (t : ℝ) (he : s.ecc ≠ 0)
    (hrun : s.SetTimeEpoch m fuel t = some s1) :
    ∃ E, s1.m_element.f =
        2 * Real.arctan (Real.sqrt ((1 + s.ecc) / (1 - s.ecc)) * Real.tan (E / 2)) ∧
      -Real.pi < s1.m_element.f ∧ s1.m_element.f < Real.pi := by
  unfold SatelliteMobilityModel.SetTimeEpoch at hrun
  rw [if_neg he] at hrun
  simp only [Option.map_eq_some'] at hrun
  obtain ⟨E, _, hs1⟩ := hrun
  subst hs1
  have h1 := Real.neg_pi_div_two_lt_arctan
    (Real.sqrt ((1 + s.ecc) / (1 - s.ecc)) * Real.tan (E / 2))
  have h2 := Real.arctan_lt_pi_div_two
    (Real.sqrt ((1 + s.ecc) / (1 - s.ecc)) * Real.tan (E / 2))
  have hpi := Real.pi_pos
  refine ⟨E, ?_, ?_, ?_⟩ <;> simp only [hm.atan, hm.sqrt, hm.tan, hm.pi] <;>
    rw [fmod_small _ _ (by linarith) (by linarith) (by linarith)] <;> linarith

/-! ## C27: the two latitude tests agree -/

/-- The ratio `|z| / length` of a position lies between 0 and 1. -/
theorem latitude_sine_range (pos : Vector3D ℝ) :
    0 ≤ |pos.z| / Real.sqrt (pos.x * pos.x + pos.y * pos.y + pos.z * pos.z) ∧
    |pos.z| / Real.sqrt (pos.x * pos.x + pos.y * pos.y + pos.z * pos.z) ≤ 1 := by
  have h1 : |pos.z| ≤ Real.sqrt (pos.x * pos.x + pos.y * pos.y + pos.z * pos.z) := by
    apply Real.abs_le_sqrt
    nlinarith [mul_self_nonneg pos.x, mul_self_nonneg pos.y]
  have h2 : 0 ≤ Real.sqrt (pos.x * pos.x + pos.y * pos.y + pos.z * pos.z) := Real.sqrt_nonneg _
  exact ⟨div_nonneg (abs_nonneg _) h2, div_le_one_of_le₀ h1 h2⟩

/-- C27: in real arithmetic, for a position of non-zero length and a limit between
0 and 90 degrees, the test of the builder and of `LinkMaintenance`
(`GetLatitude (pos) > limit` with the `GetLatitude` of constellation-helper.cc, in
degrees) holds exactly when the test of `OpticalChannel::LatitudeCheck` holds
(`GetLatitude (pos) > lat_limit` with the `GetLatitude` of optical-channel.cc, a
sine, and `lat_limit = sin (limit * M_PI / 180)` as `SetLatitudeLimit` stores it). -/
theorem latitude_tests_agree (m : Libm ℝ) (hm : m.Exact) (pos : Vector3D ℝ) (limit : ℝ)
    (_hpos : pos.GetLength m ≠ 0) (h0 : 0 ≤ limit) (h90 : limit ≤ 90) :
    ConstellationHelper.GetLatitude m pos > limit ↔
      OpticalChannel.GetLatitude m pos > m.sin (limit * m.pi / 180) := by
  unfold ConstellationHelper.GetLatitude OpticalChannel.GetLatitude Vector3D.GetLength
  rw [hm.pi, hm.asin, hm.sqrt, hm.sin]
  obtain ⟨hx0, hx1⟩ := latitude_sine_range pos
  have hpi := Real.pi_pos
  have hlim : limit * Real.pi / 180 ∈ Set.Icc (-(Real.pi / 2)) (Real.pi / 2) := by
    constructor
    · have : 0 ≤ limit * Real.pi / 180 := by positivity
      linarith
    · have : limit * Real.pi ≤ 90 * Real.pi := mul_le_mul_of_nonneg_right h90 hpi.le
      linarith
  have hx : |pos.z| / Real.sqrt (pos.x * pos.x + pos.y * pos.y + pos.z * pos.z) ∈
      Set.Icc (-1 : ℝ) 1 := ⟨by linarith, hx1⟩
  have key := Real.lt_arcsin_iff_sin_lt hlim hx
  rw [gt_iff_lt, gt_iff_lt, ← key]
  constructor
  · intro h
    have h2 : limit * (Real.pi / 180) < 180 / Real.pi * Real.arcsin
        (|pos.z| / Real.sqrt (pos.x * pos.x + pos.y * pos.y + pos.z * pos.z)) *
          (Real.pi / 180) := mul_lt_mul_of_pos_right h (by positivity)
    have h3 : 180 / Real.pi * Real.arcsin
        (|pos.z| / Real.sqrt (pos.x * pos.x + pos.y * pos.y + pos.z * pos.z)) *
          (Real.pi / 180) = Real.arcsin
        (|pos.z| / Real.sqrt (pos.x * pos.x + pos.y * pos.y + pos.z * pos.z)) := by
      field_simp
    rw [h3] at h2
    linarith
  · intro h
    have h2 : limit * Real.pi / 180 * (180 / Real.pi) < Real.arcsin
        (|pos.z| / Real.sqrt (pos.x * pos.x + pos.y * pos.y + pos.z * pos.z)) *
          (180 / Real.pi) := mul_lt_mul_of_pos_right h (by positivity)
    have h3 : limit * Real.pi / 180 * (180 / Real.pi) = limit := by
      field_simp
    rw [h3] at h2
    linarith

/-- C27 for the position (0, 3, 4) and the limit of 60 degrees. -/
theorem latitude_tests_agree_witness :
    (⟨0, 3, 4⟩ : Vector3D ℝ).GetLength
      ⟨Real.pi, Real.sqrt, Real.sin, Real.cos, Real.tan, Real.arctan, Real.arcsin,
        Real.logb 10⟩ ≠ 0 ∧
    (ConstellationHelper.GetLatitude
        ⟨Real.pi, Real.sqrt, Real.sin, Real.cos, Real.tan, Real.arctan, Real.arcsin,
          Real.logb 10⟩ ⟨0, 3, 4⟩ > (60 : ℝ) ↔
      OpticalChannel.GetLatitude
        ⟨Real.pi, Real.sqrt, Real.sin, Real.cos, Real.tan, Real.arctan, Real.arcsin,
          Real.logb 10⟩ ⟨0, 3, 4⟩ > Real.sin (60 * Real.pi / 180)) := by
  have hlen : (⟨0, 3, 4⟩ : Vector3D ℝ).GetLength
      ⟨Real.pi, Real.sqrt, Real.sin, Real.cos, Real.tan, Real.arctan, Real.arcsin,
        Real.logb 10⟩ ≠ 0 := by
    show Real.sqrt (0 * 0 + 3 * 3 + 4 * 4) ≠ 0
    have : (0 : ℝ) < 0 * 0 + 3 * 3 + 4 * 4 := by norm_num
    exact (Real.sqrt_pos.mpr this).ne'
  exact ⟨hlen, latitude_tests_agree
    ⟨Real.pi, Real.sqrt, Real.sin, Real.cos, Real.tan, Real.arctan, Real.arcsin, Real.logb 10⟩
    ⟨rfl, rfl, rfl, rfl, rfl, rfl, rfl, rfl⟩ ⟨0, 3, 4⟩ 60 hlen (by norm_num) (by norm_num)⟩

/-! ## C21: the receive power test of `OpticalChannel::Receive` -/

/-- C21: in real arithmetic, for a sender whose wavelength was set by
`SetWaveLength (wl)` (`wl` in nanometres) and a distance `dist`, the `rxPower` of
`OpticalChannel::Receive` is the sender's transmit power (dBm) plus the sender's
transmit gain plus the receiver's receive gain plus
`20 * log10 (lambda / (4 * pi * dist))` with `lambda = wl * 1e-9` metres and
`dist > 0` the distance in metres, and the packet is handed to `receiver->Receive` exactly when `rxPower` is at least the
receiver's sensitivity (equality delivers). -/
theorem friis_delivery (m : Libm ℝ) (hm : m.Exact) (sender receiver : OpticalRadio ℝ)
    (wl dist : ℝ) (_hd : 0 < dist) :
    OpticalChannel.rxPower m (sender.SetWaveLength wl) receiver dist =
      sender.m_TxPowerDbm + sender.m_TxGain + receiver.m_RxGain +
        20 * Real.logb 10 (wl * (1 / 10 ^ 9) / (4 * Real.pi * dist)) ∧
    (OpticalChannel.Receive m (sender.SetWaveLength wl) receiver dist = true ↔
      OpticalChannel.rxPower m (sender.SetWaveLength wl) receiver dist ≥
        receiver.m_rxSensitivityDbm) := by
  constructor
  · unfold OpticalChannel.rxPower OpticalRadio.GetWaveLength OpticalRadio.SetWaveLength
    rw [hm.pi, hm.log10]
    simp only
    have hw : wl * (1 / 10 ^ 9) * 10 ^ 9 * (1 / 10 ^ 9) = wl * (1 / 10 ^ 9) := by
      field_simp
    rw [hw]
  · unfold OpticalChannel.Receive
    split
    · rename_i h
      simp only [Bool.false_eq_true, ge_iff_le, false_iff, not_le]
      exact h
    · rename_i h
      simp only [ge_iff_le, true_iff]
      exact not_lt.mp h

/-- The Friis loss at 1550 nm over 5000 km is above -300 dB. -/
theorem friis_five_thousand_km :
    -300 ≤ 20 * Real.logb 10 (1550 * (1 / 10 ^ 9) / (4 * Real.pi * 5000000)) := by
  have hx : (10 : ℝ) ^ (-15 : ℝ) ≤ 1550 * (1 / 10 ^ 9) / (4 * Real.pi * 5000000) := by
    have h10 : (10 : ℝ) ^ (-15 : ℝ) = 1 / 10 ^ 15 := by
      rw [Real.rpow_neg (by norm_num), show (15 : ℝ) = ((15 : ℕ) : ℝ) by norm_num,
        Real.rpow_natCast]
      norm_num
    rw [h10, le_div_iff₀ (by have := Real.pi_pos; positivity)]
    have := Real.pi_le_four
    nlinarith
  have hlog := (Real.le_logb_iff_rpow_le (by norm_num : (1 : ℝ) < 10)
    (by have := Real.pi_pos; positivity :
      (0 : ℝ) < 1550 * (1 / 10 ^ 9) / (4 * Real.pi * 5000000))).mpr hx
  linarith

/-- C21 with the parameters that the helper gives its devices (1550 nm, 20 dBm,
gains of 120 dB, sensitivity -40 dBm) at a distance of 5000 km: the packet is
dropped exactly when the computed `rxPower` is below -40 dBm, and it is not: the
packet is delivered. -/
theorem friis_delivery_witness :
    (0 : ℝ) < 5000000 ∧
    (OpticalChannel.Receive
        ⟨Real.pi, Real.sqrt, Real.sin, Real.cos, Real.tan, Real.arctan, Real.arcsin,
          Real.logb 10⟩
        (OpticalRadio.SetWaveLength ⟨20, -40, 0, 120, 120⟩ 1550) ⟨20, -40, 0, 120, 120⟩
        5000000 = false ↔
      OpticalChannel.rxPower
        ⟨Real.pi, Real.sqrt, Real.sin, Real.cos, Real.tan, Real.arctan, Real.arcsin,
          Real.logb 10⟩
        (OpticalRadio.SetWaveLength ⟨20, -40, 0, 120, 120⟩ 1550) ⟨20, -40, 0, 120, 120⟩
        5000000 < -40) ∧
    OpticalChannel.Receive
        ⟨Real.pi, Real.sqrt, Real.sin, Real.cos, Real.tan, Real.arctan, Real.arcsin,
          Real.logb 10⟩
        (OpticalRadio.SetWaveLength ⟨20, -40, 0, 120, 120⟩ 1550) ⟨20, -40, 0, 120, 120⟩
        5000000 = true := by
  obtain ⟨h1, h2⟩ := friis_delivery
    ⟨Real.pi, Real.sqrt, Real.sin, Real.cos, Real.tan, Real.arctan, Real.arcsin, Real.logb 10⟩
    ⟨rfl, rfl, rfl, rfl, rfl, rfl, rfl, rfl⟩ ⟨20, -40, 0, 120, 120⟩ ⟨20, -40, 0, 120, 120⟩
    1550 5000000 (by norm_num)
  have hge : OpticalChannel.rxPower
        ⟨Real.pi, Real.sqrt, Real.sin, Real.cos, Real.tan, Real.arctan, Real.arcsin,
          Real.logb 10⟩
        (OpticalRadio.SetWaveLength ⟨20, -40, 0, 120, 120⟩ 1550) ⟨20, -40, 0, 120, 120⟩
        5000000 ≥ -40 := by
    rw [h1]
    have := friis_five_thousand_km
    show (-40 : ℝ) ≤ 20 + 120 + 120 + _
    linarith
  refine ⟨by norm_num, ?_, h2.mpr hge⟩
  rw [← not_iff_not, Bool.not_eq_false, not_lt]
  exact h2

end Osak
